import Mathlib

/-!
# Method invocation core (`vm/core/src/method.c`)

A shallow embedding of the method resolver and the call marshaller of
`method.c`, followed by the properties of the specification that were
checked against it.

Conventions of the embedding.

* A `Class*` is a `ClassId`, an index into the class table of the `VM`.
  Linked lists (`Method.next`, `Interface.next`) are Lean lists in the
  order of the links.
* The `Env*` is an explicit state `Env` threaded through every function: the
  pending condition (`env->throwable`), the allocator, and the trace of
  calls made into the collaborators whose order the callers rely on.
* A result of type `Option _` is `none` when the C code has no defined
  result: the recursion of `getMethod` did not finish within the given
  fuel (a cyclic class graph), or a read went past the end of a string or
  through a null pointer.
-/

namespace RoboVM

/-! ## Data model -/

/-- A `Class*`: the index of the class in the class table. -/
abbrev ClassId := Nat

/-- The conditions this core raises, and `other` for whatever a collaborator raises. -/
inductive Throwable where
  | NoSuchMethodError (name : String)
  | IncompatibleClassChangeError (clazz : ClassId) (name desc : String)
  | UnsatisfiedLinkError
  | OutOfMemoryError
  | other (code : Nat)
  deriving DecidableEq, Repr

/-- The fields of `struct Method` that `method.c` reads. Pointers are addresses,
`0` being `NULL`. -/
structure Method where
  clazz : ClassId
  name : String
  desc : String
  access : Nat
  impl : Nat
  synchronizedImpl : Nat
  size : Nat
  deriving DecidableEq, Repr

/-- The fields of `struct Class` that `method.c` reads. `methods` and
`interfaces` are the lists the introspection collaborators hand out. -/
structure Class where
  superclass : Option ClassId
  flags : Nat
  classLoader : Option Nat
  methods : List Method
  interfaces : List ClassId
  deriving DecidableEq, Repr

/-- An `Object*` that is not `NULL`: its address and its `clazz` field. -/
structure Object where
  addr : Nat
  clazz : ClassId
  deriving DecidableEq, Repr

/-- A value of the pointer bin: the `Env*` of the running thread, or any other
address (`0` is `NULL`). -/
inductive Ptr where
  | env
  | ref (addr : Nat)
  deriving DecidableEq, Repr

/-- Modelled from the spec: `CallInfo` (declared in `call0.h`, absent from the
sources): "ordered bins of pointer-sized, 32-bit-integer, 64-bit-integer,
32-bit-float, and 64-bit-float arguments, plus the target entry point". The
five counts are the bin sizes requested at allocation; floats and doubles are
kept as bit patterns. -/
structure CallInfo where
  function : Nat
  ptrArgsCount : Nat
  intArgsCount : Nat
  longArgsCount : Nat
  floatArgsCount : Nat
  doubleArgsCount : Nat
  ptrArgs : List Ptr
  intArgs : List Int
  longArgs : List Int
  floatArgs : List Nat
  doubleArgs : List Nat
  deriving DecidableEq, Repr

/-- Calls into the collaborators, in the order they are made. -/
inductive Event where
  | classInit (clazz : ClassId)
  | pushGatewayFrame
  | call0 (callInfo : CallInfo)
  | popGatewayFrame
  deriving DecidableEq, Repr

/-- The part of `Env` this core reads and writes. `exception` is the pending
condition; `heapFree` is the number of allocations that will still succeed;
`trace` records the collaborator calls, oldest first. -/
structure Env where
  exception : Option Throwable
  heapFree : Nat
  trace : List Event
  deriving DecidableEq, Repr

/-- The collaborators and global data `method.c` depends on: the class table,
the global `java_lang_Object`, the condition (if any) that lazy loading of a
class's methods or interfaces raises, the condition class initialization
raises, the native code behind an entry point (the raw value it returns and
the condition it leaves pending), and the conversion of a `jdouble` to a
`jfloat` of the target, on bit patterns. -/
structure VM where
  classes : ClassId → Class
  java_lang_Object : ClassId
  loadMethodsFault : ClassId → Option Throwable
  loadInterfacesFault : ClassId → Option Throwable
  initializeFault : ClassId → Option Throwable
  native : CallInfo → Nat × Option Throwable
  doubleToFloat : Nat → Nat

/-- Modelled from the spec: the JVM access flag `ACC_PRIVATE` (`robovm.h` is absent). -/
def ACC_PRIVATE : Nat := 0x0002

/-- Modelled from the spec: the JVM access flag `ACC_STATIC` (`robovm.h` is absent). -/
def ACC_STATIC : Nat := 0x0008

/-- Modelled from the spec: the JVM access flag `ACC_INTERFACE` (`robovm.h` is absent). -/
def ACC_INTERFACE : Nat := 0x0200

/-- Modelled from the spec: the macro `METHOD_IS_STATIC` (`robovm.h` is absent):
the static flag of the method's access flags. -/
def METHOD_IS_STATIC (method : Method) : Bool := method.access &&& ACC_STATIC != 0

/-- Modelled from the spec: the macro `CLASS_IS_INTERFACE` (`robovm.h` is absent):
the interface flag of the class's flags. -/
def CLASS_IS_INTERFACE (vm : VM) (clazz : ClassId) : Bool :=
  (vm.classes clazz).flags &&& ACC_INTERFACE != 0

/-! ## Condition primitives and introspection collaborators -/

/-- Modelled from the spec: raise-condition (`rvmThrow`, absent from the
sources): the condition becomes the pending one. -/
def rvmThrow (env : Env) (t : Throwable) : Env := { env with exception := some t }

/-- Modelled from the spec: query-pending-condition (`rvmExceptionCheck`). -/
def rvmExceptionCheck (env : Env) : Bool := env.exception.isSome

/-- Modelled from the spec: query-pending-condition (`rvmExceptionOccurred`). -/
def rvmExceptionOccurred (env : Env) : Option Throwable := env.exception

/-- Modelled from the spec: "get declared methods of a class", which "may
itself raise a condition (e.g., lazy attribute loading failure)". -/
def rvmGetMethods (vm : VM) (env : Env) (clazz : ClassId) : Env × List Method :=
  match vm.loadMethodsFault clazz with
  | some t => (rvmThrow env t, [])
  | none => (env, (vm.classes clazz).methods)

/-- Modelled from the spec: "get declared interfaces of a class", which "may
itself raise a condition". -/
def rvmGetInterfaces (vm : VM) (env : Env) (clazz : ClassId) : Env × List ClassId :=
  match vm.loadInterfacesFault clazz with
  | some t => (rvmThrow env t, [])
  | none => (env, (vm.classes clazz).interfaces)

/-- Modelled from the spec: raising the "no such method" condition
(`rvmThrowNoSuchMethodError`, absent from the sources), which carries the name. -/
def rvmThrowNoSuchMethodError (env : Env) (name : String) : Env :=
  rvmThrow env (Throwable.NoSuchMethodError name)

/-- Modelled from the spec: raising the "incompatible class change" condition
"naming the class/name/descriptor" (`rvmThrowIncompatibleClassChangeErrorMethod`,
absent from the sources). -/
def rvmThrowIncompatibleClassChangeErrorMethod (env : Env) (clazz : ClassId)
    (name desc : String) : Env :=
  rvmThrow env (Throwable.IncompatibleClassChangeError clazz name desc)

/-! ## Method resolver -/

/-- The test of `findMethod`: `!strcmp(method->name, name) && !strcmp(method->desc, desc)`. -/
def sameSignature (name desc : String) (method : Method) : Bool :=
  method.name == name && method.desc == desc

/-- `findMethod`: the first method of the class's declared-method list with
exactly this name and descriptor; `NULL` when a condition is pending after
the list was fetched. -/
def findMethod (vm : VM) (env : Env) (clazz : ClassId) (name desc : String) :
    Env × Option Method :=
  let r := rvmGetMethods vm env clazz
  if rvmExceptionCheck r.1 then (r.1, none)
  else (r.1, r.2.find? (sameSignature name desc))

/-- How a loop of `getMethod` ended: with a `return`, or by running to its end. -/
inductive Search where
  | returned (method : Option Method)
  | fellThrough
  deriving DecidableEq, Repr

/-- The first loop of `getMethod`: `for (c = clazz; c != NULL; c = c->superclass)`
with `findMethod` on each class. -/
def getMethod_superclasses (vm : VM) (name desc : String) :
    Nat → Env → Option ClassId → Option (Env × Search)
  | 0, _, _ => none
  | _ + 1, env, none => some (env, Search.fellThrough)
  | fuel + 1, env, some c =>
    let r := findMethod vm env c name desc
    if rvmExceptionCheck r.1 then some (r.1, Search.returned none)
    else match r.2 with
      | some method => some (r.1, Search.returned (some method))
      | none => getMethod_superclasses vm name desc fuel r.1 (vm.classes c).superclass

/-- The inner loop of the interface walk: `for (; interface != NULL; interface =
interface->next)` with the recursive `getMethod` on each interface. -/
def getMethod_interfaceList (recurse : Env → ClassId → Option (Env × Option Method)) :
    Env → List ClassId → Option (Env × Search)
  | env, [] => some (env, Search.fellThrough)
  | env, i :: rest =>
    match recurse env i with
    | none => none
    | some (env1, method) =>
      if rvmExceptionCheck env1 then some (env1, Search.returned none)
      else match method with
        | some m => some (env1, Search.returned (some m))
        | none => getMethod_interfaceList recurse env1 rest

/-- The outer loop of the interface walk: every class of the superclass chain,
its interface list fetched through `rvmGetInterfaces`. -/
def getMethod_interfaces (vm : VM)
    (recurse : Env → ClassId → Option (Env × Option Method)) :
    Nat → Env → Option ClassId → Option (Env × Search)
  | 0, _, _ => none
  | _ + 1, env, none => some (env, Search.fellThrough)
  | fuel + 1, env, some c =>
    let r := rvmGetInterfaces vm env c
    if rvmExceptionCheck r.1 then some (r.1, Search.returned none)
    else match getMethod_interfaceList recurse r.1 r.2 with
      | none => none
      | some (env1, Search.returned method) => some (env1, Search.returned method)
      | some (env1, Search.fellThrough) =>
        getMethod_interfaces vm recurse fuel env1 (vm.classes c).superclass

/-- `getMethod`. The fuel bounds the recursion depth and the length of the
superclass walks; `none` is a resolution that does not finish within it. -/
def getMethod (vm : VM) : Nat → Env → ClassId → String → String → Option (Env × Option Method)
  | 0, _, _, _, _ => none
  | fuel + 1, env, clazz, name, desc =>
    if name == "<init>" || name == "<clinit>" then
      some (findMethod vm env clazz name desc)
    else
      match getMethod_superclasses vm name desc fuel env (some clazz) with
      | none => none
      | some (env1, Search.returned method) => some (env1, method)
      | some (env1, Search.fellThrough) =>
        match getMethod_interfaces vm (fun e i => getMethod vm fuel e i name desc)
            fuel env1 (some clazz) with
        | none => none
        | some (env2, Search.returned method) => some (env2, method)
        | some (env2, Search.fellThrough) =>
          if CLASS_IS_INTERFACE vm clazz then
            getMethod vm fuel env2 vm.java_lang_Object name desc
          else some (env2, none)

/-- `rvmHasMethod`. -/
def rvmHasMethod (vm : VM) (fuel : Nat) (env : Env) (clazz : ClassId) (name desc : String) :
    Option (Env × Bool) :=
  match getMethod vm fuel env clazz name desc with
  | none => none
  | some (env1, method) =>
    if rvmExceptionCheck env1 then some (env1, false)
    else some (env1, method.isSome)

/-- `rvmGetMethod`. -/
def rvmGetMethod (vm : VM) (fuel : Nat) (env : Env) (clazz : ClassId) (name desc : String) :
    Option (Env × Option Method) :=
  match getMethod vm fuel env clazz name desc with
  | none => none
  | some (env1, method) =>
    if rvmExceptionCheck env1 then some (env1, none)
    else match method with
      | none => some (rvmThrowNoSuchMethodError env1 name, none)
      | some m => some (env1, some m)

/-- `rvmGetClassMethod`. -/
def rvmGetClassMethod (vm : VM) (fuel : Nat) (env : Env) (clazz : ClassId)
    (name desc : String) : Option (Env × Option Method) :=
  match rvmGetMethod vm fuel env clazz name desc with
  | none => none
  | some (env1, none) => some (env1, none)
  | some (env1, some method) =>
    if !METHOD_IS_STATIC method then
      some (rvmThrowIncompatibleClassChangeErrorMethod env1 clazz name desc, none)
    else some (env1, some method)

/-- `rvmGetClassInitializer`. -/
def rvmGetClassInitializer (vm : VM) (fuel : Nat) (env : Env) (clazz : ClassId) :
    Option (Env × Option Method) :=
  getMethod vm fuel env clazz "<clinit>" "()V"

/-- `rvmGetInstanceMethod`. -/
def rvmGetInstanceMethod (vm : VM) (fuel : Nat) (env : Env) (clazz : ClassId)
    (name desc : String) : Option (Env × Option Method) :=
  match rvmGetMethod vm fuel env clazz name desc with
  | none => none
  | some (env1, none) => some (env1, none)
  | some (env1, some method) =>
    if METHOD_IS_STATIC method then
      some (rvmThrowIncompatibleClassChangeErrorMethod env1 clazz name desc, none)
    else some (env1, some method)

/-! ## Descriptor parser

A `const char*` into a NUL-terminated string is the suffix it points at: `[]`
is a pointer at the terminator. -/

/-- The character a `const char*` points at; the terminator reads as NUL. -/
def deref (s : List Char) : Char := s.headD (Char.ofNat 0)

/-- What one call of `rvmGetNextParameterType` leaves: the pointer returned
(`none` is `0`) and the cursor `*desc` (`none` is a cursor that has moved past
the terminator, which must not be read again). -/
structure NextParameter where
  result : Option (List Char)
  desc : Option (List Char)
  deriving DecidableEq, Repr

/-- The `case 'L'` of `rvmGetNextParameterType`:
`while (**desc != ';') (*desc)++; (*desc)++;`. Without a `;` the loop reads
past the terminator: no defined result. -/
def skipClassName : List Char → Option (List Char)
  | [] => none
  | c :: rest => if c = ';' then some rest else skipClassName rest

/-- `rvmGetNextParameterType`, called with the cursor `*desc` pointing at `s`. -/
def rvmGetNextParameterType : List Char → Option NextParameter
  | [] => some { result := none, desc := none }
  | c :: rest =>
    if c = 'B' ∨ c = 'Z' ∨ c = 'S' ∨ c = 'C' ∨ c = 'I' ∨ c = 'J' ∨ c = 'F' ∨ c = 'D' then
      some { result := some (c :: rest), desc := some rest }
    else if c = '[' then
      match rvmGetNextParameterType rest with
      | none => none
      | some r => some { result := some (c :: rest), desc := r.desc }
    else if c = 'L' then
      match skipClassName rest with
      | none => none
      | some rest2 => some { result := some (c :: rest), desc := some rest2 }
    else if c = '(' then rvmGetNextParameterType rest
    else some { result := none, desc := some rest }

/-- `rvmGetReturnType`: `while (*desc != ')') desc++; desc++;`. -/
def rvmGetReturnType : List Char → Option (List Char)
  | [] => none
  | c :: rest => if c = ')' then some rest else rvmGetReturnType rest

/-- The loop of `rvmGetParameterCount`. Every turn that goes on consumes a
character, so a fuel of the length of the descriptor plus one is never used up. -/
def rvmGetParameterCount_loop : Nat → Option (List Char) → Nat → Option Nat
  | 0, _, _ => none
  | _ + 1, none, _ => none
  | fuel + 1, some desc, count =>
    match rvmGetNextParameterType desc with
    | none => none
    | some r =>
      match r.result with
      | none => some count
      | some _ => rvmGetParameterCount_loop fuel r.desc (count + 1)

/-- `rvmGetParameterCount`. -/
def rvmGetParameterCount (method : Method) : Option Nat :=
  rvmGetParameterCount_loop (method.desc.length + 1) (some method.desc.toList) 0

/-! ## Call marshaller -/

/-- A `jvalue`: the 64 bits of the union, little-endian. -/
structure jvalue where
  bits : Nat
  deriving DecidableEq, Repr

/-- The value of an `n`-bit two's complement pattern. -/
def signed (n : Nat) (v : Nat) : Int :=
  if v % 2 ^ n < 2 ^ (n - 1) then (v % 2 ^ n : Nat) else (v % 2 ^ n : Nat) - (2 ^ n : Nat)

/-- Member `z`, a `jboolean` (unsigned 8-bit), converted to `jint`. -/
def jvalue.z (v : jvalue) : Int := (v.bits % 2 ^ 8 : Nat)

/-- Member `b`, a `jbyte` (signed 8-bit), converted to `jint`. -/
def jvalue.b (v : jvalue) : Int := signed 8 v.bits

/-- Member `s`, a `jshort` (signed 16-bit), converted to `jint`. -/
def jvalue.s (v : jvalue) : Int := signed 16 v.bits

/-- Member `c`, a `jchar` (unsigned 16-bit), converted to `jint`. -/
def jvalue.c (v : jvalue) : Int := (v.bits % 2 ^ 16 : Nat)

/-- Member `i`, a `jint`. -/
def jvalue.i (v : jvalue) : Int := signed 32 v.bits

/-- Member `j`, a `jlong`. -/
def jvalue.j (v : jvalue) : Int := signed 64 v.bits

/-- Member `f`, a `jfloat`, as its bit pattern. -/
def jvalue.f (v : jvalue) : Nat := v.bits % 2 ^ 32

/-- Member `d`, a `jdouble`, as its bit pattern. -/
def jvalue.d (v : jvalue) : Nat := v.bits % 2 ^ 64

/-- Member `l`, a `jobject`. -/
def jvalue.l (v : jvalue) : Ptr := Ptr.ref (v.bits % 2 ^ 64)

/-- Modelled from the spec: "Memory allocation with a uniform out-of-memory
failure mode" (`rvmAllocateMemory`, absent from the sources): it succeeds
while `heapFree` is positive, and otherwise raises OutOfMemory and gives `NULL`. -/
def rvmAllocateMemory (env : Env) : Env × Bool :=
  if env.heapFree = 0 then (rvmThrow env Throwable.OutOfMemoryError, false)
  else ({ env with heapFree := env.heapFree - 1 }, true)

/-- Modelled from the spec: `call0AllocateCallInfo` (`call0.h`, absent from the
sources): a `CallInfo` for the entry point with empty bins of the sizes asked
for, or `NULL` when the allocation fails. -/
def call0AllocateCallInfo (env : Env) (function ptrArgsCount intArgsCount longArgsCount
    floatArgsCount doubleArgsCount : Nat) : Env × Option CallInfo :=
  let r := rvmAllocateMemory env
  if r.2 then
    (r.1, some { function := function, ptrArgsCount := ptrArgsCount,
                 intArgsCount := intArgsCount, longArgsCount := longArgsCount,
                 floatArgsCount := floatArgsCount, doubleArgsCount := doubleArgsCount,
                 ptrArgs := [], intArgs := [], longArgs := [], floatArgs := [],
                 doubleArgs := [] })
  else (r.1, none)

/-- Modelled from the spec: `call0AddPtr` (`call0.h`): the next value of the pointer bin. -/
def call0AddPtr (callInfo : CallInfo) (p : Ptr) : CallInfo :=
  { callInfo with ptrArgs := callInfo.ptrArgs ++ [p] }

/-- Modelled from the spec: `call0AddInt` (`call0.h`): the next value of the 32-bit integer bin. -/
def call0AddInt (callInfo : CallInfo) (v : Int) : CallInfo :=
  { callInfo with intArgs := callInfo.intArgs ++ [v] }

/-- Modelled from the spec: `call0AddLong` (`call0.h`): the next value of the 64-bit integer bin. -/
def call0AddLong (callInfo : CallInfo) (v : Int) : CallInfo :=
  { callInfo with longArgs := callInfo.longArgs ++ [v] }

/-- Modelled from the spec: `call0AddFloat` (`call0.h`): the next value of the float bin. -/
def call0AddFloat (callInfo : CallInfo) (v : Nat) : CallInfo :=
  { callInfo with floatArgs := callInfo.floatArgs ++ [v] }

/-- Modelled from the spec: `call0AddDouble` (`call0.h`): the next value of the double bin. -/
def call0AddDouble (callInfo : CallInfo) (v : Nat) : CallInfo :=
  { callInfo with doubleArgs := callInfo.doubleArgs ++ [v] }

/-- The five counters of `initCallInfo`. -/
structure ArgsCount where
  ptrArgsCount : Nat
  intArgsCount : Nat
  longArgsCount : Nat
  floatArgsCount : Nat
  doubleArgsCount : Nat
  deriving DecidableEq, Repr

/-- The `switch (c[0])` of the counting loop of `initCallInfo`. -/
def initCallInfo_countCase (c : Char) (n : ArgsCount) : ArgsCount :=
  if c = 'Z' ∨ c = 'B' ∨ c = 'S' ∨ c = 'C' ∨ c = 'I' then
    { n with intArgsCount := n.intArgsCount + 1 }
  else if c = 'J' then { n with longArgsCount := n.longArgsCount + 1 }
  else if c = 'F' then { n with floatArgsCount := n.floatArgsCount + 1 }
  else if c = 'D' then { n with doubleArgsCount := n.doubleArgsCount + 1 }
  else if c = 'L' ∨ c = '[' then { n with ptrArgsCount := n.ptrArgsCount + 1 }
  else n

/-- The counting loop of `initCallInfo` (lines 242-267). -/
def initCallInfo_count : Nat → Option (List Char) → ArgsCount → Option ArgsCount
  | 0, _, _ => none
  | _ + 1, none, _ => none
  | fuel + 1, some desc, n =>
    match rvmGetNextParameterType desc with
    | none => none
    | some r =>
      match r.result with
      | none => some n
      | some c => initCallInfo_count fuel r.desc (initCallInfo_countCase (deref c) n)

/-- The `switch (c[0])` of the binding loop of `initCallInfo`, on `args[i]`. -/
def initCallInfo_bindCase (c : Char) (callInfo : CallInfo) (arg : jvalue) : CallInfo :=
  if c = 'Z' then call0AddInt callInfo arg.z
  else if c = 'B' then call0AddInt callInfo arg.b
  else if c = 'S' then call0AddInt callInfo arg.s
  else if c = 'C' then call0AddInt callInfo arg.c
  else if c = 'I' then call0AddInt callInfo arg.i
  else if c = 'J' then call0AddLong callInfo arg.j
  else if c = 'F' then call0AddFloat callInfo arg.f
  else if c = 'D' then call0AddDouble callInfo arg.d
  else if c = 'L' ∨ c = '[' then call0AddPtr callInfo arg.l
  else callInfo

/-- Whether the `switch (c[0])` of the binding loop reads `args[i++]`. -/
def initCallInfo_bindReads (c : Char) : Bool :=
  c = 'Z' ∨ c = 'B' ∨ c = 'S' ∨ c = 'C' ∨ c = 'I' ∨ c = 'J' ∨ c = 'F' ∨ c = 'D' ∨
    c = 'L' ∨ c = '['

/-- The binding loop of `initCallInfo` (lines 279-312). A read of `args[i]`
beyond the array has no defined result. -/
def initCallInfo_bind (args : List jvalue) :
    Nat → Option (List Char) → Nat → CallInfo → Option CallInfo
  | 0, _, _, _ => none
  | _ + 1, none, _, _ => none
  | fuel + 1, some desc, i, callInfo =>
    match rvmGetNextParameterType desc with
    | none => none
    | some r =>
      match r.result with
      | none => some callInfo
      | some c =>
        if initCallInfo_bindReads (deref c) then
          match args[i]? with
          | none => none
          | some arg =>
            initCallInfo_bind args fuel r.desc (i + 1)
              (initCallInfo_bindCase (deref c) callInfo arg)
        else initCallInfo_bind args fuel r.desc i callInfo

/-- The receiver as a value of the pointer bin. -/
def objectPtr (obj : Option Object) : Ptr :=
  match obj with
  | none => Ptr.ref 0
  | some o => Ptr.ref o.addr

/-- The first lines of `initCallInfo` (228-232): the method the call is built
for. `obj->clazz` through a null `obj` has no defined result. -/
def initCallInfo_dispatch (vm : VM) (fuel : Nat) (env : Env) (obj : Option Object)
    (method : Method) (virtual : Bool) : Option (Env × Option Method) :=
  if virtual && !(method.access &&& ACC_PRIVATE != 0) then
    match obj with
    | none => none
    | some o => rvmGetMethod vm fuel env o.clazz method.name method.desc
  else some (env, some method)

/-- The rest of `initCallInfo` (lines 234-314), for the method dispatched to. -/
def initCallInfo_build (env : Env) (obj : Option Object) (method : Method)
    (args : List jvalue) : Option (Env × Option CallInfo) :=
  let ptrArgsCount := if method.access &&& ACC_STATIC = 0 then 2 else 1
  match initCallInfo_count (method.desc.length + 1) (some method.desc.toList)
      { ptrArgsCount := ptrArgsCount, intArgsCount := 0, longArgsCount := 0,
        floatArgsCount := 0, doubleArgsCount := 0 } with
  | none => none
  | some n =>
    let function :=
      if method.synchronizedImpl ≠ 0 then method.synchronizedImpl else method.impl
    match call0AllocateCallInfo env function n.ptrArgsCount n.intArgsCount n.longArgsCount
        n.floatArgsCount n.doubleArgsCount with
    | (env1, none) => some (env1, none)
    | (env1, some callInfo) =>
      let callInfo1 := call0AddPtr callInfo Ptr.env
      let callInfo2 :=
        if method.access &&& ACC_STATIC = 0 then call0AddPtr callInfo1 (objectPtr obj)
        else callInfo1
      match initCallInfo_bind args (method.desc.length + 1) (some method.desc.toList) 0
          callInfo2 with
      | none => none
      | some callInfo3 => some (env1, some callInfo3)

/-- `initCallInfo`. -/
def initCallInfo (vm : VM) (fuel : Nat) (env : Env) (obj : Option Object) (method : Method)
    (virtual : Bool) (args : List jvalue) : Option (Env × Option CallInfo) :=
  match initCallInfo_dispatch vm fuel env obj method virtual with
  | none => none
  | some (env1, none) => some (env1, none)
  | some (env1, some method1) => initCallInfo_build env1 obj method1 args

/-- The static array `emptyJValueArgs[1]`. -/
def emptyJValueArgs : List jvalue := [{ bits := 0 }]

/-- The `switch (c[0])` of `va_list2jargs`: the cell written for the value `v`
fetched with `va_arg`, narrowed to the member's type. -/
def va_list2jargs_case (vm : VM) (c : Char) (v : Nat) : jvalue :=
  if c = 'B' ∨ c = 'Z' then { bits := v % 2 ^ 8 }
  else if c = 'S' ∨ c = 'C' then { bits := v % 2 ^ 16 }
  else if c = 'I' then { bits := v % 2 ^ 32 }
  else if c = 'F' then { bits := vm.doubleToFloat (v % 2 ^ 64) }
  else { bits := v % 2 ^ 64 }

/-- The loop of `va_list2jargs` (lines 327-361). The `va_list` is the list of
the variadic arguments still to fetch, each as its bits; fetching beyond it
has no defined result. -/
def va_list2jargs_loop (vm : VM) :
    Nat → Option (List Char) → List Nat → Nat → List jvalue → Option (List jvalue)
  | 0, _, _, _, _ => none
  | _ + 1, none, _, _, _ => none
  | fuel + 1, some desc, args, i, jvalueArgs =>
    match rvmGetNextParameterType desc with
    | none => none
    | some r =>
      match r.result with
      | none => some jvalueArgs
      | some c =>
        if initCallInfo_bindReads (deref c) then
          match args with
          | [] => none
          | v :: rest =>
            va_list2jargs_loop vm fuel r.desc rest (i + 1)
              (jvalueArgs.set i (va_list2jargs_case vm (deref c) v))
        else va_list2jargs_loop vm fuel r.desc args i jvalueArgs

/-- `va_list2jargs`. -/
def va_list2jargs (vm : VM) (env : Env) (method : Method) (args : List Nat) :
    Option (Env × Option (List jvalue)) :=
  match rvmGetParameterCount method with
  | none => none
  | some argsCount =>
    if argsCount = 0 then some (env, some emptyJValueArgs)
    else
      let r := rvmAllocateMemory env
      if !r.2 then some (r.1, none)
      else
        match va_list2jargs_loop vm (method.desc.length + 1) (some method.desc.toList) args 0
            (List.replicate argsCount { bits := 0 }) with
        | none => none
        | some jvalueArgs => some (r.1, some jvalueArgs)

/-- The return kinds of the call operations: the `<Kind>` of `rvmCall<Kind>...Method`. -/
inductive ReturnKind where
  | void | object | boolean | byte | char | short | int | long | float | double
  deriving DecidableEq, Repr

/-- What a call operation returns; floats and doubles as bit patterns. -/
inductive ReturnValue where
  | void
  | object (ref : Nat)
  | boolean (v : Nat)
  | byte (v : Int)
  | char (v : Nat)
  | short (v : Int)
  | int (v : Int)
  | long (v : Int)
  | float (bits : Nat)
  | double (bits : Nat)
  deriving DecidableEq, Repr

/-- The value of the early `return` of a call operation: nothing, `NULL`,
`FALSE`, `0`, `0.0f`, `0.0`. -/
def ReturnKind.zero : ReturnKind → ReturnValue
  | ReturnKind.void => ReturnValue.void
  | ReturnKind.object => ReturnValue.object 0
  | ReturnKind.boolean => ReturnValue.boolean 0
  | ReturnKind.byte => ReturnValue.byte 0
  | ReturnKind.char => ReturnValue.char 0
  | ReturnKind.short => ReturnValue.short 0
  | ReturnKind.int => ReturnValue.int 0
  | ReturnKind.long => ReturnValue.long 0
  | ReturnKind.float => ReturnValue.float 0
  | ReturnKind.double => ReturnValue.double 0

/-- The raw value `_call0` leaves, read at the type `_call0` was cast to. -/
def ReturnKind.ofRaw : ReturnKind → Nat → ReturnValue
  | ReturnKind.void, _ => ReturnValue.void
  | ReturnKind.object, raw => ReturnValue.object (raw % 2 ^ 64)
  | ReturnKind.boolean, raw => ReturnValue.boolean (raw % 2 ^ 8)
  | ReturnKind.byte, raw => ReturnValue.byte (signed 8 raw)
  | ReturnKind.char, raw => ReturnValue.char (raw % 2 ^ 16)
  | ReturnKind.short, raw => ReturnValue.short (signed 16 raw)
  | ReturnKind.int, raw => ReturnValue.int (signed 32 raw)
  | ReturnKind.long, raw => ReturnValue.long (signed 64 raw)
  | ReturnKind.float, raw => ReturnValue.float (raw % 2 ^ 32)
  | ReturnKind.double, raw => ReturnValue.double (raw % 2 ^ 64)

/-- Modelled from the spec: gateway frame enter (`rvmPushGatewayFrame`, absent
from the sources). -/
def rvmPushGatewayFrame (env : Env) : Env :=
  { env with trace := env.trace ++ [Event.pushGatewayFrame] }

/-- Modelled from the spec: gateway frame exit (`rvmPopGatewayFrame`, absent
from the sources). -/
def rvmPopGatewayFrame (env : Env) : Env :=
  { env with trace := env.trace ++ [Event.popGatewayFrame] }

/-- Modelled from the spec: class initialization (`rvmInitialize`, absent from
the sources), a collaborator that may raise a condition. -/
def rvmInitialize (vm : VM) (env : Env) (clazz : ClassId) : Env :=
  let env1 := { env with trace := env.trace ++ [Event.classInit clazz] }
  match vm.initializeFault clazz with
  | some t => rvmThrow env1 t
  | none => env1

/-- Modelled from the spec: the generic trampoline `_call0` (assembly, absent
from the sources): it runs the native code behind the `CallInfo`. -/
def _call0 (vm : VM) (env : Env) (callInfo : CallInfo) : Env × Nat :=
  let env1 := { env with trace := env.trace ++ [Event.call0 callInfo] }
  match (vm.native callInfo).2 with
  | some t => (rvmThrow env1 t, (vm.native callInfo).1)
  | none => (env1, (vm.native callInfo).1)

/-- The ten functions `rvmCall<Kind>InstanceMethodA` (lines 366-571), which
differ in the return type alone. -/
def rvmCallInstanceMethodA (kind : ReturnKind) (vm : VM) (fuel : Nat) (env : Env)
    (obj : Option Object) (method : Method) (args : List jvalue) :
    Option (Env × ReturnValue) :=
  match initCallInfo vm fuel env obj method true args with
  | none => none
  | some (env1, none) => some (env1, kind.zero)
  | some (env1, some callInfo) =>
    let env2 := rvmPushGatewayFrame env1
    let r := _call0 vm env2 callInfo
    let env3 := rvmPopGatewayFrame r.1
    some (env3, kind.ofRaw r.2)

/-- The ten functions `rvmCallNonvirtual<Kind>InstanceMethodA` (lines 585-790). -/
def rvmCallNonvirtualInstanceMethodA (kind : ReturnKind) (vm : VM) (fuel : Nat) (env : Env)
    (obj : Option Object) (method : Method) (args : List jvalue) :
    Option (Env × ReturnValue) :=
  match initCallInfo vm fuel env obj method false args with
  | none => none
  | some (env1, none) => some (env1, kind.zero)
  | some (env1, some callInfo) =>
    let env2 := rvmPushGatewayFrame env1
    let r := _call0 vm env2 callInfo
    let env3 := rvmPopGatewayFrame r.1
    some (env3, kind.ofRaw r.2)

/-- The ten functions `rvmCall<Kind>ClassMethodA` (lines 804-1029). The `clazz`
argument is not used by the code. -/
def rvmCallClassMethodA (kind : ReturnKind) (vm : VM) (fuel : Nat) (env : Env)
    (_clazz : ClassId) (method : Method) (args : List jvalue) :
    Option (Env × ReturnValue) :=
  match initCallInfo vm fuel env none method false args with
  | none => none
  | some (env1, none) => some (env1, kind.zero)
  | some (env1, some callInfo) =>
    let env2 := rvmInitialize vm env1 method.clazz
    if (rvmExceptionOccurred env2).isSome then some (env2, kind.zero)
    else
      let env3 := rvmPushGatewayFrame env2
      let r := _call0 vm env3 callInfo
      let env4 := rvmPopGatewayFrame r.1
      some (env4, kind.ofRaw r.2)

/-- The ten functions `rvmCall<Kind>InstanceMethodV`. -/
def rvmCallInstanceMethodV (kind : ReturnKind) (vm : VM) (fuel : Nat) (env : Env)
    (obj : Option Object) (method : Method) (args : List Nat) :
    Option (Env × ReturnValue) :=
  match va_list2jargs vm env method args with
  | none => none
  | some (env1, none) => some (env1, kind.zero)
  | some (env1, some jargs) => rvmCallInstanceMethodA kind vm fuel env1 obj method jargs

/-- The ten functions `rvmCallNonvirtual<Kind>InstanceMethodV`. -/
def rvmCallNonvirtualInstanceMethodV (kind : ReturnKind) (vm : VM) (fuel : Nat) (env : Env)
    (obj : Option Object) (method : Method) (args : List Nat) :
    Option (Env × ReturnValue) :=
  match va_list2jargs vm env method args with
  | none => none
  | some (env1, none) => some (env1, kind.zero)
  | some (env1, some jargs) =>
    rvmCallNonvirtualInstanceMethodA kind vm fuel env1 obj method jargs

/-- The ten functions `rvmCall<Kind>ClassMethodV`. -/
def rvmCallClassMethodV (kind : ReturnKind) (vm : VM) (fuel : Nat) (env : Env)
    (clazz : ClassId) (method : Method) (args : List Nat) :
    Option (Env × ReturnValue) :=
  match va_list2jargs vm env method args with
  | none => none
  | some (env1, none) => some (env1, kind.zero)
  | some (env1, some jargs) => rvmCallClassMethodA kind vm fuel env1 clazz method jargs

/-- `rvmCallVoidInstanceMethodA`. -/
def rvmCallVoidInstanceMethodA := rvmCallInstanceMethodA ReturnKind.void

/-- `rvmCallIntInstanceMethodA`. -/
def rvmCallIntInstanceMethodA := rvmCallInstanceMethodA ReturnKind.int

/-- `rvmCallIntInstanceMethodV`. -/
def rvmCallIntInstanceMethodV := rvmCallInstanceMethodV ReturnKind.int

/-- `rvmCallVoidClassMethodA`. -/
def rvmCallVoidClassMethodA := rvmCallClassMethodA ReturnKind.void

/-- `rvmCallIntClassMethodA`. -/
def rvmCallIntClassMethodA := rvmCallClassMethodA ReturnKind.int

/-! ## Well-formed descriptors -/

/-- The type of a parameter, as a method descriptor writes it. -/
inductive ParamType where
  | boolean | byte | short | char | int | long | float | double
  | object (className : List Char)
  | array (element : ParamType)
  deriving DecidableEq, Repr

/-- The descriptor of a parameter type: the primitive letter, `L` class name
`;`, or `[` followed by the element type. -/
def ParamType.encode : ParamType → List Char
  | ParamType.boolean => ['Z']
  | ParamType.byte => ['B']
  | ParamType.short => ['S']
  | ParamType.char => ['C']
  | ParamType.int => ['I']
  | ParamType.long => ['J']
  | ParamType.float => ['F']
  | ParamType.double => ['D']
  | ParamType.object className => 'L' :: className ++ [';']
  | ParamType.array element => '[' :: element.encode

/-- The first character of the descriptor of the type. -/
def ParamType.tag : ParamType → Char
  | ParamType.boolean => 'Z'
  | ParamType.byte => 'B'
  | ParamType.short => 'S'
  | ParamType.char => 'C'
  | ParamType.int => 'I'
  | ParamType.long => 'J'
  | ParamType.float => 'F'
  | ParamType.double => 'D'
  | ParamType.object _ => 'L'
  | ParamType.array _ => '['

/-- A class name holds no `;`. -/
def ParamType.wellFormed : ParamType → Bool
  | ParamType.object className => !className.contains ';'
  | ParamType.array element => element.wellFormed
  | _ => true

/-- The descriptors of the parameters, one after the other. -/
def encodeParams : List ParamType → List Char
  | [] => []
  | p :: rest => p.encode ++ encodeParams rest

/-- The method descriptor `(P1 ... Pn)R`. -/
def methodDescriptor (params : List ParamType) (ret : List Char) : List Char :=
  '(' :: (encodeParams params ++ ')' :: ret)

/-- The parameter goes to the 32-bit integer bin. -/
def ParamType.isInt : ParamType → Bool
  | ParamType.boolean | ParamType.byte | ParamType.short | ParamType.char
  | ParamType.int => true
  | _ => false

/-- The parameter is an object or array reference. -/
def ParamType.isRef : ParamType → Bool
  | ParamType.object _ | ParamType.array _ => true
  | _ => false

/-- What the parameter puts into the 32-bit integer bin, read from its argument. -/
def ParamType.intArg (p : ParamType) (arg : jvalue) : Option Int :=
  match p with
  | ParamType.boolean => some arg.z
  | ParamType.byte => some arg.b
  | ParamType.short => some arg.s
  | ParamType.char => some arg.c
  | ParamType.int => some arg.i
  | _ => none

/-- What the parameter puts into the 64-bit integer bin. -/
def ParamType.longArg (p : ParamType) (arg : jvalue) : Option Int :=
  match p with
  | ParamType.long => some arg.j
  | _ => none

/-- What the parameter puts into the float bin. -/
def ParamType.floatArg (p : ParamType) (arg : jvalue) : Option Nat :=
  match p with
  | ParamType.float => some arg.f
  | _ => none

/-- What the parameter puts into the double bin. -/
def ParamType.doubleArg (p : ParamType) (arg : jvalue) : Option Nat :=
  match p with
  | ParamType.double => some arg.d
  | _ => none

/-- What the parameter puts into the pointer bin. -/
def ParamType.ptrArg (p : ParamType) (arg : jvalue) : Option Ptr :=
  match p with
  | ParamType.object _ => some arg.l
  | ParamType.array _ => some arg.l
  | _ => none

/-- The entry point `initCallInfo` selects for a method. -/
def entryPoint (method : Method) : Nat :=
  if method.synchronizedImpl ≠ 0 then method.synchronizedImpl else method.impl

/-- The implicit pointers of a call: the `Env*`, then the receiver unless the
method is static. -/
def implicitPtrs (obj : Option Object) (method : Method) : List Ptr :=
  if METHOD_IS_STATIC method then [Ptr.env] else [Ptr.env, objectPtr obj]

/-- The two states differ at most in the pending condition: the allocator and
the trace of collaborator calls are the same. -/
def Env.sameResources (env env1 : Env) : Prop :=
  env1.trace = env.trace ∧ env1.heapFree = env.heapFree

/-- The call the marshaller builds for a method with parameters `params` from
the arguments `args`: the implicit pointers first, then every argument in the
bin of its parameter's kind, in the order of the descriptor. -/
def marshalledCall (obj : Option Object) (method : Method) (params : List ParamType)
    (args : List jvalue) : CallInfo :=
  { function := entryPoint method,
    ptrArgsCount := (implicitPtrs obj method).length + params.countP ParamType.isRef,
    intArgsCount := params.countP ParamType.isInt,
    longArgsCount := params.count ParamType.long,
    floatArgsCount := params.count ParamType.float,
    doubleArgsCount := params.count ParamType.double,
    ptrArgs := implicitPtrs obj method ++
      (params.zip args).filterMap (fun pa => pa.1.ptrArg pa.2),
    intArgs := (params.zip args).filterMap (fun pa => pa.1.intArg pa.2),
    longArgs := (params.zip args).filterMap (fun pa => pa.1.longArg pa.2),
    floatArgs := (params.zip args).filterMap (fun pa => pa.1.floatArg pa.2),
    doubleArgs := (params.zip args).filterMap (fun pa => pa.1.doubleArg pa.2) }

/-! ## Vocabulary of the resolver properties -/

/-- The `k`-th class of the superclass chain of `c`; `c` itself for `k = 0`. -/
def nthSuperclass (vm : VM) : Nat → ClassId → Option ClassId
  | 0, c => some c
  | k + 1, c =>
    match (vm.classes c).superclass with
    | none => none
    | some s => nthSuperclass vm k s

/-- The class `e` is in the superclass chain of `c` (`c` itself included). -/
def InChain (vm : VM) (c e : ClassId) : Prop := ∃ k, nthSuperclass vm k c = some e

/-- The class declares a method with exactly this name and descriptor. -/
def Declares (vm : VM) (c : ClassId) (name desc : String) : Prop :=
  ∃ m ∈ (vm.classes c).methods, m.name = name ∧ m.desc = desc

/-- The method `m` is the first one with this name and descriptor in the
declared-method list of `c`. -/
def FirstDeclared (vm : VM) (c : ClassId) (name desc : String) (m : Method) : Prop :=
  ∃ before after, (vm.classes c).methods = before ++ m :: after ∧
    (∀ x ∈ before, ¬ (x.name = name ∧ x.desc = desc)) ∧ m.name = name ∧ m.desc = desc

/-- The types `getMethod` looks into when resolving from `c`: the classes of
the superclass chain of `c`; whatever a resolution from an interface of one of
these classes looks into; and, when `c` is an interface, whatever a resolution
from `java_lang_Object` looks into. -/
inductive Searched (vm : VM) : ClassId → ClassId → Prop where
  | chain {c e : ClassId} : InChain vm c e → Searched vm c e
  | iface {c e i x : ClassId} : InChain vm c e → i ∈ (vm.classes e).interfaces →
      Searched vm i x → Searched vm c x
  | object {c x : ClassId} : CLASS_IS_INTERFACE vm c = true →
      Searched vm vm.java_lang_Object x → Searched vm c x

/-- Neither introspection collaborator raises a condition. -/
def NoFaults (vm : VM) : Prop :=
  ∀ c, vm.loadMethodsFault c = none ∧ vm.loadInterfacesFault c = none

/-- The class graph is well-founded: `rank` decreases along every superclass
link, every declared-interface link, and from an interface to `java_lang_Object`. -/
structure WellFoundedClasses (vm : VM) (rank : ClassId → Nat) : Prop where
  superclass : ∀ c s, (vm.classes c).superclass = some s → rank s < rank c
  interface : ∀ c i, i ∈ (vm.classes c).interfaces → rank i < rank c
  object : ∀ c, CLASS_IS_INTERFACE vm c = true → rank vm.java_lang_Object < rank c

/-- The interface `i` is reachable from the declared interface lists of the
classes of the superclass chain of `c`, directly or through the interface
lists of an interface so reached. -/
inductive ReachableInterface (vm : VM) : ClassId → ClassId → Prop where
  | direct {c e i : ClassId} : InChain vm c e → i ∈ (vm.classes e).interfaces →
      ReachableInterface vm c i
  | through {c e j i : ClassId} : InChain vm c e → j ∈ (vm.classes e).interfaces →
      ReachableInterface vm j i → ReachableInterface vm c i

/-! ## A small class table used to exercise the properties -/

def mkMethod (clazz : ClassId) (name desc : String) (access : Nat) : Method :=
  { clazz := clazz, name := name, desc := desc, access := access,
    impl := 0x1000 + 0x100 * clazz, synchronizedImpl := 0, size := 16 }

/-- Six types: `0` is `java.lang.Object`; `1` is an empty interface; `2` is an
interface declaring `compare(II)I` and `equals(Object)Z`; `3` is an interface
extending `1` and `2`; `4` is a class extending `0` and implementing `2`;
`5` is a class extending `4` and implementing `1`. -/
def demoClasses : ClassId → Class
  | 0 => { superclass := none, flags := 0x0001, classLoader := none, interfaces := [],
           methods := [mkMethod 0 "<init>" "()V" 0x0001,
                       mkMethod 0 "equals" "(Ljava/lang/Object;)Z" 0x0001,
                       mkMethod 0 "toString" "()Ljava/lang/String;" 0x0001] }
  | 1 => { superclass := none, flags := 0x0601, classLoader := none, interfaces := [],
           methods := [] }
  | 2 => { superclass := none, flags := 0x0601, classLoader := none, interfaces := [],
           methods := [mkMethod 2 "compare" "(II)I" 0x0401,
                       mkMethod 2 "equals" "(Ljava/lang/Object;)Z" 0x0401,
                       mkMethod 2 "run" "()V" 0x0401] }
  | 3 => { superclass := none, flags := 0x0601, classLoader := none, interfaces := [1, 2],
           methods := [] }
  | 4 => { superclass := some 0, flags := 0x0001, classLoader := none, interfaces := [2],
           methods := [mkMethod 4 "<init>" "()V" 0x0001,
                       mkMethod 4 "run" "(I)V" 0x0001,
                       mkMethod 4 "run" "()V" 0x0001,
                       mkMethod 4 "create" "()V" 0x0009] }
  | 5 => { superclass := some 4, flags := 0x0001, classLoader := none, interfaces := [1],
           methods := [mkMethod 5 "run" "(I)V" 0x0001] }
  | _ => { superclass := none, flags := 0x0001, classLoader := none, interfaces := [],
           methods := [] }

def demoVM : VM where
  classes := demoClasses
  java_lang_Object := 0
  loadMethodsFault := fun _ => none
  loadInterfacesFault := fun _ => none
  initializeFault := fun _ => none
  native := fun callInfo => (callInfo.function, none)
  doubleToFloat := fun _ => 0

def demoRank : ClassId → Nat
  | 0 => 0
  | 1 => 1
  | 2 => 1
  | 3 => 2
  | 4 => 2
  | 5 => 3
  | _ => 0

def demoEnv : Env := { exception := none, heapFree := 8, trace := [] }

/-- A receiver of class `5` of the demo table. -/
def demoReceiver : Object := { addr := 0x7000, clazz := 5 }

/-- A static and an instance method with the descriptor `(ZBSCIJFD)V`. -/
def demoStaticMethod : Method := mkMethod 4 "all" "(ZBSCIJFD)V" 0x0009

def demoInstanceMethod : Method := mkMethod 4 "all" "(ZBSCIJFD)V" 0x0001

def demoPrimitives : List ParamType :=
  [ParamType.boolean, ParamType.byte, ParamType.short, ParamType.char, ParamType.int,
   ParamType.long, ParamType.float, ParamType.double]

def demoArgs : List jvalue :=
  [{ bits := 1 }, { bits := 255 }, { bits := 65535 }, { bits := 65 }, { bits := 7 },
   { bits := 8 }, { bits := 9 }, { bits := 10 }]

/-- An instance method mixing references and primitives:
`(I[[Ljava/lang/String;Ljava/lang/Object;J[I)V`. -/
def demoMixedMethod : Method :=
  mkMethod 4 "mixed" "(I[[Ljava/lang/String;Ljava/lang/Object;J[I)V" 0x0001

def demoMixedParams : List ParamType :=
  [ParamType.int,
   ParamType.array (ParamType.array (ParamType.object "java/lang/String".toList)),
   ParamType.object "java/lang/Object".toList,
   ParamType.long,
   ParamType.array ParamType.int]

def demoMixedArgs : List jvalue :=
  [{ bits := 11 }, { bits := 0x8010 }, { bits := 0x8020 }, { bits := 12 }, { bits := 0x8030 }]

/-- The demo table with a class initializer of class `4` that raises. -/
def demoFailingInitVM : VM :=
  { demoVM with initializeFault := fun c => if c = 4 then some (Throwable.other 1) else none }

/-- A state in which every allocation fails. -/
def demoFullEnv : Env := { exception := none, heapFree := 0, trace := [] }

/-! ## Native binding manager -/

/-- The fields of `struct ClassLoader` that `method.c` reads: `parent` and the
class of the loader object (`object.clazz`). -/
structure ClassLoader where
  parent : Option Nat
  clazz : ClassId
  deriving DecidableEq, Repr

/-- A `DynamicLib*`: the address of the node and its `handle` field. -/
structure DynamicLib where
  addr : Nat
  handle : Nat
  deriving DecidableEq, Repr

/-- A `NativeMethod*`: the method and its `nativeImpl` slot (`0` is `NULL`). -/
structure NativeMethod where
  method : Method
  nativeImpl : Nat
  deriving DecidableEq, Repr

/-- Calls made outside the VM, in the order they are made: the monitor
guarding the library lists, the dynamic linker, and the `JNI_OnLoad` entry
point of a library, recorded with the two library lists it finds. -/
inductive LinkerEvent where
  | lock
  | unlock
  | dlopen (path : String)
  | dlclose (handle : Nat)
  | dlsym (handle : Nat) (symbol : String)
  | JNI_OnLoad (function : Nat) (bootNativeLibs mainNativeLibs : List DynamicLib)
  deriving DecidableEq, Repr

/-- The state the native binding manager works on: the globals `bootNativeLibs`
and `mainNativeLibs` of `method.c` (lists in link order), the address the next
`DynamicLib` node is allocated at, and the record of outside calls. -/
structure NativeState where
  bootNativeLibs : List DynamicLib
  mainNativeLibs : List DynamicLib
  nextLib : Nat
  calls : List LinkerEvent
  deriving DecidableEq, Repr

/-- The collaborators of the native binding manager: the class loader objects,
the dynamic linker (`dlopen` gives the handle of a path, `0` on failure;
`dlsym` gives the address a handle exports a symbol at, `0` if it does not),
and the condition the `JNI_OnLoad` function at an address leaves pending. -/
structure Linker where
  classLoaders : Nat → ClassLoader
  dlopen : String → Nat
  dlsym : Nat → String → Nat
  onLoad : Nat → Option Throwable

/-- Modelled from the spec: raising the "unsatisfied link" condition
(`rvmThrowUnsatisfiedLinkError`, absent from the sources). -/
def rvmThrowUnsatisfiedLinkError (env : Env) : Env :=
  rvmThrow env Throwable.UnsatisfiedLinkError

/-- One more outside call on the record. -/
def NativeState.record (st : NativeState) (e : LinkerEvent) : NativeState :=
  { st with calls := st.calls ++ [e] }

/-- `obtainNativeLibsLock`. -/
def obtainNativeLibsLock (st : NativeState) : NativeState := st.record LinkerEvent.lock

/-- `releaseNativeLibsLock`. -/
def releaseNativeLibsLock (st : NativeState) : NativeState := st.record LinkerEvent.unlock

/-- `rvmOpenDynamicLib` (`init.c`). -/
def rvmOpenDynamicLib (linker : Linker) (env : Env) (st : NativeState) (file : String) :
    Env × NativeState × Option DynamicLib :=
  let handle := linker.dlopen file
  let st1 := st.record (LinkerEvent.dlopen file)
  if handle = 0 then (env, st1, none)
  else
    let r := rvmAllocateMemory env
    if !r.2 then (r.1, st1.record (LinkerEvent.dlclose handle), none)
    else (r.1, { st1 with nextLib := st1.nextLib + 1 },
      some { addr := st1.nextLib, handle := handle })

/-- `rvmCloseDynamicLib` (`init.c`). -/
def rvmCloseDynamicLib (st : NativeState) (lib : DynamicLib) : NativeState :=
  st.record (LinkerEvent.dlclose lib.handle)

/-- `rvmHasDynamicLib` (`init.c`): some node of the list has the handle of `lib`. -/
def rvmHasDynamicLib (lib : DynamicLib) : List DynamicLib → Bool
  | [] => false
  | dlib :: rest => if dlib.handle = lib.handle then true else rvmHasDynamicLib lib rest

/-- `rvmAddDynamicLib` (`init.c`): `LL_APPEND(*libs, lib)`. -/
def rvmAddDynamicLib (lib : DynamicLib) (libs : List DynamicLib) : List DynamicLib :=
  libs ++ [lib]

/-- `rvmFindDynamicLibSymbol` (`init.c`). -/
def rvmFindDynamicLibSymbol (linker : Linker) :
    NativeState → List DynamicLib → String → Bool → NativeState × Nat
  | st, [], _, _ => (st, 0)
  | st, dlib :: rest, symbol, searchAll =>
    let v := linker.dlsym dlib.handle symbol
    let st1 := st.record (LinkerEvent.dlsym dlib.handle symbol)
    if v ≠ 0 then (st1, v)
    else if !searchAll then (st1, 0)
    else rvmFindDynamicLibSymbol linker st1 rest symbol searchAll

/-- `rvmRegisterNative`. -/
def rvmRegisterNative (method : NativeMethod) (impl : Nat) : NativeMethod × Bool :=
  ({ method with nativeImpl := impl }, true)

/-- `rvmUnregisterNative`. -/
def rvmUnregisterNative (method : NativeMethod) : NativeMethod × Bool :=
  ({ method with nativeImpl := 0 }, true)

/-- What `rvmResolveNativeMethodImpl` leaves: the state, the method with its
slot, the store `*ptr = f` if it was made, and the value returned. -/
structure Resolved where
  env : Env
  state : NativeState
  method : NativeMethod
  ptr : Option Nat
  result : Nat
  deriving DecidableEq, Repr

/-- The lines 1069-1094 of `rvmResolveNativeMethodImpl`, with `nativeLibs`
selected. The `f` assigned by the long-name search is a second variable,
declared in the inner block: the outer `f` keeps the result of the short-name
search. -/
def rvmResolveNativeMethodImpl_search (linker : Linker) (env : Env) (st : NativeState)
    (method : NativeMethod) (shortMangledName longMangledName : String)
    (nativeLibs : List DynamicLib) : Resolved :=
  let st1 := obtainNativeLibsLock st
  let r := rvmFindDynamicLibSymbol linker st1 nativeLibs shortMangledName true
  let f := r.2
  let st2 :=
    if f ≠ 0 then r.1
    else if shortMangledName = longMangledName then
      (rvmFindDynamicLibSymbol linker r.1 nativeLibs longMangledName true).1
    else r.1
  let method1 := { method with nativeImpl := f }
  let st3 := releaseNativeLibsLock st2
  if f = 0 then
    { env := rvmThrowUnsatisfiedLinkError env, state := st3, method := method1, ptr := none,
      result := 0 }
  else { env := env, state := st3, method := method1, ptr := some f, result := f }

/-- `rvmResolveNativeMethodImpl`. -/
def rvmResolveNativeMethodImpl (vm : VM) (linker : Linker) (env : Env) (st : NativeState)
    (method : NativeMethod) (shortMangledName longMangledName : String)
    (classLoader : Option Nat) : Resolved :=
  let f := method.nativeImpl
  if f = 0 then
    match classLoader with
    | none =>
      rvmResolveNativeMethodImpl_search linker env st method shortMangledName longMangledName
        st.bootNativeLibs
    | some l =>
      match (linker.classLoaders l).parent with
      | none =>
        rvmResolveNativeMethodImpl_search linker env st method shortMangledName
          longMangledName st.bootNativeLibs
      | some parent =>
        if (linker.classLoaders parent).parent = none ∧
            (vm.classes (linker.classLoaders l).clazz).classLoader = none then
          rvmResolveNativeMethodImpl_search linker env st method shortMangledName
            longMangledName st.mainNativeLibs
        else
          { env := rvmThrowUnsatisfiedLinkError env, state := st, method := method,
            ptr := none, result := 0 }
  else { env := env, state := st, method := method, ptr := some f, result := f }

/-- The global a `DynamicLib**` of `rvmLoadNativeLibrary` points at. -/
inductive NativeLibsRef where
  | bootNativeLibs
  | mainNativeLibs
  deriving DecidableEq, Repr

/-- The list `*nativeLibs`. -/
def NativeLibsRef.get (ref : NativeLibsRef) (st : NativeState) : List DynamicLib :=
  match ref with
  | NativeLibsRef.bootNativeLibs => st.bootNativeLibs
  | NativeLibsRef.mainNativeLibs => st.mainNativeLibs

/-- The assignment to `*nativeLibs`. -/
def NativeLibsRef.set (ref : NativeLibsRef) (st : NativeState) (libs : List DynamicLib) :
    NativeState :=
  match ref with
  | NativeLibsRef.bootNativeLibs => { st with bootNativeLibs := libs }
  | NativeLibsRef.mainNativeLibs => { st with mainNativeLibs := libs }

/-- Modelled from the spec: the call of the library's initialization entry
point `JNI_OnLoad` "with the VM's embedding handle": native code that may
leave a condition pending. -/
def callJNI_OnLoad (linker : Linker) (env : Env) (st : NativeState) (function : Nat) :
    Env × NativeState :=
  let st1 := st.record (LinkerEvent.JNI_OnLoad function st.bootNativeLibs st.mainNativeLibs)
  match linker.onLoad function with
  | some t => (rvmThrow env t, st1)
  | none => (env, st1)

/-- The lines 1115-1149 of `rvmLoadNativeLibrary`, with `nativeLibs` selected. -/
def rvmLoadNativeLibrary_open (linker : Linker) (env : Env) (st : NativeState)
    (path : String) (nativeLibs : NativeLibsRef) : Env × NativeState × Bool :=
  match rvmOpenDynamicLib linker env st path with
  | (env1, st1, none) =>
    if (rvmExceptionOccurred env1).isNone then
      if st1.bootNativeLibs ≠ [] then (rvmThrowUnsatisfiedLinkError env1, st1, false)
      else (env1, st1, false)
    else (env1, st1, false)
  | (env1, st1, some lib) =>
    let st2 := obtainNativeLibsLock st1
    if rvmHasDynamicLib lib (nativeLibs.get st2) then
      let st3 := rvmCloseDynamicLib st2 lib
      (env1, releaseNativeLibsLock st3, true)
    else
      let r := rvmFindDynamicLibSymbol linker st2 [lib] "JNI_OnLoad" false
      if r.2 ≠ 0 then
        let c := callJNI_OnLoad linker env1 r.1 r.2
        if (rvmExceptionOccurred c.1).isSome then (c.1, releaseNativeLibsLock c.2, false)
        else
          let st4 := nativeLibs.set c.2 (rvmAddDynamicLib lib (nativeLibs.get c.2))
          (c.1, releaseNativeLibsLock st4, true)
      else
        let st4 := nativeLibs.set r.1 (rvmAddDynamicLib lib (nativeLibs.get r.1))
        (env1, releaseNativeLibsLock st4, true)

/-- `rvmLoadNativeLibrary`. -/
def rvmLoadNativeLibrary (vm : VM) (linker : Linker) (env : Env) (st : NativeState)
    (path : String) (classLoader : Option Nat) : Env × NativeState × Bool :=
  match classLoader with
  | none => rvmLoadNativeLibrary_open linker env st path NativeLibsRef.bootNativeLibs
  | some l =>
    match (linker.classLoaders l).parent with
    | none => rvmLoadNativeLibrary_open linker env st path NativeLibsRef.bootNativeLibs
    | some parent =>
      if (linker.classLoaders parent).parent = none ∧
          (vm.classes (linker.classLoaders l).clazz).classLoader = none then
        rvmLoadNativeLibrary_open linker env st path NativeLibsRef.mainNativeLibs
      else if st.bootNativeLibs ≠ [] then (rvmThrowUnsatisfiedLinkError env, st, false)
      else (env, st, false)

/-! ## Vocabulary of the native binding properties -/

/-- The tier of a class loader, in the words of the specification: "no
classloader or a classloader with no parent: boot-tier; a classloader whose
parent has no parent and whose own defining class has no classloader:
system-tier; any other classloader is rejected". -/
def tierOf (vm : VM) (linker : Linker) (classLoader : Option Nat) : Option NativeLibsRef :=
  match classLoader with
  | none => some NativeLibsRef.bootNativeLibs
  | some l =>
    match (linker.classLoaders l).parent with
    | none => some NativeLibsRef.bootNativeLibs
    | some parent =>
      match (linker.classLoaders parent).parent,
          (vm.classes (linker.classLoaders l).clazz).classLoader with
      | none, none => some NativeLibsRef.mainNativeLibs
      | _, _ => none

/-- The address of a symbol in a list of libraries: that of the first library,
in list order, that exports it; `0` when none does. -/
def firstExport (linker : Linker) (libs : List DynamicLib) (symbol : String) : Nat :=
  match libs.find? (fun lib => linker.dlsym lib.handle symbol ≠ 0) with
  | some lib => linker.dlsym lib.handle symbol
  | none => 0

/-- The number of entries of a list with a given handle. -/
def handleCount (handle : Nat) (libs : List DynamicLib) : Nat :=
  libs.countP (fun lib => lib.handle = handle)

/-! ## Class loaders and libraries used to exercise the native binding properties -/

/-- Three class loaders: `1` has no parent; `2` is the child of `1` and its
class has no class loader; `3` is the child of `2`. Two libraries: `libcore.so`
(handle `0x51`) exports `JNI_OnLoad` and `Java_Demo_work__I`; `libapp.so`
(handle `0x52`) exports `Java_Demo_work__I` and `Java_Demo_run`. -/
def demoLinker : Linker where
  classLoaders := fun l =>
    match l with
    | 2 => { parent := some 1, clazz := 0 }
    | 3 => { parent := some 2, clazz := 0 }
    | _ => { parent := none, clazz := 0 }
  dlopen := fun path =>
    if path = "libcore.so" then 0x51 else if path = "libapp.so" then 0x52 else 0
  dlsym := fun handle symbol =>
    if handle = 0x51 ∧ symbol = "JNI_OnLoad" then 0x5100
    else if handle = 0x51 ∧ symbol = "Java_Demo_work__I" then 0xABC0
    else if handle = 0x52 ∧ symbol = "Java_Demo_work__I" then 0xDEF0
    else if handle = 0x52 ∧ symbol = "Java_Demo_run" then 0xDEF8
    else 0
  onLoad := fun _ => none

/-- No library loaded yet. -/
def demoNoLibs : NativeState :=
  { bootNativeLibs := [], mainNativeLibs := [], nextLib := 0x9000, calls := [] }

/-- Both libraries in the boot-tier list, `libcore.so` first. -/
def demoBootLibs : NativeState :=
  { bootNativeLibs := [{ addr := 0x9000, handle := 0x51 }, { addr := 0x9001, handle := 0x52 }],
    mainNativeLibs := [], nextLib := 0x9002, calls := [] }

/-- A native method of class `4` with an empty binding slot. -/
def demoNativeMethod : NativeMethod :=
  { method := mkMethod 4 "work" "(I)V" 0x0101, nativeImpl := 0 }

/-! ## Call stack walker -/

/-- Modelled from the spec: the collaborator "locate the class owning code at
address X" (`env->vm->options->findClassAt`, absent from the sources). -/
structure Options where
  findClassAt : Nat → Option ClassId

/-- The width in bits of a `void*` of the target; the 64-bit targets are
modelled. -/
def pointerBits : Nat := 64

/-- The test of the loop of `rvmFindMethodAtAddress`:
`start && address >= start && address < end`. The end of the range is
`void* end = start + method->size`, a pointer: the sum is taken at pointer
width and wraps around the top of the address space. -/
def codeContains (address : Nat) (method : Method) : Bool :=
  method.impl ≠ 0 ∧ address ≥ method.impl ∧
    address < (method.impl + method.size) % 2 ^ pointerBits

/-- `rvmFindMethodAtAddress`. -/
def rvmFindMethodAtAddress (vm : VM) (options : Options) (env : Env) (address : Nat) :
    Env × Option Method :=
  match options.findClassAt address with
  | none => (env, none)
  | some clazz =>
    let r := rvmGetMethods vm env clazz
    if rvmExceptionCheck r.1 then (r.1, none)
    else (r.1, r.2.find? (codeContains address))

/-- One frame of the call stack as the unwinder reports it: the program
counter and the `ProxyMethod*`, null unless the frame is a proxy frame. -/
structure Frame where
  pc : Nat
  proxyMethod : Option Method
  deriving DecidableEq, Repr

/-- A `CallStackEntry`: the method and the offset into its code. -/
structure CallStackEntry where
  method : Method
  offset : Nat
  deriving DecidableEq, Repr

/-- `getCallingMethodIterator`: `data` is `*result`; the Boolean is the value
returned, `false` to stop the iteration. -/
def getCallingMethodIterator (vm : VM) (options : Options) (env : Env) (pc : Nat)
    (_proxyMethod : Option Method) (data : Option Method) : Env × Option Method × Bool :=
  let r := rvmFindMethodAtAddress vm options env pc
  match r.2 with
  | some method => (r.1, some method, false)
  | none => (r.1, data, true)

/-- `getCallStackIterator`: `data` is the list `*head`; the Boolean is the
value returned, `false` to stop the iteration. -/
def getCallStackIterator (vm : VM) (options : Options) (env : Env) (pc : Nat)
    (proxyMethod : Option Method) (data : List CallStackEntry) :
    Env × List CallStackEntry × Bool :=
  let r :=
    match proxyMethod with
    | some proxy => (env, some proxy)
    | none => rvmFindMethodAtAddress vm options env pc
  match r.2 with
  | some method =>
    let a := rvmAllocateMemory r.1
    if !a.2 then (a.1, data, false)
    else
      (a.1, data ++ [{ method := method,
                       offset := if proxyMethod.isSome then 0 else pc - method.impl }], true)
  | none => (r.1, data, true)

/-- Modelled from the spec: `unwindIterateCallStack` (`unwind.c`, absent from
the sources): "one callback per native frame on the current call stack", in
order, until the callback returns false. -/
def unwindIterateCallStack {σ : Type}
    (iterator : Env → Nat → Option Method → σ → Env × σ × Bool) :
    Env → List Frame → σ → Env × σ
  | env, [], data => (env, data)
  | env, frame :: rest, data =>
    let r := iterator env frame.pc frame.proxyMethod data
    if r.2.2 then unwindIterateCallStack iterator r.1 rest r.2.1
    else (r.1, r.2.1)

/-- `rvmGetCallingMethod`, on the call stack `frames`. -/
def rvmGetCallingMethod (vm : VM) (options : Options) (env : Env) (frames : List Frame) :
    Env × Option Method :=
  unwindIterateCallStack (getCallingMethodIterator vm options) env frames none

/-- `rvmGetCallStack`, on the call stack `frames`; the empty list is `NULL`. -/
def rvmGetCallStack (vm : VM) (options : Options) (env : Env) (frames : List Frame) :
    Env × List CallStackEntry :=
  let r := unwindIterateCallStack (getCallStackIterator vm options) env frames []
  if (rvmExceptionOccurred r.1).isSome then (r.1, [])
  else r

/-! ## Vocabulary of the call stack properties -/

/-- The method a program counter maps to: the first method, in the
declared-method list of the class located for the address, whose code range
`[entry, entry + size)` contains it. -/
def methodAt (vm : VM) (options : Options) (pc : Nat) : Option Method :=
  match options.findClassAt pc with
  | none => none
  | some clazz => (vm.classes clazz).methods.find? (codeContains pc)

/-- The entry of a frame as the specification describes it: a proxy frame
gives its proxy method at offset 0, any other frame the method its program
counter maps to, at the offset of the program counter from the entry address. -/
def frameEntry (vm : VM) (options : Options) (frame : Frame) : Option CallStackEntry :=
  match frame.proxyMethod with
  | some proxy => some { method := proxy, offset := 0 }
  | none =>
    match methodAt vm options frame.pc with
    | some method => some { method := method, offset := frame.pc - method.impl }
    | none => none

/-- The method a frame resolves to, as the specification describes it. -/
def frameMethod (vm : VM) (options : Options) (frame : Frame) : Option Method :=
  match frame.proxyMethod with
  | some proxy => some proxy
  | none => methodAt vm options frame.pc

/-! ## Code addresses used to exercise the call stack properties -/

/-- Two classes with code: class `0` has `first` at `[0x2000, 0x2040)` and
`second` at `[0x2040, 0x2060)`; class `1` has `third` at `[0x3000, 0x3010)`. -/
def walkClasses : ClassId → Class
  | 0 => { superclass := none, flags := 0x0001, classLoader := none, interfaces := [],
           methods := [{ clazz := 0, name := "first", desc := "()V", access := 0x0001,
                         impl := 0x2000, synchronizedImpl := 0, size := 0x40 },
                       { clazz := 0, name := "second", desc := "()V", access := 0x0001,
                         impl := 0x2040, synchronizedImpl := 0, size := 0x20 }] }
  | 1 => { superclass := some 0, flags := 0x0001, classLoader := none, interfaces := [],
           methods := [{ clazz := 1, name := "third", desc := "()V", access := 0x0009,
                         impl := 0x3000, synchronizedImpl := 0, size := 0x10 }] }
  | _ => { superclass := none, flags := 0x0001, classLoader := none, interfaces := [],
           methods := [] }

def walkVM : VM := { demoVM with classes := walkClasses }

/-- The class located for an address: `0` for `[0x2000, 0x2060)`, `1` for
`[0x3000, 0x3010)`, none elsewhere. -/
def walkOptions : Options where
  findClassAt := fun address =>
    if 0x2000 ≤ address ∧ address < 0x2060 then some 0
    else if 0x3000 ≤ address ∧ address < 0x3010 then some 1
    else none

/-- The method of a proxy frame. -/
def walkProxy : Method :=
  { clazz := 1, name := "$proxy", desc := "()V", access := 0x1001, impl := 0,
    synchronizedImpl := 0, size := 0 }

/-- A call stack of three real frames and, second, one proxy frame whose
program counter is in no class. -/
def walkFrames : List Frame :=
  [{ pc := 0x3004, proxyMethod := none }, { pc := 0x5008, proxyMethod := some walkProxy },
   { pc := 0x2044, proxyMethod := none }, { pc := 0x2000, proxyMethod := none }]

/-- A call stack whose nearest frame is a proxy frame, with a program counter
in no class, called from `second` of class `0`. -/
def walkProxyFirst : List Frame :=
  [{ pc := 0x5008, proxyMethod := some walkProxy }, { pc := 0x2044, proxyMethod := none }]

/-! ## Vocabulary of the descriptor parser properties -/

/-- The parameter iterator called again and again, as the loops of `method.c`
do (`while (rvmGetNextParameterType(&desc))`), from a cursor until it returns
`0`: for every call that returned a pointer, the pointer and the cursor the
call left; and the cursor left by the call that returned `0`. -/
def parameterIteration :
    Nat → Option (List Char) →
      Option (List (List Char × Option (List Char)) × Option (List Char))
  | 0, _ => none
  | _ + 1, none => none
  | fuel + 1, some desc =>
    match rvmGetNextParameterType desc with
    | none => none
    | some r =>
      match r.result with
      | none => some ([], r.desc)
      | some tag =>
        match parameterIteration fuel r.desc with
        | none => none
        | some (steps, last) => some ((tag, r.desc) :: steps, last)

/-- The pointers into a parameter list followed by `tail`: for each parameter,
the suffix that begins at its first character and the suffix that begins right
after it. -/
def parameterSteps : List ParamType → List Char → List (List Char × Option (List Char))
  | [], _ => []
  | p :: ps, tail =>
    (p.encode ++ (encodeParams ps ++ tail), some (encodeParams ps ++ tail)) ::
      parameterSteps ps tail

/-! ## Vocabulary of the resolution order -/

/-- A call of an introspection collaborator on a class: "get declared methods"
or "get declared interfaces". -/
inductive Lookup where
  | methods (clazz : ClassId)
  | interfaces (clazz : ClassId)
  deriving DecidableEq, Repr

/-- The condition the collaborator raises on this call, if any. -/
def Lookup.fault (vm : VM) : Lookup → Option Throwable
  | Lookup.methods k => vm.loadMethodsFault k
  | Lookup.interfaces k => vm.loadInterfacesFault k

/-- The class whose declared methods the call gets. -/
def Lookup.searched : Lookup → Option ClassId
  | Lookup.methods k => some k
  | Lookup.interfaces _ => none

/-- The classes of a superclass chain, in order, each searched for its declared
methods. The fuel bounds the length of the chain. -/
def traversal_superclasses (vm : VM) : Nat → Option ClassId → Option (List Lookup)
  | 0, _ => none
  | _ + 1, none => some []
  | fuel + 1, some c =>
    match traversal_superclasses vm fuel (vm.classes c).superclass with
    | none => none
    | some rest => some (Lookup.methods c :: rest)

/-- The interfaces of a list in declaration order, each with its full
resolution before the next one. -/
def traversal_interfaceList (recurse : ClassId → Option (List Lookup)) :
    List ClassId → Option (List Lookup)
  | [] => some []
  | i :: rest =>
    match recurse i with
    | none => none
    | some a =>
      match traversal_interfaceList recurse rest with
      | none => none
      | some b => some (a ++ b)

/-- The classes of a superclass chain, in order, each asked for its declared
interfaces, which are then resolved in declaration order. -/
def traversal_interfaces (vm : VM) (recurse : ClassId → Option (List Lookup)) :
    Nat → Option ClassId → Option (List Lookup)
  | 0, _ => none
  | _ + 1, none => some []
  | fuel + 1, some c =>
    match traversal_interfaceList recurse (vm.classes c).interfaces with
    | none => none
    | some a =>
      match traversal_interfaces vm recurse fuel (vm.classes c).superclass with
      | none => none
      | some b => some (Lookup.interfaces c :: (a ++ b))

/-- The order in which a resolution from `clazz` consults the collaborators
when nothing stops it, in the words of the specification: for a constructor
or static initializer the declared methods of the class only; otherwise the
classes of the superclass chain (self first), then the interfaces of every
class of the chain, depth-first, the same resolution applied to each
interface, then, for an interface, the resolution from the root Object type.
The fuel bounds the depth; `none` is a class graph that is deeper. -/
def traversal (vm : VM) (name : String) : Nat → ClassId → Option (List Lookup)
  | 0, _ => none
  | fuel + 1, clazz =>
    if name == "<init>" || name == "<clinit>" then some [Lookup.methods clazz]
    else
      match traversal_superclasses vm fuel (some clazz) with
      | none => none
      | some a =>
        match traversal_interfaces vm (fun i => traversal vm name fuel i) fuel
            (some clazz) with
        | none => none
        | some b =>
          if CLASS_IS_INTERFACE vm clazz then
            match traversal vm name fuel vm.java_lang_Object with
            | none => none
            | some o => some (a ++ b ++ o)
          else some (a ++ b)

/-- The first call of a list that decides a resolution: a call on which the
collaborator raises (the condition becomes pending, nothing is returned), or a
class whose declared methods hold the signature (its first such method is
returned). `fellThrough` when no call decides. -/
def firstOutcome (vm : VM) (name desc : String) (env : Env) : List Lookup → Env × Search
  | [] => (env, Search.fellThrough)
  | Lookup.methods k :: rest =>
    match vm.loadMethodsFault k with
    | some t => (rvmThrow env t, Search.returned none)
    | none =>
      match (vm.classes k).methods.find? (sameSignature name desc) with
      | some m => (env, Search.returned (some m))
      | none => firstOutcome vm name desc env rest
  | Lookup.interfaces k :: rest =>
    match vm.loadInterfacesFault k with
    | some t => (rvmThrow env t, Search.returned none)
    | none => firstOutcome vm name desc env rest

/-- The method a search gives. -/
def Search.result : Search → Option Method
  | Search.returned method => method
  | Search.fellThrough => none

/-! ## Class tables used to exercise the resolution order -/

/-- Six types: `0` is `java.lang.Object`; `1` and `2` are interfaces that both
declare `m()V`; `3` is an interface extending `1`; `4` is a class extending `0`
and implementing `2`; `5` is a class extending `4` and implementing `3`. -/
def orderClasses : ClassId → Class
  | 0 => { superclass := none, flags := 0x0001, classLoader := none, interfaces := [],
           methods := [mkMethod 0 "toString" "()Ljava/lang/String;" 0x0001] }
  | 1 => { superclass := none, flags := 0x0601, classLoader := none, interfaces := [],
           methods := [mkMethod 1 "m" "(I)V" 0x0401, mkMethod 1 "m" "()V" 0x0401] }
  | 2 => { superclass := none, flags := 0x0601, classLoader := none, interfaces := [],
           methods := [mkMethod 2 "m" "()V" 0x0401] }
  | 3 => { superclass := none, flags := 0x0601, classLoader := none, interfaces := [1],
           methods := [] }
  | 4 => { superclass := some 0, flags := 0x0001, classLoader := none, interfaces := [2],
           methods := [] }
  | 5 => { superclass := some 4, flags := 0x0001, classLoader := none, interfaces := [3],
           methods := [] }
  | _ => { superclass := none, flags := 0x0001, classLoader := none, interfaces := [],
           methods := [] }

def orderVM : VM := { demoVM with classes := orderClasses }

/-- The demo table with collaborators that raise: the interfaces of class `4`
do not load (condition `9`), nor do the methods of the interface `2`
(condition `10`). -/
def demoFaultVM : VM :=
  { demoVM with
    loadInterfacesFault := fun c => if c = 4 then some (Throwable.other 9) else none
    loadMethodsFault := fun c => if c = 2 then some (Throwable.other 10) else none }

/-! ## Removal from a library list -/

/-- Modelled from the spec: the macro `LL_DELETE(head, del)` of `utlist.h`
(absent from the sources), the deletion from the singly-linked "native-library
lists": when `head == del` the variable `head` is set to `head->next` and no
node is written; otherwise the list is walked for the node whose `next` is
`del`, and if there is one its `next` is set to `del->next`. Nodes are compared
by address. The result is the new value of the variable `head` and the list
that starts at the node the variable pointed at before; on an empty list the
walk reads through a null pointer: no defined result. -/
def LL_DELETE (head : List DynamicLib) (del : DynamicLib) :
    Option (List DynamicLib × List DynamicLib) :=
  match head with
  | [] => none
  | first :: rest =>
    if first.addr = del.addr then some (rest, first :: rest)
    else
      some (first :: rest.eraseP (fun dlib => dlib.addr = del.addr),
        first :: rest.eraseP (fun dlib => dlib.addr = del.addr))

/-- `rvmRemoveDynamicLib` (`init.c`): `LL_DELETE(libs, lib)` on the parameter
`libs`, a copy of the pointer the caller holds. The result is the list the
caller holds after the call, which still starts at the node it started at. -/
def rvmRemoveDynamicLib (lib : DynamicLib) (libs : List DynamicLib) :
    Option (List DynamicLib) :=
  match LL_DELETE libs lib with
  | none => none
  | some (_, callerList) => some callerList

/-! ## A class table with a synchronized override -/

/-- Three classes: `0` is `java.lang.Object`; `1` extends `0` and declares
`run()V` with code at `0x1100` and no synchronized wrapper; `2` extends `1` and
overrides `run()V` with code at `0x1200` and a synchronized wrapper at `0x1280`. -/
def syncClasses : ClassId → Class
  | 1 => { superclass := some 0, flags := 0x0001, classLoader := none, interfaces := [],
           methods := [{ clazz := 1, name := "run", desc := "()V", access := 0x0001,
                         impl := 0x1100, synchronizedImpl := 0, size := 16 }] }
  | 2 => { superclass := some 1, flags := 0x0001, classLoader := none, interfaces := [],
           methods := [{ clazz := 2, name := "run", desc := "()V", access := 0x0021,
                         impl := 0x1200, synchronizedImpl := 0x1280, size := 16 }] }
  | _ => { superclass := none, flags := 0x0001, classLoader := none, interfaces := [],
           methods := [] }

def syncVM : VM := { demoVM with classes := syncClasses }

/-- The method `run()V` as the class `1` declares it. -/
def syncBaseMethod : Method :=
  { clazz := 1, name := "run", desc := "()V", access := 0x0001, impl := 0x1100,
    synchronizedImpl := 0, size := 16 }

/-! ## A class table on which the interface fallback goes round -/

/-- Two types, neither with a superclass nor a method: `0` is
`java.lang.Object`, a class that declares the interface `1`; `1` is an
interface that declares no interface. -/
def loopClasses : ClassId → Class
  | 0 => { superclass := none, flags := 0x0001, classLoader := none, interfaces := [1],
           methods := [] }
  | 1 => { superclass := none, flags := 0x0601, classLoader := none, interfaces := [],
           methods := [] }
  | _ => { superclass := none, flags := 0x0001, classLoader := none, interfaces := [],
           methods := [] }

def loopVM : VM := { demoVM with classes := loopClasses }

/-! ## Vocabulary of the variadic entry points -/

/-- The positional cell of a variadic value `v` for a parameter, in the words
of the specification: "sub-int integer types are read as a native int and
narrowed"; a float is read as a double and converted; the other values are
stored as they are. -/
def ParamType.narrow (vm : VM) : ParamType → Nat → jvalue
  | ParamType.boolean, v => { bits := v % 2 ^ 8 }
  | ParamType.byte, v => { bits := v % 2 ^ 8 }
  | ParamType.short, v => { bits := v % 2 ^ 16 }
  | ParamType.char, v => { bits := v % 2 ^ 16 }
  | ParamType.int, v => { bits := v % 2 ^ 32 }
  | ParamType.float, v => { bits := vm.doubleToFloat (v % 2 ^ 64) }
  | _, v => { bits := v % 2 ^ 64 }

/-- The value a variadic value `v` puts into the 32-bit integer bin: `v mod 2^8`
sign-extended for a byte and zero-extended for a boolean, `v mod 2^16`
sign-extended for a short and zero-extended for a char, `v` itself, as a
32-bit integer, for an int. -/
def ParamType.variadicInt : ParamType → Nat → Option Int
  | ParamType.boolean, v => some ((v % 2 ^ 8 : Nat) : Int)
  | ParamType.byte, v => some (signed 8 v)
  | ParamType.short, v => some (signed 16 v)
  | ParamType.char, v => some ((v % 2 ^ 16 : Nat) : Int)
  | ParamType.int, v => some (signed 32 v)
  | _, _ => none

/-- The value a variadic value `v` puts into the 64-bit integer bin. -/
def ParamType.variadicLong : ParamType → Nat → Option Int
  | ParamType.long, v => some (signed 64 v)
  | _, _ => none

/-- The bits of the integer `x` passed as a variadic `jint`. -/
def jintBits (x : Int) : Nat := (x % 2 ^ 32).toNat

/-- The bits of the integer `x` passed as a variadic `jlong`. -/
def jlongBits (x : Int) : Nat := (x % 2 ^ 64).toNat

/-- Variadic values for `(ZBSCIJFD)V`: `true`, `-128`, `-32768`, `0xFFFF`, `-1`
and `-2^63`, each within the range of its parameter, then the bits of two
doubles. -/
def demoVariadicArgs : List Nat :=
  [jintBits 1, jintBits (-128), jintBits (-32768), jintBits 65535, jintBits (-1),
   jlongBits (-9223372036854775808), 0x4000000000000000, 0x4008000000000000]

/-! ## Resolution order without the step to the root Object type -/

/-- The resolution order in which the full resolution of an interface is "its
own declared methods, then its super-interfaces depth-first" and nothing more:
the classes of the superclass chain (self first), then the interfaces of every
class of the chain in declaration order, the same order applied to each
interface before the next one. It differs from `traversal` in having no step
from an interface to the root Object type. -/
def traversal_noObjectStep (vm : VM) : Nat → ClassId → Option (List Lookup)
  | 0, _ => none
  | fuel + 1, clazz =>
    match traversal_superclasses vm fuel (some clazz) with
    | none => none
    | some a =>
      match traversal_interfaces vm (fun i => traversal_noObjectStep vm fuel i) fuel
          (some clazz) with
      | none => none
      | some b => some (a ++ b)

/-- Five types: `0` is `java.lang.Object`, which declares `equals(Object)Z`;
`1` is an empty interface; `2` and `6` are interfaces that both redeclare
`equals(Object)Z`; `3` is an interface extending `1`, `2` and `6`, in this
order. -/
def siblingClasses : ClassId → Class
  | 0 => { superclass := none, flags := 0x0001, classLoader := none, interfaces := [],
           methods := [mkMethod 0 "<init>" "()V" 0x0001,
                       mkMethod 0 "equals" "(Ljava/lang/Object;)Z" 0x0001,
                       mkMethod 0 "toString" "()Ljava/lang/String;" 0x0001] }
  | 1 => { superclass := none, flags := 0x0601, classLoader := none, interfaces := [],
           methods := [] }
  | 2 => { superclass := none, flags := 0x0601, classLoader := none, interfaces := [],
           methods := [mkMethod 2 "compare" "(II)I" 0x0401,
                       mkMethod 2 "equals" "(Ljava/lang/Object;)Z" 0x0401] }
  | 3 => { superclass := none, flags := 0x0601, classLoader := none,
           interfaces := [1, 2, 6], methods := [] }
  | 6 => { superclass := none, flags := 0x0601, classLoader := none, interfaces := [],
           methods := [mkMethod 6 "equals" "(Ljava/lang/Object;)Z" 0x0401] }
  | _ => { superclass := none, flags := 0x0001, classLoader := none, interfaces := [],
           methods := [] }

def siblingVM : VM := { demoVM with classes := siblingClasses }

/-! ## Lemmas on the resolver -/

theorem sameSignature_iff (name desc : String) (m : Method) :
    sameSignature name desc m = true ↔ m.name = name ∧ m.desc = desc := by
  simp [sameSignature]

theorem find_sameSignature_eq_some (vm : VM) (c : ClassId) (name desc : String) (m : Method) :
    (vm.classes c).methods.find? (sameSignature name desc) = some m ↔
      FirstDeclared vm c name desc m := by
  rw [List.find?_eq_some]
  constructor
  · rintro ⟨hm, before, after, hsplit, hbefore⟩
    refine ⟨before, after, hsplit, ?_, (sameSignature_iff _ _ _).1 hm⟩
    intro x hx hsig
    have h1 := hbefore x hx
    rw [(sameSignature_iff name desc x).2 hsig] at h1
    simp at h1
  · rintro ⟨before, after, hsplit, hbefore, hn, hd⟩
    refine ⟨(sameSignature_iff _ _ _).2 ⟨hn, hd⟩, before, after, hsplit, ?_⟩
    intro x hx
    cases hs : sameSignature name desc x with
    | false => rfl
    | true => exact absurd ((sameSignature_iff _ _ _).1 hs) (hbefore x hx)

theorem find_sameSignature_eq_none (vm : VM) (c : ClassId) (name desc : String) :
    (vm.classes c).methods.find? (sameSignature name desc) = none ↔
      ¬ Declares vm c name desc := by
  rw [List.find?_eq_none]
  constructor
  · rintro h ⟨m, hm, hsig⟩
    exact h m hm ((sameSignature_iff _ _ _).2 hsig)
  · intro h x hx hs
    exact h ⟨x, hx, (sameSignature_iff _ _ _).1 hs⟩

theorem firstDeclared_declares {vm : VM} {c : ClassId} {name desc : String} {m : Method}
    (h : FirstDeclared vm c name desc m) : Declares vm c name desc := by
  obtain ⟨before, after, hsplit, _, hn, hd⟩ := h
  exact ⟨m, by rw [hsplit]; simp, hn, hd⟩

theorem firstDeclared_unique {vm : VM} {c : ClassId} {name desc : String} {m m2 : Method}
    (h : FirstDeclared vm c name desc m) (h2 : FirstDeclared vm c name desc m2) : m = m2 := by
  have e1 := (find_sameSignature_eq_some vm c name desc m).2 h
  have e2 := (find_sameSignature_eq_some vm c name desc m2).2 h2
  rw [e1] at e2
  exact Option.some.inj e2

theorem rvmExceptionCheck_eq_false {env : Env} (h : env.exception = none) :
    rvmExceptionCheck env = false := by
  simp [rvmExceptionCheck, h]

theorem findMethod_eq (vm : VM) (env : Env) (c : ClassId) (name desc : String)
    (hpending : env.exception = none) (hfault : vm.loadMethodsFault c = none) :
    findMethod vm env c name desc =
      (env, (vm.classes c).methods.find? (sameSignature name desc)) := by
  simp [findMethod, rvmGetMethods, hfault, rvmExceptionCheck, hpending]

/-- The state after `findMethod` is the one `rvmGetMethods` left. -/
theorem findMethod_fst (vm : VM) (env : Env) (c : ClassId) (name desc : String) :
    (findMethod vm env c name desc).1 = (rvmGetMethods vm env c).1 := by
  by_cases hc : rvmExceptionCheck (rvmGetMethods vm env c).1 = true
  · simp [findMethod, hc]
  · simp [findMethod, hc]

/-- A method returned by `findMethod` is in the class's own list, has the
signature asked for, and no condition is pending. -/
theorem findMethod_some (vm : VM) (env env1 : Env) (c : ClassId) (name desc : String)
    (m : Method) (h : findMethod vm env c name desc = (env1, some m)) :
    env1.exception = none ∧ m ∈ (vm.classes c).methods ∧ m.name = name ∧ m.desc = desc := by
  unfold findMethod at h
  by_cases hc : rvmExceptionCheck (rvmGetMethods vm env c).1 = true
  · simp [hc] at h
  · simp only [hc] at h
    simp only [Bool.false_eq_true, if_false, Prod.mk.injEq] at h
    obtain ⟨h1, h2⟩ := h
    have hnone : env1.exception = none := by
      rw [← h1]
      simpa [rvmExceptionCheck] using hc
    refine ⟨hnone, ?_⟩
    have hsig := (sameSignature_iff name desc m).1 (List.find?_some h2)
    have hmem := List.mem_of_find?_eq_some h2
    unfold rvmGetMethods at hmem
    cases hf : vm.loadMethodsFault c with
    | none => simp only [hf] at hmem; exact ⟨hmem, hsig⟩
    | some t => simp [hf] at hmem

theorem nthSuperclass_succ_of_superclass (vm : VM) (k : Nat) (c s : ClassId)
    (h : (vm.classes c).superclass = some s) :
    nthSuperclass vm (k + 1) c = nthSuperclass vm k s := by
  simp [nthSuperclass, h]

/-- The first loop returns the first matching method of the nearest class of
the chain that declares the signature. -/
theorem getMethod_superclasses_found (vm : VM) (name desc : String) (env : Env)
    (hpending : env.exception = none) (m : Method) (d : ClassId) :
    ∀ (k : Nat) (c : ClassId) (fuel : Nat), k < fuel →
      nthSuperclass vm k c = some d →
      (∀ j ≤ k, ∀ e, nthSuperclass vm j c = some e → vm.loadMethodsFault e = none) →
      (∀ j < k, ∀ e, nthSuperclass vm j c = some e → ¬ Declares vm e name desc) →
      FirstDeclared vm d name desc m →
      getMethod_superclasses vm name desc fuel env (some c) =
        some (env, Search.returned (some m)) := by
  intro k
  induction k with
  | zero =>
    intro c fuel hfuel hd hfault _ hm
    obtain ⟨f, rfl⟩ : ∃ f, fuel = f + 1 := ⟨fuel - 1, by omega⟩
    have hcd : c = d := by simpa [nthSuperclass] using hd
    subst hcd
    have hf := hfault 0 (Nat.le_refl 0) c rfl
    have hfind := (find_sameSignature_eq_some vm c name desc m).2 hm
    simp [getMethod_superclasses, findMethod_eq vm env c name desc hpending hf,
      rvmExceptionCheck_eq_false hpending, hfind]
  | succ k ih =>
    intro c fuel hfuel hd hfault hnone hm
    obtain ⟨f, rfl⟩ : ∃ f, fuel = f + 1 := ⟨fuel - 1, by omega⟩
    have hf := hfault 0 (Nat.zero_le _) c rfl
    have hfind := (find_sameSignature_eq_none vm c name desc).2
      (hnone 0 (Nat.succ_pos k) c rfl)
    cases hs : (vm.classes c).superclass with
    | none => simp [nthSuperclass, hs] at hd
    | some s =>
      have hstep : ∀ j, nthSuperclass vm (j + 1) c = nthSuperclass vm j s :=
        fun j => nthSuperclass_succ_of_superclass vm j c s hs
      simp only [getMethod_superclasses, findMethod_eq vm env c name desc hpending hf,
        rvmExceptionCheck_eq_false hpending, hfind, hs]
      simp only [Bool.false_eq_true, if_false]
      apply ih s f (by omega) (by rw [← hstep]; exact hd)
      · intro j hj e he
        exact hfault (j + 1) (by omega) e (by rw [hstep]; exact he)
      · intro j hj e he
        exact hnone (j + 1) (by omega) e (by rw [hstep]; exact he)
      · exact hm

theorem inChain_refl (vm : VM) (c : ClassId) : InChain vm c c := ⟨0, rfl⟩

theorem inChain_step {vm : VM} {c s e : ClassId} (hs : (vm.classes c).superclass = some s)
    (h : InChain vm s e) : InChain vm c e := by
  obtain ⟨k, hk⟩ := h
  exact ⟨k + 1, by rw [nthSuperclass_succ_of_superclass vm k c s hs]; exact hk⟩

theorem inChain_cases {vm : VM} {c e : ClassId} (h : InChain vm c e) :
    e = c ∨ ∃ s, (vm.classes c).superclass = some s ∧ InChain vm s e := by
  obtain ⟨k, hk⟩ := h
  cases k with
  | zero => left; simpa [nthSuperclass] using hk.symm
  | succ k =>
    right
    cases hs : (vm.classes c).superclass with
    | none => simp [nthSuperclass, hs] at hk
    | some s =>
      exact ⟨s, rfl, k, by rw [← nthSuperclass_succ_of_superclass vm k c s hs]; exact hk⟩

/-- What the first loop did, whenever it ends and nothing raises: it returned
the first match of a class of the chain, or it ran through the whole chain and
no class of it declares the signature. The state is untouched. -/
theorem getMethod_superclasses_sound (vm : VM) (hnf : NoFaults vm) (name desc : String)
    (env : Env) (hpending : env.exception = none) :
    ∀ (fuel : Nat) (c : ClassId) (env1 : Env) (s : Search),
      getMethod_superclasses vm name desc fuel env (some c) = some (env1, s) →
      env1 = env ∧
        ((s = Search.fellThrough ∧ ∀ e, InChain vm c e → ¬ Declares vm e name desc) ∨
         (∃ e m, InChain vm c e ∧ FirstDeclared vm e name desc m ∧
            s = Search.returned (some m))) := by
  intro fuel
  induction fuel with
  | zero => intro c env1 s h; simp [getMethod_superclasses] at h
  | succ f ih =>
    intro c env1 s h
    simp only [getMethod_superclasses, findMethod_eq vm env c name desc hpending (hnf c).1,
      rvmExceptionCheck_eq_false hpending] at h
    simp only [Bool.false_eq_true, if_false] at h
    cases hfind : (vm.classes c).methods.find? (sameSignature name desc) with
    | some m =>
      simp only [hfind, Option.some.injEq, Prod.mk.injEq] at h
      refine ⟨h.1.symm, Or.inr ⟨c, m, inChain_refl vm c, ?_, h.2.symm⟩⟩
      exact (find_sameSignature_eq_some vm c name desc m).1 hfind
    | none =>
      simp only [hfind] at h
      have hc := (find_sameSignature_eq_none vm c name desc).1 hfind
      cases hs : (vm.classes c).superclass with
      | none =>
        rw [hs] at h
        cases f with
        | zero => simp [getMethod_superclasses] at h
        | succ f2 =>
          simp only [getMethod_superclasses, Option.some.injEq, Prod.mk.injEq] at h
          refine ⟨h.1.symm, Or.inl ⟨h.2.symm, ?_⟩⟩
          intro e he
          rcases inChain_cases he with rfl | ⟨s2, hs2, _⟩
          · exact hc
          · rw [hs] at hs2; cases hs2
      | some sup =>
        rw [hs] at h
        obtain ⟨henv, hres⟩ := ih sup env1 s h
        refine ⟨henv, ?_⟩
        rcases hres with ⟨hft, hall⟩ | ⟨e, m, he, hm, hret⟩
        · refine Or.inl ⟨hft, ?_⟩
          intro e he
          rcases inChain_cases he with rfl | ⟨s2, hs2, he2⟩
          · exact hc
          · rw [hs] at hs2
            cases hs2
            exact hall e he2
        · exact Or.inr ⟨e, m, inChain_step hs he, hm, hret⟩

/-- The first loop ends when the fuel exceeds the rank of the class by two. -/
theorem getMethod_superclasses_total (vm : VM) (rank : ClassId → Nat)
    (hwf : WellFoundedClasses vm rank) (name desc : String) :
    ∀ (fuel : Nat) (env : Env) (c : ClassId), rank c + 1 < fuel →
      ∃ r, getMethod_superclasses vm name desc fuel env (some c) = some r := by
  intro fuel
  induction fuel with
  | zero => intro _ c h; omega
  | succ f ih =>
    intro env c hfuel
    simp only [getMethod_superclasses]
    split
    · exact ⟨_, rfl⟩
    · split
      · exact ⟨_, rfl⟩
      · cases hs : (vm.classes c).superclass with
        | none =>
          obtain ⟨f2, rfl⟩ : ∃ f2, f = f2 + 1 := ⟨f - 1, by omega⟩
          exact ⟨_, rfl⟩
        | some sup =>
          have := hwf.superclass c sup hs
          exact ih _ sup (by omega)

/-- What the inner interface loop did, whenever it ends and the recursive
resolution leaves the state alone: it returned what the first interface with a
result gave, or every interface of the list gave nothing. -/
theorem getMethod_interfaceList_sound
    (recurse : Env → ClassId → Option (Env × Option Method)) (env : Env)
    (hpending : env.exception = none) :
    ∀ (l : List ClassId),
      (∀ i ∈ l, ∀ env1 r, recurse env i = some (env1, r) → env1 = env) →
      ∀ (env1 : Env) (s : Search),
      getMethod_interfaceList recurse env l = some (env1, s) →
      env1 = env ∧
        ((s = Search.fellThrough ∧ ∀ i ∈ l, recurse env i = some (env, none)) ∨
         (∃ before i after m, l = before ++ i :: after ∧
            (∀ x ∈ before, recurse env x = some (env, none)) ∧
            recurse env i = some (env, some m) ∧ s = Search.returned (some m))) := by
  intro l
  induction l with
  | nil =>
    intro _ env1 s h
    simp only [getMethod_interfaceList, Option.some.injEq, Prod.mk.injEq] at h
    exact ⟨h.1.symm, Or.inl ⟨h.2.symm, by simp⟩⟩
  | cons i rest ih =>
    intro hrec env1 s h
    cases hr : recurse env i with
    | none => simp [getMethod_interfaceList, hr] at h
    | some p =>
      obtain ⟨env2, r⟩ := p
      have henv2 : env2 = env := hrec i (by simp) env2 r hr
      subst henv2
      simp only [getMethod_interfaceList, hr, rvmExceptionCheck_eq_false hpending] at h
      simp only [Bool.false_eq_true, if_false] at h
      cases r with
      | some m =>
        simp only [Option.some.injEq, Prod.mk.injEq] at h
        exact ⟨h.1.symm, Or.inr ⟨[], i, rest, m, rfl, by simp, hr, h.2.symm⟩⟩
      | none =>
        simp only at h
        obtain ⟨henv, hres⟩ := ih (fun j hj => hrec j (by simp [hj])) env1 s h
        refine ⟨henv, ?_⟩
        rcases hres with ⟨hft, hall⟩ | ⟨before, j, after, m, hsplit, hbefore, hj, hret⟩
        · refine Or.inl ⟨hft, ?_⟩
          intro j hj
          rcases List.mem_cons.1 hj with rfl | hj
          · exact hr
          · exact hall j hj
        · refine Or.inr ⟨i :: before, j, after, m, by rw [hsplit]; rfl, ?_, hj, hret⟩
          intro x hx
          rcases List.mem_cons.1 hx with rfl | hx
          · exact hr
          · exact hbefore x hx

theorem getMethod_interfaceList_total
    (recurse : Env → ClassId → Option (Env × Option Method)) (env : Env) :
    ∀ (l : List ClassId),
      (∀ i ∈ l, ∃ r, recurse env i = some (env, r)) →
      ∃ r, getMethod_interfaceList recurse env l = some r := by
  intro l
  induction l with
  | nil => intro _; exact ⟨_, rfl⟩
  | cons i rest ih =>
    intro hrec
    obtain ⟨r, hr⟩ := hrec i (by simp)
    simp only [getMethod_interfaceList, hr]
    split
    · exact ⟨_, rfl⟩
    · cases r with
      | some m => exact ⟨_, rfl⟩
      | none => exact ih (fun j hj => hrec j (by simp [hj]))

/-- What the interface walk did, whenever it ends and nothing raises. -/
theorem getMethod_interfaces_sound (vm : VM) (hnf : NoFaults vm)
    (recurse : Env → ClassId → Option (Env × Option Method)) (env : Env)
    (hpending : env.exception = none) :
    ∀ (fuel : Nat) (c : ClassId),
      (∀ e, InChain vm c e → ∀ i ∈ (vm.classes e).interfaces,
          ∀ env1 r, recurse env i = some (env1, r) → env1 = env) →
      ∀ (env1 : Env) (s : Search),
      getMethod_interfaces vm recurse fuel env (some c) = some (env1, s) →
      env1 = env ∧
        ((s = Search.fellThrough ∧ ∀ e, InChain vm c e → ∀ i ∈ (vm.classes e).interfaces,
            recurse env i = some (env, none)) ∨
         (∃ e i m, InChain vm c e ∧ i ∈ (vm.classes e).interfaces ∧
            recurse env i = some (env, some m) ∧ s = Search.returned (some m))) := by
  intro fuel
  induction fuel with
  | zero => intro c _ env1 s h; simp [getMethod_interfaces] at h
  | succ f ih =>
    intro c hrec env1 s h
    have hget : rvmGetInterfaces vm env c = (env, (vm.classes c).interfaces) := by
      simp [rvmGetInterfaces, (hnf c).2]
    simp only [getMethod_interfaces, hget, rvmExceptionCheck_eq_false hpending] at h
    simp only [Bool.false_eq_true, if_false] at h
    cases hl : getMethod_interfaceList recurse env (vm.classes c).interfaces with
    | none => simp [hl] at h
    | some p =>
      obtain ⟨env2, s2⟩ := p
      obtain ⟨henv2, hres2⟩ := getMethod_interfaceList_sound recurse env hpending
        (vm.classes c).interfaces (hrec c (inChain_refl vm c)) env2 s2 hl
      subst henv2
      rw [hl] at h
      rcases hres2 with ⟨hft, hall⟩ | ⟨before, i, after, m, hsplit, _, hi, hret⟩
      · subst hft
        simp only at h
        cases hs : (vm.classes c).superclass with
        | none =>
          rw [hs] at h
          cases f with
          | zero => simp [getMethod_interfaces] at h
          | succ f2 =>
            simp only [getMethod_interfaces, Option.some.injEq, Prod.mk.injEq] at h
            refine ⟨h.1.symm, Or.inl ⟨h.2.symm, ?_⟩⟩
            intro e he
            rcases inChain_cases he with rfl | ⟨s3, hs3, _⟩
            · exact hall
            · rw [hs] at hs3; cases hs3
        | some sup =>
          rw [hs] at h
          obtain ⟨henv, hres⟩ := ih sup (fun e he => hrec e (inChain_step hs he)) env1 s h
          refine ⟨henv, ?_⟩
          rcases hres with ⟨hft, hall2⟩ | ⟨e, i, m, he, hi, hr, hret⟩
          · refine Or.inl ⟨hft, ?_⟩
            intro e he
            rcases inChain_cases he with rfl | ⟨s3, hs3, he3⟩
            · exact hall
            · rw [hs] at hs3
              cases hs3
              exact hall2 e he3
          · exact Or.inr ⟨e, i, m, inChain_step hs he, hi, hr, hret⟩
      · subst hret
        simp only [Option.some.injEq, Prod.mk.injEq] at h
        refine ⟨h.1.symm, Or.inr ⟨c, i, m, inChain_refl vm c, ?_, hi, h.2.symm⟩⟩
        rw [hsplit]
        simp

theorem getMethod_interfaces_total (vm : VM) (rank : ClassId → Nat)
    (hwf : WellFoundedClasses vm rank) (hnf : NoFaults vm)
    (recurse : Env → ClassId → Option (Env × Option Method)) (env : Env)
    (hpending : env.exception = none) :
    ∀ (fuel : Nat) (c : ClassId), rank c + 1 < fuel →
      (∀ e, InChain vm c e → ∀ i ∈ (vm.classes e).interfaces,
          ∃ r, recurse env i = some (env, r)) →
      ∃ r, getMethod_interfaces vm recurse fuel env (some c) = some r := by
  intro fuel
  induction fuel with
  | zero => intro c h; omega
  | succ f ih =>
    intro c hfuel hrec
    have hget : rvmGetInterfaces vm env c = (env, (vm.classes c).interfaces) := by
      simp [rvmGetInterfaces, (hnf c).2]
    simp only [getMethod_interfaces, hget, rvmExceptionCheck_eq_false hpending]
    simp only [Bool.false_eq_true, if_false]
    obtain ⟨p, hl⟩ := getMethod_interfaceList_total recurse env (vm.classes c).interfaces
      (hrec c (inChain_refl vm c))
    obtain ⟨env2, s2⟩ := p
    have hpres : ∀ i ∈ (vm.classes c).interfaces, ∀ env1 r,
        recurse env i = some (env1, r) → env1 = env := by
      intro i hi env1 r hr
      obtain ⟨r2, hr2⟩ := hrec c (inChain_refl vm c) i hi
      rw [hr2] at hr
      simp only [Option.some.injEq, Prod.mk.injEq] at hr
      exact hr.1.symm
    obtain ⟨henv2, _⟩ := getMethod_interfaceList_sound recurse env hpending
      (vm.classes c).interfaces hpres env2 s2 hl
    subst henv2
    rw [hl]
    cases s2 with
    | returned m => exact ⟨_, rfl⟩
    | fellThrough =>
      simp only
      cases hs : (vm.classes c).superclass with
      | none =>
        obtain ⟨f2, rfl⟩ : ∃ f2, f = f2 + 1 := ⟨f - 1, by omega⟩
        exact ⟨_, rfl⟩
      | some sup =>
        have := hwf.superclass c sup hs
        exact ih sup (by omega) (fun e he => hrec e (inChain_step hs he))

theorem special_name_false {name : String} (h1 : name ≠ "<init>") (h2 : name ≠ "<clinit>") :
    (name == "<init>" || name == "<clinit>") = false := by
  simp [h1, h2]

/-- Partial correctness of `getMethod` for an inherited name, when nothing
raises: the state is untouched; a method returned is the first match of a type
the resolution looks into; and when nothing is returned, no such type declares
the signature. -/
theorem getMethod_sound (vm : VM) (hnf : NoFaults vm) (name desc : String)
    (h1 : name ≠ "<init>") (h2 : name ≠ "<clinit>") :
    ∀ (fuel : Nat) (env : Env) (c : ClassId) (env1 : Env) (r : Option Method),
      env.exception = none →
      getMethod vm fuel env c name desc = some (env1, r) →
      env1 = env ∧
        (r = none → ∀ x, Searched vm c x → ¬ Declares vm x name desc) ∧
        (∀ m, r = some m → ∃ x, Searched vm c x ∧ FirstDeclared vm x name desc m) := by
  intro fuel
  induction fuel with
  | zero => intro env c env1 r _ h; simp [getMethod] at h
  | succ f ih =>
    intro env c env1 r hpending h
    simp only [getMethod, special_name_false h1 h2] at h
    simp only [Bool.false_eq_true, if_false] at h
    cases hloop1 : getMethod_superclasses vm name desc f env (some c) with
    | none => simp [hloop1] at h
    | some p1 =>
      obtain ⟨e1, s1⟩ := p1
      obtain ⟨he1, hres1⟩ := getMethod_superclasses_sound vm hnf name desc env hpending
        f c e1 s1 hloop1
      subst he1
      rw [hloop1] at h
      rcases hres1 with ⟨hft1, hall1⟩ | ⟨e, m, he, hm, hret1⟩
      · subst hft1
        simp only at h
        have hrec : ∀ e, InChain vm c e → ∀ i ∈ (vm.classes e).interfaces,
            ∀ env1 r, (fun e i => getMethod vm f e i name desc) e1 i = some (env1, r) →
              env1 = e1 :=
          fun e _ i _ env1 r hr => (ih e1 i env1 r hpending hr).1
        cases hloop2 : getMethod_interfaces vm (fun e i => getMethod vm f e i name desc)
            f e1 (some c) with
        | none => simp [hloop2] at h
        | some p2 =>
          obtain ⟨e2, s2⟩ := p2
          obtain ⟨he2, hres2⟩ := getMethod_interfaces_sound vm hnf
            (fun e i => getMethod vm f e i name desc) e1 hpending f c hrec
            e2 s2 hloop2
          subst he2
          rw [hloop2] at h
          rcases hres2 with ⟨hft2, hall2⟩ | ⟨e, i, m, he, hi, hr, hret2⟩
          · subst hft2
            simp only at h
            by_cases hif : CLASS_IS_INTERFACE vm c = true
            · simp only [hif, if_true] at h
              obtain ⟨henv, hnone, hsome⟩ := ih e2 vm.java_lang_Object env1 r hpending h
              refine ⟨henv, ?_, ?_⟩
              · intro hr x hx
                cases hx with
                | chain hc => exact hall1 x hc
                | iface hc hi hx2 => exact (ih e2 _ e2 none hpending (hall2 _ hc _ hi)).2.1 rfl x hx2
                | object _ hx2 => exact hnone hr x hx2
              · intro m hm
                obtain ⟨x, hx, hfd⟩ := hsome m hm
                exact ⟨x, Searched.object hif hx, hfd⟩
            · simp only [hif] at h
              simp only [Bool.false_eq_true, if_false, Option.some.injEq, Prod.mk.injEq] at h
              refine ⟨h.1.symm, ?_, ?_⟩
              · intro _ x hx
                cases hx with
                | chain hc => exact hall1 x hc
                | iface hc hi hx2 => exact (ih e2 _ e2 none hpending (hall2 _ hc _ hi)).2.1 rfl x hx2
                | object hif2 _ => exact absurd hif2 hif
              · intro m hm
                rw [← h.2] at hm
                cases hm
          · subst hret2
            simp only [Option.some.injEq, Prod.mk.injEq] at h
            refine ⟨h.1.symm, ?_, ?_⟩
            · intro hr
              rw [← h.2] at hr
              cases hr
            · intro m2 hm2
              rw [← h.2] at hm2
              cases hm2
              obtain ⟨x, hx, hfd⟩ := (ih e2 i e2 (some m) hpending hr).2.2 m rfl
              exact ⟨x, Searched.iface he hi hx, hfd⟩
      · subst hret1
        simp only [Option.some.injEq, Prod.mk.injEq] at h
        refine ⟨h.1.symm, ?_, ?_⟩
        · intro hr
          rw [← h.2] at hr
          cases hr
        · intro m2 hm2
          rw [← h.2] at hm2
          cases hm2
          exact ⟨e, Searched.chain he, hm⟩

theorem rank_le_of_inChain (vm : VM) (rank : ClassId → Nat)
    (hwf : WellFoundedClasses vm rank) :
    ∀ (k : Nat) (c e : ClassId), nthSuperclass vm k c = some e → rank e ≤ rank c := by
  intro k
  induction k with
  | zero => intro c e h; simp [nthSuperclass] at h; subst h; exact Nat.le_refl _
  | succ k ih =>
    intro c e h
    cases hs : (vm.classes c).superclass with
    | none => simp [nthSuperclass, hs] at h
    | some s =>
      rw [nthSuperclass_succ_of_superclass vm k c s hs] at h
      have := ih s e h
      have := hwf.superclass c s hs
      omega

/-- Termination of `getMethod` on a well-founded class graph, when nothing raises. -/
theorem getMethod_total (vm : VM) (rank : ClassId → Nat) (hwf : WellFoundedClasses vm rank)
    (hnf : NoFaults vm) (name desc : String) :
    ∀ (fuel : Nat) (env : Env) (c : ClassId), env.exception = none → rank c + 2 < fuel →
      ∃ r, getMethod vm fuel env c name desc = some (env, r) := by
  intro fuel
  induction fuel with
  | zero => intro _ c _ h; omega
  | succ f ih =>
    intro env c hpending hfuel
    by_cases hsp : (name == "<init>" || name == "<clinit>") = true
    · simp only [getMethod, hsp, if_true, findMethod_eq vm env c name desc hpending (hnf c).1]
      exact ⟨_, rfl⟩
    · have h1 : name ≠ "<init>" := by
        intro h; apply hsp; simp [h]
      have h2 : name ≠ "<clinit>" := by
        intro h; apply hsp; simp [h]
      simp only [getMethod, hsp]
      simp only [Bool.false_eq_true, if_false]
      obtain ⟨p1, hloop1⟩ := getMethod_superclasses_total vm rank hwf name desc f env c
        (by omega)
      obtain ⟨e1, s1⟩ := p1
      obtain ⟨he1, _⟩ := getMethod_superclasses_sound vm hnf name desc env hpending
        f c e1 s1 hloop1
      subst he1
      rw [hloop1]
      cases s1 with
      | returned m => exact ⟨_, rfl⟩
      | fellThrough =>
        simp only
        have hrec : ∀ e, InChain vm c e → ∀ i ∈ (vm.classes e).interfaces,
            ∃ r, (fun e i => getMethod vm f e i name desc) e1 i = some (e1, r) := by
          intro e he i hi
          obtain ⟨k, hk⟩ := he
          have := rank_le_of_inChain vm rank hwf k c e hk
          have := hwf.interface e i hi
          exact ih e1 i hpending (by omega)
        obtain ⟨p2, hloop2⟩ := getMethod_interfaces_total vm rank hwf hnf
          (fun e i => getMethod vm f e i name desc) e1 hpending f c
          (by omega) hrec
        obtain ⟨e2, s2⟩ := p2
        have hpres : ∀ e, InChain vm c e → ∀ i ∈ (vm.classes e).interfaces,
            ∀ env1 r, (fun e i => getMethod vm f e i name desc) e1 i = some (env1, r) →
              env1 = e1 :=
          fun e _ i _ env1 r hr => (getMethod_sound vm hnf name desc h1 h2 f e1 i env1 r
            hpending hr).1
        obtain ⟨he2, _⟩ := getMethod_interfaces_sound vm hnf
          (fun e i => getMethod vm f e i name desc) e1 hpending f c hpres
          e2 s2 hloop2
        subst he2
        rw [hloop2]
        cases s2 with
        | returned m => exact ⟨_, rfl⟩
        | fellThrough =>
          simp only
          by_cases hif : CLASS_IS_INTERFACE vm c = true
          · simp only [hif, if_true]
            have := hwf.object c hif
            exact ih e2 vm.java_lang_Object hpending (by omega)
          · simp only [hif]
            exact ⟨_, rfl⟩

theorem getMethod_superclasses_some_no_pending (vm : VM) (name desc : String) :
    ∀ (fuel : Nat) (env : Env) (c : Option ClassId) (env1 : Env) (m : Method),
      getMethod_superclasses vm name desc fuel env c = some (env1, Search.returned (some m)) →
      env1.exception = none := by
  intro fuel
  induction fuel with
  | zero => intro env c env1 m h; simp [getMethod_superclasses] at h
  | succ f ih =>
    intro env c env1 m h
    cases c with
    | none => simp [getMethod_superclasses] at h
    | some c =>
      simp only [getMethod_superclasses] at h
      by_cases hc : rvmExceptionCheck (findMethod vm env c name desc).1 = true
      · simp [hc] at h
      · simp only [hc] at h
        simp only [Bool.false_eq_true, if_false] at h
        cases hr : (findMethod vm env c name desc).2 with
        | some m2 =>
          simp only [hr, Option.some.injEq, Prod.mk.injEq] at h
          rw [← h.1]
          simpa [rvmExceptionCheck] using hc
        | none =>
          simp only [hr] at h
          exact ih _ _ env1 m h

theorem getMethod_interfaceList_some_no_pending
    (recurse : Env → ClassId → Option (Env × Option Method)) :
    ∀ (l : List ClassId) (env env1 : Env) (m : Method),
      getMethod_interfaceList recurse env l = some (env1, Search.returned (some m)) →
      env1.exception = none := by
  intro l
  induction l with
  | nil => intro env env1 m h; simp [getMethod_interfaceList] at h
  | cons i rest ih =>
    intro env env1 m h
    cases hr : recurse env i with
    | none => simp [getMethod_interfaceList, hr] at h
    | some p =>
      obtain ⟨env2, r⟩ := p
      simp only [getMethod_interfaceList, hr] at h
      by_cases hc : rvmExceptionCheck env2 = true
      · simp [hc] at h
      · simp only [hc] at h
        simp only [Bool.false_eq_true, if_false] at h
        cases r with
        | some m2 =>
          simp only [Option.some.injEq, Prod.mk.injEq] at h
          rw [← h.1]
          simpa [rvmExceptionCheck] using hc
        | none => exact ih _ env1 m h

theorem getMethod_interfaces_some_no_pending (vm : VM)
    (recurse : Env → ClassId → Option (Env × Option Method)) :
    ∀ (fuel : Nat) (env : Env) (c : Option ClassId) (env1 : Env) (m : Method),
      getMethod_interfaces vm recurse fuel env c = some (env1, Search.returned (some m)) →
      env1.exception = none := by
  intro fuel
  induction fuel with
  | zero => intro env c env1 m h; simp [getMethod_interfaces] at h
  | succ f ih =>
    intro env c env1 m h
    cases c with
    | none => simp [getMethod_interfaces] at h
    | some c =>
      simp only [getMethod_interfaces] at h
      by_cases hc : rvmExceptionCheck (rvmGetInterfaces vm env c).1 = true
      · simp [hc] at h
      · simp only [hc] at h
        simp only [Bool.false_eq_true, if_false] at h
        cases hl : getMethod_interfaceList recurse (rvmGetInterfaces vm env c).1
            (rvmGetInterfaces vm env c).2 with
        | none => simp [hl] at h
        | some p =>
          obtain ⟨env2, s2⟩ := p
          rw [hl] at h
          cases s2 with
          | returned method =>
            simp only [Option.some.injEq, Prod.mk.injEq, Search.returned.injEq] at h
            obtain ⟨h1, h2⟩ := h
            subst h1 h2
            exact getMethod_interfaceList_some_no_pending recurse _ _ env2 m hl
          | fellThrough =>
            simp only at h
            exact ih _ _ env1 m h

/-- Whenever `getMethod` returns a method, no condition is pending. -/
theorem getMethod_some_no_pending (vm : VM) (name desc : String) :
    ∀ (fuel : Nat) (env : Env) (c : ClassId) (env1 : Env) (m : Method),
      getMethod vm fuel env c name desc = some (env1, some m) → env1.exception = none := by
  intro fuel
  induction fuel with
  | zero => intro env c env1 m h; simp [getMethod] at h
  | succ f ih =>
    intro env c env1 m h
    simp only [getMethod] at h
    by_cases hsp : (name == "<init>" || name == "<clinit>") = true
    · simp only [hsp, if_true, Option.some.injEq] at h
      exact (findMethod_some vm env env1 c name desc m h).1
    · simp only [hsp] at h
      simp only [Bool.false_eq_true, if_false] at h
      cases hl1 : getMethod_superclasses vm name desc f env (some c) with
      | none => simp [hl1] at h
      | some p1 =>
        obtain ⟨e1, s1⟩ := p1
        rw [hl1] at h
        cases s1 with
        | returned method =>
          simp only [Option.some.injEq, Prod.mk.injEq] at h
          obtain ⟨h1, h2⟩ := h
          subst h1 h2
          exact getMethod_superclasses_some_no_pending vm name desc f env _ e1 m hl1
        | fellThrough =>
          simp only at h
          cases hl2 : getMethod_interfaces vm (fun e i => getMethod vm f e i name desc)
              f e1 (some c) with
          | none => simp [hl2] at h
          | some p2 =>
            obtain ⟨e2, s2⟩ := p2
            rw [hl2] at h
            cases s2 with
            | returned method =>
              simp only [Option.some.injEq, Prod.mk.injEq] at h
              obtain ⟨h1, h2⟩ := h
              subst h1 h2
              exact getMethod_interfaces_some_no_pending vm _ f _ _ e2 m hl2
            | fellThrough =>
              simp only at h
              by_cases hif : CLASS_IS_INTERFACE vm c = true
              · simp only [hif, if_true] at h
                exact ih _ _ env1 m h
              · simp [hif] at h

/-! ### More fuel never changes a result -/

theorem getMethod_superclasses_mono (vm : VM) (name desc : String) :
    ∀ (fuel : Nat) (env : Env) (c : Option ClassId) (r : Env × Search),
      getMethod_superclasses vm name desc fuel env c = some r →
      getMethod_superclasses vm name desc (fuel + 1) env c = some r := by
  intro fuel
  induction fuel with
  | zero => intro env c r h; simp [getMethod_superclasses] at h
  | succ f ih =>
    intro env c r h
    cases c with
    | none => simpa [getMethod_superclasses] using h
    | some c =>
      simp only [getMethod_superclasses] at h ⊢
      by_cases hc : rvmExceptionCheck (findMethod vm env c name desc).1 = true
      · simpa [hc] using h
      · simp only [hc] at h ⊢
        simp only [Bool.false_eq_true, if_false] at h ⊢
        cases hr : (findMethod vm env c name desc).2 with
        | some m => simpa [hr] using h
        | none =>
          simp only [hr] at h ⊢
          exact ih _ _ r h

theorem getMethod_interfaceList_mono
    (rec1 rec2 : Env → ClassId → Option (Env × Option Method))
    (hrec : ∀ e i r, rec1 e i = some r → rec2 e i = some r) :
    ∀ (l : List ClassId) (env : Env) (r : Env × Search),
      getMethod_interfaceList rec1 env l = some r →
      getMethod_interfaceList rec2 env l = some r := by
  intro l
  induction l with
  | nil => intro env r h; simpa [getMethod_interfaceList] using h
  | cons i rest ih =>
    intro env r h
    cases hr : rec1 env i with
    | none => simp [getMethod_interfaceList, hr] at h
    | some p =>
      obtain ⟨env2, res⟩ := p
      simp only [getMethod_interfaceList, hr, hrec env i _ hr] at h ⊢
      by_cases hc : rvmExceptionCheck env2 = true
      · simpa [hc] using h
      · simp only [hc] at h ⊢
        simp only [Bool.false_eq_true, if_false] at h ⊢
        cases res with
        | some m => simpa using h
        | none => exact ih _ r h

theorem getMethod_interfaces_mono (vm : VM)
    (rec1 rec2 : Env → ClassId → Option (Env × Option Method))
    (hrec : ∀ e i r, rec1 e i = some r → rec2 e i = some r) :
    ∀ (fuel : Nat) (env : Env) (c : Option ClassId) (r : Env × Search),
      getMethod_interfaces vm rec1 fuel env c = some r →
      getMethod_interfaces vm rec2 (fuel + 1) env c = some r := by
  intro fuel
  induction fuel with
  | zero => intro env c r h; simp [getMethod_interfaces] at h
  | succ f ih =>
    intro env c r h
    cases c with
    | none => simpa [getMethod_interfaces] using h
    | some c =>
      simp only [getMethod_interfaces] at h ⊢
      by_cases hc : rvmExceptionCheck (rvmGetInterfaces vm env c).1 = true
      · simpa [hc] using h
      · simp only [hc] at h ⊢
        simp only [Bool.false_eq_true, if_false] at h ⊢
        cases hl : getMethod_interfaceList rec1 (rvmGetInterfaces vm env c).1
            (rvmGetInterfaces vm env c).2 with
        | none => simp [hl] at h
        | some p =>
          obtain ⟨env2, s2⟩ := p
          rw [hl] at h
          rw [getMethod_interfaceList_mono rec1 rec2 hrec _ _ _ hl]
          cases s2 with
          | returned method => simpa using h
          | fellThrough =>
            simp only at h ⊢
            exact ih _ _ r h

theorem getMethod_mono (vm : VM) (name desc : String) :
    ∀ (fuel : Nat) (env : Env) (c : ClassId) (r : Env × Option Method),
      getMethod vm fuel env c name desc = some r →
      getMethod vm (fuel + 1) env c name desc = some r := by
  intro fuel
  induction fuel with
  | zero => intro env c r h; simp [getMethod] at h
  | succ f ih =>
    intro env c r h
    rw [getMethod] at h ⊢
    by_cases hsp : (name == "<init>" || name == "<clinit>") = true
    · simpa [hsp] using h
    · simp only [hsp] at h ⊢
      simp only [Bool.false_eq_true, if_false] at h ⊢
      cases hl1 : getMethod_superclasses vm name desc f env (some c) with
      | none => simp [hl1] at h
      | some p1 =>
        obtain ⟨e1, s1⟩ := p1
        rw [hl1] at h
        rw [getMethod_superclasses_mono vm name desc f env _ _ hl1]
        cases s1 with
        | returned method => simpa using h
        | fellThrough =>
          simp only at h ⊢
          cases hl2 : getMethod_interfaces vm (fun e i => getMethod vm f e i name desc)
              f e1 (some c) with
          | none => simp [hl2] at h
          | some p2 =>
            obtain ⟨e2, s2⟩ := p2
            rw [hl2] at h
            rw [getMethod_interfaces_mono vm (fun e i => getMethod vm f e i name desc)
              (fun e i => getMethod vm (f + 1) e i name desc)
              (fun e i r hr => ih e i r hr) f e1 _ _ hl2]
            cases s2 with
            | returned method => simpa using h
            | fellThrough =>
              simp only at h ⊢
              by_cases hif : CLASS_IS_INTERFACE vm c = true
              · simp only [hif, if_true] at h ⊢
                exact ih _ _ r h
              · simpa [hif] using h

/-- A resolution that finishes within some fuel gives the same result with any
larger fuel. -/
theorem getMethod_mono_le (vm : VM) (name desc : String) (env : Env) (c : ClassId)
    (r : Env × Option Method) (fuel fuel2 : Nat) (hle : fuel ≤ fuel2)
    (h : getMethod vm fuel env c name desc = some r) :
    getMethod vm fuel2 env c name desc = some r := by
  induction hle with
  | refl => exact h
  | step _ ih => exact getMethod_mono vm name desc _ env c r ih

/-! ## Method resolver: properties of the specification -/

/-- C1: for a name other than `<init>` and `<clinit>`, when the class `D`, the
`k`-th class of the superclass chain of `C`, is the nearest one that declares
a method with exactly this name and descriptor, `getMethod` and `rvmGetMethod`
return the first such method `m` of the declared-method list of `D`, and
raise nothing. Nothing is assumed of the other methods of the classes nor of
the interfaces, so a method declared once in `C` is returned itself whatever
overloads `C` has and whatever its interfaces declare. The call is made with
no condition pending and the declared-method lists of the classes walked are
available. -/
theorem getMethod_returns_nearest_declared (vm : VM) (env : Env) (C D : ClassId)
    (name desc : String) (k : Nat) (m : Method) (fuel : Nat)
    (h1 : name ≠ "<init>") (h2 : name ≠ "<clinit>")
    (hpending : env.exception = none)
    (hD : nthSuperclass vm k C = some D)
    (hfault : ∀ j ≤ k, ∀ e, nthSuperclass vm j C = some e → vm.loadMethodsFault e = none)
    (hnearest : ∀ j < k, ∀ e, nthSuperclass vm j C = some e → ¬ Declares vm e name desc)
    (hm : FirstDeclared vm D name desc m)
    (hfuel : k + 1 < fuel) :
    getMethod vm fuel env C name desc = some (env, some m) ∧
      rvmGetMethod vm fuel env C name desc = some (env, some m) := by
  obtain ⟨f, rfl⟩ : ∃ f, fuel = f + 1 := ⟨fuel - 1, by omega⟩
  have hloop := getMethod_superclasses_found vm name desc env hpending m D k C f (by omega)
    hD hfault hnearest hm
  have hget : getMethod vm (f + 1) env C name desc = some (env, some m) := by
    simp only [getMethod, special_name_false h1 h2, hloop]
    simp
  refine ⟨hget, ?_⟩
  simp [rvmGetMethod, hget, rvmExceptionCheck_eq_false hpending]

/-- C1 on the demo table: from class `5`, whose only `run` is `run(I)V`, the
resolution of `run()V` returns the method of the superclass `4`, although the
interface `2` declares `run()V` too. -/
theorem getMethod_returns_nearest_declared_witness :
    getMethod demoVM 3 demoEnv 5 "run" "()V" = some (demoEnv, some (mkMethod 4 "run" "()V" 0x0001)) ∧
      rvmGetMethod demoVM 3 demoEnv 5 "run" "()V" =
        some (demoEnv, some (mkMethod 4 "run" "()V" 0x0001)) :=
  getMethod_returns_nearest_declared demoVM demoEnv 5 4 "run" "()V" 1
    (mkMethod 4 "run" "()V" 0x0001) 3 (by decide) (by decide) rfl rfl
    (fun _ _ _ _ => rfl)
    (fun j hj e he => by
      have hj0 : j = 0 := by omega
      subst hj0
      have he5 : e = 5 := by simpa [nthSuperclass] using he.symm
      subst he5
      exact (find_sameSignature_eq_none demoVM 5 "run" "()V").1 (by decide))
    ⟨[mkMethod 4 "<init>" "()V" 0x0001, mkMethod 4 "run" "(I)V" 0x0001],
      [mkMethod 4 "create" "()V" 0x0009], rfl, by decide, rfl, rfl⟩
    (by decide)

/-- C2: for the names `<init>` and `<clinit>`, `getMethod` is `findMethod` on
the class itself: whatever is returned is a method of the declared-method list
of `D` with the signature asked for, nothing is returned when `D` does not
declare the signature (whatever its superclasses, interfaces or
`java_lang_Object` declare), and the state is the one the get-declared-methods
collaborator left: no condition is raised when the method is absent. The
same holds of `rvmGetClassInitializer`, which asks for `<clinit>` and `()V`. -/
theorem getMethod_initializers_not_inherited (vm : VM) (fuel : Nat) (env : Env) (D : ClassId)
    (name desc : String) (hname : name = "<init>" ∨ name = "<clinit>") :
    (∃ env1 r, getMethod vm (fuel + 1) env D name desc = some (env1, r) ∧
        (∀ m, r = some m → m ∈ (vm.classes D).methods ∧ m.name = name ∧ m.desc = desc) ∧
        (¬ Declares vm D name desc → r = none) ∧
        env1 = (rvmGetMethods vm env D).1 ∧
        (vm.loadMethodsFault D = none → env1 = env)) ∧
      (∃ env1 r, rvmGetClassInitializer vm (fuel + 1) env D = some (env1, r) ∧
        (∀ m, r = some m →
          m ∈ (vm.classes D).methods ∧ m.name = "<clinit>" ∧ m.desc = "()V") ∧
        (¬ Declares vm D "<clinit>" "()V" → r = none) ∧
        env1 = (rvmGetMethods vm env D).1 ∧
        (vm.loadMethodsFault D = none → env1 = env)) := by
  have key : ∀ (n d : String), (n == "<init>" || n == "<clinit>") = true →
      ∃ env1 r, getMethod vm (fuel + 1) env D n d = some (env1, r) ∧
        (∀ m, r = some m → m ∈ (vm.classes D).methods ∧ m.name = n ∧ m.desc = d) ∧
        (¬ Declares vm D n d → r = none) ∧
        env1 = (rvmGetMethods vm env D).1 ∧
        (vm.loadMethodsFault D = none → env1 = env) := by
    intro n d hsp
    refine ⟨(findMethod vm env D n d).1, (findMethod vm env D n d).2, ?_, ?_, ?_, ?_, ?_⟩
    · simp [getMethod, hsp]
    · intro m hm
      exact (findMethod_some vm env _ D n d m (Prod.ext rfl hm)).2
    · intro hnot
      cases hr : (findMethod vm env D n d).2 with
      | none => rfl
      | some m =>
        obtain ⟨_, hmem, hn, hd⟩ := findMethod_some vm env _ D n d m (Prod.ext rfl hr)
        exact absurd ⟨m, hmem, hn, hd⟩ hnot
    · exact findMethod_fst vm env D n d
    · intro hf
      rw [findMethod_fst]
      simp [rvmGetMethods, hf]
  constructor
  · apply key
    rcases hname with rfl | rfl <;> decide
  · exact key "<clinit>" "()V" (by decide)

/-- C2 on the demo table: class `5` declares no constructor; those of its
superclasses `4` and `0` are not returned. -/
theorem getMethod_initializers_not_inherited_witness :
    (∃ env1 r, getMethod demoVM 1 demoEnv 5 "<init>" "()V" = some (env1, r) ∧
        (∀ m, r = some m →
          m ∈ (demoVM.classes 5).methods ∧ m.name = "<init>" ∧ m.desc = "()V") ∧
        (¬ Declares demoVM 5 "<init>" "()V" → r = none) ∧
        env1 = (rvmGetMethods demoVM demoEnv 5).1 ∧
        (demoVM.loadMethodsFault 5 = none → env1 = demoEnv)) ∧
      (∃ env1 r, rvmGetClassInitializer demoVM 1 demoEnv 5 = some (env1, r) ∧
        (∀ m, r = some m →
          m ∈ (demoVM.classes 5).methods ∧ m.name = "<clinit>" ∧ m.desc = "()V") ∧
        (¬ Declares demoVM 5 "<clinit>" "()V" → r = none) ∧
        env1 = (rvmGetMethods demoVM demoEnv 5).1 ∧
        (demoVM.loadMethodsFault 5 = none → env1 = demoEnv)) :=
  getMethod_initializers_not_inherited demoVM 0 demoEnv 5 "<init>" "()V" (Or.inl rfl)

theorem reachableInterface_searched {vm : VM} {c i : ClassId}
    (h : ReachableInterface vm c i) : Searched vm c i := by
  induction h with
  | direct he hi => exact Searched.iface he hi (Searched.chain (inChain_refl vm _))
  | through he hj _ ih => exact Searched.iface he hj ih

theorem demoVM_noFaults : NoFaults demoVM := fun _ => ⟨rfl, rfl⟩

theorem demoVM_wellFounded : WellFoundedClasses demoVM demoRank where
  superclass := by
    intro c s h
    rcases c with _ | _ | _ | _ | _ | _ | c <;>
      simp [demoVM, demoClasses] at h <;> subst h <;> simp [demoRank]
  interface := by
    intro c i h
    rcases c with _ | _ | _ | _ | _ | _ | c <;>
      simp [demoVM, demoClasses] at h
    · rcases h with rfl | rfl <;> simp [demoRank]
    · subst h; simp [demoRank]
    · subst h; simp [demoRank]
  object := by
    intro c h
    rcases c with _ | _ | _ | _ | _ | _ | c <;>
      simp [CLASS_IS_INTERFACE, demoVM, demoClasses, ACC_INTERFACE] at h <;>
      simp [demoVM, demoRank]

theorem demoVM_inChain_root (c e : ClassId) (hs : (demoVM.classes c).superclass = none)
    (h : InChain demoVM c e) : e = c := by
  rcases inChain_cases h with rfl | ⟨s, hs2, _⟩
  · rfl
  · rw [hs] at hs2; cases hs2

theorem demoVM_reachable_leaf (c i : ClassId) (hs : (demoVM.classes c).superclass = none)
    (hi : (demoVM.classes c).interfaces = []) : ¬ ReachableInterface demoVM c i := by
  intro h
  cases h with
  | direct he hmem =>
    rw [demoVM_inChain_root c _ hs he, hi] at hmem
    cases hmem
  | through he hmem _ =>
    rw [demoVM_inChain_root c _ hs he, hi] at hmem
    cases hmem

/-- C3 as stated fails. In the demo table the interface `3` extends the empty
interface `1` and the interface `2`; `2` is the only reachable interface that
declares `equals(Object)Z` and no class of the superclass chain of `3` (which
is `3` alone) declares it. The claim gives the method of `2`; `getMethod`
returns the method of `java.lang.Object`, found by the interface fallback
while `1` was being resolved. -/
theorem getMethod_object_fallback_precedes_later_interface :
    (∀ e, InChain demoVM 3 e → ¬ Declares demoVM e "equals" "(Ljava/lang/Object;)Z") ∧
      ReachableInterface demoVM 3 2 ∧
      FirstDeclared demoVM 2 "equals" "(Ljava/lang/Object;)Z"
        (mkMethod 2 "equals" "(Ljava/lang/Object;)Z" 0x0401) ∧
      (∀ i, ReachableInterface demoVM 3 i →
        Declares demoVM i "equals" "(Ljava/lang/Object;)Z" → i = 2) ∧
      (∀ fuel, 4 ≤ fuel →
        getMethod demoVM fuel demoEnv 3 "equals" "(Ljava/lang/Object;)Z" =
          some (demoEnv, some (mkMethod 0 "equals" "(Ljava/lang/Object;)Z" 0x0001))) ∧
      mkMethod 0 "equals" "(Ljava/lang/Object;)Z" 0x0001 ≠
        mkMethod 2 "equals" "(Ljava/lang/Object;)Z" 0x0401 := by
  refine ⟨?_, ?_, ?_, ?_, ?_, by decide⟩
  · intro e he
    rw [demoVM_inChain_root 3 e rfl he]
    exact (find_sameSignature_eq_none demoVM 3 _ _).1 (by decide)
  · exact ReachableInterface.direct (inChain_refl demoVM 3) (by decide)
  · exact ⟨[mkMethod 2 "compare" "(II)I" 0x0401], [mkMethod 2 "run" "()V" 0x0401], rfl,
      by decide, rfl, rfl⟩
  · intro i hi hdecl
    have hmem : ∀ j, j ∈ (demoVM.classes 3).interfaces → j = 1 ∨ j = 2 := by
      intro j hj
      simpa [demoVM, demoClasses] using hj
    cases hi with
    | direct he hj =>
      rw [demoVM_inChain_root 3 _ rfl he] at hj
      rcases hmem i hj with rfl | rfl
      · exact absurd hdecl ((find_sameSignature_eq_none demoVM 1 _ _).1 (by decide))
      · rfl
    | through he hj hr =>
      rw [demoVM_inChain_root 3 _ rfl he] at hj
      rcases hmem _ hj with rfl | rfl
      · exact absurd hr (demoVM_reachable_leaf 1 i rfl rfl)
      · exact absurd hr (demoVM_reachable_leaf 2 i rfl rfl)
  · intro fuel hfuel
    exact getMethod_mono_le demoVM _ _ demoEnv 3 _ 4 fuel hfuel (by decide)

/-- C3, amended: for an inherited name, on a well-founded class graph, with no
condition pending and no collaborator raising: when no class of the superclass
chain of `C` declares the signature, the interface `I` reachable from the
interface lists of the chain declares it with first match `m`, and `I` is the
only type declaring it among all those the resolution looks into (which
besides the chain and the reachable interfaces are the superclasses of those
interfaces and, through the interface fallback, `java_lang_Object`), then
`getMethod` returns `m`. -/
theorem getMethod_returns_only_declaring_interface (vm : VM) (rank : ClassId → Nat)
    (hwf : WellFoundedClasses vm rank) (hnf : NoFaults vm) (env : Env)
    (hpending : env.exception = none) (C I : ClassId) (name desc : String) (m : Method)
    (h1 : name ≠ "<init>") (h2 : name ≠ "<clinit>")
    (_hchain : ∀ e, InChain vm C e → ¬ Declares vm e name desc)
    (hreach : ReachableInterface vm C I)
    (hm : FirstDeclared vm I name desc m)
    (honly : ∀ x, Searched vm C x → Declares vm x name desc → x = I)
    (fuel : Nat) (hfuel : rank C + 2 < fuel) :
    getMethod vm fuel env C name desc = some (env, some m) := by
  obtain ⟨r, hr⟩ := getMethod_total vm rank hwf hnf name desc fuel env C hpending hfuel
  obtain ⟨_, hnone, hsome⟩ := getMethod_sound vm hnf name desc h1 h2 fuel env C env r
    hpending hr
  cases r with
  | none => exact absurd (firstDeclared_declares hm) (hnone rfl I (reachableInterface_searched hreach))
  | some m2 =>
    obtain ⟨x, hx, hfd⟩ := hsome m2 rfl
    have hxI : x = I := honly x hx (firstDeclared_declares hfd)
    subst hxI
    rw [hr, firstDeclared_unique hfd hm]

theorem demoVM_declares_compare (x : ClassId) (h : Declares demoVM x "compare" "(II)I") :
    x = 2 := by
  by_contra hx
  refine (find_sameSignature_eq_none demoVM x "compare" "(II)I").1 ?_ h
  rcases x with _ | _ | _ | _ | _ | _ | x
  · decide
  · decide
  · exact absurd rfl hx
  · decide
  · decide
  · decide
  · rfl

/-- C3, amended, on the demo table: `compare(II)I` resolved from class `5` is the
method of the interface `2`, implemented by the superclass `4`. -/
theorem getMethod_returns_only_declaring_interface_witness :
    getMethod demoVM 6 demoEnv 5 "compare" "(II)I" =
      some (demoEnv, some (mkMethod 2 "compare" "(II)I" 0x0401)) :=
  getMethod_returns_only_declaring_interface demoVM demoRank demoVM_wellFounded
    demoVM_noFaults demoEnv rfl 5 2 "compare" "(II)I" (mkMethod 2 "compare" "(II)I" 0x0401)
    (by decide) (by decide)
    (fun e _ hd => absurd (demoVM_declares_compare e hd) (by
      intro he
      subst he
      rename_i hin
      obtain ⟨k, hk⟩ := hin
      rcases k with _ | _ | _ | k <;> simp [nthSuperclass, demoVM, demoClasses] at hk))
    (ReachableInterface.direct (e := 4) ⟨1, rfl⟩ (by decide))
    ⟨[], [mkMethod 2 "equals" "(Ljava/lang/Object;)Z" 0x0401, mkMethod 2 "run" "()V" 0x0401],
      rfl, by decide, rfl, rfl⟩
    (fun x _ hd => demoVM_declares_compare x hd)
    6 (by decide)

/-- C4: when the resolution finds a method `m`, `rvmGetClassMethod` returns `m`
if `m` is static and otherwise raises IncompatibleClassChange, naming the
class, the name and the descriptor, and returns nothing; `rvmGetInstanceMethod`
returns `m` if `m` is not static and otherwise raises the same condition and
returns nothing. The condition pending after a mismatch is not NoSuchMethod. -/
theorem rvmGetClassMethod_rvmGetInstanceMethod_staticness (vm : VM) (fuel : Nat) (env : Env)
    (C : ClassId) (name desc : String) (env1 : Env) (m : Method)
    (hres : getMethod vm fuel env C name desc = some (env1, some m)) :
    rvmGetClassMethod vm fuel env C name desc =
        some (if METHOD_IS_STATIC m = true then (env1, some m)
          else (rvmThrow env1 (Throwable.IncompatibleClassChangeError C name desc), none)) ∧
      rvmGetInstanceMethod vm fuel env C name desc =
        some (if METHOD_IS_STATIC m = true
          then (rvmThrow env1 (Throwable.IncompatibleClassChangeError C name desc), none)
          else (env1, some m)) ∧
      (rvmThrow env1 (Throwable.IncompatibleClassChangeError C name desc)).exception =
        some (Throwable.IncompatibleClassChangeError C name desc) ∧
      ∀ n, (rvmThrow env1 (Throwable.IncompatibleClassChangeError C name desc)).exception ≠
        some (Throwable.NoSuchMethodError n) := by
  have hp := getMethod_some_no_pending vm name desc fuel env C env1 m hres
  have hget : rvmGetMethod vm fuel env C name desc = some (env1, some m) := by
    simp [rvmGetMethod, hres, rvmExceptionCheck_eq_false hp]
  refine ⟨?_, ?_, rfl, ?_⟩
  · cases hs : METHOD_IS_STATIC m <;>
      simp [rvmGetClassMethod, hget, hs, rvmThrowIncompatibleClassChangeErrorMethod]
  · cases hs : METHOD_IS_STATIC m <;>
      simp [rvmGetInstanceMethod, hget, hs, rvmThrowIncompatibleClassChangeErrorMethod]
  · intro n h
    simp [rvmThrow] at h

/-- C4 on the demo table: a class-method lookup of the instance method `run()V`
and an instance-method lookup of the static method `create()V` both raise
IncompatibleClassChange. -/
theorem rvmGetClassMethod_rvmGetInstanceMethod_staticness_witness :
    rvmGetClassMethod demoVM 3 demoEnv 5 "run" "()V" =
        some (rvmThrow demoEnv (Throwable.IncompatibleClassChangeError 5 "run" "()V"), none) ∧
      rvmGetInstanceMethod demoVM 3 demoEnv 5 "create" "()V" =
        some (rvmThrow demoEnv (Throwable.IncompatibleClassChangeError 5 "create" "()V"), none) :=
  ⟨(rvmGetClassMethod_rvmGetInstanceMethod_staticness demoVM 3 demoEnv 5 "run" "()V" demoEnv
      (mkMethod 4 "run" "()V" 0x0001) (by decide)).1,
    (rvmGetClassMethod_rvmGetInstanceMethod_staticness demoVM 3 demoEnv 5 "create" "()V" demoEnv
      (mkMethod 4 "create" "()V" 0x0009) (by decide)).2.1⟩

/-- C5: when neither introspection collaborator raises and the call is made with
no condition pending, `rvmGetMethod` follows the resolution: where `getMethod`
finds no match it raises NoSuchMethod (carrying the name) and returns nothing;
where `getMethod` finds `m` it returns `m` and leaves the state as it was;
it finishes exactly when `getMethod` does. So it raises NoSuchMethod and
returns nothing if and only if the resolution finds no match. -/
theorem rvmGetMethod_noSuchMethod_iff_unresolved (vm : VM) (hnf : NoFaults vm) (fuel : Nat)
    (env : Env) (hpending : env.exception = none) (C : ClassId) (name desc : String) :
    (getMethod vm fuel env C name desc = none → rvmGetMethod vm fuel env C name desc = none) ∧
      (∀ env1, getMethod vm fuel env C name desc = some (env1, none) →
        rvmGetMethod vm fuel env C name desc =
          some (rvmThrow env (Throwable.NoSuchMethodError name), none)) ∧
      (∀ env1 m, getMethod vm fuel env C name desc = some (env1, some m) →
        rvmGetMethod vm fuel env C name desc = some (env, some m)) ∧
      (∀ env2 res, rvmGetMethod vm fuel env C name desc = some (env2, res) →
        ((res = none ∧ env2.exception = some (Throwable.NoSuchMethodError name)) ↔
          ∃ env1, getMethod vm fuel env C name desc = some (env1, none))) := by
  have henv : ∀ env1 r, getMethod vm fuel env C name desc = some (env1, r) → env1 = env := by
    intro env1 r h
    by_cases hsp : (name == "<init>" || name == "<clinit>") = true
    · cases fuel with
      | zero => simp [getMethod] at h
      | succ f =>
        simp only [getMethod, hsp, if_true, Option.some.injEq,
          findMethod_eq vm env C name desc hpending (hnf C).1, Prod.mk.injEq] at h
        exact h.1.symm
    · have h1 : name ≠ "<init>" := by
        intro h; apply hsp; simp [h]
      have h2 : name ≠ "<clinit>" := by
        intro h; apply hsp; simp [h]
      exact (getMethod_sound vm hnf name desc h1 h2 fuel env C env1 r hpending h).1
  have hnoneCase : ∀ env1, getMethod vm fuel env C name desc = some (env1, none) →
      rvmGetMethod vm fuel env C name desc =
        some (rvmThrow env (Throwable.NoSuchMethodError name), none) := by
    intro env1 h
    have := henv env1 none h
    subst this
    simp [rvmGetMethod, h, rvmExceptionCheck_eq_false hpending, rvmThrowNoSuchMethodError]
  have hsomeCase : ∀ env1 m, getMethod vm fuel env C name desc = some (env1, some m) →
      rvmGetMethod vm fuel env C name desc = some (env, some m) := by
    intro env1 m h
    have := henv env1 (some m) h
    subst this
    simp [rvmGetMethod, h, rvmExceptionCheck_eq_false hpending]
  refine ⟨?_, hnoneCase, hsomeCase, ?_⟩
  · intro h
    simp [rvmGetMethod, h]
  · intro env2 res hres
    cases hg : getMethod vm fuel env C name desc with
    | none => simp [rvmGetMethod, hg] at hres
    | some p =>
      obtain ⟨env1, r⟩ := p
      cases r with
      | none =>
        rw [hnoneCase env1 hg] at hres
        simp only [Option.some.injEq, Prod.mk.injEq] at hres
        obtain ⟨he, hr⟩ := hres
        subst he hr
        simp [rvmThrow]
      | some m =>
        rw [hsomeCase env1 m hg] at hres
        simp only [Option.some.injEq, Prod.mk.injEq] at hres
        obtain ⟨he, hr⟩ := hres
        subst he hr
        simp

/-- C5 on the demo table: an undeclared signature raises NoSuchMethod, a declared
one is returned with the state untouched. -/
theorem rvmGetMethod_noSuchMethod_iff_unresolved_witness :
    rvmGetMethod demoVM 6 demoEnv 5 "missing" "()V" =
        some (rvmThrow demoEnv (Throwable.NoSuchMethodError "missing"), none) ∧
      rvmGetMethod demoVM 6 demoEnv 5 "compare" "(II)I" =
        some (demoEnv, some (mkMethod 2 "compare" "(II)I" 0x0401)) :=
  ⟨(rvmGetMethod_noSuchMethod_iff_unresolved demoVM demoVM_noFaults 6 demoEnv rfl 5
      "missing" "()V").2.1 demoEnv (by decide),
    (rvmGetMethod_noSuchMethod_iff_unresolved demoVM demoVM_noFaults 6 demoEnv rfl 5
      "compare" "(II)I").2.2.1 demoEnv _ (by decide)⟩

/-! ## Lemmas on the descriptor parser -/

theorem skipClassName_append (className rest : List Char)
    (h : className.contains ';' = false) :
    skipClassName (className ++ ';' :: rest) = some rest := by
  induction className with
  | nil => simp [skipClassName]
  | cons c cs ih =>
    simp only [List.contains_cons, Bool.or_eq_false_iff, beq_eq_false_iff_ne, ne_eq] at h
    have hc : c ≠ ';' := fun e => h.1 e.symm
    simp [skipClassName, hc, ih h.2]

/-- On the descriptor of a well-formed parameter type the iterator returns
the pointer it was given and leaves the cursor right after the type. -/
theorem rvmGetNextParameterType_param (p : ParamType) (hp : p.wellFormed = true)
    (rest : List Char) :
    rvmGetNextParameterType (p.encode ++ rest) =
      some { result := some (p.encode ++ rest), desc := some rest } := by
  induction p with
  | object className =>
    have h : className.contains ';' = false := by simpa [ParamType.wellFormed] using hp
    have hs := skipClassName_append className rest h
    simp only [ParamType.encode, List.cons_append, List.append_assoc, List.singleton_append]
    simp [rvmGetNextParameterType, hs]
  | array element ih =>
    have := ih (by simpa [ParamType.wellFormed] using hp)
    simp only [ParamType.encode, List.cons_append]
    simp [rvmGetNextParameterType, this]
  | _ => simp [ParamType.encode, rvmGetNextParameterType]

theorem rvmGetNextParameterType_open (s : List Char) :
    rvmGetNextParameterType ('(' :: s) = rvmGetNextParameterType s := by
  simp [rvmGetNextParameterType]

theorem rvmGetNextParameterType_close (ret : List Char) :
    rvmGetNextParameterType (')' :: ret) = some { result := none, desc := some ret } := by
  simp [rvmGetNextParameterType]

theorem deref_encode (p : ParamType) (rest : List Char) :
    deref (p.encode ++ rest) = p.tag := by
  cases p <;> simp [deref, ParamType.encode, ParamType.tag]

theorem encode_length_pos (p : ParamType) : 0 < p.encode.length := by
  cases p <;> simp [ParamType.encode]

theorem encodeParams_length (params : List ParamType) :
    params.length ≤ (encodeParams params).length := by
  induction params with
  | nil => simp [encodeParams]
  | cons p ps ih =>
    have := encode_length_pos p
    simp only [encodeParams, List.length_cons, List.length_append]
    omega

theorem methodDescriptor_length (params : List ParamType) (ret : List Char) :
    params.length + 2 ≤ (methodDescriptor params ret).length := by
  have := encodeParams_length params
  simp only [methodDescriptor, List.length_cons, List.length_append]
  omega

/-! ## Lemmas on the call marshaller -/

theorem initCallInfo_countCase_tag (p : ParamType) (n : ArgsCount) :
    initCallInfo_countCase p.tag n =
      { ptrArgsCount := n.ptrArgsCount + (if p.isRef then 1 else 0),
        intArgsCount := n.intArgsCount + (if p.isInt then 1 else 0),
        longArgsCount := n.longArgsCount + (if p = ParamType.long then 1 else 0),
        floatArgsCount := n.floatArgsCount + (if p = ParamType.float then 1 else 0),
        doubleArgsCount := n.doubleArgsCount + (if p = ParamType.double then 1 else 0) } := by
  cases p <;> simp [initCallInfo_countCase, ParamType.tag, ParamType.isRef, ParamType.isInt]

/-- The counting loop on a well-formed parameter list: one slot per parameter,
in the bin of its kind. -/
theorem initCallInfo_count_params (ret : List Char) :
    ∀ (params : List ParamType) (fuel : Nat) (n : ArgsCount),
      params.all ParamType.wellFormed = true → params.length < fuel →
      initCallInfo_count fuel (some (encodeParams params ++ ')' :: ret)) n =
        some { ptrArgsCount := n.ptrArgsCount + params.countP ParamType.isRef,
               intArgsCount := n.intArgsCount + params.countP ParamType.isInt,
               longArgsCount := n.longArgsCount + params.count ParamType.long,
               floatArgsCount := n.floatArgsCount + params.count ParamType.float,
               doubleArgsCount := n.doubleArgsCount + params.count ParamType.double } := by
  intro params
  induction params with
  | nil =>
    intro fuel n _ hfuel
    obtain ⟨f, rfl⟩ : ∃ f, fuel = f + 1 := ⟨fuel - 1, by omega⟩
    simp [initCallInfo_count, encodeParams, rvmGetNextParameterType_close]
  | cons p ps ih =>
    intro fuel n hwf hfuel
    obtain ⟨f, rfl⟩ : ∃ f, fuel = f + 1 := ⟨fuel - 1, by simp at hfuel; omega⟩
    simp only [List.all_cons, Bool.and_eq_true] at hwf
    simp only [List.length_cons] at hfuel
    simp only [encodeParams, List.append_assoc, initCallInfo_count,
      rvmGetNextParameterType_param p hwf.1, deref_encode]
    rw [ih f _ hwf.2 (by omega), initCallInfo_countCase_tag]
    cases p <;> simp [ParamType.isRef, ParamType.isInt, List.count_cons] <;> omega

/-- What the binding loop adds for one parameter. -/
theorem initCallInfo_bindCase_tag (p : ParamType) (callInfo : CallInfo) (arg : jvalue) :
    initCallInfo_bindCase p.tag callInfo arg =
      { callInfo with
        ptrArgs := callInfo.ptrArgs ++ (p.ptrArg arg).toList,
        intArgs := callInfo.intArgs ++ (p.intArg arg).toList,
        longArgs := callInfo.longArgs ++ (p.longArg arg).toList,
        floatArgs := callInfo.floatArgs ++ (p.floatArg arg).toList,
        doubleArgs := callInfo.doubleArgs ++ (p.doubleArg arg).toList } := by
  cases p <;> simp [initCallInfo_bindCase, ParamType.tag, ParamType.ptrArg, ParamType.intArg,
    ParamType.longArg, ParamType.floatArg, ParamType.doubleArg, call0AddInt, call0AddLong,
    call0AddFloat, call0AddDouble, call0AddPtr]

theorem initCallInfo_bindReads_tag (p : ParamType) : initCallInfo_bindReads p.tag = true := by
  cases p <;> simp [initCallInfo_bindReads, ParamType.tag]

/-- The binding loop on a well-formed parameter list with enough arguments:
the `k`-th parameter takes `args[k]` and appends it to the bin of its kind. -/
theorem initCallInfo_bind_params (ret : List Char) :
    ∀ (params : List ParamType) (fuel : Nat) (before rest : List jvalue)
      (callInfo : CallInfo),
      params.all ParamType.wellFormed = true → params.length < fuel →
      params.length ≤ rest.length →
      initCallInfo_bind (before ++ rest) fuel (some (encodeParams params ++ ')' :: ret))
          before.length callInfo =
        some { callInfo with
          ptrArgs := callInfo.ptrArgs ++
            (params.zip rest).filterMap (fun pa => pa.1.ptrArg pa.2),
          intArgs := callInfo.intArgs ++
            (params.zip rest).filterMap (fun pa => pa.1.intArg pa.2),
          longArgs := callInfo.longArgs ++
            (params.zip rest).filterMap (fun pa => pa.1.longArg pa.2),
          floatArgs := callInfo.floatArgs ++
            (params.zip rest).filterMap (fun pa => pa.1.floatArg pa.2),
          doubleArgs := callInfo.doubleArgs ++
            (params.zip rest).filterMap (fun pa => pa.1.doubleArg pa.2) } := by
  intro params
  induction params with
  | nil =>
    intro fuel before rest callInfo _ hfuel _
    obtain ⟨f, rfl⟩ : ∃ f, fuel = f + 1 := ⟨fuel - 1, by omega⟩
    simp [initCallInfo_bind, encodeParams, rvmGetNextParameterType_close]
  | cons p ps ih =>
    intro fuel before rest callInfo hwf hfuel hlen
    obtain ⟨f, rfl⟩ : ∃ f, fuel = f + 1 := ⟨fuel - 1, by simp at hfuel; omega⟩
    simp only [List.all_cons, Bool.and_eq_true] at hwf
    simp only [List.length_cons] at hfuel
    cases rest with
    | nil => simp at hlen
    | cons a rest2 =>
      simp only [List.length_cons, Nat.add_le_add_iff_right] at hlen
      have hget : (before ++ a :: rest2)[before.length]? = some a := by
        rw [List.getElem?_append_right (Nat.le_refl _)]
        simp
      simp only [encodeParams, List.append_assoc, initCallInfo_bind,
        rvmGetNextParameterType_param p hwf.1, deref_encode, initCallInfo_bindReads_tag,
        if_true, hget]
      have hargs : before ++ a :: rest2 = (before ++ [a]) ++ rest2 := by simp
      have hidx : before.length + 1 = (before ++ [a]).length := by simp
      rw [hargs, hidx, ih f (before ++ [a]) rest2 _ hwf.2 (by omega) hlen,
        initCallInfo_bindCase_tag]
      cases hp : p.ptrArg a <;> cases hi : p.intArg a <;> cases hl : p.longArg a <;>
        cases hf : p.floatArg a <;> cases hd : p.doubleArg a <;>
        simp [List.zip_cons_cons, List.filterMap_cons, hp, hi, hl, hf, hd]

theorem sameResources_refl (env : Env) : env.sameResources env := ⟨rfl, rfl⟩

theorem sameResources_trans {a b c : Env} (h1 : a.sameResources b)
    (h2 : b.sameResources c) : a.sameResources c :=
  ⟨h2.1.trans h1.1, h2.2.trans h1.2⟩

theorem rvmThrow_sameResources (env : Env) (t : Throwable) :
    env.sameResources (rvmThrow env t) := ⟨rfl, rfl⟩

theorem findMethod_sameResources (vm : VM) (env : Env) (c : ClassId) (name desc : String) :
    env.sameResources (findMethod vm env c name desc).1 := by
  rw [findMethod_fst]
  unfold rvmGetMethods
  cases vm.loadMethodsFault c with
  | none => exact sameResources_refl env
  | some t => exact rvmThrow_sameResources env t

theorem rvmGetInterfaces_sameResources (vm : VM) (env : Env) (c : ClassId) :
    env.sameResources (rvmGetInterfaces vm env c).1 := by
  unfold rvmGetInterfaces
  cases vm.loadInterfacesFault c with
  | none => exact sameResources_refl env
  | some t => exact rvmThrow_sameResources env t

theorem getMethod_superclasses_sameResources (vm : VM) (name desc : String) :
    ∀ (fuel : Nat) (env : Env) (c : Option ClassId) (r : Env × Search),
      getMethod_superclasses vm name desc fuel env c = some r → env.sameResources r.1 := by
  intro fuel
  induction fuel with
  | zero => intro env c r h; simp [getMethod_superclasses] at h
  | succ f ih =>
    intro env c r h
    have hfm := fun c => findMethod_sameResources vm env c name desc
    cases c with
    | none =>
      simp only [getMethod_superclasses, Option.some.injEq] at h
      subst h
      exact sameResources_refl env
    | some c =>
      simp only [getMethod_superclasses] at h
      by_cases hc : rvmExceptionCheck (findMethod vm env c name desc).1 = true
      · simp only [hc, if_true, Option.some.injEq] at h
        subst h
        exact hfm c
      · simp only [hc] at h
        simp only [Bool.false_eq_true, if_false] at h
        cases hr : (findMethod vm env c name desc).2 with
        | some m =>
          simp only [hr, Option.some.injEq] at h
          subst h
          exact hfm c
        | none =>
          simp only [hr] at h
          exact sameResources_trans (hfm c) (ih _ _ r h)

theorem getMethod_interfaceList_sameResources
    (recurse : Env → ClassId → Option (Env × Option Method))
    (hrec : ∀ e i r, recurse e i = some r → e.sameResources r.1) :
    ∀ (l : List ClassId) (env : Env) (r : Env × Search),
      getMethod_interfaceList recurse env l = some r → env.sameResources r.1 := by
  intro l
  induction l with
  | nil =>
    intro env r h
    simp only [getMethod_interfaceList, Option.some.injEq] at h
    subst h
    exact sameResources_refl env
  | cons i rest ih =>
    intro env r h
    cases hr : recurse env i with
    | none => simp [getMethod_interfaceList, hr] at h
    | some p =>
      obtain ⟨env2, res⟩ := p
      have h2 : env.sameResources env2 := hrec env i _ hr
      simp only [getMethod_interfaceList, hr] at h
      by_cases hc : rvmExceptionCheck env2 = true
      · simp only [hc, if_true, Option.some.injEq] at h
        subst h
        exact h2
      · simp only [hc] at h
        simp only [Bool.false_eq_true, if_false] at h
        cases res with
        | some m =>
          simp only [Option.some.injEq] at h
          subst h
          exact h2
        | none => exact sameResources_trans h2 (ih _ r h)

theorem getMethod_interfaces_sameResources (vm : VM)
    (recurse : Env → ClassId → Option (Env × Option Method))
    (hrec : ∀ e i r, recurse e i = some r → e.sameResources r.1) :
    ∀ (fuel : Nat) (env : Env) (c : Option ClassId) (r : Env × Search),
      getMethod_interfaces vm recurse fuel env c = some r → env.sameResources r.1 := by
  intro fuel
  induction fuel with
  | zero => intro env c r h; simp [getMethod_interfaces] at h
  | succ f ih =>
    intro env c r h
    cases c with
    | none =>
      simp only [getMethod_interfaces, Option.some.injEq] at h
      subst h
      exact sameResources_refl env
    | some c =>
      have hgi := rvmGetInterfaces_sameResources vm env c
      simp only [getMethod_interfaces] at h
      by_cases hc : rvmExceptionCheck (rvmGetInterfaces vm env c).1 = true
      · simp only [hc, if_true, Option.some.injEq] at h
        subst h
        exact hgi
      · simp only [hc] at h
        simp only [Bool.false_eq_true, if_false] at h
        cases hl : getMethod_interfaceList recurse (rvmGetInterfaces vm env c).1
            (rvmGetInterfaces vm env c).2 with
        | none => simp [hl] at h
        | some p =>
          obtain ⟨env2, s2⟩ := p
          have h2 := getMethod_interfaceList_sameResources recurse hrec _ _ _ hl
          rw [hl] at h
          cases s2 with
          | returned method =>
            simp only [Option.some.injEq] at h
            subst h
            exact sameResources_trans hgi h2
          | fellThrough =>
            simp only at h
            exact sameResources_trans (sameResources_trans hgi h2) (ih _ _ r h)

/-- `getMethod` touches nothing of the state but the pending condition. -/
theorem getMethod_sameResources (vm : VM) (name desc : String) :
    ∀ (fuel : Nat) (env : Env) (c : ClassId) (r : Env × Option Method),
      getMethod vm fuel env c name desc = some r → env.sameResources r.1 := by
  intro fuel
  induction fuel with
  | zero => intro env c r h; simp [getMethod] at h
  | succ f ih =>
    intro env c r h
    rw [getMethod] at h
    by_cases hsp : (name == "<init>" || name == "<clinit>") = true
    · simp only [hsp, if_true, Option.some.injEq] at h
      subst h
      exact findMethod_sameResources vm env c name desc
    · simp only [hsp] at h
      simp only [Bool.false_eq_true, if_false] at h
      cases hl1 : getMethod_superclasses vm name desc f env (some c) with
      | none => simp [hl1] at h
      | some p1 =>
        obtain ⟨e1, s1⟩ := p1
        have h1 := getMethod_superclasses_sameResources vm name desc f env _ _ hl1
        rw [hl1] at h
        cases s1 with
        | returned method =>
          simp only [Option.some.injEq] at h
          subst h
          exact h1
        | fellThrough =>
          simp only at h
          cases hl2 : getMethod_interfaces vm (fun e i => getMethod vm f e i name desc)
              f e1 (some c) with
          | none => simp [hl2] at h
          | some p2 =>
            obtain ⟨e2, s2⟩ := p2
            have h2 := getMethod_interfaces_sameResources vm
              (fun e i => getMethod vm f e i name desc) (fun e i r hr => ih e i r hr)
              f e1 _ _ hl2
            rw [hl2] at h
            cases s2 with
            | returned method =>
              simp only [Option.some.injEq] at h
              subst h
              exact sameResources_trans h1 h2
            | fellThrough =>
              simp only at h
              by_cases hif : CLASS_IS_INTERFACE vm c = true
              · simp only [hif, if_true] at h
                exact sameResources_trans (sameResources_trans h1 h2) (ih _ _ r h)
              · simp only [hif] at h
                simp only [Bool.false_eq_true, if_false, Option.some.injEq] at h
                subst h
                exact sameResources_trans h1 h2

theorem rvmGetMethod_sameResources (vm : VM) (fuel : Nat) (env : Env) (c : ClassId)
    (name desc : String) (r : Env × Option Method)
    (h : rvmGetMethod vm fuel env c name desc = some r) : env.sameResources r.1 := by
  unfold rvmGetMethod at h
  cases hg : getMethod vm fuel env c name desc with
  | none => simp [hg] at h
  | some p =>
    obtain ⟨env1, res⟩ := p
    have h1 := getMethod_sameResources vm name desc fuel env c _ hg
    rw [hg] at h
    by_cases hc : rvmExceptionCheck env1 = true
    · simp only [hc, if_true, Option.some.injEq] at h
      subst h
      exact h1
    · simp only [hc] at h
      simp only [Bool.false_eq_true, if_false] at h
      cases res with
      | none =>
        simp only [Option.some.injEq] at h
        subst h
        exact sameResources_trans h1 (rvmThrow_sameResources env1 _)
      | some m =>
        simp only [Option.some.injEq] at h
        subst h
        exact h1

/-- The dispatch step touches nothing of the state but the pending condition. -/
theorem initCallInfo_dispatch_sameResources (vm : VM) (fuel : Nat) (env : Env)
    (obj : Option Object) (method : Method) (virtual : Bool) (r : Env × Option Method)
    (h : initCallInfo_dispatch vm fuel env obj method virtual = some r) :
    env.sameResources r.1 := by
  unfold initCallInfo_dispatch at h
  split at h
  · cases obj with
    | none => simp at h
    | some o => exact rvmGetMethod_sameResources vm fuel env o.clazz _ _ r h
  · simp only [Option.some.injEq] at h
    subst h
    exact sameResources_refl env

theorem initCallInfo_count_open (fuel : Nat) (s : List Char) (n : ArgsCount) :
    initCallInfo_count (fuel + 1) (some ('(' :: s)) n =
      initCallInfo_count (fuel + 1) (some s) n := by
  simp only [initCallInfo_count, rvmGetNextParameterType_open]

theorem initCallInfo_bind_open (args : List jvalue) (fuel : Nat) (s : List Char) (i : Nat)
    (callInfo : CallInfo) :
    initCallInfo_bind args (fuel + 1) (some ('(' :: s)) i callInfo =
      initCallInfo_bind args (fuel + 1) (some s) i callInfo := by
  simp only [initCallInfo_bind, rvmGetNextParameterType_open]

theorem METHOD_IS_STATIC_eq (method : Method) :
    METHOD_IS_STATIC method = !decide (method.access &&& ACC_STATIC = 0) := by
  by_cases h : method.access &&& ACC_STATIC = 0 <;> simp [METHOD_IS_STATIC, h]

/-- The call built for a method with a well-formed descriptor, when the
allocation succeeds and the argument array covers the parameters. -/
theorem initCallInfo_build_wellFormed (env : Env) (obj : Option Object) (method : Method)
    (args : List jvalue) (params : List ParamType) (ret : List Char)
    (hdesc : method.desc.toList = methodDescriptor params ret)
    (hwf : params.all ParamType.wellFormed = true)
    (hargs : params.length ≤ args.length)
    (hheap : env.heapFree ≠ 0) :
    initCallInfo_build env obj method args =
      some ({ env with heapFree := env.heapFree - 1 },
        some (marshalledCall obj method params args)) := by
  have hlen : method.desc.length = (methodDescriptor params ret).length := by
    rw [← hdesc]; rfl
  have hfuel : params.length < method.desc.length := by
    have := methodDescriptor_length params ret
    omega
  have hcount := initCallInfo_count_params ret params (method.desc.length + 1)
    { ptrArgsCount := if method.access &&& ACC_STATIC = 0 then 2 else 1, intArgsCount := 0,
      longArgsCount := 0, floatArgsCount := 0, doubleArgsCount := 0 } hwf (by omega)
  have hbind := fun callInfo => initCallInfo_bind_params ret params (method.desc.length + 1)
    [] args callInfo hwf (by omega) hargs
  simp only [List.nil_append, List.length_nil] at hbind
  unfold initCallInfo_build
  simp only [hdesc, methodDescriptor, initCallInfo_count_open, initCallInfo_bind_open, hcount,
    hbind, call0AllocateCallInfo, rvmAllocateMemory, hheap, if_false]
  by_cases hs : method.access &&& ACC_STATIC = 0
  · simp [hs, marshalledCall, implicitPtrs, METHOD_IS_STATIC_eq, call0AddPtr, entryPoint,
      Nat.add_comm]
  · simp [hs, marshalledCall, implicitPtrs, METHOD_IS_STATIC_eq, call0AddPtr, entryPoint,
      Nat.add_comm]

/-- When the counting pass has finished and the allocation fails, nothing is
built: OutOfMemory is pending and the result is `NULL`. -/
theorem initCallInfo_build_alloc_fails (env : Env) (obj : Option Object) (method : Method)
    (args : List jvalue) (n : ArgsCount)
    (hcount : initCallInfo_count (method.desc.length + 1) (some method.desc.toList)
      { ptrArgsCount := if method.access &&& ACC_STATIC = 0 then 2 else 1, intArgsCount := 0,
        longArgsCount := 0, floatArgsCount := 0, doubleArgsCount := 0 } = some n)
    (hheap : env.heapFree = 0) :
    initCallInfo_build env obj method args =
      some (rvmThrow env Throwable.OutOfMemoryError, none) := by
  unfold initCallInfo_build
  simp only [hcount, call0AllocateCallInfo, rvmAllocateMemory, hheap, if_true]
  rfl

/-- Building a call makes no collaborator call. -/
theorem initCallInfo_build_trace (env : Env) (obj : Option Object) (method : Method)
    (args : List jvalue) (r : Env × Option CallInfo)
    (h : initCallInfo_build env obj method args = some r) : r.1.trace = env.trace := by
  unfold initCallInfo_build at h
  simp only [call0AllocateCallInfo, rvmAllocateMemory] at h
  generalize initCallInfo_count _ _ _ = cnt at h
  cases cnt with
  | none => simp at h
  | some n =>
    simp only at h
    by_cases hheap : env.heapFree = 0
    · simp only [hheap, if_true, Bool.false_eq_true, if_false, Option.some.injEq] at h
      subst h
      rfl
    · simp only [hheap, if_false, if_true] at h
      generalize initCallInfo_bind _ _ _ _ _ = b at h
      cases b with
      | none => simp at h
      | some callInfo =>
        simp only [Option.some.injEq] at h
        subst h
        rfl

/-- `initCallInfo` makes no collaborator call: the trace is as it was. -/
theorem initCallInfo_trace (vm : VM) (fuel : Nat) (env : Env) (obj : Option Object)
    (method : Method) (virtual : Bool) (args : List jvalue) (r : Env × Option CallInfo)
    (h : initCallInfo vm fuel env obj method virtual args = some r) :
    r.1.trace = env.trace := by
  unfold initCallInfo at h
  cases hd : initCallInfo_dispatch vm fuel env obj method virtual with
  | none => simp [hd] at h
  | some p =>
    obtain ⟨env1, m⟩ := p
    have h1 := (initCallInfo_dispatch_sameResources vm fuel env obj method virtual _ hd).1
    rw [hd] at h
    cases m with
    | none =>
      simp only [Option.some.injEq] at h
      subst h
      exact h1
    | some method1 =>
      simp only at h
      rw [initCallInfo_build_trace env1 obj method1 args r h]
      exact h1

/-! ## Entry point of the call built -/

theorem initCallInfo_bindCase_function (c : Char) (callInfo : CallInfo) (arg : jvalue) :
    (initCallInfo_bindCase c callInfo arg).function = callInfo.function := by
  unfold initCallInfo_bindCase
  repeat' split
  all_goals rfl

/-- The binding loop does not touch the entry point of the call. -/
theorem initCallInfo_bind_function (args : List jvalue) :
    ∀ (fuel : Nat) (desc : Option (List Char)) (i : Nat) (callInfo result : CallInfo),
      initCallInfo_bind args fuel desc i callInfo = some result →
      result.function = callInfo.function := by
  intro fuel
  induction fuel with
  | zero => intro desc i callInfo result h; simp [initCallInfo_bind] at h
  | succ f ih =>
    intro desc i callInfo result h
    cases desc with
    | none => simp [initCallInfo_bind] at h
    | some d =>
      simp only [initCallInfo_bind] at h
      cases hr : rvmGetNextParameterType d with
      | none => simp [hr] at h
      | some r =>
        simp only [hr] at h
        cases hres : r.result with
        | none =>
          simp only [hres, Option.some.injEq] at h
          rw [← h]
        | some c =>
          simp only [hres] at h
          by_cases hreads : initCallInfo_bindReads (deref c) = true
          · simp only [hreads, if_true] at h
            cases harg : args[i]? with
            | none => simp [harg] at h
            | some arg =>
              simp only [harg] at h
              rw [ih _ _ _ _ h, initCallInfo_bindCase_function]
          · simp only [hreads] at h
            exact ih _ _ _ _ h

/-- The entry point of a call `initCallInfo_build` returns. -/
theorem initCallInfo_build_function (env env1 : Env) (obj : Option Object) (method : Method)
    (args : List jvalue) (callInfo : CallInfo)
    (h : initCallInfo_build env obj method args = some (env1, some callInfo)) :
    callInfo.function =
      if method.synchronizedImpl ≠ 0 then method.synchronizedImpl else method.impl := by
  unfold initCallInfo_build at h
  simp only at h
  split at h
  · cases h
  · rename_i n _
    simp only [call0AllocateCallInfo] at h
    by_cases halloc : (rvmAllocateMemory env).2 = true
    · simp only [halloc, if_true] at h
      split at h
      · cases h
      · rename_i callInfo3 hbind
        simp only [Option.some.injEq, Prod.mk.injEq] at h
        rw [← h.2, initCallInfo_bind_function args _ _ _ _ _ hbind]
        split <;> rfl
    · simp only [halloc] at h
      simp at h

/-! ## Call marshaller: properties of the specification -/

/-- C6: in `initCallInfo` on a receiver of class `R`, when the mode is virtual
and the method `m` given is not private, the call is built for the method
`rvmGetMethod(R, m.name, m.desc)` resolves: when the resolution gives
`resolved`, every call returned has the entry point of `resolved`, and for a
well-formed descriptor of `resolved`, with the allocation succeeding and the
argument array covering the parameters, the call returned is the marshalled
call of `resolved` (its entry point; the receiver among the implicit pointers
unless `resolved` is static; the bins of the parameters of its descriptor);
and when the resolution fails no call is built, the state being the one the
resolution left. When the mode is not virtual, or `m` is private, the same
holds with `m` itself, from the state as it was, and no resolution is
performed: the result is the same for every class table and every fuel. -/
theorem initCallInfo_virtual_uses_resolved_method (vm : VM) (fuel : Nat) (env : Env)
    (obj : Option Object) (method : Method) (args : List jvalue) :
    (∀ o, obj = some o → method.access &&& ACC_PRIVATE = 0 →
      (rvmGetMethod vm fuel env o.clazz method.name method.desc = none →
        initCallInfo vm fuel env obj method true args = none) ∧
      (∀ env1, rvmGetMethod vm fuel env o.clazz method.name method.desc = some (env1, none) →
        initCallInfo vm fuel env obj method true args = some (env1, none)) ∧
      (∀ env1 resolved,
        rvmGetMethod vm fuel env o.clazz method.name method.desc =
            some (env1, some resolved) →
          initCallInfo vm fuel env obj method true args =
            initCallInfo_build env1 obj resolved args ∧
          (∀ env2 callInfo,
            initCallInfo vm fuel env obj method true args = some (env2, some callInfo) →
              callInfo.function = entryPoint resolved) ∧
          (∀ params ret, resolved.desc.toList = methodDescriptor params ret →
            params.all ParamType.wellFormed = true → params.length ≤ args.length →
            env.heapFree ≠ 0 →
              initCallInfo vm fuel env obj method true args =
                some ({ env1 with heapFree := env1.heapFree - 1 },
                  some (marshalledCall obj resolved params args))))) ∧
    (∀ virtual : Bool, (virtual = false ∨ method.access &&& ACC_PRIVATE ≠ 0) →
      initCallInfo vm fuel env obj method virtual args =
        initCallInfo_build env obj method args ∧
      (∀ (vm2 : VM) (fuel2 : Nat), initCallInfo vm2 fuel2 env obj method virtual args =
        initCallInfo vm fuel env obj method virtual args) ∧
      (∀ env2 callInfo,
        initCallInfo vm fuel env obj method virtual args = some (env2, some callInfo) →
          callInfo.function = entryPoint method) ∧
      (∀ params ret, method.desc.toList = methodDescriptor params ret →
        params.all ParamType.wellFormed = true → params.length ≤ args.length →
        env.heapFree ≠ 0 →
          initCallInfo vm fuel env obj method virtual args =
            some ({ env with heapFree := env.heapFree - 1 },
              some (marshalledCall obj method params args)))) := by
  refine ⟨?_, ?_⟩
  · intro o ho hpriv
    subst ho
    have hd : initCallInfo_dispatch vm fuel env (some o) method true =
        rvmGetMethod vm fuel env o.clazz method.name method.desc := by
      simp [initCallInfo_dispatch, hpriv]
    refine ⟨?_, ?_, ?_⟩
    · intro h
      simp only [initCallInfo, hd, h]
    · intro env1 h
      simp only [initCallInfo, hd, h]
    · intro env1 resolved h
      have hb : initCallInfo vm fuel env (some o) method true args =
          initCallInfo_build env1 (some o) resolved args := by
        simp only [initCallInfo, hd, h]
      refine ⟨hb, ?_, ?_⟩
      · intro env2 callInfo hc
        rw [hb] at hc
        exact initCallInfo_build_function env1 env2 (some o) resolved args callInfo hc
      · intro params ret hdesc hwf hargs hheap
        rw [hb]
        have hres := rvmGetMethod_sameResources vm fuel env o.clazz _ _ _ h
        exact initCallInfo_build_wellFormed env1 (some o) resolved args params ret hdesc hwf
          hargs (by rw [hres.2]; exact hheap)
  · intro virtual hcase
    have hd : ∀ (vm2 : VM) (fuel2 : Nat),
        initCallInfo_dispatch vm2 fuel2 env obj method virtual = some (env, some method) := by
      intro vm2 fuel2
      rcases hcase with hv | hpriv
      · subst hv
        simp [initCallInfo_dispatch]
      · simp [initCallInfo_dispatch, hpriv]
    have hb : ∀ (vm2 : VM) (fuel2 : Nat),
        initCallInfo vm2 fuel2 env obj method virtual args =
          initCallInfo_build env obj method args := by
      intro vm2 fuel2
      simp only [initCallInfo, hd vm2 fuel2]
    refine ⟨hb vm fuel, ?_, ?_, ?_⟩
    · intro vm2 fuel2
      rw [hb vm2 fuel2, hb vm fuel]
    · intro env2 callInfo hc
      rw [hb vm fuel] at hc
      exact initCallInfo_build_function env env2 obj method args callInfo hc
    · intro params ret hdesc hwf hargs hheap
      rw [hb vm fuel]
      exact initCallInfo_build_wellFormed env obj method args params ret hdesc hwf hargs hheap

/-- C6 on the demo table: a virtual call of `run(I)V` of class `4` (code at
`0x1400`) on a receiver of class `5` is the call of the override of `5`: the
entry point is `0x1500`, the receiver is the second pointer and the argument
is in the 32-bit integer bin; nothing is built when the resolution fails; and
a private method is used as given, with its entry point `0x1400`, also with a
class table in which nothing can be resolved. -/
theorem initCallInfo_virtual_uses_resolved_method_witness :
    initCallInfo demoVM 3 demoEnv (some demoReceiver) (mkMethod 4 "run" "(I)V" 0x0001) true
        [{ bits := 42 }] =
      some ({ demoEnv with heapFree := 7 },
        some { function := 0x1500, ptrArgsCount := 2, intArgsCount := 1, longArgsCount := 0,
               floatArgsCount := 0, doubleArgsCount := 0,
               ptrArgs := [Ptr.env, Ptr.ref 0x7000], intArgs := [42], longArgs := [],
               floatArgs := [], doubleArgs := [] }) ∧
    initCallInfo demoVM 6 demoEnv (some demoReceiver) (mkMethod 4 "gone" "()V" 0x0001) true [] =
      some (rvmThrow demoEnv (Throwable.NoSuchMethodError "gone"), none) ∧
    initCallInfo demoVM 0 demoEnv (some demoReceiver) (mkMethod 4 "run" "(I)V" 0x0003) true
        [{ bits := 42 }] =
      some ({ demoEnv with heapFree := 7 },
        some { function := 0x1400, ptrArgsCount := 2, intArgsCount := 1, longArgsCount := 0,
               floatArgsCount := 0, doubleArgsCount := 0,
               ptrArgs := [Ptr.env, Ptr.ref 0x7000], intArgs := [42], longArgs := [],
               floatArgs := [], doubleArgs := [] }) :=
  ⟨((((initCallInfo_virtual_uses_resolved_method demoVM 3 demoEnv (some demoReceiver)
        (mkMethod 4 "run" "(I)V" 0x0001) [{ bits := 42 }]).1 demoReceiver rfl
        (by decide)).2.2 demoEnv (mkMethod 5 "run" "(I)V" 0x0001) (by decide)).2.2
        [ParamType.int] ['V'] (by decide) (by decide) (by decide) (by decide)).trans
        (by decide),
    (((initCallInfo_virtual_uses_resolved_method demoVM 6 demoEnv (some demoReceiver)
        (mkMethod 4 "gone" "()V" 0x0001) []).1 demoReceiver rfl (by decide)).2.1
        (rvmThrow demoEnv (Throwable.NoSuchMethodError "gone")) (by decide)),
    ((((initCallInfo_virtual_uses_resolved_method demoVM 3 demoEnv (some demoReceiver)
        (mkMethod 4 "run" "(I)V" 0x0003) [{ bits := 42 }]).2 true
        (Or.inr (by decide))).2.1 demoVM 0).trans
      (((initCallInfo_virtual_uses_resolved_method demoVM 3 demoEnv (some demoReceiver)
        (mkMethod 4 "run" "(I)V" 0x0003) [{ bits := 42 }]).2 true
        (Or.inr (by decide))).2.2.2 [ParamType.int] ['V'] (by decide) (by decide)
        (by decide) (by decide))).trans (by decide)⟩

/-- C7: let `method` be the method `initCallInfo` builds the call for (the one
given, or the one re-resolved in virtual mode), with the well-formed
descriptor `(params)ret`. When the allocation succeeds and the argument array
covers the parameters, `initCallInfo` returns a `CallInfo` whose bins were
requested with the sizes: int = the number of Z/B/S/C/I parameters, long = the
number of J parameters, float = the number of F parameters, double = the
number of D parameters, pointer = 1, plus 1 unless the method is static, plus
the number of object and array parameters. -/
theorem initCallInfo_requested_bin_sizes (vm : VM) (fuel : Nat) (env0 : Env)
    (obj : Option Object) (given : Method) (virtual : Bool) (args : List jvalue)
    (env : Env) (method : Method) (params : List ParamType) (ret : List Char)
    (hdispatch : initCallInfo_dispatch vm fuel env0 obj given virtual = some (env, some method))
    (hdesc : method.desc.toList = methodDescriptor params ret)
    (hwf : params.all ParamType.wellFormed = true)
    (hargs : params.length ≤ args.length)
    (hheap : env.heapFree ≠ 0) :
    ∃ callInfo, initCallInfo vm fuel env0 obj given virtual args =
        some ({ env with heapFree := env.heapFree - 1 }, some callInfo) ∧
      callInfo.intArgsCount = params.countP ParamType.isInt ∧
      callInfo.longArgsCount = params.count ParamType.long ∧
      callInfo.floatArgsCount = params.count ParamType.float ∧
      callInfo.doubleArgsCount = params.count ParamType.double ∧
      callInfo.ptrArgsCount =
        1 + (if METHOD_IS_STATIC method = true then 0 else 1) +
          params.countP ParamType.isRef := by
  refine ⟨marshalledCall obj method params args, ?_, rfl, rfl, rfl, rfl, ?_⟩
  · simp only [initCallInfo, hdispatch]
    exact initCallInfo_build_wellFormed env obj method args params ret hdesc hwf hargs hheap
  · cases hs : METHOD_IS_STATIC method <;> simp [marshalledCall, implicitPtrs, hs]

/-- C7 for `(ZBSCIJFD)V`: int 5, long 1, float 1, double 1, and pointer 1 for the
static method, 2 for the instance method. -/
theorem initCallInfo_requested_bin_sizes_witness :
    (∃ callInfo, initCallInfo demoVM 3 demoEnv none demoStaticMethod false demoArgs =
        some ({ demoEnv with heapFree := demoEnv.heapFree - 1 }, some callInfo) ∧
      callInfo.intArgsCount = 5 ∧ callInfo.longArgsCount = 1 ∧ callInfo.floatArgsCount = 1 ∧
      callInfo.doubleArgsCount = 1 ∧ callInfo.ptrArgsCount = 1) ∧
    (∃ callInfo, initCallInfo demoVM 3 demoEnv (some demoReceiver) demoInstanceMethod false
          demoArgs =
        some ({ demoEnv with heapFree := demoEnv.heapFree - 1 }, some callInfo) ∧
      callInfo.intArgsCount = 5 ∧ callInfo.longArgsCount = 1 ∧ callInfo.floatArgsCount = 1 ∧
      callInfo.doubleArgsCount = 1 ∧ callInfo.ptrArgsCount = 2) :=
  ⟨initCallInfo_requested_bin_sizes demoVM 3 demoEnv none demoStaticMethod false demoArgs
      demoEnv demoStaticMethod demoPrimitives ['V'] rfl (by decide) (by decide) (by decide)
      (by decide),
    initCallInfo_requested_bin_sizes demoVM 3 demoEnv (some demoReceiver) demoInstanceMethod
      false demoArgs demoEnv demoInstanceMethod demoPrimitives ['V'] rfl (by decide)
      (by decide) (by decide) (by decide)⟩

/-! ### What the call operations do with the call built -/

theorem rvmInitialize_trace (vm : VM) (env : Env) (clazz : ClassId) :
    (rvmInitialize vm env clazz).trace = env.trace ++ [Event.classInit clazz] := by
  unfold rvmInitialize
  cases vm.initializeFault clazz <;> rfl

theorem invoke_trace (vm : VM) (env : Env) (callInfo : CallInfo) :
    (rvmPopGatewayFrame (_call0 vm (rvmPushGatewayFrame env) callInfo).1).trace =
      env.trace ++ [Event.pushGatewayFrame, Event.call0 callInfo, Event.popGatewayFrame] := by
  unfold _call0
  cases (vm.native callInfo).2 <;>
    simp [rvmPopGatewayFrame, rvmPushGatewayFrame, rvmThrow]

theorem rvmCallInstanceMethodA_built (kind : ReturnKind) (vm : VM) (fuel : Nat) (env : Env)
    (obj : Option Object) (method : Method) (args : List jvalue) (env1 : Env)
    (callInfo : CallInfo)
    (h : initCallInfo vm fuel env obj method true args = some (env1, some callInfo)) :
    rvmCallInstanceMethodA kind vm fuel env obj method args =
      some (rvmPopGatewayFrame (_call0 vm (rvmPushGatewayFrame env1) callInfo).1,
        kind.ofRaw (_call0 vm (rvmPushGatewayFrame env1) callInfo).2) := by
  simp [rvmCallInstanceMethodA, h]

theorem rvmCallNonvirtualInstanceMethodA_built (kind : ReturnKind) (vm : VM) (fuel : Nat)
    (env : Env) (obj : Option Object) (method : Method) (args : List jvalue) (env1 : Env)
    (callInfo : CallInfo)
    (h : initCallInfo vm fuel env obj method false args = some (env1, some callInfo)) :
    rvmCallNonvirtualInstanceMethodA kind vm fuel env obj method args =
      some (rvmPopGatewayFrame (_call0 vm (rvmPushGatewayFrame env1) callInfo).1,
        kind.ofRaw (_call0 vm (rvmPushGatewayFrame env1) callInfo).2) := by
  simp [rvmCallNonvirtualInstanceMethodA, h]

theorem rvmCallClassMethodA_built (kind : ReturnKind) (vm : VM) (fuel : Nat) (env : Env)
    (clazz : ClassId) (method : Method) (args : List jvalue) (env1 : Env)
    (callInfo : CallInfo)
    (h : initCallInfo vm fuel env none method false args = some (env1, some callInfo)) :
    rvmCallClassMethodA kind vm fuel env clazz method args =
      if (rvmInitialize vm env1 method.clazz).exception.isSome = true then
        some (rvmInitialize vm env1 method.clazz, kind.zero)
      else
        some (rvmPopGatewayFrame
            (_call0 vm (rvmPushGatewayFrame (rvmInitialize vm env1 method.clazz)) callInfo).1,
          kind.ofRaw
            (_call0 vm (rvmPushGatewayFrame (rvmInitialize vm env1 method.clazz)) callInfo).2) := by
  simp [rvmCallClassMethodA, h, rvmExceptionOccurred]

/-- C8 as stated fails: the receiver is bound by the static flag of the method
dispatched to, not by the dispatch operation. Both instance operations, called
with the receiver `demoReceiver` and the static method `create()V`, hand
`_call0` a pointer bin holding the execution context alone. -/
theorem instance_operation_on_static_method_binds_no_receiver :
    METHOD_IS_STATIC (mkMethod 4 "create" "()V" 0x0009) = true ∧
      rvmCallVoidInstanceMethodA demoVM 3 demoEnv (some demoReceiver)
          (mkMethod 4 "create" "()V" 0x0009) [] =
        some ({ exception := none, heapFree := 7,
                trace := [Event.pushGatewayFrame,
                  Event.call0 { function := 0x1400, ptrArgsCount := 1, intArgsCount := 0,
                                longArgsCount := 0, floatArgsCount := 0, doubleArgsCount := 0,
                                ptrArgs := [Ptr.env], intArgs := [], longArgs := [],
                                floatArgs := [], doubleArgs := [] },
                  Event.popGatewayFrame] }, ReturnValue.void) ∧
      rvmCallNonvirtualInstanceMethodA ReturnKind.void demoVM 3 demoEnv (some demoReceiver)
          (mkMethod 4 "create" "()V" 0x0009) [] =
        some ({ exception := none, heapFree := 7,
                trace := [Event.pushGatewayFrame,
                  Event.call0 { function := 0x1400, ptrArgsCount := 1, intArgsCount := 0,
                                longArgsCount := 0, floatArgsCount := 0, doubleArgsCount := 0,
                                ptrArgs := [Ptr.env], intArgs := [], longArgs := [],
                                floatArgs := [], doubleArgs := [] },
                  Event.popGatewayFrame] }, ReturnValue.void) := by
  refine ⟨by decide, by decide, by decide⟩

/-- C8, amended: let `method` be the method `initCallInfo` builds the call for,
with the well-formed descriptor `(params)ret`, the allocation succeeding and
the argument array covering the parameters. The pointer bin of the call built
starts with the execution context, followed by the receiver exactly when
`method` is not static; then come the reference arguments. Every bin holds the
arguments of its kind in the order of the descriptor. The instance operations
(virtual and nonvirtual) hand this call to `_call0` between the gateway frame
enter and exit; a class-method operation, which passes a null receiver, does
so after class initialization unless a condition is pending. -/
theorem initCallInfo_implicit_pointers_then_arguments (vm : VM) (fuel : Nat) (env0 : Env)
    (obj : Option Object) (given : Method) (virtual : Bool) (args : List jvalue)
    (env : Env) (method : Method) (params : List ParamType) (ret : List Char)
    (hdispatch : initCallInfo_dispatch vm fuel env0 obj given virtual = some (env, some method))
    (hdesc : method.desc.toList = methodDescriptor params ret)
    (hwf : params.all ParamType.wellFormed = true)
    (hargs : params.length ≤ args.length)
    (hheap : env.heapFree ≠ 0) :
    ∃ callInfo env1,
      initCallInfo vm fuel env0 obj given virtual args = some (env1, some callInfo) ∧
      callInfo.ptrArgs =
        (if METHOD_IS_STATIC method = true then [Ptr.env] else [Ptr.env, objectPtr obj]) ++
          (params.zip args).filterMap (fun pa => pa.1.ptrArg pa.2) ∧
      callInfo.intArgs = (params.zip args).filterMap (fun pa => pa.1.intArg pa.2) ∧
      callInfo.longArgs = (params.zip args).filterMap (fun pa => pa.1.longArg pa.2) ∧
      callInfo.floatArgs = (params.zip args).filterMap (fun pa => pa.1.floatArg pa.2) ∧
      callInfo.doubleArgs = (params.zip args).filterMap (fun pa => pa.1.doubleArg pa.2) ∧
      (∀ kind, virtual = true →
        ∃ r, rvmCallInstanceMethodA kind vm fuel env0 obj given args = some r ∧
          r.1.trace = env0.trace ++
            [Event.pushGatewayFrame, Event.call0 callInfo, Event.popGatewayFrame]) ∧
      (∀ kind, virtual = false →
        ∃ r, rvmCallNonvirtualInstanceMethodA kind vm fuel env0 obj given args = some r ∧
          r.1.trace = env0.trace ++
            [Event.pushGatewayFrame, Event.call0 callInfo, Event.popGatewayFrame]) ∧
      (∀ kind clazz, virtual = false → obj = none →
        ∃ r, rvmCallClassMethodA kind vm fuel env0 clazz given args = some r ∧
          (r.1.trace = env0.trace ++ [Event.classInit given.clazz] ∨
           r.1.trace = env0.trace ++ [Event.classInit given.clazz,
              Event.pushGatewayFrame, Event.call0 callInfo, Event.popGatewayFrame])) := by
  have hbuilt : initCallInfo vm fuel env0 obj given virtual args =
      some ({ env with heapFree := env.heapFree - 1 },
        some (marshalledCall obj method params args)) := by
    simp only [initCallInfo, hdispatch]
    exact initCallInfo_build_wellFormed env obj method args params ret hdesc hwf hargs hheap
  have htrace : env.trace = env0.trace :=
    (initCallInfo_dispatch_sameResources vm fuel env0 obj given virtual _ hdispatch).1
  refine ⟨marshalledCall obj method params args, _, hbuilt, ?_, rfl, rfl, rfl, rfl, ?_, ?_, ?_⟩
  · cases hs : METHOD_IS_STATIC method <;> simp [marshalledCall, implicitPtrs, hs]
  · intro kind hv
    subst hv
    refine ⟨_, rvmCallInstanceMethodA_built kind vm fuel env0 obj given args _ _ hbuilt, ?_⟩
    rw [invoke_trace, ← htrace]
  · intro kind hv
    subst hv
    refine ⟨_, rvmCallNonvirtualInstanceMethodA_built kind vm fuel env0 obj given args _ _
      hbuilt, ?_⟩
    rw [invoke_trace, ← htrace]
  · intro kind clazz hv ho
    subst hv ho
    have hop := rvmCallClassMethodA_built kind vm fuel env0 clazz given args _ _ hbuilt
    by_cases hpend : (rvmInitialize vm { env with heapFree := env.heapFree - 1 }
        given.clazz).exception.isSome = true
    · rw [if_pos hpend] at hop
      refine ⟨_, hop, Or.inl ?_⟩
      rw [rvmInitialize_trace, ← htrace]
    · rw [if_neg hpend] at hop
      refine ⟨_, hop, Or.inr ?_⟩
      rw [invoke_trace, rvmInitialize_trace, ← htrace]
      simp

/-- C8, amended, for an instance method `(I[[Ljava/lang/String;Ljava/lang/Object;J[I)V`:
the pointer bin is the context, the receiver, then the three references in
the order of the descriptor. -/
theorem initCallInfo_implicit_pointers_then_arguments_witness :
    ∃ callInfo env1,
      initCallInfo demoVM 3 demoEnv (some demoReceiver) demoMixedMethod false demoMixedArgs =
        some (env1, some callInfo) ∧
      callInfo.ptrArgs =
        [Ptr.env, Ptr.ref 0x7000, Ptr.ref 0x8010, Ptr.ref 0x8020, Ptr.ref 0x8030] ∧
      callInfo.intArgs = [11] ∧ callInfo.longArgs = [12] := by
  obtain ⟨callInfo, env1, h, hp, hi, hl, _⟩ :=
    initCallInfo_implicit_pointers_then_arguments demoVM 3 demoEnv (some demoReceiver)
      demoMixedMethod false demoMixedArgs demoEnv demoMixedMethod demoMixedParams ['V'] rfl
      (by decide) (by decide) (by decide) (by decide)
  exact ⟨callInfo, env1, h, hp.trans (by decide), hi.trans (by decide), hl.trans (by decide)⟩

/-- C9: a class-method call operation, of any return kind, that has built its
call initializes the declaring class of the method (`method->clazz`, whatever
the `clazz` argument) before anything else. If a condition is pending after
that, the operation returns the zero value of its kind in that very state: the
condition stays pending and neither a gateway frame nor the native target
follows the initialization. Otherwise the gateway frame is entered, the native
target is invoked with the call built, and the frame is left, in this order
after the initialization. When no call was built nothing is initialized. The
instance and nonvirtual-instance operations add either nothing to the trace or
the gateway frame bracket around the native call: never a class
initialization. -/
theorem class_method_call_initializes_declaring_class_first (kind : ReturnKind) (vm : VM)
    (fuel : Nat) (env : Env) (clazz : ClassId) (obj : Option Object) (method : Method)
    (args : List jvalue) :
    (∀ env1, initCallInfo vm fuel env none method false args = some (env1, none) →
        rvmCallClassMethodA kind vm fuel env clazz method args = some (env1, kind.zero) ∧
        env1.trace = env.trace) ∧
      (∀ env1 callInfo,
        initCallInfo vm fuel env none method false args = some (env1, some callInfo) →
        (rvmInitialize vm env1 method.clazz).trace =
          env.trace ++ [Event.classInit method.clazz] ∧
        ((rvmInitialize vm env1 method.clazz).exception ≠ none →
          rvmCallClassMethodA kind vm fuel env clazz method args =
            some (rvmInitialize vm env1 method.clazz, kind.zero)) ∧
        ((rvmInitialize vm env1 method.clazz).exception = none →
          ∃ env4 raw, rvmCallClassMethodA kind vm fuel env clazz method args =
              some (env4, kind.ofRaw raw) ∧
            env4.trace = env.trace ++ [Event.classInit method.clazz,
              Event.pushGatewayFrame, Event.call0 callInfo, Event.popGatewayFrame])) ∧
      (∀ r, rvmCallInstanceMethodA kind vm fuel env obj method args = some r →
        r.1.trace = env.trace ∨
        ∃ callInfo, r.1.trace = env.trace ++
          [Event.pushGatewayFrame, Event.call0 callInfo, Event.popGatewayFrame]) ∧
      (∀ r, rvmCallNonvirtualInstanceMethodA kind vm fuel env obj method args = some r →
        r.1.trace = env.trace ∨
        ∃ callInfo, r.1.trace = env.trace ++
          [Event.pushGatewayFrame, Event.call0 callInfo, Event.popGatewayFrame]) := by
  have hinstance : ∀ (virtual : Bool) (r : Env × ReturnValue),
      (match initCallInfo vm fuel env obj method virtual args with
        | none => none
        | some (env1, none) => some (env1, kind.zero)
        | some (env1, some callInfo) =>
          some (rvmPopGatewayFrame (_call0 vm (rvmPushGatewayFrame env1) callInfo).1,
            kind.ofRaw (_call0 vm (rvmPushGatewayFrame env1) callInfo).2)) = some r →
      r.1.trace = env.trace ∨
        ∃ callInfo, r.1.trace = env.trace ++
          [Event.pushGatewayFrame, Event.call0 callInfo, Event.popGatewayFrame] := by
    intro virtual r h
    cases hi : initCallInfo vm fuel env obj method virtual args with
    | none => simp [hi] at h
    | some p =>
      obtain ⟨env1, ci⟩ := p
      have ht : env1.trace = env.trace :=
        initCallInfo_trace vm fuel env obj method virtual args _ hi
      rw [hi] at h
      cases ci with
      | none =>
        simp only [Option.some.injEq] at h
        subst h
        exact Or.inl ht
      | some callInfo =>
        simp only [Option.some.injEq] at h
        subst h
        exact Or.inr ⟨callInfo, by rw [invoke_trace, ht]⟩
  refine ⟨?_, ?_, ?_, ?_⟩
  · intro env1 h
    exact ⟨by simp [rvmCallClassMethodA, h],
      initCallInfo_trace vm fuel env none method false args _ h⟩
  · intro env1 callInfo h
    have ht : env1.trace = env.trace :=
      initCallInfo_trace vm fuel env none method false args _ h
    have hop := rvmCallClassMethodA_built kind vm fuel env clazz method args env1 callInfo h
    refine ⟨by rw [rvmInitialize_trace, ht], ?_, ?_⟩
    · intro hpend
      rw [hop, if_pos (Option.isSome_iff_ne_none.2 hpend)]
    · intro hclear
      have hno : ¬ (rvmInitialize vm env1 method.clazz).exception.isSome = true := by
        simp [hclear]
      rw [if_neg hno] at hop
      refine ⟨_, _, hop, ?_⟩
      rw [invoke_trace, rvmInitialize_trace, ht]
      simp
  · intro r h
    exact hinstance true r h
  · intro r h
    exact hinstance false r h

/-- C9 on the demo table: with an initializer of class `4` that raises, the int
operation stops after the initialization with `0`; with one that does not, the
void operation initializes, enters the frame, calls and leaves. -/
theorem class_method_call_initializes_declaring_class_first_witness :
    rvmCallIntClassMethodA demoFailingInitVM 3 demoEnv 0 demoStaticMethod demoArgs =
        some ({ exception := some (Throwable.other 1), heapFree := 7,
                trace := [Event.classInit 4] }, ReturnValue.int 0) ∧
      ∃ env4 raw, rvmCallClassMethodA ReturnKind.void demoVM 3 demoEnv 0 demoStaticMethod
          demoArgs = some (env4, ReturnKind.void.ofRaw raw) ∧
        env4.trace = demoEnv.trace ++ [Event.classInit 4, Event.pushGatewayFrame,
          Event.call0 (marshalledCall none demoStaticMethod demoPrimitives demoArgs),
          Event.popGatewayFrame] :=
  ⟨((class_method_call_initializes_declaring_class_first ReturnKind.int demoFailingInitVM 3
        demoEnv 0 none demoStaticMethod demoArgs).2.1
        { demoEnv with heapFree := 7 }
        (marshalledCall none demoStaticMethod demoPrimitives demoArgs)
        (by decide)).2.1 (by decide),
    ((class_method_call_initializes_declaring_class_first ReturnKind.void demoVM 3
        demoEnv 0 none demoStaticMethod demoArgs).2.1
        { demoEnv with heapFree := 7 }
        (marshalledCall none demoStaticMethod demoPrimitives demoArgs)
        (by decide)).2.2 (by decide)⟩

/-- C10: for every call operation, of any return kind. When `initCallInfo` has
chosen the method to call and counted its parameters, and the allocation of the
`CallInfo` then fails, `initCallInfo` returns no `CallInfo` (so nothing, not
even the execution context, is bound to a bin), the trace of collaborator calls
is as on entry (no gateway frame entered or left, no native target invoked),
and the operation returns the zero value of its kind with OutOfMemory pending.
Likewise, when the allocation of the positional array fails in `va_list2jargs`,
the variadic operations return the zero value in the state the failed
allocation left, the trace as on entry: the positional operation is not run. -/
theorem call_operations_abort_on_allocation_failure (kind : ReturnKind) (vm : VM)
    (fuel : Nat) (env : Env) (clazz : ClassId) (obj : Option Object) (given : Method) :
    (∀ (virtual : Bool) (args : List jvalue) (env1 : Env) (method : Method) (n : ArgsCount),
        initCallInfo_dispatch vm fuel env obj given virtual = some (env1, some method) →
        initCallInfo_count (method.desc.length + 1) (some method.desc.toList)
          { ptrArgsCount := if method.access &&& ACC_STATIC = 0 then 2 else 1,
            intArgsCount := 0, longArgsCount := 0, floatArgsCount := 0,
            doubleArgsCount := 0 } = some n →
        env.heapFree = 0 →
        initCallInfo vm fuel env obj given virtual args =
          some (rvmThrow env1 Throwable.OutOfMemoryError, none) ∧
        (rvmThrow env1 Throwable.OutOfMemoryError).trace = env.trace ∧
        (virtual = true → rvmCallInstanceMethodA kind vm fuel env obj given args =
          some (rvmThrow env1 Throwable.OutOfMemoryError, kind.zero)) ∧
        (virtual = false → rvmCallNonvirtualInstanceMethodA kind vm fuel env obj given args =
          some (rvmThrow env1 Throwable.OutOfMemoryError, kind.zero)) ∧
        (virtual = false → obj = none →
          rvmCallClassMethodA kind vm fuel env clazz given args =
            some (rvmThrow env1 Throwable.OutOfMemoryError, kind.zero))) ∧
      (∀ (args : List Nat) (argsCount : Nat),
        rvmGetParameterCount given = some argsCount → argsCount ≠ 0 → env.heapFree = 0 →
        va_list2jargs vm env given args =
          some (rvmThrow env Throwable.OutOfMemoryError, none) ∧
        rvmCallInstanceMethodV kind vm fuel env obj given args =
          some (rvmThrow env Throwable.OutOfMemoryError, kind.zero) ∧
        rvmCallNonvirtualInstanceMethodV kind vm fuel env obj given args =
          some (rvmThrow env Throwable.OutOfMemoryError, kind.zero) ∧
        rvmCallClassMethodV kind vm fuel env clazz given args =
          some (rvmThrow env Throwable.OutOfMemoryError, kind.zero) ∧
        (rvmThrow env Throwable.OutOfMemoryError).trace = env.trace) := by
  constructor
  · intro virtual args env1 method n hdispatch hcount hheap
    have hsame := initCallInfo_dispatch_sameResources vm fuel env obj given virtual _ hdispatch
    have hheap1 : env1.heapFree = 0 := by rw [hsame.2]; exact hheap
    have hinit : initCallInfo vm fuel env obj given virtual args =
        some (rvmThrow env1 Throwable.OutOfMemoryError, none) := by
      simp only [initCallInfo, hdispatch]
      exact initCallInfo_build_alloc_fails env1 obj method args n hcount hheap1
    refine ⟨hinit, hsame.1, ?_, ?_, ?_⟩
    · intro hv
      subst hv
      simp [rvmCallInstanceMethodA, hinit]
    · intro hv
      subst hv
      simp [rvmCallNonvirtualInstanceMethodA, hinit]
    · intro hv ho
      subst hv ho
      simp [rvmCallClassMethodA, hinit]
  · intro args argsCount hcount hne hheap
    have hva : va_list2jargs vm env given args =
        some (rvmThrow env Throwable.OutOfMemoryError, none) := by
      simp [va_list2jargs, hcount, hne, rvmAllocateMemory, hheap]
    refine ⟨hva, ?_, ?_, ?_, rfl⟩
    · simp [rvmCallInstanceMethodV, hva]
    · simp [rvmCallNonvirtualInstanceMethodV, hva]
    · simp [rvmCallClassMethodV, hva]

/-- C10 with an exhausted allocator: the virtual int operation and the variadic
double class operation return zero with OutOfMemory pending and an empty trace. -/
theorem call_operations_abort_on_allocation_failure_witness :
    rvmCallInstanceMethodA ReturnKind.int demoVM 6 demoFullEnv (some demoReceiver)
        (mkMethod 4 "run" "(I)V" 0x0001) [{ bits := 42 }] =
      some (rvmThrow demoFullEnv Throwable.OutOfMemoryError, ReturnValue.int 0) ∧
    rvmCallClassMethodV ReturnKind.double demoVM 6 demoFullEnv 4 demoStaticMethod
        [1, 2, 3, 4, 5, 6, 7, 8] =
      some (rvmThrow demoFullEnv Throwable.OutOfMemoryError, ReturnValue.double 0) :=
  ⟨((call_operations_abort_on_allocation_failure ReturnKind.int demoVM 6 demoFullEnv 4
        (some demoReceiver) (mkMethod 4 "run" "(I)V" 0x0001)).1 true [{ bits := 42 }]
        demoFullEnv (mkMethod 5 "run" "(I)V" 0x0001)
        { ptrArgsCount := 2, intArgsCount := 1, longArgsCount := 0, floatArgsCount := 0,
          doubleArgsCount := 0 }
        (by decide) (by decide) rfl).2.2.1 rfl,
    ((call_operations_abort_on_allocation_failure ReturnKind.double demoVM 6 demoFullEnv 4
        none demoStaticMethod).2 [1, 2, 3, 4, 5, 6, 7, 8] 8 (by decide) (by decide)
        rfl).2.2.2.1⟩

/-! ## Lemmas on the native binding manager -/

/-- Searching every library gives the export of the first library that has one. -/
theorem rvmFindDynamicLibSymbol_all_result (linker : Linker) (symbol : String) :
    ∀ (libs : List DynamicLib) (st : NativeState),
      (rvmFindDynamicLibSymbol linker st libs symbol true).2 =
        firstExport linker libs symbol := by
  intro libs
  induction libs with
  | nil => intro st; simp [rvmFindDynamicLibSymbol, firstExport]
  | cons dlib rest ih =>
    intro st
    by_cases hv : linker.dlsym dlib.handle symbol = 0
    · have := ih (st.record (LinkerEvent.dlsym dlib.handle symbol))
      simp only [firstExport] at this
      simp [rvmFindDynamicLibSymbol, firstExport, hv, this]
    · simp [rvmFindDynamicLibSymbol, firstExport, hv]

/-- A symbol search only adds to the record of outside calls. -/
theorem rvmFindDynamicLibSymbol_lists (linker : Linker) (symbol : String) (searchAll : Bool) :
    ∀ (libs : List DynamicLib) (st : NativeState),
      (rvmFindDynamicLibSymbol linker st libs symbol searchAll).1.bootNativeLibs =
          st.bootNativeLibs ∧
        (rvmFindDynamicLibSymbol linker st libs symbol searchAll).1.mainNativeLibs =
          st.mainNativeLibs ∧
        (rvmFindDynamicLibSymbol linker st libs symbol searchAll).1.nextLib = st.nextLib := by
  intro libs
  induction libs with
  | nil => intro st; simp [rvmFindDynamicLibSymbol]
  | cons dlib rest ih =>
    intro st
    have := ih (st.record (LinkerEvent.dlsym dlib.handle symbol))
    by_cases hv : linker.dlsym dlib.handle symbol = 0
    · cases searchAll
      · simp [rvmFindDynamicLibSymbol, hv, NativeState.record]
      · simpa [rvmFindDynamicLibSymbol, hv, NativeState.record] using this
    · simp [rvmFindDynamicLibSymbol, hv, NativeState.record]

theorem firstExport_eq_zero (linker : Linker) (libs : List DynamicLib) (symbol : String)
    (h : ∀ lib ∈ libs, linker.dlsym lib.handle symbol = 0) :
    firstExport linker libs symbol = 0 := by
  unfold firstExport
  cases hf : libs.find? (fun lib => linker.dlsym lib.handle symbol ≠ 0) with
  | none => rfl
  | some lib => exact h lib (List.mem_of_find?_eq_some hf)

/-- What the search part of `rvmResolveNativeMethodImpl` leaves: everything is
decided by the short name; the library lists are untouched. -/
theorem rvmResolveNativeMethodImpl_search_spec (linker : Linker) (env : Env)
    (st : NativeState) (method : NativeMethod) (shortMangledName longMangledName : String)
    (nativeLibs : List DynamicLib) :
    (rvmResolveNativeMethodImpl_search linker env st method shortMangledName longMangledName
        nativeLibs).result = firstExport linker nativeLibs shortMangledName ∧
      (rvmResolveNativeMethodImpl_search linker env st method shortMangledName longMangledName
        nativeLibs).method =
        { method with nativeImpl := firstExport linker nativeLibs shortMangledName } ∧
      (rvmResolveNativeMethodImpl_search linker env st method shortMangledName longMangledName
        nativeLibs).env =
        (if firstExport linker nativeLibs shortMangledName = 0
          then rvmThrow env Throwable.UnsatisfiedLinkError else env) ∧
      (rvmResolveNativeMethodImpl_search linker env st method shortMangledName longMangledName
        nativeLibs).ptr =
        (if firstExport linker nativeLibs shortMangledName = 0 then none
          else some (firstExport linker nativeLibs shortMangledName)) ∧
      (rvmResolveNativeMethodImpl_search linker env st method shortMangledName longMangledName
        nativeLibs).state.bootNativeLibs = st.bootNativeLibs ∧
      (rvmResolveNativeMethodImpl_search linker env st method shortMangledName longMangledName
        nativeLibs).state.mainNativeLibs = st.mainNativeLibs := by
  have hres := rvmFindDynamicLibSymbol_all_result linker shortMangledName nativeLibs
    (obtainNativeLibsLock st)
  have hl1 := rvmFindDynamicLibSymbol_lists linker shortMangledName true nativeLibs
    (obtainNativeLibsLock st)
  have hl2 := rvmFindDynamicLibSymbol_lists linker longMangledName true nativeLibs
    (rvmFindDynamicLibSymbol linker (obtainNativeLibsLock st) nativeLibs shortMangledName
      true).1
  have hst2 : ∀ f : Nat,
      (if f ≠ 0 then
          (rvmFindDynamicLibSymbol linker (obtainNativeLibsLock st) nativeLibs
            shortMangledName true).1
        else if shortMangledName = longMangledName then
          (rvmFindDynamicLibSymbol linker
            (rvmFindDynamicLibSymbol linker (obtainNativeLibsLock st) nativeLibs
              shortMangledName true).1 nativeLibs longMangledName true).1
        else
          (rvmFindDynamicLibSymbol linker (obtainNativeLibsLock st) nativeLibs
            shortMangledName true).1).bootNativeLibs = st.bootNativeLibs ∧
      (if f ≠ 0 then
          (rvmFindDynamicLibSymbol linker (obtainNativeLibsLock st) nativeLibs
            shortMangledName true).1
        else if shortMangledName = longMangledName then
          (rvmFindDynamicLibSymbol linker
            (rvmFindDynamicLibSymbol linker (obtainNativeLibsLock st) nativeLibs
              shortMangledName true).1 nativeLibs longMangledName true).1
        else
          (rvmFindDynamicLibSymbol linker (obtainNativeLibsLock st) nativeLibs
            shortMangledName true).1).mainNativeLibs = st.mainNativeLibs := by
    intro f
    split
    · exact ⟨hl1.1, hl1.2.1⟩
    · split
      · exact ⟨hl2.1.trans hl1.1, hl2.2.1.trans hl1.2.1⟩
      · exact ⟨hl1.1, hl1.2.1⟩
  simp only [rvmResolveNativeMethodImpl_search, hres]
  by_cases hz : firstExport linker nativeLibs shortMangledName = 0
  · simp only [hz, if_true]
    refine ⟨?_, ?_, ?_, ?_, (hst2 0).1, (hst2 0).2⟩ <;> trivial
  · simp only [hz, if_false]
    refine ⟨?_, ?_, ?_, ?_, (hst2 _).1, (hst2 _).2⟩ <;> trivial

/-- The selection of `nativeLibs` in `rvmResolveNativeMethodImpl` follows the tier. -/
theorem rvmResolveNativeMethodImpl_of_tier (vm : VM) (linker : Linker) (env : Env)
    (st : NativeState) (method : NativeMethod) (shortMangledName longMangledName : String)
    (classLoader : Option Nat) (hslot : method.nativeImpl = 0) :
    rvmResolveNativeMethodImpl vm linker env st method shortMangledName longMangledName
        classLoader =
      match tierOf vm linker classLoader with
      | some tier =>
        rvmResolveNativeMethodImpl_search linker env st method shortMangledName
          longMangledName (tier.get st)
      | none =>
        { env := rvmThrow env Throwable.UnsatisfiedLinkError, state := st, method := method,
          ptr := none, result := 0 } := by
  unfold rvmResolveNativeMethodImpl tierOf
  simp only [hslot, if_true]
  cases classLoader with
  | none => rfl
  | some l =>
    simp only
    cases (linker.classLoaders l).parent with
    | none => rfl
    | some parent =>
      simp only
      cases h1 : (linker.classLoaders parent).parent <;>
        cases h2 : (vm.classes (linker.classLoaders l).clazz).classLoader <;>
        simp [NativeLibsRef.get, rvmThrowUnsatisfiedLinkError]

/-- A resolution that returns a pointer has stored it in the slot. -/
theorem rvmResolveNativeMethodImpl_result_memoized (vm : VM) (linker : Linker) (env : Env)
    (st : NativeState) (method : NativeMethod) (shortMangledName longMangledName : String)
    (classLoader : Option Nat)
    (h : (rvmResolveNativeMethodImpl vm linker env st method shortMangledName
      longMangledName classLoader).result ≠ 0) :
    (rvmResolveNativeMethodImpl vm linker env st method shortMangledName longMangledName
      classLoader).method.nativeImpl =
    (rvmResolveNativeMethodImpl vm linker env st method shortMangledName longMangledName
      classLoader).result := by
  by_cases hslot : method.nativeImpl = 0
  · rw [rvmResolveNativeMethodImpl_of_tier vm linker env st method _ _ _ hslot] at h ⊢
    generalize tierOf vm linker classLoader = t at h ⊢
    cases t with
    | none => simp at h
    | some tier =>
      simp only at h ⊢
      have hs := rvmResolveNativeMethodImpl_search_spec linker env st method shortMangledName
        longMangledName (tier.get st)
      rw [hs.2.1, hs.1]
  · simp [rvmResolveNativeMethodImpl, hslot]

/-! ## Native binding manager: properties of the specification -/

/-- C11 does not hold of the code. With the boot-tier list holding `libcore.so`
and `libapp.so`, neither of which exports the short name `Java_Demo_work` while
`libcore.so` exports the long name `Java_Demo_work__I` at `0xABC0`,
`rvmResolveNativeMethodImpl` on an unresolved method looks up the short name in
both libraries and nothing else, leaves the slot empty, raises UnsatisfiedLink
and returns `NULL`: the long name is not tried when the names differ (the test
is `!strcmp(shortMangledName, longMangledName)`), and when it is tried its
result goes to a second variable `f` declared in the inner block. -/
theorem rvmResolveNativeMethodImpl_long_name_not_used :
    firstExport demoLinker demoBootLibs.bootNativeLibs "Java_Demo_work" = 0 ∧
      firstExport demoLinker demoBootLibs.bootNativeLibs "Java_Demo_work__I" = 0xABC0 ∧
      rvmResolveNativeMethodImpl demoVM demoLinker demoEnv demoBootLibs demoNativeMethod
          "Java_Demo_work" "Java_Demo_work__I" none =
        { env := rvmThrow demoEnv Throwable.UnsatisfiedLinkError,
          state := { demoBootLibs with
            calls := [LinkerEvent.lock, LinkerEvent.dlsym 0x51 "Java_Demo_work",
              LinkerEvent.dlsym 0x52 "Java_Demo_work", LinkerEvent.unlock] },
          method := demoNativeMethod, ptr := none, result := 0 } := by
  refine ⟨by decide, by decide, by decide⟩

/-- C12: when the binding slot of the method is not null, for every class
loader, every pair of names and every state of the library lists,
`rvmResolveNativeMethodImpl` returns the value of the slot and stores it
through `ptr`; the state is untouched (no condition raised), the record of
outside calls is as it was (no lock taken, no library looked up), and the slot
and both library lists are unchanged. Hence whenever a resolution has returned
a pointer, a second resolution of the method it left, with any names and class
loader, returns the same pointer and changes nothing. -/
theorem rvmResolveNativeMethodImpl_memoized_slot (vm : VM) (linker : Linker) (env : Env)
    (st : NativeState) (method : NativeMethod) (shortMangledName longMangledName : String)
    (classLoader : Option Nat) (shortName2 longName2 : String) (classLoader2 : Option Nat) :
    (method.nativeImpl ≠ 0 →
        rvmResolveNativeMethodImpl vm linker env st method shortMangledName longMangledName
            classLoader =
          { env := env, state := st, method := method, ptr := some method.nativeImpl,
            result := method.nativeImpl }) ∧
      ((rvmResolveNativeMethodImpl vm linker env st method shortMangledName longMangledName
          classLoader).result ≠ 0 →
        rvmResolveNativeMethodImpl vm linker
            (rvmResolveNativeMethodImpl vm linker env st method shortMangledName
              longMangledName classLoader).env
            (rvmResolveNativeMethodImpl vm linker env st method shortMangledName
              longMangledName classLoader).state
            (rvmResolveNativeMethodImpl vm linker env st method shortMangledName
              longMangledName classLoader).method shortName2 longName2 classLoader2 =
          { (rvmResolveNativeMethodImpl vm linker env st method shortMangledName
              longMangledName classLoader) with
            ptr := some (rvmResolveNativeMethodImpl vm linker env st method shortMangledName
              longMangledName classLoader).result }) := by
  have hmemo : ∀ (e : Env) (s : NativeState) (m : NativeMethod) (a b : String)
      (cl : Option Nat), m.nativeImpl ≠ 0 →
      rvmResolveNativeMethodImpl vm linker e s m a b cl =
        { env := e, state := s, method := m, ptr := some m.nativeImpl,
          result := m.nativeImpl } := by
    intro e s m a b cl h
    simp [rvmResolveNativeMethodImpl, h]
  refine ⟨hmemo env st method _ _ _, ?_⟩
  intro hres
  have hslot := rvmResolveNativeMethodImpl_result_memoized vm linker env st method
    shortMangledName longMangledName classLoader hres
  rw [hmemo _ _ _ _ _ _ (by rw [hslot]; exact hres), hslot]

/-- C12 on the demo libraries: a method bound to `0x7777` resolves to `0x7777`
from the class loader `3`, which is of neither trusted tier, with nothing
looked up. -/
theorem rvmResolveNativeMethodImpl_memoized_slot_witness :
    rvmResolveNativeMethodImpl demoVM demoLinker demoEnv demoBootLibs
        { demoNativeMethod with nativeImpl := 0x7777 } "Java_Demo_work" "Java_Demo_work__I"
        (some 3) =
      { env := demoEnv, state := demoBootLibs,
        method := { demoNativeMethod with nativeImpl := 0x7777 }, ptr := some 0x7777,
        result := 0x7777 } :=
  (rvmResolveNativeMethodImpl_memoized_slot demoVM demoLinker demoEnv demoBootLibs
    { demoNativeMethod with nativeImpl := 0x7777 } "Java_Demo_work" "Java_Demo_work__I"
    (some 3) "" "" none).1 (by decide)

/-- C13: for a method whose binding slot is null, `rvmResolveNativeMethodImpl`
raises UnsatisfiedLink and returns `NULL`, with the slot still null, nothing
stored through `ptr` and both library lists as they were, (a) when the class
loader is of neither the boot nor the system tier (then nothing at all is
looked up), and (b) when the tier is trusted and no library of its list exports
the short name or the long name. -/
theorem rvmResolveNativeMethodImpl_unsatisfied_link (vm : VM) (linker : Linker) (env : Env)
    (st : NativeState) (method : NativeMethod) (shortMangledName longMangledName : String)
    (classLoader : Option Nat) (hslot : method.nativeImpl = 0) :
    (tierOf vm linker classLoader = none →
        rvmResolveNativeMethodImpl vm linker env st method shortMangledName longMangledName
            classLoader =
          { env := rvmThrow env Throwable.UnsatisfiedLinkError, state := st, method := method,
            ptr := none, result := 0 }) ∧
      (∀ tier, tierOf vm linker classLoader = some tier →
        (∀ lib ∈ tier.get st, linker.dlsym lib.handle shortMangledName = 0 ∧
          linker.dlsym lib.handle longMangledName = 0) →
        (rvmResolveNativeMethodImpl vm linker env st method shortMangledName longMangledName
            classLoader).result = 0 ∧
        (rvmResolveNativeMethodImpl vm linker env st method shortMangledName longMangledName
            classLoader).env = rvmThrow env Throwable.UnsatisfiedLinkError ∧
        (rvmResolveNativeMethodImpl vm linker env st method shortMangledName longMangledName
            classLoader).method = method ∧
        (rvmResolveNativeMethodImpl vm linker env st method shortMangledName longMangledName
            classLoader).ptr = none ∧
        (rvmResolveNativeMethodImpl vm linker env st method shortMangledName longMangledName
            classLoader).state.bootNativeLibs = st.bootNativeLibs ∧
        (rvmResolveNativeMethodImpl vm linker env st method shortMangledName longMangledName
            classLoader).state.mainNativeLibs = st.mainNativeLibs) := by
  have hsel := rvmResolveNativeMethodImpl_of_tier vm linker env st method shortMangledName
    longMangledName classLoader hslot
  constructor
  · intro ht
    rw [hsel, ht]
  · intro tier ht hnone
    rw [hsel, ht]
    simp only
    have hz : firstExport linker (tier.get st) shortMangledName = 0 :=
      firstExport_eq_zero linker _ _ (fun lib hl => (hnone lib hl).1)
    obtain ⟨h1, h2, h3, h4, h5, h6⟩ := rvmResolveNativeMethodImpl_search_spec linker env st
      method shortMangledName longMangledName (tier.get st)
    rw [hz] at h1 h2 h3 h4
    refine ⟨h1, by simpa using h3, ?_, by simpa using h4, h5, h6⟩
    rw [h2, ← hslot]

/-- C13 on the demo libraries: from the class loader `3` nothing is looked up;
from the boot tier a symbol that no library exports is not found. -/
theorem rvmResolveNativeMethodImpl_unsatisfied_link_witness :
    rvmResolveNativeMethodImpl demoVM demoLinker demoEnv demoBootLibs demoNativeMethod
        "Java_Demo_run" "Java_Demo_run__" (some 3) =
      { env := rvmThrow demoEnv Throwable.UnsatisfiedLinkError, state := demoBootLibs,
        method := demoNativeMethod, ptr := none, result := 0 } ∧
    (rvmResolveNativeMethodImpl demoVM demoLinker demoEnv demoBootLibs demoNativeMethod
        "Java_Demo_none" "Java_Demo_none__" (some 1)).env =
      rvmThrow demoEnv Throwable.UnsatisfiedLinkError :=
  ⟨(rvmResolveNativeMethodImpl_unsatisfied_link demoVM demoLinker demoEnv demoBootLibs
      demoNativeMethod "Java_Demo_run" "Java_Demo_run__" (some 3) rfl).1 (by decide),
    ((rvmResolveNativeMethodImpl_unsatisfied_link demoVM demoLinker demoEnv demoBootLibs
      demoNativeMethod "Java_Demo_none" "Java_Demo_none__" (some 1) rfl).2
      NativeLibsRef.bootNativeLibs (by decide) (by decide)).2.1⟩

/-- C14: `rvmRegisterNative` sets the binding slot to `impl`, whatever it held,
and `rvmUnregisterNative` sets it to null; both report success, and neither
has the library lists among what it reads or writes. After registering a
non-null `impl`, `rvmResolveNativeMethodImpl` returns `impl` for every class
loader, names and state of the library lists, with nothing looked up. After
unregistering, a resolution from a trusted tier is the library search again:
it returns the export of the short name in the tier's list. -/
theorem rvmRegisterNative_rvmUnregisterNative_slot (vm : VM) (linker : Linker) (env : Env)
    (st : NativeState) (method : NativeMethod) (impl : Nat)
    (shortMangledName longMangledName : String) (classLoader : Option Nat) :
    rvmRegisterNative method impl = ({ method with nativeImpl := impl }, true) ∧
      rvmUnregisterNative method = ({ method with nativeImpl := 0 }, true) ∧
      (impl ≠ 0 →
        rvmResolveNativeMethodImpl vm linker env st (rvmRegisterNative method impl).1
            shortMangledName longMangledName classLoader =
          { env := env, state := st, method := (rvmRegisterNative method impl).1,
            ptr := some impl, result := impl }) ∧
      (∀ tier, tierOf vm linker classLoader = some tier →
        rvmResolveNativeMethodImpl vm linker env st (rvmUnregisterNative method).1
            shortMangledName longMangledName classLoader =
          rvmResolveNativeMethodImpl_search linker env st (rvmUnregisterNative method).1
            shortMangledName longMangledName (tier.get st) ∧
        (rvmResolveNativeMethodImpl vm linker env st (rvmUnregisterNative method).1
            shortMangledName longMangledName classLoader).result =
          firstExport linker (tier.get st) shortMangledName) := by
  refine ⟨rfl, rfl, ?_, ?_⟩
  · intro himpl
    simp [rvmResolveNativeMethodImpl, rvmRegisterNative, himpl]
  · intro tier ht
    have hsel := rvmResolveNativeMethodImpl_of_tier vm linker env st
      (rvmUnregisterNative method).1 shortMangledName longMangledName classLoader rfl
    rw [ht] at hsel
    refine ⟨hsel, ?_⟩
    rw [hsel]
    exact (rvmResolveNativeMethodImpl_search_spec linker env st _ _ _ _).1

/-- C14 on the demo libraries: a method registered at `0x7777` resolves to it;
once unregistered it resolves to the export of `libapp.so` again. -/
theorem rvmRegisterNative_rvmUnregisterNative_slot_witness :
    rvmResolveNativeMethodImpl demoVM demoLinker demoEnv demoBootLibs
        (rvmRegisterNative demoNativeMethod 0x7777).1 "Java_Demo_run" "Java_Demo_run__"
        (some 3) =
      { env := demoEnv, state := demoBootLibs,
        method := (rvmRegisterNative demoNativeMethod 0x7777).1, ptr := some 0x7777,
        result := 0x7777 } ∧
    (rvmResolveNativeMethodImpl demoVM demoLinker demoEnv demoBootLibs
        (rvmUnregisterNative (rvmRegisterNative demoNativeMethod 0x7777).1).1
        "Java_Demo_run" "Java_Demo_run__" none).result = 0xDEF8 :=
  ⟨(rvmRegisterNative_rvmUnregisterNative_slot demoVM demoLinker demoEnv demoBootLibs
      demoNativeMethod 0x7777 "Java_Demo_run" "Java_Demo_run__" (some 3)).2.2.1 (by decide),
    ((rvmRegisterNative_rvmUnregisterNative_slot demoVM demoLinker demoEnv demoBootLibs
      (rvmRegisterNative demoNativeMethod 0x7777).1 0 "Java_Demo_run" "Java_Demo_run__"
      none).2.2.2 NativeLibsRef.bootNativeLibs rfl).2.trans (by decide)⟩

/-! ### Loading a library -/

theorem rvmHasDynamicLib_iff (lib : DynamicLib) (libs : List DynamicLib) :
    rvmHasDynamicLib lib libs = true ↔ ∃ d ∈ libs, d.handle = lib.handle := by
  induction libs with
  | nil => simp [rvmHasDynamicLib]
  | cons d rest ih =>
    by_cases hd : d.handle = lib.handle
    · simp [rvmHasDynamicLib, hd]
    · simp [rvmHasDynamicLib, hd, ih]

theorem rvmHasDynamicLib_eq_false_iff (lib : DynamicLib) (libs : List DynamicLib) :
    rvmHasDynamicLib lib libs = false ↔ handleCount lib.handle libs = 0 := by
  rw [← Bool.not_eq_true, rvmHasDynamicLib_iff]
  simp [handleCount, List.countP_eq_zero]

/-- The selection of `nativeLibs` in `rvmLoadNativeLibrary` follows the tier. -/
theorem rvmLoadNativeLibrary_of_tier (vm : VM) (linker : Linker) (env : Env)
    (st : NativeState) (path : String) (classLoader : Option Nat) :
    rvmLoadNativeLibrary vm linker env st path classLoader =
      match tierOf vm linker classLoader with
      | some tier => rvmLoadNativeLibrary_open linker env st path tier
      | none =>
        if st.bootNativeLibs ≠ [] then (rvmThrow env Throwable.UnsatisfiedLinkError, st, false)
        else (env, st, false) := by
  unfold rvmLoadNativeLibrary tierOf
  cases classLoader with
  | none => rfl
  | some l =>
    simp only
    cases (linker.classLoaders l).parent with
    | none => rfl
    | some parent =>
      simp only
      cases h1 : (linker.classLoaders parent).parent <;>
        cases h2 : (vm.classes (linker.classLoaders l).clazz).classLoader <;>
        simp [rvmThrowUnsatisfiedLinkError]

/-- Opening a library that the linker finds, with memory left. -/
theorem rvmOpenDynamicLib_ok (linker : Linker) (env : Env) (st : NativeState) (file : String)
    (hopen : linker.dlopen file ≠ 0) (hheap : env.heapFree ≠ 0) :
    rvmOpenDynamicLib linker env st file =
      ({ env with heapFree := env.heapFree - 1 },
        { st with nextLib := st.nextLib + 1,
                  calls := st.calls ++ [LinkerEvent.dlopen file] },
        some { addr := st.nextLib, handle := linker.dlopen file }) := by
  simp [rvmOpenDynamicLib, rvmAllocateMemory, hopen, hheap, NativeState.record]

/-- Loading a library whose handle the tier's list already holds: the new
handle is closed and nothing else happens. -/
theorem rvmLoadNativeLibrary_open_present (linker : Linker) (env : Env) (st : NativeState)
    (path : String) (tier : NativeLibsRef)
    (hopen : linker.dlopen path ≠ 0) (hheap : env.heapFree ≠ 0)
    (hhas : handleCount (linker.dlopen path) (tier.get st) ≠ 0) :
    rvmLoadNativeLibrary_open linker env st path tier =
      ({ env with heapFree := env.heapFree - 1 },
        { st with nextLib := st.nextLib + 1,
                  calls := st.calls ++ [LinkerEvent.dlopen path, LinkerEvent.lock,
                    LinkerEvent.dlclose (linker.dlopen path), LinkerEvent.unlock] },
        true) := by
  have hhas2 : rvmHasDynamicLib { addr := st.nextLib, handle := linker.dlopen path }
      (tier.get st) = true := by
    cases h : rvmHasDynamicLib { addr := st.nextLib, handle := linker.dlopen path }
        (tier.get st) with
    | true => rfl
    | false => exact absurd ((rvmHasDynamicLib_eq_false_iff _ _).1 h) hhas
  unfold rvmLoadNativeLibrary_open
  rw [rvmOpenDynamicLib_ok linker env st path hopen hheap]
  cases tier <;>
    simp only [NativeLibsRef.get, obtainNativeLibsLock, NativeState.record] at hhas2 ⊢ <;>
    simp [hhas2, rvmCloseDynamicLib, releaseNativeLibsLock, NativeState.record]

/-- Loading a library whose handle the tier's list does not hold, when the
initialization entry point (if any) raises nothing and nothing is pending: the
library is appended to the tier's list. -/
theorem rvmLoadNativeLibrary_open_absent (linker : Linker) (env : Env) (st : NativeState)
    (path : String) (tier : NativeLibsRef)
    (hopen : linker.dlopen path ≠ 0) (hheap : env.heapFree ≠ 0)
    (hpending : env.exception = none)
    (hinit : linker.onLoad (linker.dlsym (linker.dlopen path) "JNI_OnLoad") = none)
    (hhas : handleCount (linker.dlopen path) (tier.get st) = 0) :
    (rvmLoadNativeLibrary_open linker env st path tier).1 =
        { env with heapFree := env.heapFree - 1 } ∧
      (rvmLoadNativeLibrary_open linker env st path tier).2.2 = true ∧
      (rvmLoadNativeLibrary_open linker env st path tier).2.1 =
        tier.set
          { st with nextLib := st.nextLib + 1,
                    calls := st.calls ++ [LinkerEvent.dlopen path, LinkerEvent.lock,
                      LinkerEvent.dlsym (linker.dlopen path) "JNI_OnLoad"] ++
                      (if linker.dlsym (linker.dlopen path) "JNI_OnLoad" = 0 then []
                        else [LinkerEvent.JNI_OnLoad
                          (linker.dlsym (linker.dlopen path) "JNI_OnLoad")
                          st.bootNativeLibs st.mainNativeLibs]) ++ [LinkerEvent.unlock] }
          (tier.get st ++ [{ addr := st.nextLib, handle := linker.dlopen path }]) := by
  have hhas2 : rvmHasDynamicLib { addr := st.nextLib, handle := linker.dlopen path }
      (tier.get st) = false := (rvmHasDynamicLib_eq_false_iff _ _).2 hhas
  unfold rvmLoadNativeLibrary_open
  rw [rvmOpenDynamicLib_ok linker env st path hopen hheap]
  by_cases hsym : linker.dlsym (linker.dlopen path) "JNI_OnLoad" = 0
  · cases tier <;>
      simp only [NativeLibsRef.get, obtainNativeLibsLock, NativeState.record] at hhas2 ⊢ <;>
      simp [hhas2, rvmFindDynamicLibSymbol, hsym, releaseNativeLibsLock,
        NativeState.record, NativeLibsRef.set, NativeLibsRef.get, rvmAddDynamicLib]
  · cases tier <;>
      simp only [NativeLibsRef.get, obtainNativeLibsLock, NativeState.record] at hhas2 ⊢ <;>
      simp [hhas2, rvmFindDynamicLibSymbol, hsym, releaseNativeLibsLock,
        NativeState.record, NativeLibsRef.set, NativeLibsRef.get, rvmAddDynamicLib,
        callJNI_OnLoad, hinit, rvmExceptionOccurred, hpending]

theorem NativeLibsRef_get_set (tier : NativeLibsRef) (st : NativeState)
    (libs : List DynamicLib) : tier.get (tier.set st libs) = libs := by
  cases tier <;> rfl

theorem handleCount_append_singleton (handle : Nat) (libs : List DynamicLib)
    (lib : DynamicLib) (h : lib.handle = handle) :
    handleCount handle (libs ++ [lib]) = handleCount handle libs + 1 := by
  simp [handleCount, List.countP_append, h]

/-- C15: with library opening a function of the path (`linker.dlopen`), the
open and the allocations succeeding, no condition pending and the
initialization entry point of the library raising nothing: for a class loader
of a trusted tier, two calls of `rvmLoadNativeLibrary` with the same path both
report success; the second leaves both library lists as the first left them;
all the second does outside is open the path, take the lock, close the handle
just opened and release the lock (no `JNI_OnLoad`); and when the tier's list
held the handle at most once before, it holds it exactly once after. -/
theorem rvmLoadNativeLibrary_twice_same_path (vm : VM) (linker : Linker) (env : Env)
    (st : NativeState) (path : String) (classLoader : Option Nat) (tier : NativeLibsRef)
    (htier : tierOf vm linker classLoader = some tier)
    (hpending : env.exception = none)
    (hopen : linker.dlopen path ≠ 0)
    (hheap : 2 ≤ env.heapFree)
    (hinit : linker.onLoad (linker.dlsym (linker.dlopen path) "JNI_OnLoad") = none)
    (first second : Env × NativeState × Bool)
    (hfirst : first = rvmLoadNativeLibrary vm linker env st path classLoader)
    (hsecond : second = rvmLoadNativeLibrary vm linker first.1 first.2.1 path classLoader) :
    first.2.2 = true ∧ second.2.2 = true ∧
      second.2.1.bootNativeLibs = first.2.1.bootNativeLibs ∧
      second.2.1.mainNativeLibs = first.2.1.mainNativeLibs ∧
      second.2.1.calls = first.2.1.calls ++
        [LinkerEvent.dlopen path, LinkerEvent.lock,
          LinkerEvent.dlclose (linker.dlopen path), LinkerEvent.unlock] ∧
      (handleCount (linker.dlopen path) (tier.get st) ≤ 1 →
        handleCount (linker.dlopen path) (tier.get second.2.1) = 1) := by
  have hsel : ∀ e s, rvmLoadNativeLibrary vm linker e s path classLoader =
      rvmLoadNativeLibrary_open linker e s path tier := by
    intro e s
    rw [rvmLoadNativeLibrary_of_tier, htier]
  rw [hsel] at hfirst hsecond
  have hheap0 : env.heapFree ≠ 0 := by omega
  have hsecondOf : ∀ (s1 : NativeState), first.1 = { env with heapFree := env.heapFree - 1 } →
      first.2.1 = s1 → handleCount (linker.dlopen path) (tier.get s1) ≠ 0 →
      second = ({ first.1 with heapFree := first.1.heapFree - 1 },
        { s1 with nextLib := s1.nextLib + 1,
                  calls := s1.calls ++ [LinkerEvent.dlopen path, LinkerEvent.lock,
                    LinkerEvent.dlclose (linker.dlopen path), LinkerEvent.unlock] }, true) := by
    intro s1 he hs hc
    rw [hsecond, hs]
    exact rvmLoadNativeLibrary_open_present linker first.1 s1 path tier hopen
      (by rw [he]; simp; omega) hc
  by_cases hhas : handleCount (linker.dlopen path) (tier.get st) = 0
  · obtain ⟨h1, h2, h3⟩ := rvmLoadNativeLibrary_open_absent linker env st path tier hopen
      hheap0 hpending hinit hhas
    rw [← hfirst] at h1 h2 h3
    have hc : handleCount (linker.dlopen path) (tier.get first.2.1) = 1 := by
      rw [h3, NativeLibsRef_get_set, handleCount_append_singleton (linker.dlopen path)
        (tier.get st) { addr := st.nextLib, handle := linker.dlopen path } rfl, hhas]
    have hsec := hsecondOf first.2.1 h1 rfl (by rw [hc]; decide)
    rw [hsec]
    refine ⟨h2, rfl, ?_, ?_, rfl, ?_⟩
    · rfl
    · rfl
    · intro _
      cases tier <;> exact hc
  · have h1 := rvmLoadNativeLibrary_open_present linker env st path tier hopen hheap0 hhas
    rw [← hfirst] at h1
    have hget : tier.get first.2.1 = tier.get st := by
      rw [h1]
      cases tier <;> rfl
    have hsec := hsecondOf first.2.1 (by rw [h1]) rfl (by rw [hget]; exact hhas)
    rw [hsec]
    refine ⟨by rw [h1], rfl, rfl, rfl, rfl, ?_⟩
    intro hle
    have : tier.get { first.2.1 with
        nextLib := first.2.1.nextLib + 1,
        calls := first.2.1.calls ++ [LinkerEvent.dlopen path, LinkerEvent.lock,
          LinkerEvent.dlclose (linker.dlopen path), LinkerEvent.unlock] } =
        tier.get st := by
      rw [← hget]
      cases tier <;> rfl
    rw [this]
    omega

/-- C15 on the demo libraries: `libcore.so` loaded twice from the system class
loader `2` gives one entry in the system-tier list and one call of `JNI_OnLoad`. -/
theorem rvmLoadNativeLibrary_twice_same_path_witness :
    (rvmLoadNativeLibrary demoVM demoLinker demoEnv demoNoLibs "libcore.so" (some 2)).2.2 =
        true ∧
      rvmLoadNativeLibrary demoVM demoLinker
          (rvmLoadNativeLibrary demoVM demoLinker demoEnv demoNoLibs "libcore.so" (some 2)).1
          (rvmLoadNativeLibrary demoVM demoLinker demoEnv demoNoLibs "libcore.so" (some 2)).2.1
          "libcore.so" (some 2) =
        ({ exception := none, heapFree := 6, trace := [] },
          { bootNativeLibs := [], mainNativeLibs := [{ addr := 0x9000, handle := 0x51 }],
            nextLib := 0x9002,
            calls := [LinkerEvent.dlopen "libcore.so", LinkerEvent.lock,
              LinkerEvent.dlsym 0x51 "JNI_OnLoad", LinkerEvent.JNI_OnLoad 0x5100 [] [],
              LinkerEvent.unlock, LinkerEvent.dlopen "libcore.so", LinkerEvent.lock,
              LinkerEvent.dlclose 0x51, LinkerEvent.unlock] }, true) :=
  ⟨(rvmLoadNativeLibrary_twice_same_path demoVM demoLinker demoEnv demoNoLibs "libcore.so"
      (some 2) NativeLibsRef.mainNativeLibs (by decide) rfl (by decide) (by decide)
      (by decide) _ _ rfl rfl).1, by decide⟩

/-- C16 as stated fails: from the class loader `3`, of neither trusted tier,
with both library lists empty, `rvmLoadNativeLibrary` reports failure and
leaves everything as it was, and no condition is raised. -/
theorem rvmLoadNativeLibrary_untrusted_silent_while_booting :
    tierOf demoVM demoLinker (some 3) = none ∧
      rvmLoadNativeLibrary demoVM demoLinker demoEnv demoNoLibs "libcore.so" (some 3) =
        (demoEnv, demoNoLibs, false) ∧
      demoEnv.exception = none := by
  refine ⟨by decide, by decide, rfl⟩

/-- C16, amended: for a class loader of neither the boot nor the system tier,
every path and every state of the library lists, `rvmLoadNativeLibrary`
reports failure, opens nothing (the record of outside calls is as it was) and
leaves both library lists unchanged; it raises UnsatisfiedLink when the
boot-tier list is not empty, and raises nothing when it is empty. -/
theorem rvmLoadNativeLibrary_untrusted_rejected (vm : VM) (linker : Linker) (env : Env)
    (st : NativeState) (path : String) (classLoader : Option Nat)
    (htier : tierOf vm linker classLoader = none) :
    rvmLoadNativeLibrary vm linker env st path classLoader =
      (if st.bootNativeLibs ≠ [] then rvmThrow env Throwable.UnsatisfiedLinkError else env,
        st, false) := by
  rw [rvmLoadNativeLibrary_of_tier, htier]
  by_cases h : st.bootNativeLibs = [] <;> simp [h]

/-- C16, amended, on the demo libraries: with libraries in the boot-tier list the
class loader `3` gets UnsatisfiedLink. -/
theorem rvmLoadNativeLibrary_untrusted_rejected_witness :
    rvmLoadNativeLibrary demoVM demoLinker demoEnv demoBootLibs "libcore.so" (some 3) =
      (rvmThrow demoEnv Throwable.UnsatisfiedLinkError, demoBootLibs, false) :=
  (rvmLoadNativeLibrary_untrusted_rejected demoVM demoLinker demoEnv demoBootLibs "libcore.so"
    (some 3) (by decide)).trans (by decide)

/-! ### The outcomes of `rvmLoadNativeLibrary_open` -/

/-- The linker does not find the path. -/
theorem rvmLoadNativeLibrary_open_dlopen_fails (linker : Linker) (env : Env)
    (st : NativeState) (path : String) (tier : NativeLibsRef)
    (hopen : linker.dlopen path = 0) :
    rvmLoadNativeLibrary_open linker env st path tier =
      (if env.exception = none ∧ st.bootNativeLibs ≠ []
          then rvmThrow env Throwable.UnsatisfiedLinkError else env,
        { st with calls := st.calls ++ [LinkerEvent.dlopen path] }, false) := by
  unfold rvmLoadNativeLibrary_open
  cases he : env.exception <;> by_cases hb : st.bootNativeLibs = [] <;>
    simp [rvmOpenDynamicLib, hopen, NativeState.record, rvmExceptionOccurred, he, hb,
      rvmThrowUnsatisfiedLinkError]

/-- The linker finds the path and the allocation of the node fails. -/
theorem rvmLoadNativeLibrary_open_alloc_fails (linker : Linker) (env : Env)
    (st : NativeState) (path : String) (tier : NativeLibsRef)
    (hopen : linker.dlopen path ≠ 0) (hheap : env.heapFree = 0) :
    rvmLoadNativeLibrary_open linker env st path tier =
      (rvmThrow env Throwable.OutOfMemoryError,
        { st with calls := st.calls ++ [LinkerEvent.dlopen path,
            LinkerEvent.dlclose (linker.dlopen path)] }, false) := by
  unfold rvmLoadNativeLibrary_open
  simp [rvmOpenDynamicLib, hopen, rvmAllocateMemory, hheap, NativeState.record,
    rvmExceptionOccurred, rvmThrow]

/-- The library is new to the list and exports no `JNI_OnLoad`: it is added. -/
theorem rvmLoadNativeLibrary_open_no_entry_point (linker : Linker) (env : Env)
    (st : NativeState) (path : String) (tier : NativeLibsRef)
    (hopen : linker.dlopen path ≠ 0) (hheap : env.heapFree ≠ 0)
    (hhas : handleCount (linker.dlopen path) (tier.get st) = 0)
    (hsym : linker.dlsym (linker.dlopen path) "JNI_OnLoad" = 0) :
    rvmLoadNativeLibrary_open linker env st path tier =
      ({ env with heapFree := env.heapFree - 1 },
        tier.set
          { st with nextLib := st.nextLib + 1,
                    calls := st.calls ++ [LinkerEvent.dlopen path, LinkerEvent.lock,
                      LinkerEvent.dlsym (linker.dlopen path) "JNI_OnLoad",
                      LinkerEvent.unlock] }
          (tier.get st ++ [{ addr := st.nextLib, handle := linker.dlopen path }]),
        true) := by
  have hhas2 : rvmHasDynamicLib { addr := st.nextLib, handle := linker.dlopen path }
      (tier.get st) = false := (rvmHasDynamicLib_eq_false_iff _ _).2 hhas
  unfold rvmLoadNativeLibrary_open
  rw [rvmOpenDynamicLib_ok linker env st path hopen hheap]
  cases tier <;>
    simp only [NativeLibsRef.get, obtainNativeLibsLock, NativeState.record] at hhas2 ⊢ <;>
    simp [hhas2, rvmFindDynamicLibSymbol, hsym, releaseNativeLibsLock,
      NativeState.record, NativeLibsRef.set, NativeLibsRef.get, rvmAddDynamicLib]

/-- The state `JNI_OnLoad` leaves when run in `env`. -/
theorem callJNI_OnLoad_env (linker : Linker) (env : Env) (st : NativeState) (function : Nat) :
    (callJNI_OnLoad linker env st function).1 =
      (match linker.onLoad function with
        | some t => rvmThrow env t
        | none => env) ∧
    (callJNI_OnLoad linker env st function).2 =
      st.record (LinkerEvent.JNI_OnLoad function st.bootNativeLibs st.mainNativeLibs) := by
  unfold callJNI_OnLoad
  cases linker.onLoad function <;> exact ⟨rfl, rfl⟩

/-- The library is new to the list and exports `JNI_OnLoad`: the entry point
is run with the lists as they were, and the library is added if and only if no
condition is pending after it. -/
theorem rvmLoadNativeLibrary_open_entry_point (linker : Linker) (env : Env)
    (st : NativeState) (path : String) (tier : NativeLibsRef)
    (hopen : linker.dlopen path ≠ 0) (hheap : env.heapFree ≠ 0)
    (hhas : handleCount (linker.dlopen path) (tier.get st) = 0)
    (hsym : linker.dlsym (linker.dlopen path) "JNI_OnLoad" ≠ 0) :
    rvmLoadNativeLibrary_open linker env st path tier =
      if ((callJNI_OnLoad linker { env with heapFree := env.heapFree - 1 } st
          (linker.dlsym (linker.dlopen path) "JNI_OnLoad")).1.exception).isSome = true then
        ((callJNI_OnLoad linker { env with heapFree := env.heapFree - 1 } st
            (linker.dlsym (linker.dlopen path) "JNI_OnLoad")).1,
          { st with nextLib := st.nextLib + 1,
                    calls := st.calls ++ [LinkerEvent.dlopen path, LinkerEvent.lock,
                      LinkerEvent.dlsym (linker.dlopen path) "JNI_OnLoad",
                      LinkerEvent.JNI_OnLoad (linker.dlsym (linker.dlopen path) "JNI_OnLoad")
                        st.bootNativeLibs st.mainNativeLibs,
                      LinkerEvent.unlock] },
          false)
      else
        ((callJNI_OnLoad linker { env with heapFree := env.heapFree - 1 } st
            (linker.dlsym (linker.dlopen path) "JNI_OnLoad")).1,
          tier.set
            { st with nextLib := st.nextLib + 1,
                      calls := st.calls ++ [LinkerEvent.dlopen path, LinkerEvent.lock,
                        LinkerEvent.dlsym (linker.dlopen path) "JNI_OnLoad",
                        LinkerEvent.JNI_OnLoad (linker.dlsym (linker.dlopen path) "JNI_OnLoad")
                          st.bootNativeLibs st.mainNativeLibs,
                        LinkerEvent.unlock] }
            (tier.get st ++ [{ addr := st.nextLib, handle := linker.dlopen path }]),
          true) := by
  have hhas2 : rvmHasDynamicLib { addr := st.nextLib, handle := linker.dlopen path }
      (tier.get st) = false := (rvmHasDynamicLib_eq_false_iff _ _).2 hhas
  unfold rvmLoadNativeLibrary_open
  rw [rvmOpenDynamicLib_ok linker env st path hopen hheap]
  cases hon : linker.onLoad (linker.dlsym (linker.dlopen path) "JNI_OnLoad") <;>
    cases hex : env.exception <;> cases tier <;>
    simp only [NativeLibsRef.get, obtainNativeLibsLock, NativeState.record] at hhas2 ⊢ <;>
    simp [hhas2, rvmFindDynamicLibSymbol, hsym, releaseNativeLibsLock,
      NativeState.record, NativeLibsRef.set, NativeLibsRef.get, rvmAddDynamicLib,
      callJNI_OnLoad, hon, hex, rvmExceptionOccurred, rvmThrow]

theorem NativeLibsRef_set_calls (tier : NativeLibsRef) (st : NativeState)
    (libs : List DynamicLib) : (tier.set st libs).calls = st.calls := by
  cases tier <;> rfl

/-- C17: whenever `rvmLoadNativeLibrary` reports failure, for whatever reason,
the boot-tier and the system-tier lists are exactly as before the call. Every
`JNI_OnLoad` the call runs finds both lists as they were before the call, that
is, it runs before the library is added. And whenever a list has changed, the
call reports success, the change is the library appended to the list of the
class loader's tier, and if the library exports `JNI_OnLoad` then it was run
and no condition is pending after it. -/
theorem rvmLoadNativeLibrary_failure_leaves_lists (vm : VM) (linker : Linker) (env : Env)
    (st : NativeState) (path : String) (classLoader : Option Nat) :
    ((rvmLoadNativeLibrary vm linker env st path classLoader).2.2 = false →
        (rvmLoadNativeLibrary vm linker env st path classLoader).2.1.bootNativeLibs =
          st.bootNativeLibs ∧
        (rvmLoadNativeLibrary vm linker env st path classLoader).2.1.mainNativeLibs =
          st.mainNativeLibs) ∧
      (∀ function boot main,
        LinkerEvent.JNI_OnLoad function boot main ∈
          (rvmLoadNativeLibrary vm linker env st path classLoader).2.1.calls →
        LinkerEvent.JNI_OnLoad function boot main ∈ st.calls ∨
          (boot = st.bootNativeLibs ∧ main = st.mainNativeLibs)) ∧
      ((rvmLoadNativeLibrary vm linker env st path classLoader).2.1.bootNativeLibs ≠
            st.bootNativeLibs ∨
          (rvmLoadNativeLibrary vm linker env st path classLoader).2.1.mainNativeLibs ≠
            st.mainNativeLibs →
        (rvmLoadNativeLibrary vm linker env st path classLoader).2.2 = true ∧
        ∃ tier lib, tierOf vm linker classLoader = some tier ∧
          lib.handle = linker.dlopen path ∧
          tier.get (rvmLoadNativeLibrary vm linker env st path classLoader).2.1 =
            tier.get st ++ [lib] ∧
          (linker.dlsym lib.handle "JNI_OnLoad" ≠ 0 →
            LinkerEvent.JNI_OnLoad (linker.dlsym lib.handle "JNI_OnLoad")
                st.bootNativeLibs st.mainNativeLibs ∈
              (rvmLoadNativeLibrary vm linker env st path classLoader).2.1.calls ∧
            (rvmLoadNativeLibrary vm linker env st path classLoader).1.exception = none)) := by
  rw [rvmLoadNativeLibrary_of_tier]
  cases ht : tierOf vm linker classLoader with
  | none =>
    by_cases hb : st.bootNativeLibs = [] <;> simp [hb] <;> exact fun _ _ _ h => Or.inl h
  | some tier =>
    simp only
    by_cases hopen : linker.dlopen path = 0
    · rw [rvmLoadNativeLibrary_open_dlopen_fails linker env st path tier hopen]
      simp
      exact fun _ _ _ h => Or.inl h
    · by_cases hheap : env.heapFree = 0
      · rw [rvmLoadNativeLibrary_open_alloc_fails linker env st path tier hopen hheap]
        simp
        exact fun _ _ _ h => Or.inl h
      · by_cases hhas : handleCount (linker.dlopen path) (tier.get st) = 0
        · by_cases hsym : linker.dlsym (linker.dlopen path) "JNI_OnLoad" = 0
          · rw [rvmLoadNativeLibrary_open_no_entry_point linker env st path tier hopen hheap
              hhas hsym]
            refine ⟨by simp, ?_, ?_⟩
            · intro function boot main hmem
              rw [NativeLibsRef_set_calls] at hmem
              left
              simpa using hmem
            · intro _
              refine ⟨rfl, tier, { addr := st.nextLib, handle := linker.dlopen path }, rfl,
                rfl, NativeLibsRef_get_set _ _ _, ?_⟩
              intro hne
              exact absurd hsym hne
          · rw [rvmLoadNativeLibrary_open_entry_point linker env st path tier hopen hheap
              hhas hsym]
            by_cases hpend : ((callJNI_OnLoad linker { env with heapFree := env.heapFree - 1 }
                st (linker.dlsym (linker.dlopen path) "JNI_OnLoad")).1.exception).isSome = true
            · rw [if_pos hpend]
              refine ⟨by simp, ?_, by simp⟩
              intro function boot main hmem
              simp only [List.mem_append, List.mem_cons, LinkerEvent.JNI_OnLoad.injEq,
                List.mem_singleton, reduceCtorEq, false_or, or_false, List.not_mem_nil] at hmem
              rcases hmem with h | ⟨_, hb, hm⟩
              · exact Or.inl h
              · exact Or.inr ⟨hb, hm⟩
            · rw [if_neg hpend]
              refine ⟨by simp, ?_, ?_⟩
              · intro function boot main hmem
                rw [NativeLibsRef_set_calls] at hmem
                simp only [List.mem_append, List.mem_cons, LinkerEvent.JNI_OnLoad.injEq,
                  List.mem_singleton, reduceCtorEq, false_or, or_false,
                  List.not_mem_nil] at hmem
                rcases hmem with h | ⟨_, hb, hm⟩
                · exact Or.inl h
                · exact Or.inr ⟨hb, hm⟩
              · intro _
                refine ⟨rfl, tier, { addr := st.nextLib, handle := linker.dlopen path }, rfl,
                  rfl, NativeLibsRef_get_set _ _ _, ?_⟩
                intro _
                refine ⟨?_, ?_⟩
                · rw [NativeLibsRef_set_calls]
                  simp
                · simpa using hpend
        · rw [rvmLoadNativeLibrary_open_present linker env st path tier hopen hheap hhas]
          simp
          exact fun _ _ _ h => Or.inl h

/-- C17 on the demo libraries, with a `JNI_OnLoad` of `libcore.so` that raises:
the load fails with the condition pending and both lists empty as before. -/
theorem rvmLoadNativeLibrary_failure_leaves_lists_witness :
    rvmLoadNativeLibrary demoVM
        { demoLinker with onLoad := fun _ => some (Throwable.other 7) }
        demoEnv demoNoLibs "libcore.so" none =
      ({ exception := some (Throwable.other 7), heapFree := 7, trace := [] },
        { bootNativeLibs := [], mainNativeLibs := [], nextLib := 0x9001,
          calls := [LinkerEvent.dlopen "libcore.so", LinkerEvent.lock,
            LinkerEvent.dlsym 0x51 "JNI_OnLoad", LinkerEvent.JNI_OnLoad 0x5100 [] [],
            LinkerEvent.unlock] }, false) ∧
    (rvmLoadNativeLibrary demoVM
        { demoLinker with onLoad := fun _ => some (Throwable.other 7) }
        demoEnv demoNoLibs "libcore.so" none).2.1.bootNativeLibs =
      demoNoLibs.bootNativeLibs :=
  ⟨by decide,
    ((rvmLoadNativeLibrary_failure_leaves_lists demoVM
      { demoLinker with onLoad := fun _ => some (Throwable.other 7) }
      demoEnv demoNoLibs "libcore.so" none).1 (by decide)).1⟩

/-- C18: while both library lists are empty, a call of `rvmLoadNativeLibrary`
that fails because the class loader is of neither trusted tier, or because the
library cannot be opened, returns the failure value and raises no condition
of its own: the pending condition is as on entry when the class loader is
rejected or the linker does not find the path, and it is the allocator's
OutOfMemory when the allocation of the library node fails. -/
theorem rvmLoadNativeLibrary_silent_while_booting (vm : VM) (linker : Linker) (env : Env)
    (st : NativeState) (path : String) (classLoader : Option Nat)
    (hboot : st.bootNativeLibs = []) (_hmain : st.mainNativeLibs = []) :
    (tierOf vm linker classLoader = none →
        rvmLoadNativeLibrary vm linker env st path classLoader = (env, st, false)) ∧
      (tierOf vm linker classLoader ≠ none → linker.dlopen path = 0 →
        (rvmLoadNativeLibrary vm linker env st path classLoader).2.2 = false ∧
        (rvmLoadNativeLibrary vm linker env st path classLoader).1 = env) ∧
      (tierOf vm linker classLoader ≠ none → linker.dlopen path ≠ 0 → env.heapFree = 0 →
        (rvmLoadNativeLibrary vm linker env st path classLoader).2.2 = false ∧
        (rvmLoadNativeLibrary vm linker env st path classLoader).1 =
          (rvmOpenDynamicLib linker env st path).1 ∧
        (rvmOpenDynamicLib linker env st path).1 =
          (rvmAllocateMemory env).1) := by
  rw [rvmLoadNativeLibrary_of_tier]
  refine ⟨?_, ?_, ?_⟩
  · intro ht
    simp [ht, hboot]
  · intro ht hopen
    cases h : tierOf vm linker classLoader with
    | none => exact absurd h ht
    | some tier =>
      simp only
      rw [rvmLoadNativeLibrary_open_dlopen_fails linker env st path tier hopen]
      simp [hboot]
  · intro ht hopen hheap
    cases h : tierOf vm linker classLoader with
    | none => exact absurd h ht
    | some tier =>
      simp only
      rw [rvmLoadNativeLibrary_open_alloc_fails linker env st path tier hopen hheap]
      simp [rvmOpenDynamicLib, hopen, rvmAllocateMemory, hheap]

/-- C18 on the demo libraries: with no library loaded, neither the rejected
class loader `3` nor a path the linker does not find raises anything. -/
theorem rvmLoadNativeLibrary_silent_while_booting_witness :
    rvmLoadNativeLibrary demoVM demoLinker demoEnv demoNoLibs "libcore.so" (some 3) =
        (demoEnv, demoNoLibs, false) ∧
      (rvmLoadNativeLibrary demoVM demoLinker demoEnv demoNoLibs "missing.so" none).1 =
        demoEnv :=
  ⟨(rvmLoadNativeLibrary_silent_while_booting demoVM demoLinker demoEnv demoNoLibs
      "libcore.so" (some 3) rfl rfl).1 (by decide),
    ((rvmLoadNativeLibrary_silent_while_booting demoVM demoLinker demoEnv demoNoLibs
      "missing.so" none rfl rfl).2.1 (by decide) (by decide)).2⟩

/-! ## Lemmas on the call stack walker -/

/-- With no collaborator raising and no condition pending,
`rvmFindMethodAtAddress` changes nothing and gives the method the address maps to. -/
theorem rvmFindMethodAtAddress_eq_methodAt (vm : VM) (options : Options) (env : Env)
    (address : Nat) (hfault : ∀ c, vm.loadMethodsFault c = none)
    (hpending : env.exception = none) :
    rvmFindMethodAtAddress vm options env address = (env, methodAt vm options address) := by
  unfold rvmFindMethodAtAddress methodAt
  cases options.findClassAt address with
  | none => rfl
  | some clazz => simp [rvmGetMethods, hfault, rvmExceptionCheck, hpending]

/-- The loop of the full-trace query: while the allocations succeed, every
frame appends its entry, if it has one, and the walk goes on to the end. -/
theorem unwindIterateCallStack_getCallStackIterator (vm : VM) (options : Options)
    (hfault : ∀ c, vm.loadMethodsFault c = none) :
    ∀ (frames : List Frame) (env : Env) (data : List CallStackEntry),
      env.exception = none →
      (frames.filterMap (frameEntry vm options)).length ≤ env.heapFree →
      unwindIterateCallStack (getCallStackIterator vm options) env frames data =
        ({ env with
            heapFree := env.heapFree - (frames.filterMap (frameEntry vm options)).length },
          data ++ frames.filterMap (frameEntry vm options)) := by
  intro frames
  induction frames with
  | nil => intro env data _ _; simp [unwindIterateCallStack]
  | cons frame rest ih =>
    intro env data hpending halloc
    obtain ⟨pc, proxyMethod⟩ := frame
    cases proxyMethod with
    | some proxy =>
      have hentry : frameEntry vm options { pc := pc, proxyMethod := some proxy } =
          some { method := proxy, offset := 0 } := rfl
      rw [List.filterMap_cons_some hentry] at halloc ⊢
      simp only [List.length_cons] at halloc ⊢
      have hpos : env.heapFree ≠ 0 := by omega
      simp only [unwindIterateCallStack, getCallStackIterator, rvmAllocateMemory, hpos,
        if_false, Bool.not_true, Option.isSome_some, if_true, Bool.false_eq_true]
      rw [ih { env with heapFree := env.heapFree - 1 } _ hpending
        (by show _ ≤ env.heapFree - 1; omega)]
      simp only [List.append_assoc, List.singleton_append, Prod.mk.injEq, and_true]
      congr 1
      omega
    | none =>
      cases hm : methodAt vm options pc with
      | none =>
        have hentry : frameEntry vm options { pc := pc, proxyMethod := none } = none := by
          simp [frameEntry, hm]
        rw [List.filterMap_cons_none hentry] at halloc ⊢
        simp only [unwindIterateCallStack, getCallStackIterator,
          rvmFindMethodAtAddress_eq_methodAt vm options env pc hfault hpending, hm, if_true]
        exact ih _ _ hpending halloc
      | some method =>
        have hentry : frameEntry vm options { pc := pc, proxyMethod := none } =
            some { method := method, offset := pc - method.impl } := by
          simp [frameEntry, hm]
        rw [List.filterMap_cons_some hentry] at halloc ⊢
        simp only [List.length_cons] at halloc ⊢
        have hpos : env.heapFree ≠ 0 := by omega
        simp only [unwindIterateCallStack, getCallStackIterator,
          rvmFindMethodAtAddress_eq_methodAt vm options env pc hfault hpending, hm,
          rvmAllocateMemory, hpos, if_false, Bool.not_true, Option.isSome_none, if_true,
          Bool.false_eq_true]
        rw [ih { env with heapFree := env.heapFree - 1 } _ hpending
          (by show _ ≤ env.heapFree - 1; omega)]
        simp only [List.append_assoc, List.singleton_append, Prod.mk.injEq, and_true]
        congr 1
        omega

/-- When every frame has an entry, the entries are one per frame, in order. -/
theorem filterMap_eq_of_all_some {α β : Type} (f : α → Option β) :
    ∀ l : List α, (∀ a ∈ l, (f a).isSome) → (l.filterMap f).map some = l.map f := by
  intro l
  induction l with
  | nil => intro _; rfl
  | cons a rest ih =>
    intro h
    have ha := h a (List.mem_cons_self _ _)
    cases hfa : f a with
    | none => rw [hfa] at ha; exact absurd ha (by simp)
    | some b =>
      rw [List.filterMap_cons_some hfa, List.map_cons, List.map_cons, hfa,
        ih (fun x hx => h x (List.mem_cons_of_mem _ hx))]

/-- The loop of the nearest-caller query: with no collaborator raising and no
condition pending, the result is the method of the first frame whose program
counter maps to a method; the proxy tag of the frames is not looked at. -/
theorem unwindIterateCallStack_getCallingMethodIterator (vm : VM) (options : Options)
    (hfault : ∀ c, vm.loadMethodsFault c = none) :
    ∀ (frames : List Frame) (env : Env) (data : Option Method),
      env.exception = none →
      unwindIterateCallStack (getCallingMethodIterator vm options) env frames data =
        (env, ((frames.findSome? fun frame => methodAt vm options frame.pc).or data)) := by
  intro frames
  induction frames with
  | nil => intro env data _; simp [unwindIterateCallStack]
  | cons frame rest ih =>
    intro env data hpending
    cases hm : methodAt vm options frame.pc with
    | none =>
      simp only [unwindIterateCallStack, getCallingMethodIterator,
        rvmFindMethodAtAddress_eq_methodAt vm options env frame.pc hfault hpending, hm,
        if_true, List.findSome?_cons]
      exact ih _ _ hpending
    | some method =>
      simp [unwindIterateCallStack, getCallingMethodIterator,
        rvmFindMethodAtAddress_eq_methodAt vm options env frame.pc hfault hpending, hm,
        List.findSome?_cons]

/-! ## Call stack walker: properties of the specification -/

/-- C19: with no collaborator raising, no condition pending and an allocator
that can serve one allocation per recorded entry, `rvmGetCallStack` returns, in
the order of the frames, the entry of every frame that has one and raises
nothing: a frame whose program counter maps to no method contributes nothing
and does not stop the walk. The entry of a proxy frame is its proxy method at
offset 0, the entry of a real frame is the method its program counter maps to
at offset `pc - impl`. When the program counter of every real frame maps to a
method, the list has exactly one entry per frame. -/
theorem rvmGetCallStack_entry_per_frame (vm : VM) (options : Options) (env : Env)
    (frames : List Frame) (hfault : ∀ c, vm.loadMethodsFault c = none)
    (hpending : env.exception = none)
    (halloc : (frames.filterMap (frameEntry vm options)).length ≤ env.heapFree) :
    (rvmGetCallStack vm options env frames).2 = frames.filterMap (frameEntry vm options) ∧
      (rvmGetCallStack vm options env frames).1.exception = none ∧
      (∀ frame proxy, frame.proxyMethod = some proxy →
        frameEntry vm options frame = some { method := proxy, offset := 0 }) ∧
      (∀ frame, frame.proxyMethod = none →
        ((rvmFindMethodAtAddress vm options env frame.pc).2 = none →
          frameEntry vm options frame = none) ∧
        ∀ method, (rvmFindMethodAtAddress vm options env frame.pc).2 = some method →
          frameEntry vm options frame =
            some { method := method, offset := frame.pc - method.impl }) ∧
      ((∀ frame ∈ frames, frame.proxyMethod = none →
          ((rvmFindMethodAtAddress vm options env frame.pc).2).isSome) →
        (rvmGetCallStack vm options env frames).2.length = frames.length ∧
        (rvmGetCallStack vm options env frames).2.map some =
          frames.map (frameEntry vm options)) := by
  have hloop := unwindIterateCallStack_getCallStackIterator vm options hfault frames env []
    hpending halloc
  have hstack : rvmGetCallStack vm options env frames =
      ({ env with
          heapFree := env.heapFree - (frames.filterMap (frameEntry vm options)).length },
        frames.filterMap (frameEntry vm options)) := by
    simp [rvmGetCallStack, hloop, rvmExceptionOccurred, hpending]
  rw [hstack]
  refine ⟨rfl, hpending, ?_, ?_, ?_⟩
  · intro frame proxy hproxy
    simp [frameEntry, hproxy]
  · intro frame hproxy
    rw [rvmFindMethodAtAddress_eq_methodAt vm options env frame.pc hfault hpending]
    refine ⟨?_, ?_⟩
    · intro hm
      simp only at hm
      simp [frameEntry, hproxy, hm]
    · intro method hm
      simp only at hm
      simp [frameEntry, hproxy, hm]
  · intro hall
    have hsome : ∀ frame ∈ frames, (frameEntry vm options frame).isSome := by
      intro frame hmem
      cases hproxy : frame.proxyMethod with
      | some proxy => simp [frameEntry, hproxy]
      | none =>
        have h := hall frame hmem hproxy
        rw [rvmFindMethodAtAddress_eq_methodAt vm options env frame.pc hfault hpending] at h
        simp only at h
        cases hm : methodAt vm options frame.pc with
        | none => rw [hm] at h; exact absurd h (by simp)
        | some method => simp [frameEntry, hproxy, hm]
    have hmap := filterMap_eq_of_all_some (frameEntry vm options) frames hsome
    refine ⟨?_, hmap⟩
    have hlen := congrArg List.length hmap
    simpa using hlen

/-- C19 on a call stack of three real frames and one proxy frame: four
entries in the order of the frames, the proxy frame at offset 0. -/
theorem rvmGetCallStack_entry_per_frame_witness :
    (rvmGetCallStack walkVM walkOptions demoEnv walkFrames).2.length = 4 ∧
      (rvmGetCallStack walkVM walkOptions demoEnv walkFrames).2.map some =
        walkFrames.map (frameEntry walkVM walkOptions) ∧
      (rvmGetCallStack walkVM walkOptions demoEnv walkFrames).2[1]? =
        some { method := walkProxy, offset := 0 } :=
  have h := rvmGetCallStack_entry_per_frame walkVM walkOptions demoEnv walkFrames
    (fun _ => rfl) rfl (by decide)
  ⟨(h.2.2.2.2 (by decide)).1, (h.2.2.2.2 (by decide)).2, by rw [h.1]; decide⟩

/-- C20 does not hold of the code. On a call stack whose nearest frame is a
proxy frame (its program counter `0x5008` is in no class) called from `second`
of class `0` (program counter `0x2044`), the first frame that resolves to a
method is the proxy frame, which resolves to its proxy method; yet
`rvmGetCallingMethod` returns `second`: `getCallingMethodIterator` does not
look at its `proxyMethod` argument and maps the program counter of every frame
with `rvmFindMethodAtAddress`, where `getCallStackIterator` takes the proxy
method of a proxy frame. The full trace of the same call stack begins with
the proxy method. -/
theorem rvmGetCallingMethod_skips_proxy_frame :
    (walkProxyFirst.findSome? (frameMethod walkVM walkOptions)) = some walkProxy ∧
      (rvmGetCallingMethod walkVM walkOptions demoEnv walkProxyFirst).2 =
        some { clazz := 0, name := "second", desc := "()V", access := 0x0001,
               impl := 0x2040, synchronizedImpl := 0, size := 0x20 } ∧
      ((rvmGetCallStack walkVM walkOptions demoEnv walkProxyFirst).2.head?).map
          CallStackEntry.method = some walkProxy := by
  refine ⟨by decide, by decide, by decide⟩

/-- The first element of a list satisfying a test, the test being described by
a property. -/
theorem find?_eq_some_first {α : Type} (p : α → Bool) (P : α → Prop)
    (hp : ∀ x, p x = true ↔ P x) (l : List α) (m : α) :
    l.find? p = some m ↔
      ∃ before after, l = before ++ m :: after ∧ P m ∧ ∀ x ∈ before, ¬ P x := by
  rw [List.find?_eq_some]
  constructor
  · rintro ⟨hm, before, after, hsplit, hbefore⟩
    refine ⟨before, after, hsplit, (hp m).1 hm, ?_⟩
    intro x hx hin
    have h1 := hbefore x hx
    rw [(hp x).2 hin] at h1
    simp at h1
  · rintro ⟨before, after, hsplit, hin, hbefore⟩
    refine ⟨(hp m).2 hin, before, after, hsplit, ?_⟩
    intro x hx
    cases hc : p x with
    | false => rfl
    | true => exact absurd ((hp x).1 hc) (hbefore x hx)

/-- The range test of `rvmFindMethodAtAddress`, spelled out. -/
theorem codeContains_iff (a : Nat) (x : Method) :
    codeContains a x = true ↔
      (x.impl ≠ 0 ∧ x.impl ≤ a ∧ a < (x.impl + x.size) % 2 ^ pointerBits) := by
  simp [codeContains]

/-- The range test for a method whose code lies within the address space: the
end of the range does not wrap. -/
theorem codeContains_iff_of_no_wrap (a : Nat) (x : Method)
    (hx : x.impl + x.size < 2 ^ pointerBits) :
    codeContains a x = true ↔ (x.impl ≠ 0 ∧ x.impl ≤ a ∧ a < x.impl + x.size) := by
  rw [codeContains_iff, Nat.mod_eq_of_lt hx]

/-- The end of a range that reaches beyond the top of the address space wraps:
a method recorded at `0xFFFFFFFFFFFFFFF0` with size 32 has the end `0x10`, and
no address is found in it. -/
theorem codeContains_end_wraps :
    codeContains 0xFFFFFFFFFFFFFFF8
        { clazz := 0, name := "top", desc := "()V", access := 0x0001,
          impl := 0xFFFFFFFFFFFFFFF0, synchronizedImpl := 0, size := 32 } = false ∧
      codeContains 0xFFFFFFFFFFFFFFF8
        { clazz := 0, name := "top", desc := "()V", access := 0x0001,
          impl := 0xFFFFFFFFFFFFFFF0, synchronizedImpl := 0, size := 15 } = true := by
  refine ⟨by decide, by decide⟩

/-- C21: with no condition pending, `rvmFindMethodAtAddress` gives nothing when
no class is located for the address; and when the class `K` is located and
its methods load, it leaves the state alone and returns the first method `m`
of the declared-method list of `K` with `m.impl` not null, `m.impl ≤ a` and
`a` below the end of the range, the sum `m.impl + m.size` taken at pointer
width; a method returned has a non-null entry point and a non-zero size.
When the code of every method of `K` lies within the address space (no sum
`m.impl + m.size` reaches `2 ^ 64`, so that no end wraps), the method returned
is the first one with `m.impl ≤ a < m.impl + m.size`, and nothing is returned
exactly when the list has no such method. The range is half-open: for a
method returned `a` is not its end `m.impl + m.size`; a method whose entry
point is `a`, with a non-zero size, is in range. -/
theorem rvmFindMethodAtAddress_first_in_range (vm : VM) (options : Options) (env : Env)
    (a : Nat) (hpending : env.exception = none) :
    (options.findClassAt a = none → rvmFindMethodAtAddress vm options env a = (env, none)) ∧
      ∀ K, options.findClassAt a = some K → vm.loadMethodsFault K = none →
        (rvmFindMethodAtAddress vm options env a).1 = env ∧
        (∀ m, (rvmFindMethodAtAddress vm options env a).2 = some m ↔
          ∃ before after, (vm.classes K).methods = before ++ m :: after ∧
            (m.impl ≠ 0 ∧ m.impl ≤ a ∧ a < (m.impl + m.size) % 2 ^ pointerBits) ∧
            ∀ x ∈ before,
              ¬ (x.impl ≠ 0 ∧ x.impl ≤ a ∧ a < (x.impl + x.size) % 2 ^ pointerBits)) ∧
        (∀ m, (rvmFindMethodAtAddress vm options env a).2 = some m →
          m.impl ≠ 0 ∧ 0 < m.size) ∧
        ((∀ x ∈ (vm.classes K).methods, x.impl + x.size < 2 ^ pointerBits) →
          (∀ m, (rvmFindMethodAtAddress vm options env a).2 = some m ↔
            ∃ before after, (vm.classes K).methods = before ++ m :: after ∧
              (m.impl ≠ 0 ∧ m.impl ≤ a ∧ a < m.impl + m.size) ∧
              ∀ x ∈ before, ¬ (x.impl ≠ 0 ∧ x.impl ≤ a ∧ a < x.impl + x.size)) ∧
          ((rvmFindMethodAtAddress vm options env a).2 = none ↔
            ∀ x ∈ (vm.classes K).methods,
              ¬ (x.impl ≠ 0 ∧ x.impl ≤ a ∧ a < x.impl + x.size)) ∧
          (∀ m, (rvmFindMethodAtAddress vm options env a).2 = some m →
            m.impl ≠ 0 ∧ 0 < m.size ∧ a ≠ m.impl + m.size) ∧
          (∀ m ∈ (vm.classes K).methods, m.impl = a → a ≠ 0 → 0 < m.size →
            ((rvmFindMethodAtAddress vm options env a).2).isSome)) := by
  refine ⟨?_, ?_⟩
  · intro hnone
    simp [rvmFindMethodAtAddress, hnone]
  · intro K hK hfault
    have hres : rvmFindMethodAtAddress vm options env a =
        (env, (vm.classes K).methods.find? (codeContains a)) := by
      simp [rvmFindMethodAtAddress, hK, rvmGetMethods, hfault, rvmExceptionCheck, hpending]
    rw [hres]
    refine ⟨rfl, ?_, ?_, ?_⟩
    · intro m
      exact find?_eq_some_first (codeContains a) _ (codeContains_iff a) _ m
    · intro m hm
      simp only at hm
      have hin := (codeContains_iff a m).1 (List.find?_some hm)
      refine ⟨hin.1, ?_⟩
      rcases Nat.eq_zero_or_pos m.size with h0 | h0
      · exfalso
        have h1 := hin.2.2
        rw [h0, Nat.add_zero] at h1
        have h2 := Nat.mod_le m.impl (2 ^ pointerBits)
        omega
      · exact h0
    · intro hrange
      have hcode : ∀ x ∈ (vm.classes K).methods, codeContains a x = true ↔
          (x.impl ≠ 0 ∧ x.impl ≤ a ∧ a < x.impl + x.size) :=
        fun x hx => codeContains_iff_of_no_wrap a x (hrange x hx)
      refine ⟨?_, ?_, ?_, ?_⟩
      · intro m
        simp only
        rw [find?_eq_some_first (codeContains a) _ (codeContains_iff a) _ m]
        constructor
        · rintro ⟨before, after, hsplit, hin, hbefore⟩
          have hmem : ∀ x ∈ before ++ m :: after, x ∈ (vm.classes K).methods := by
            intro x hx
            rw [hsplit]
            exact hx
          refine ⟨before, after, hsplit, ?_, ?_⟩
          · exact (hcode m (hmem m (by simp))).1 ((codeContains_iff a m).2 hin)
          · intro x hx hc
            exact hbefore x hx
              ((codeContains_iff a x).1 ((hcode x (hmem x (by simp [hx]))).2 hc))
        · rintro ⟨before, after, hsplit, hin, hbefore⟩
          have hmem : ∀ x ∈ before ++ m :: after, x ∈ (vm.classes K).methods := by
            intro x hx
            rw [hsplit]
            exact hx
          refine ⟨before, after, hsplit, ?_, ?_⟩
          · exact (codeContains_iff a m).1 ((hcode m (hmem m (by simp))).2 hin)
          · intro x hx hc
            exact hbefore x hx
              ((hcode x (hmem x (by simp [hx]))).1 ((codeContains_iff a x).2 hc))
      · simp only
        rw [List.find?_eq_none]
        constructor
        · intro h x hx hin
          exact h x hx ((hcode x hx).2 hin)
        · intro h x hx hc
          exact h x hx ((hcode x hx).1 hc)
      · intro m hm
        simp only at hm
        have hin := (hcode m (List.mem_of_find?_eq_some hm)).1 (List.find?_some hm)
        refine ⟨hin.1, ?_, ?_⟩ <;> omega
      · intro m hm himpl hnz hsize
        simp only
        cases hfind : (vm.classes K).methods.find? (codeContains a) with
        | some _ => rfl
        | none =>
          rw [List.find?_eq_none] at hfind
          have := hfind m hm
          rw [(hcode m hm).2 ⟨by omega, by omega, by omega⟩] at this
          simp at this

/-- C21 on the demo code addresses, where no range wraps: `0x2040` is the end
of `first` and the entry of `second`, and maps to `second`; `0x205f` is the
last address of `second`; `0x2060` is in no class. -/
theorem rvmFindMethodAtAddress_first_in_range_witness :
    (∀ x ∈ (walkVM.classes 0).methods, x.impl + x.size < 2 ^ pointerBits) ∧
      ((rvmFindMethodAtAddress walkVM walkOptions demoEnv 0x2040).2).isSome ∧
      (rvmFindMethodAtAddress walkVM walkOptions demoEnv 0x2040).2 =
        some { clazz := 0, name := "second", desc := "()V", access := 0x0001,
               impl := 0x2040, synchronizedImpl := 0, size := 0x20 } ∧
      ((rvmFindMethodAtAddress walkVM walkOptions demoEnv 0x205f).2.map Method.name) =
        some "second" ∧
      rvmFindMethodAtAddress walkVM walkOptions demoEnv 0x2060 = (demoEnv, none) :=
  ⟨by decide,
    ((((rvmFindMethodAtAddress_first_in_range walkVM walkOptions demoEnv 0x2040 rfl).2 0
      (by decide) rfl).2.2.2 (by decide)).2.2.2)
      { clazz := 0, name := "second", desc := "()V", access := 0x0001,
        impl := 0x2040, synchronizedImpl := 0, size := 0x20 }
      (by decide) rfl (by decide) (by decide),
    by decide, by decide,
    (rvmFindMethodAtAddress_first_in_range walkVM walkOptions demoEnv 0x2060 rfl).1
      (by decide)⟩

/-- The loop of the full-trace query over the first frames of a call stack:
while the allocations succeed it records their entries and goes on with the
frames that follow. -/
theorem unwindIterateCallStack_getCallStackIterator_append (vm : VM) (options : Options)
    (hfault : ∀ c, vm.loadMethodsFault c = none) (rest : List Frame) :
    ∀ (frames : List Frame) (env : Env) (data : List CallStackEntry),
      env.exception = none →
      (frames.filterMap (frameEntry vm options)).length ≤ env.heapFree →
      unwindIterateCallStack (getCallStackIterator vm options) env (frames ++ rest) data =
        unwindIterateCallStack (getCallStackIterator vm options)
          { env with
            heapFree := env.heapFree - (frames.filterMap (frameEntry vm options)).length }
          rest (data ++ frames.filterMap (frameEntry vm options)) := by
  intro frames
  induction frames with
  | nil => intro env data _ _; simp
  | cons frame more ih =>
    intro env data hpending halloc
    obtain ⟨pc, proxyMethod⟩ := frame
    cases proxyMethod with
    | some proxy =>
      have hentry : frameEntry vm options { pc := pc, proxyMethod := some proxy } =
          some { method := proxy, offset := 0 } := rfl
      rw [List.filterMap_cons_some hentry] at halloc ⊢
      simp only [List.length_cons] at halloc ⊢
      have hpos : env.heapFree ≠ 0 := by omega
      rw [List.cons_append]
      simp only [unwindIterateCallStack, getCallStackIterator,
        rvmAllocateMemory, hpos, if_false, Bool.not_true, Option.isSome_some, if_true,
        Bool.false_eq_true]
      rw [ih { env with heapFree := env.heapFree - 1 } _ hpending
        (by show _ ≤ env.heapFree - 1; omega)]
      simp only [List.append_assoc, List.singleton_append]
      congr 2
      omega
    | none =>
      cases hm : methodAt vm options pc with
      | none =>
        have hentry : frameEntry vm options { pc := pc, proxyMethod := none } = none := by
          simp [frameEntry, hm]
        rw [List.filterMap_cons_none hentry] at halloc ⊢
        rw [List.cons_append]
        simp only [unwindIterateCallStack, getCallStackIterator,
          rvmFindMethodAtAddress_eq_methodAt vm options env pc hfault hpending, hm, if_true]
        exact ih _ _ hpending halloc
      | some method =>
        have hentry : frameEntry vm options { pc := pc, proxyMethod := none } =
            some { method := method, offset := pc - method.impl } := by
          simp [frameEntry, hm]
        rw [List.filterMap_cons_some hentry] at halloc ⊢
        simp only [List.length_cons] at halloc ⊢
        have hpos : env.heapFree ≠ 0 := by omega
        rw [List.cons_append]
        simp only [unwindIterateCallStack, getCallStackIterator,
          rvmFindMethodAtAddress_eq_methodAt vm options env pc hfault hpending, hm,
          rvmAllocateMemory, hpos, if_false, Bool.not_true, Option.isSome_none, if_true,
          Bool.false_eq_true]
        rw [ih { env with heapFree := env.heapFree - 1 } _ hpending
          (by show _ ≤ env.heapFree - 1; omega)]
        simp only [List.append_assoc, List.singleton_append]
        congr 2
        omega

/-- A frame with an entry, met when no allocation succeeds any more: the walk
stops there with OutOfMemory pending and the list as it was. -/
theorem unwindIterateCallStack_getCallStackIterator_alloc_fails (vm : VM) (options : Options)
    (hfault : ∀ c, vm.loadMethodsFault c = none) (env : Env) (frame : Frame)
    (rest : List Frame) (data : List CallStackEntry) (hpending : env.exception = none)
    (hheap : env.heapFree = 0) (hframe : (frameEntry vm options frame).isSome = true) :
    unwindIterateCallStack (getCallStackIterator vm options) env (frame :: rest) data =
      (rvmThrow env Throwable.OutOfMemoryError, data) := by
  obtain ⟨pc, proxyMethod⟩ := frame
  cases proxyMethod with
  | some proxy =>
    simp [unwindIterateCallStack, getCallStackIterator, rvmAllocateMemory, hheap]
  | none =>
    cases hm : methodAt vm options pc with
    | none => simp [frameEntry, hm] at hframe
    | some method =>
      simp [unwindIterateCallStack, getCallStackIterator,
        rvmFindMethodAtAddress_eq_methodAt vm options env pc hfault hpending, hm,
        rvmAllocateMemory, hheap]

/-- C22 as stated fails. With two allocations left, the walk over the demo
call stack records the entries of its first two frames and stops at the third
with OutOfMemory pending; `rvmGetCallStack` then returns `NULL`, not the two
entries recorded. -/
theorem rvmGetCallStack_drops_recorded_entries :
    unwindIterateCallStack (getCallStackIterator walkVM walkOptions)
        { demoEnv with heapFree := 2 } walkFrames [] =
      ({ exception := some Throwable.OutOfMemoryError, heapFree := 0, trace := [] },
        [{ method := { clazz := 1, name := "third", desc := "()V", access := 0x0009,
                       impl := 0x3000, synchronizedImpl := 0, size := 0x10 }, offset := 4 },
         { method := walkProxy, offset := 0 }]) ∧
      rvmGetCallStack walkVM walkOptions { demoEnv with heapFree := 2 } walkFrames =
        ({ exception := some Throwable.OutOfMemoryError, heapFree := 0, trace := [] }, []) := by
  refine ⟨by decide, by decide⟩

/-- C22, amended: when the allocation of the entry of a frame fails (the
frames `before` have used up the allocator, and `frame` has an entry), the
walk stops at that frame with the entries of the frames before it recorded in
order, whatever the frames `after` are, and OutOfMemory is pending;
`rvmGetCallStack` leaves that condition pending and returns `NULL`. -/
theorem rvmGetCallStack_allocation_failure (vm : VM) (options : Options) (env : Env)
    (before : List Frame) (frame : Frame) (after : List Frame)
    (hfault : ∀ c, vm.loadMethodsFault c = none) (hpending : env.exception = none)
    (hheap : (before.filterMap (frameEntry vm options)).length = env.heapFree)
    (hframe : (frameEntry vm options frame).isSome = true) :
    unwindIterateCallStack (getCallStackIterator vm options) env
        (before ++ frame :: after) [] =
      ({ exception := some Throwable.OutOfMemoryError, heapFree := 0, trace := env.trace },
        before.filterMap (frameEntry vm options)) ∧
      rvmGetCallStack vm options env (before ++ frame :: after) =
        ({ exception := some Throwable.OutOfMemoryError, heapFree := 0, trace := env.trace },
          []) := by
  have hloop : unwindIterateCallStack (getCallStackIterator vm options) env
      (before ++ frame :: after) [] =
      ({ exception := some Throwable.OutOfMemoryError, heapFree := 0, trace := env.trace },
        before.filterMap (frameEntry vm options)) := by
    rw [unwindIterateCallStack_getCallStackIterator_append vm options hfault _ before env []
      hpending (by omega)]
    rw [unwindIterateCallStack_getCallStackIterator_alloc_fails vm options hfault
      { env with
        heapFree := env.heapFree - (before.filterMap (frameEntry vm options)).length }
      frame after _ hpending (by show env.heapFree - _ = 0; omega) hframe]
    simp [rvmThrow, hheap]
  refine ⟨hloop, ?_⟩
  simp [rvmGetCallStack, hloop, rvmExceptionOccurred]

/-- C22, amended, on the demo call stack with two allocations left. -/
theorem rvmGetCallStack_allocation_failure_witness :
    rvmGetCallStack walkVM walkOptions { demoEnv with heapFree := 2 }
        (walkFrames.take 2 ++ { pc := 0x2044, proxyMethod := none } :: walkFrames.drop 3) =
      ({ exception := some Throwable.OutOfMemoryError, heapFree := 0, trace := [] }, []) :=
  (rvmGetCallStack_allocation_failure walkVM walkOptions { demoEnv with heapFree := 2 }
    (walkFrames.take 2) { pc := 0x2044, proxyMethod := none } (walkFrames.drop 3)
    (fun _ => rfl) rfl (by decide) (by decide)).2

/-! ## Descriptor parser: properties of the specification -/

/-- The iteration over a well-formed parameter list up to the closing `)`. -/
theorem parameterIteration_params (ret : List Char) :
    ∀ (params : List ParamType) (fuel : Nat),
      params.all ParamType.wellFormed = true → params.length < fuel →
      parameterIteration fuel (some (encodeParams params ++ ')' :: ret)) =
        some (parameterSteps params (')' :: ret), some ret) := by
  intro params
  induction params with
  | nil =>
    intro fuel _ hfuel
    obtain ⟨f, rfl⟩ : ∃ f, fuel = f + 1 := ⟨fuel - 1, by omega⟩
    simp [parameterIteration, encodeParams, rvmGetNextParameterType_close, parameterSteps]
  | cons p ps ih =>
    intro fuel hwf hfuel
    obtain ⟨f, rfl⟩ : ∃ f, fuel = f + 1 := ⟨fuel - 1, by simp at hfuel; omega⟩
    simp only [List.all_cons, Bool.and_eq_true] at hwf
    simp only [List.length_cons] at hfuel
    simp only [encodeParams, List.append_assoc, parameterIteration,
      rvmGetNextParameterType_param p hwf.1]
    rw [ih f hwf.2 (by omega)]
    simp [parameterSteps]

/-- The opening `(` is skipped by the first call. -/
theorem parameterIteration_open (fuel : Nat) (s : List Char) :
    parameterIteration fuel (some ('(' :: s)) = parameterIteration fuel (some s) := by
  cases fuel with
  | zero => rfl
  | succ f => simp only [parameterIteration, rvmGetNextParameterType_open]

theorem parameterSteps_length (tail : List Char) :
    ∀ params : List ParamType, (parameterSteps params tail).length = params.length := by
  intro params
  induction params with
  | nil => rfl
  | cons p ps ih => simp [parameterSteps, ih]

theorem parameterSteps_getElem? (tail : List Char) :
    ∀ (params : List ParamType) (k : Nat) (p : ParamType), params[k]? = some p →
      (parameterSteps params tail)[k]? =
        some (p.encode ++ (encodeParams (params.drop (k + 1)) ++ tail),
          some (encodeParams (params.drop (k + 1)) ++ tail)) := by
  intro params
  induction params with
  | nil => intro k p h; simp at h
  | cons q qs ih =>
    intro k p h
    cases k with
    | zero =>
      simp only [List.getElem?_cons_zero, Option.some.injEq] at h
      subst h
      simp [parameterSteps]
    | succ k =>
      simp only [List.getElem?_cons_succ] at h
      simp only [parameterSteps, List.getElem?_cons_succ, List.drop_succ_cons]
      exact ih k p h

/-- C23: on the well-formed descriptor `(P1 ... Pn)R`, with a fuel above `n`,
the iteration of `rvmGetNextParameterType` from the start ends: it gives `n`
pointers and then `0`, with the cursor on `R`. The `k`-th pointer is at the
first character of `Pk`, which is the tag of `Pk` (the primitive letter, `L`
for an object, the outermost `[` for an array), and the cursor the `k`-th call
leaves is right after the whole of `Pk`, at the parameters that follow. -/
theorem rvmGetNextParameterType_iteration (params : List ParamType) (ret : List Char)
    (fuel : Nat) (hwf : params.all ParamType.wellFormed = true)
    (hfuel : params.length < fuel) :
    ∃ steps, parameterIteration fuel (some (methodDescriptor params ret)) =
        some (steps, some ret) ∧
      steps.length = params.length ∧
      ∀ k p, params[k]? = some p →
        steps[k]? =
          some (p.encode ++ (encodeParams (params.drop (k + 1)) ++ ')' :: ret),
            some (encodeParams (params.drop (k + 1)) ++ ')' :: ret)) ∧
        deref (p.encode ++ (encodeParams (params.drop (k + 1)) ++ ')' :: ret)) = p.tag := by
  refine ⟨parameterSteps params (')' :: ret), ?_, parameterSteps_length _ params, ?_⟩
  · rw [methodDescriptor, parameterIteration_open]
    exact parameterIteration_params ret params fuel hwf hfuel
  · intro k p hk
    exact ⟨parameterSteps_getElem? _ params k p hk, deref_encode p _⟩

/-- C23 on `(I[[Ljava/lang/String;Ljava/lang/Object;J[I)V`: five pointers, the
second at the outermost `[` of the array of arrays of strings, the third at
the `L` of the object. -/
theorem rvmGetNextParameterType_iteration_witness :
    ∃ steps, parameterIteration 6 (some (methodDescriptor demoMixedParams ['V'])) =
        some (steps, some ['V']) ∧
      steps.length = 5 ∧
      steps.map Prod.fst =
        ["I[[Ljava/lang/String;Ljava/lang/Object;J[I)V".toList,
         "[[Ljava/lang/String;Ljava/lang/Object;J[I)V".toList,
         "Ljava/lang/Object;J[I)V".toList, "J[I)V".toList, "[I)V".toList] := by
  obtain ⟨steps, hsteps, hlen, _⟩ :=
    rvmGetNextParameterType_iteration demoMixedParams ['V'] 6 (by decide) (by decide)
  refine ⟨steps, hsteps, hlen, ?_⟩
  have hval : parameterIteration 6 (some (methodDescriptor demoMixedParams ['V'])) =
      some (parameterSteps demoMixedParams [')', 'V'], some ['V']) := by decide
  rw [hval] at hsteps
  simp only [Option.some.injEq, Prod.mk.injEq, and_true] at hsteps
  rw [← hsteps]
  decide

/-- The counting loop on a well-formed parameter list up to the closing `)`. -/
theorem rvmGetParameterCount_loop_params (ret : List Char) :
    ∀ (params : List ParamType) (fuel count : Nat),
      params.all ParamType.wellFormed = true → params.length < fuel →
      rvmGetParameterCount_loop fuel (some (encodeParams params ++ ')' :: ret)) count =
        some (count + params.length) := by
  intro params
  induction params with
  | nil =>
    intro fuel count _ hfuel
    obtain ⟨f, rfl⟩ : ∃ f, fuel = f + 1 := ⟨fuel - 1, by omega⟩
    simp [rvmGetParameterCount_loop, encodeParams, rvmGetNextParameterType_close]
  | cons p ps ih =>
    intro fuel count hwf hfuel
    obtain ⟨f, rfl⟩ : ∃ f, fuel = f + 1 := ⟨fuel - 1, by simp at hfuel; omega⟩
    simp only [List.all_cons, Bool.and_eq_true] at hwf
    simp only [List.length_cons] at hfuel
    simp only [encodeParams, List.append_assoc, rvmGetParameterCount_loop,
      rvmGetNextParameterType_param p hwf.1]
    rw [ih f _ hwf.2 (by omega)]
    simp only [List.length_cons, Option.some.injEq]
    omega

theorem rvmGetParameterCount_loop_open (fuel count : Nat) (s : List Char) :
    rvmGetParameterCount_loop fuel (some ('(' :: s)) count =
      rvmGetParameterCount_loop fuel (some s) count := by
  cases fuel with
  | zero => rfl
  | succ f => simp only [rvmGetParameterCount_loop, rvmGetNextParameterType_open]

/-- C24: for a method whose descriptor is the well-formed `(P1 ... Pn)R`,
whatever the parameter types (objects, arrays of objects, arrays of arrays),
`rvmGetParameterCount` returns `n`; for `()V` it returns `0`. -/
theorem rvmGetParameterCount_wellFormed (method : Method) :
    (∀ (params : List ParamType) (ret : List Char),
        method.desc.toList = methodDescriptor params ret →
        params.all ParamType.wellFormed = true →
        rvmGetParameterCount method = some params.length) ∧
      (method.desc = "()V" → rvmGetParameterCount method = some 0) := by
  have hmain : ∀ (params : List ParamType) (ret : List Char),
      method.desc.toList = methodDescriptor params ret →
      params.all ParamType.wellFormed = true →
      rvmGetParameterCount method = some params.length := by
    intro params ret hdesc hwf
    have hlen : method.desc.length = (methodDescriptor params ret).length := by
      rw [← hdesc]
      rfl
    have hfuel := methodDescriptor_length params ret
    unfold rvmGetParameterCount
    rw [hdesc, methodDescriptor, rvmGetParameterCount_loop_open,
      rvmGetParameterCount_loop_params ret params _ 0 hwf (by omega)]
    simp
  refine ⟨hmain, ?_⟩
  intro hdesc
  exact hmain [] ['V'] (by rw [hdesc]; rfl) rfl

/-- C24 on `(I[[Ljava/lang/String;Ljava/lang/Object;J[I)V`: five parameters. -/
theorem rvmGetParameterCount_wellFormed_witness :
    rvmGetParameterCount demoMixedMethod = some 5 :=
  (rvmGetParameterCount_wellFormed demoMixedMethod).1 demoMixedParams ['V'] (by decide)
    (by decide)

/-- The scan of `rvmGetReturnType` stops at the first `)`. -/
theorem rvmGetReturnType_append (s ret : List Char) (h : s.contains ')' = false) :
    rvmGetReturnType (s ++ ')' :: ret) = some ret := by
  induction s with
  | nil => simp [rvmGetReturnType]
  | cons c cs ih =>
    simp only [List.contains_cons, Bool.or_eq_false_iff, beq_eq_false_iff_ne, ne_eq] at h
    have hc : c ≠ ')' := fun e => h.1 e.symm
    simp [rvmGetReturnType, hc, ih h.2]

/-- When no `)` occurs in the parameter list (no class name holds one),
`rvmGetReturnType` returns the suffix after the closing `)`, where the
parameter iteration leaves its cursor. -/
theorem rvmGetReturnType_methodDescriptor (params : List ParamType) (ret : List Char)
    (h : (encodeParams params).contains ')' = false) :
    rvmGetReturnType (methodDescriptor params ret) = some ret := by
  have := rvmGetReturnType_append (encodeParams params) ret h
  simpa [methodDescriptor, rvmGetReturnType] using this

/-- C25 does not hold of the code. The descriptor `(La)b;)V` has one parameter,
an object of the class `a)b` (a class name may hold any character but `.`,
`;`, `[` and `/`), and the return type `V`. The parameter iteration gives the
one parameter and leaves its cursor on `V`, after the closing `)` of the
parameter list; `rvmGetReturnType` stops at the first `)`, inside the class
name, and returns `b;)V`. -/
theorem rvmGetReturnType_stops_inside_class_name :
    methodDescriptor [ParamType.object ['a', ')', 'b']] ['V'] = "(La)b;)V".toList ∧
      (ParamType.object ['a', ')', 'b']).wellFormed = true ∧
      parameterIteration 2 (some "(La)b;)V".toList) =
        some ([("La)b;)V".toList, some ")V".toList)], some "V".toList) ∧
      rvmGetReturnType "(La)b;)V".toList = some "b;)V".toList := by
  refine ⟨by decide, by decide, by decide, by decide⟩

/-! ### The library list a class loader selects -/

theorem NativeLibsRef_set_other (tier : NativeLibsRef) (st : NativeState)
    (libs : List DynamicLib) :
    (tier = NativeLibsRef.bootNativeLibs →
        (tier.set st libs).mainNativeLibs = st.mainNativeLibs) ∧
      (tier = NativeLibsRef.mainNativeLibs →
        (tier.set st libs).bootNativeLibs = st.bootNativeLibs) := by
  cases tier <;> simp [NativeLibsRef.set]

/-- What `rvmLoadNativeLibrary_open` does to the two lists: the list that was
not selected is as before, and the selected list is as before or has the
library just opened appended, the call then reporting success. -/
theorem rvmLoadNativeLibrary_open_lists (linker : Linker) (env : Env) (st : NativeState)
    (path : String) (tier : NativeLibsRef) :
    (tier = NativeLibsRef.bootNativeLibs →
        (rvmLoadNativeLibrary_open linker env st path tier).2.1.mainNativeLibs =
          st.mainNativeLibs) ∧
      (tier = NativeLibsRef.mainNativeLibs →
        (rvmLoadNativeLibrary_open linker env st path tier).2.1.bootNativeLibs =
          st.bootNativeLibs) ∧
      (tier.get (rvmLoadNativeLibrary_open linker env st path tier).2.1 = tier.get st ∨
        ((rvmLoadNativeLibrary_open linker env st path tier).2.2 = true ∧
          tier.get (rvmLoadNativeLibrary_open linker env st path tier).2.1 =
            tier.get st ++ [{ addr := st.nextLib, handle := linker.dlopen path }])) := by
  by_cases hopen : linker.dlopen path = 0
  · rw [rvmLoadNativeLibrary_open_dlopen_fails linker env st path tier hopen]
    cases tier <;> simp [NativeLibsRef.get]
  · by_cases hheap : env.heapFree = 0
    · rw [rvmLoadNativeLibrary_open_alloc_fails linker env st path tier hopen hheap]
      cases tier <;> simp [NativeLibsRef.get]
    · by_cases hhas : handleCount (linker.dlopen path) (tier.get st) = 0
      · by_cases hsym : linker.dlsym (linker.dlopen path) "JNI_OnLoad" = 0
        · rw [rvmLoadNativeLibrary_open_no_entry_point linker env st path tier hopen hheap
            hhas hsym]
          refine ⟨(NativeLibsRef_set_other tier _ _).1, (NativeLibsRef_set_other tier _ _).2,
            Or.inr ⟨rfl, NativeLibsRef_get_set _ _ _⟩⟩
        · rw [rvmLoadNativeLibrary_open_entry_point linker env st path tier hopen hheap
            hhas hsym]
          by_cases hpend : ((callJNI_OnLoad linker { env with heapFree := env.heapFree - 1 }
              st (linker.dlsym (linker.dlopen path) "JNI_OnLoad")).1.exception).isSome = true
          · rw [if_pos hpend]
            cases tier <;> simp [NativeLibsRef.get]
          · rw [if_neg hpend]
            refine ⟨(NativeLibsRef_set_other tier _ _).1,
              (NativeLibsRef_set_other tier _ _).2, Or.inr ⟨rfl, NativeLibsRef_get_set _ _ _⟩⟩
      · rw [rvmLoadNativeLibrary_open_present linker env st path tier hopen hheap hhas]
        cases tier <;> simp [NativeLibsRef.get]

/-- C30: `rvmLoadNativeLibrary` and `rvmResolveNativeMethodImpl` (on a method
whose slot is empty) select the library list of a class loader `L` by one
rule. The boot-tier list is selected if and only if `L` is absent or has no
parent; the system-tier list if and only if `L` has a parent, that parent has
no parent, and the class of the loader object has no class loader. With the
list of a tier selected, the load works on that list and the resolution
searches that list; with none selected, both are rejected: the load reports
failure and changes nothing in the lists, the resolution raises
UnsatisfiedLink and returns `NULL`. A load that reports success leaves the
list of the other tier unchanged, and the selected list is as before (the
library was there already) or is the list before with the library appended. -/
theorem rvmLoadNativeLibrary_rvmResolveNativeMethodImpl_same_tier (vm : VM)
    (linker : Linker) (env : Env) (st : NativeState) (path : String) (L : Option Nat)
    (method : NativeMethod) (shortMangledName longMangledName : String)
    (hslot : method.nativeImpl = 0) :
    (tierOf vm linker L = some NativeLibsRef.bootNativeLibs ↔
        (L = none ∨ ∃ l, L = some l ∧ (linker.classLoaders l).parent = none)) ∧
      (tierOf vm linker L = some NativeLibsRef.mainNativeLibs ↔
        ∃ l p, L = some l ∧ (linker.classLoaders l).parent = some p ∧
          (linker.classLoaders p).parent = none ∧
          (vm.classes (linker.classLoaders l).clazz).classLoader = none) ∧
      (∀ tier, tierOf vm linker L = some tier →
        rvmLoadNativeLibrary vm linker env st path L =
            rvmLoadNativeLibrary_open linker env st path tier ∧
          rvmResolveNativeMethodImpl vm linker env st method shortMangledName
              longMangledName L =
            rvmResolveNativeMethodImpl_search linker env st method shortMangledName
              longMangledName (tier.get st)) ∧
      (tierOf vm linker L = none →
        (rvmLoadNativeLibrary vm linker env st path L).2.2 = false ∧
          (rvmLoadNativeLibrary vm linker env st path L).2.1 = st ∧
          rvmResolveNativeMethodImpl vm linker env st method shortMangledName
              longMangledName L =
            { env := rvmThrow env Throwable.UnsatisfiedLinkError, state := st,
              method := method, ptr := none, result := 0 }) ∧
      ((rvmLoadNativeLibrary vm linker env st path L).2.2 = true →
        ∃ tier, tierOf vm linker L = some tier ∧
          (tier = NativeLibsRef.bootNativeLibs →
            (rvmLoadNativeLibrary vm linker env st path L).2.1.mainNativeLibs =
              st.mainNativeLibs) ∧
          (tier = NativeLibsRef.mainNativeLibs →
            (rvmLoadNativeLibrary vm linker env st path L).2.1.bootNativeLibs =
              st.bootNativeLibs) ∧
          (tier.get (rvmLoadNativeLibrary vm linker env st path L).2.1 = tier.get st ∨
            tier.get (rvmLoadNativeLibrary vm linker env st path L).2.1 =
              tier.get st ++ [{ addr := st.nextLib, handle := linker.dlopen path }])) := by
  rw [rvmLoadNativeLibrary_of_tier,
    rvmResolveNativeMethodImpl_of_tier vm linker env st method shortMangledName
      longMangledName L hslot]
  refine ⟨?_, ?_, ?_, ?_, ?_⟩
  · cases L with
    | none => simp [tierOf]
    | some l =>
      cases hp : (linker.classLoaders l).parent with
      | none => simp [tierOf, hp]
      | some p =>
        cases h1 : (linker.classLoaders p).parent <;>
          cases h2 : (vm.classes (linker.classLoaders l).clazz).classLoader <;>
          simp [tierOf, hp, h1, h2]
  · cases L with
    | none => simp [tierOf]
    | some l =>
      cases hp : (linker.classLoaders l).parent with
      | none => simp [tierOf, hp]
      | some p =>
        cases h1 : (linker.classLoaders p).parent <;>
          cases h2 : (vm.classes (linker.classLoaders l).clazz).classLoader <;>
          simp [tierOf, hp, h1, h2]
  · intro tier ht
    simp [ht]
  · intro ht
    rw [ht]
    by_cases hb : st.bootNativeLibs = [] <;> simp [hb]
  · cases ht : tierOf vm linker L with
    | none =>
      by_cases hb : st.bootNativeLibs = [] <;> simp [hb]
    | some tier =>
      intro _
      have h := rvmLoadNativeLibrary_open_lists linker env st path tier
      refine ⟨tier, rfl, h.1, h.2.1, ?_⟩
      rcases h.2.2 with h3 | ⟨_, h3⟩
      · exact Or.inl h3
      · exact Or.inr h3

/-- C30 on the demo class loaders: the absent loader and loader `1` select the
boot-tier list, loader `2` the system-tier list, loader `3` is rejected; a
load of `libapp.so` from loader `2` appends to the system-tier list and leaves
the boot-tier list alone. -/
theorem rvmLoadNativeLibrary_rvmResolveNativeMethodImpl_same_tier_witness :
    tierOf demoVM demoLinker none = some NativeLibsRef.bootNativeLibs ∧
      tierOf demoVM demoLinker (some 1) = some NativeLibsRef.bootNativeLibs ∧
      tierOf demoVM demoLinker (some 3) = none ∧
      (rvmLoadNativeLibrary demoVM demoLinker demoEnv demoBootLibs "libapp.so"
          (some 2)).2.1.bootNativeLibs = demoBootLibs.bootNativeLibs ∧
      (rvmLoadNativeLibrary demoVM demoLinker demoEnv demoBootLibs "libapp.so"
          (some 2)).2.1.mainNativeLibs = [{ addr := 0x9002, handle := 0x52 }] ∧
      rvmResolveNativeMethodImpl demoVM demoLinker demoEnv demoBootLibs demoNativeMethod
          "Java_Demo_run" "Java_Demo_run__" (some 2) =
        rvmResolveNativeMethodImpl_search demoLinker demoEnv demoBootLibs demoNativeMethod
          "Java_Demo_run" "Java_Demo_run__" [] := by
  have h := rvmLoadNativeLibrary_rvmResolveNativeMethodImpl_same_tier demoVM demoLinker
    demoEnv demoBootLibs "libapp.so" (some 2) demoNativeMethod "Java_Demo_run"
    "Java_Demo_run__" rfl
  obtain ⟨tier, ht, _, hboot, _⟩ := h.2.2.2.2 (by decide)
  have htier : tier = NativeLibsRef.mainNativeLibs := by
    have h2 : tierOf demoVM demoLinker (some 2) = some NativeLibsRef.mainNativeLibs := by
      decide
    rw [h2] at ht
    exact (Option.some.inj ht).symm
  exact ⟨by decide, by decide, by decide, hboot htier, by decide,
    (h.2.2.1 NativeLibsRef.mainNativeLibs (by decide)).2⟩

/-! ## The resolver follows the resolution order -/

/-- The three ways the scan of a list of calls can end. -/
theorem firstOutcome_cases (vm : VM) (name desc : String) (env : Env) :
    ∀ calls : List Lookup,
      firstOutcome vm name desc env calls = (env, Search.fellThrough) ∨
      (∃ m, firstOutcome vm name desc env calls = (env, Search.returned (some m))) ∨
      (∃ t, firstOutcome vm name desc env calls = (rvmThrow env t, Search.returned none)) := by
  intro calls
  induction calls with
  | nil => exact Or.inl rfl
  | cons call rest ih =>
    cases call with
    | methods k =>
      cases hf : vm.loadMethodsFault k with
      | some t => exact Or.inr (Or.inr ⟨t, by simp [firstOutcome, hf]⟩)
      | none =>
        cases hfind : (vm.classes k).methods.find? (sameSignature name desc) with
        | some m => exact Or.inr (Or.inl ⟨m, by simp [firstOutcome, hf, hfind]⟩)
        | none => simpa [firstOutcome, hf, hfind] using ih
    | interfaces k =>
      cases hf : vm.loadInterfacesFault k with
      | some t => exact Or.inr (Or.inr ⟨t, by simp [firstOutcome, hf]⟩)
      | none => simpa [firstOutcome, hf] using ih

/-- The scan of two lists: that of the first, unless it decides nothing. -/
theorem firstOutcome_append (vm : VM) (name desc : String) (env : Env) (b : List Lookup) :
    ∀ a : List Lookup,
      firstOutcome vm name desc env (a ++ b) =
        if (firstOutcome vm name desc env a).2 = Search.fellThrough then
          firstOutcome vm name desc env b
        else firstOutcome vm name desc env a := by
  intro a
  induction a with
  | nil => simp [firstOutcome]
  | cons call rest ih =>
    cases call with
    | methods k =>
      cases hf : vm.loadMethodsFault k with
      | some t => simp [firstOutcome, hf]
      | none =>
        cases hfind : (vm.classes k).methods.find? (sameSignature name desc) with
        | some m => simp [firstOutcome, hf, hfind]
        | none => simpa [firstOutcome, hf, hfind] using ih
    | interfaces k =>
      cases hf : vm.loadInterfacesFault k with
      | some t => simp [firstOutcome, hf]
      | none => simpa [firstOutcome, hf] using ih

theorem rvmExceptionCheck_rvmThrow (env : Env) (t : Throwable) :
    rvmExceptionCheck (rvmThrow env t) = true := rfl

/-- The first loop of `getMethod` is the scan of the superclass chain. -/
theorem getMethod_superclasses_eq_firstOutcome (vm : VM) (name desc : String) (env : Env)
    (hpending : env.exception = none) :
    ∀ (fuel : Nat) (c : Option ClassId) (calls : List Lookup),
      traversal_superclasses vm fuel c = some calls →
      getMethod_superclasses vm name desc fuel env c =
        some (firstOutcome vm name desc env calls) := by
  intro fuel
  induction fuel with
  | zero => intro c calls h; simp [traversal_superclasses] at h
  | succ f ih =>
    intro c calls h
    cases c with
    | none =>
      simp only [traversal_superclasses, Option.some.injEq] at h
      subst h
      rfl
    | some c =>
      simp only [traversal_superclasses] at h
      cases hrest : traversal_superclasses vm f (vm.classes c).superclass with
      | none => simp [hrest] at h
      | some rest =>
        simp only [hrest, Option.some.injEq] at h
        subst h
        cases hf : vm.loadMethodsFault c with
        | some t =>
          simp [getMethod_superclasses, findMethod, rvmGetMethods, hf, firstOutcome,
            rvmExceptionCheck_rvmThrow]
        | none =>
          simp only [getMethod_superclasses, findMethod_eq vm env c name desc hpending hf,
            rvmExceptionCheck_eq_false hpending, firstOutcome, hf]
          simp only [Bool.false_eq_true, if_false]
          cases hfind : (vm.classes c).methods.find? (sameSignature name desc) with
          | some m => rfl
          | none => exact ih _ rest hrest

/-- The inner loop of the interface walk is the scan of the resolutions of the
interfaces, one after the other, when the recursive resolution of each
interface is the scan of its calls. -/
theorem getMethod_interfaceList_eq_firstOutcome (vm : VM) (name desc : String)
    (recurse : Env → ClassId → Option (Env × Option Method))
    (order : ClassId → Option (List Lookup))
    (hrec : ∀ (env : Env) (i : ClassId) (calls : List Lookup), env.exception = none →
      order i = some calls →
      recurse env i = some ((firstOutcome vm name desc env calls).1,
        (firstOutcome vm name desc env calls).2.result))
    (env : Env) (hpending : env.exception = none) :
    ∀ (l : List ClassId) (calls : List Lookup),
      traversal_interfaceList order l = some calls →
      getMethod_interfaceList recurse env l = some (firstOutcome vm name desc env calls) := by
  intro l
  induction l with
  | nil =>
    intro calls h
    simp only [traversal_interfaceList, Option.some.injEq] at h
    subst h
    rfl
  | cons i rest ih =>
    intro calls h
    simp only [traversal_interfaceList] at h
    cases ha : order i with
    | none => simp [ha] at h
    | some a =>
      cases hb : traversal_interfaceList order rest with
      | none => simp [ha, hb] at h
      | some b =>
        simp only [ha, hb, Option.some.injEq] at h
        subst h
        have hr := hrec env i a hpending ha
        rw [firstOutcome_append]
        simp only [getMethod_interfaceList, hr]
        rcases firstOutcome_cases vm name desc env a with h0 | ⟨m, h0⟩ | ⟨t, h0⟩
        · simp only [h0, rvmExceptionCheck_eq_false hpending, Search.result]
          simp only [Bool.false_eq_true, if_false, if_true]
          exact ih b hb
        · simp [h0, rvmExceptionCheck_eq_false hpending, Search.result]
        · simp [h0, rvmExceptionCheck_rvmThrow, Search.result]

/-- The outer loop of the interface walk is the scan of the interface part of
the resolution order. -/
theorem getMethod_interfaces_eq_firstOutcome (vm : VM) (name desc : String)
    (recurse : Env → ClassId → Option (Env × Option Method))
    (order : ClassId → Option (List Lookup))
    (hrec : ∀ (env : Env) (i : ClassId) (calls : List Lookup), env.exception = none →
      order i = some calls →
      recurse env i = some ((firstOutcome vm name desc env calls).1,
        (firstOutcome vm name desc env calls).2.result))
    (env : Env) (hpending : env.exception = none) :
    ∀ (fuel : Nat) (c : Option ClassId) (calls : List Lookup),
      traversal_interfaces vm order fuel c = some calls →
      getMethod_interfaces vm recurse fuel env c =
        some (firstOutcome vm name desc env calls) := by
  intro fuel
  induction fuel with
  | zero => intro c calls h; simp [traversal_interfaces] at h
  | succ f ih =>
    intro c calls h
    cases c with
    | none =>
      simp only [traversal_interfaces, Option.some.injEq] at h
      subst h
      rfl
    | some c =>
      simp only [traversal_interfaces] at h
      cases ha : traversal_interfaceList order (vm.classes c).interfaces with
      | none => simp [ha] at h
      | some a =>
        cases hb : traversal_interfaces vm order f (vm.classes c).superclass with
        | none => simp [ha, hb] at h
        | some b =>
          simp only [ha, hb, Option.some.injEq] at h
          subst h
          cases hf : vm.loadInterfacesFault c with
          | some t =>
            simp [getMethod_interfaces, rvmGetInterfaces, hf, firstOutcome,
              rvmExceptionCheck_rvmThrow]
          | none =>
            have hget : rvmGetInterfaces vm env c = (env, (vm.classes c).interfaces) := by
              simp [rvmGetInterfaces, hf]
            have hl := getMethod_interfaceList_eq_firstOutcome vm name desc recurse order hrec
              env hpending (vm.classes c).interfaces a ha
            simp only [getMethod_interfaces, hget, rvmExceptionCheck_eq_false hpending,
              firstOutcome, hf, hl]
            simp only [Bool.false_eq_true, if_false]
            rw [firstOutcome_append]
            rcases firstOutcome_cases vm name desc env a with h0 | ⟨m, h0⟩ | ⟨t, h0⟩
            · simp only [h0, if_true]
              exact ih _ b hb
            · simp [h0]
            · simp [h0]

/-- `getMethod` is the scan of the resolution order: whenever the order from
`clazz` is defined within the fuel, the resolution ends within the same fuel,
and it is decided by the first call of the order on which the collaborator
raises or whose class declares the signature. -/
theorem getMethod_eq_firstOutcome (vm : VM) (name desc : String) :
    ∀ (fuel : Nat) (env : Env) (clazz : ClassId) (calls : List Lookup),
      env.exception = none → traversal vm name fuel clazz = some calls →
      getMethod vm fuel env clazz name desc =
        some ((firstOutcome vm name desc env calls).1,
          (firstOutcome vm name desc env calls).2.result) := by
  intro fuel
  induction fuel with
  | zero => intro env clazz calls _ h; simp [traversal] at h
  | succ f ih =>
    intro env clazz calls hpending h
    by_cases hsp : (name == "<init>" || name == "<clinit>") = true
    · simp only [traversal, hsp, if_true, Option.some.injEq] at h
      subst h
      simp only [getMethod, hsp, if_true]
      cases hf : vm.loadMethodsFault clazz with
      | some t =>
        simp [findMethod, rvmGetMethods, hf, firstOutcome, rvmExceptionCheck_rvmThrow,
          Search.result]
      | none =>
        rw [findMethod_eq vm env clazz name desc hpending hf]
        cases hfind : (vm.classes clazz).methods.find? (sameSignature name desc) <;>
          simp [firstOutcome, hf, hfind, Search.result]
    · simp only [traversal, hsp] at h
      simp only [Bool.false_eq_true, if_false] at h
      cases ha : traversal_superclasses vm f (some clazz) with
      | none => simp [ha] at h
      | some a =>
        cases hb : traversal_interfaces vm (fun i => traversal vm name f i) f
            (some clazz) with
        | none => simp [ha, hb] at h
        | some b =>
          simp only [ha, hb] at h
          have h1 := getMethod_superclasses_eq_firstOutcome vm name desc env hpending f
            (some clazz) a ha
          have h2 := getMethod_interfaces_eq_firstOutcome vm name desc
            (fun e i => getMethod vm f e i name desc) (fun i => traversal vm name f i)
            (fun e i cs he hcs => ih e i cs he hcs) env hpending f (some clazz) b hb
          simp only [getMethod, hsp, h1]
          simp only [Bool.false_eq_true, if_false]
          by_cases hif : CLASS_IS_INTERFACE vm clazz = true
          · simp only [hif, if_true] at h
            cases ho : traversal vm name f vm.java_lang_Object with
            | none => simp [ho] at h
            | some o =>
              simp only [ho, Option.some.injEq] at h
              subst h
              have h3 := ih env vm.java_lang_Object o hpending ho
              rw [List.append_assoc, firstOutcome_append, firstOutcome_append]
              rcases firstOutcome_cases vm name desc env a with h0 | ⟨m, h0⟩ | ⟨t, h0⟩
              · simp only [h0, if_true, h2]
                rcases firstOutcome_cases vm name desc env b with hb0 | ⟨m, hb0⟩ | ⟨t, hb0⟩
                · simp only [hb0, if_true, hif, h3]
                · simp [hb0, Search.result]
                · simp [hb0, Search.result]
              · simp [h0, Search.result]
              · simp [h0, Search.result]
          · simp only [hif] at h
            simp only [Bool.false_eq_true, if_false, Option.some.injEq] at h
            subst h
            rw [firstOutcome_append]
            rcases firstOutcome_cases vm name desc env a with h0 | ⟨m, h0⟩ | ⟨t, h0⟩
            · simp only [h0, if_true, h2]
              rcases firstOutcome_cases vm name desc env b with hb0 | ⟨m, hb0⟩ | ⟨t, hb0⟩
              · simp [hb0, hif, Search.result]
              · simp [hb0, Search.result]
              · simp [hb0, Search.result]
            · simp [h0, Search.result]
            · simp [h0, Search.result]

/-! ### The resolution order is defined on every well-founded class graph -/

theorem traversal_superclasses_total (vm : VM) (rank : ClassId → Nat)
    (hwf : WellFoundedClasses vm rank) :
    ∀ (fuel : Nat) (c : ClassId), rank c + 1 < fuel →
      ∃ calls, traversal_superclasses vm fuel (some c) = some calls := by
  intro fuel
  induction fuel with
  | zero => intro c h; omega
  | succ f ih =>
    intro c hfuel
    simp only [traversal_superclasses]
    cases hs : (vm.classes c).superclass with
    | none =>
      obtain ⟨f2, rfl⟩ : ∃ f2, f = f2 + 1 := ⟨f - 1, by omega⟩
      exact ⟨_, rfl⟩
    | some sup =>
      have := hwf.superclass c sup hs
      obtain ⟨rest, hrest⟩ := ih sup (by omega)
      exact ⟨_, by rw [hrest]⟩

theorem traversal_interfaceList_total (order : ClassId → Option (List Lookup)) :
    ∀ l : List ClassId, (∀ i ∈ l, ∃ calls, order i = some calls) →
      ∃ calls, traversal_interfaceList order l = some calls := by
  intro l
  induction l with
  | nil => intro _; exact ⟨_, rfl⟩
  | cons i rest ih =>
    intro h
    obtain ⟨a, ha⟩ := h i (by simp)
    obtain ⟨b, hb⟩ := ih (fun j hj => h j (by simp [hj]))
    exact ⟨a ++ b, by simp [traversal_interfaceList, ha, hb]⟩

theorem traversal_interfaces_total (vm : VM) (rank : ClassId → Nat)
    (hwf : WellFoundedClasses vm rank) (order : ClassId → Option (List Lookup)) :
    ∀ (fuel : Nat) (c : ClassId), rank c + 1 < fuel →
      (∀ e, InChain vm c e → ∀ i ∈ (vm.classes e).interfaces, ∃ calls, order i = some calls) →
      ∃ calls, traversal_interfaces vm order fuel (some c) = some calls := by
  intro fuel
  induction fuel with
  | zero => intro c h; omega
  | succ f ih =>
    intro c hfuel hrec
    obtain ⟨a, ha⟩ := traversal_interfaceList_total order (vm.classes c).interfaces
      (hrec c (inChain_refl vm c))
    simp only [traversal_interfaces, ha]
    cases hs : (vm.classes c).superclass with
    | none =>
      obtain ⟨f2, rfl⟩ : ∃ f2, f = f2 + 1 := ⟨f - 1, by omega⟩
      exact ⟨_, rfl⟩
    | some sup =>
      have := hwf.superclass c sup hs
      obtain ⟨b, hb⟩ := ih sup (by omega) (fun e he => hrec e (inChain_step hs he))
      exact ⟨_, by rw [hb]⟩

/-- On a well-founded class graph the resolution order from a class is defined
as soon as the fuel exceeds the rank of the class by three. -/
theorem traversal_total (vm : VM) (rank : ClassId → Nat) (hwf : WellFoundedClasses vm rank)
    (name : String) :
    ∀ (fuel : Nat) (c : ClassId), rank c + 2 < fuel →
      ∃ calls, traversal vm name fuel c = some calls := by
  intro fuel
  induction fuel with
  | zero => intro c h; omega
  | succ f ih =>
    intro c hfuel
    by_cases hsp : (name == "<init>" || name == "<clinit>") = true
    · simp only [traversal, hsp, if_true]
      exact ⟨_, rfl⟩
    · obtain ⟨a, ha⟩ := traversal_superclasses_total vm rank hwf f c (by omega)
      have hrec : ∀ e, InChain vm c e → ∀ i ∈ (vm.classes e).interfaces,
          ∃ calls, (fun i => traversal vm name f i) i = some calls := by
        intro e he i hi
        obtain ⟨k, hk⟩ := he
        have := rank_le_of_inChain vm rank hwf k c e hk
        have := hwf.interface e i hi
        exact ih i (by omega)
      obtain ⟨b, hb⟩ := traversal_interfaces_total vm rank hwf
        (fun i => traversal vm name f i) f c (by omega) hrec
      simp only [traversal, hsp, ha, hb]
      simp only [Bool.false_eq_true, if_false]
      by_cases hif : CLASS_IS_INTERFACE vm c = true
      · have := hwf.object c hif
        obtain ⟨o, ho⟩ := ih vm.java_lang_Object (by omega)
        simp only [hif, if_true, ho]
        exact ⟨_, rfl⟩
      · simp only [hif]
        exact ⟨_, rfl⟩

/-! ### The scan when no collaborator raises -/

/-- With no collaborator raising, the scan of a list of calls gives the first
match of the first class searched that declares the signature. -/
theorem firstOutcome_noFaults (vm : VM) (hnf : NoFaults vm) (name desc : String) (env : Env) :
    ∀ calls : List Lookup,
      (firstOutcome vm name desc env calls).1 = env ∧
      (firstOutcome vm name desc env calls).2.result =
        (calls.filterMap Lookup.searched).findSome?
          (fun k => (vm.classes k).methods.find? (sameSignature name desc)) := by
  intro calls
  induction calls with
  | nil => exact ⟨rfl, rfl⟩
  | cons call rest ih =>
    cases call with
    | methods k =>
      cases hfind : (vm.classes k).methods.find? (sameSignature name desc) with
      | some m =>
        simp [firstOutcome, (hnf k).1, hfind, Lookup.searched, Search.result]
      | none =>
        simpa [firstOutcome, (hnf k).1, hfind, Lookup.searched] using ih
    | interfaces k =>
      simpa [firstOutcome, (hnf k).2, Lookup.searched] using ih

/-- The first element of a list on which a function gives something. -/
theorem findSome?_eq_some_split {α β : Type} (f : α → Option β) (b : β) :
    ∀ l : List α, l.findSome? f = some b ↔
      ∃ before a after, l = before ++ a :: after ∧ (∀ x ∈ before, f x = none) ∧
        f a = some b := by
  intro l
  induction l with
  | nil => simp
  | cons x rest ih =>
    cases hx : f x with
    | some y =>
      simp only [List.findSome?_cons, hx, Option.some.injEq]
      constructor
      · intro h
        exact ⟨[], x, rest, rfl, by simp, by rw [hx, h]⟩
      · rintro ⟨before, a, after, hsplit, hbefore, ha⟩
        cases before with
        | nil =>
          simp only [List.nil_append, List.cons.injEq] at hsplit
          rw [← hsplit.1, hx] at ha
          exact Option.some.inj ha
        | cons z zs =>
          simp only [List.cons_append, List.cons.injEq] at hsplit
          have := hbefore z (by simp)
          rw [← hsplit.1, hx] at this
          cases this
    | none =>
      simp only [List.findSome?_cons, hx]
      rw [ih]
      constructor
      · rintro ⟨before, a, after, hsplit, hbefore, ha⟩
        refine ⟨x :: before, a, after, by rw [hsplit]; rfl, ?_, ha⟩
        intro z hz
        rcases List.mem_cons.1 hz with rfl | hz
        · exact hx
        · exact hbefore z hz
      · rintro ⟨before, a, after, hsplit, hbefore, ha⟩
        cases before with
        | nil =>
          simp only [List.nil_append, List.cons.injEq] at hsplit
          rw [← hsplit.1, hx] at ha
          cases ha
        | cons z zs =>
          simp only [List.cons_append, List.cons.injEq] at hsplit
          exact ⟨zs, a, after, hsplit.2, fun w hw => hbefore w (by simp [hw]), ha⟩

/-! ## Resolution order: properties of the specification -/

/-- The superclass chain of a class without a superclass is the class alone. -/
theorem inChain_root (vm : VM) (c e : ClassId) (hs : (vm.classes c).superclass = none)
    (h : InChain vm c e) : e = c := by
  rcases inChain_cases h with rfl | ⟨s, hs2, _⟩
  · rfl
  · rw [hs] at hs2; cases hs2

/-- C29 as stated fails. The interface `3` extends the empty interface `1` and
the interfaces `2` and `6`, in this order; `2` and `6` are reachable and both
declare `equals(Object)Z`, and no class of the superclass chain of `3` (which
is `3` alone) declares it. In the order stated (for each interface its own
declared methods, then its super-interfaces depth-first, before the next
sibling) the first match is the method of `2`. `getMethod` returns the method
of `java.lang.Object`: the full resolution of the interface `1`, which is the
recursive `getMethod`, ends with the resolution from `java_lang_Object`, and
that comes before the sibling `2`. -/
theorem getMethod_object_step_precedes_sibling_interface :
    (∀ e, InChain siblingVM 3 e → ¬ Declares siblingVM e "equals" "(Ljava/lang/Object;)Z") ∧
      ReachableInterface siblingVM 3 2 ∧
      FirstDeclared siblingVM 2 "equals" "(Ljava/lang/Object;)Z"
        (mkMethod 2 "equals" "(Ljava/lang/Object;)Z" 0x0401) ∧
      ReachableInterface siblingVM 3 6 ∧
      FirstDeclared siblingVM 6 "equals" "(Ljava/lang/Object;)Z"
        (mkMethod 6 "equals" "(Ljava/lang/Object;)Z" 0x0401) ∧
      traversal_noObjectStep siblingVM 4 3 =
        some [Lookup.methods 3, Lookup.interfaces 3, Lookup.methods 1, Lookup.interfaces 1,
          Lookup.methods 2, Lookup.interfaces 2, Lookup.methods 6, Lookup.interfaces 6] ∧
      (firstOutcome siblingVM "equals" "(Ljava/lang/Object;)Z" demoEnv
          [Lookup.methods 3, Lookup.interfaces 3, Lookup.methods 1, Lookup.interfaces 1,
            Lookup.methods 2, Lookup.interfaces 2, Lookup.methods 6,
            Lookup.interfaces 6]).2 =
        Search.returned (some (mkMethod 2 "equals" "(Ljava/lang/Object;)Z" 0x0401)) ∧
      (∀ fuel, 4 ≤ fuel →
        getMethod siblingVM fuel demoEnv 3 "equals" "(Ljava/lang/Object;)Z" =
          some (demoEnv, some (mkMethod 0 "equals" "(Ljava/lang/Object;)Z" 0x0001))) ∧
      mkMethod 0 "equals" "(Ljava/lang/Object;)Z" 0x0001 ≠
        mkMethod 2 "equals" "(Ljava/lang/Object;)Z" 0x0401 := by
  refine ⟨?_, ?_, ?_, ?_, ?_, by decide, by decide, ?_, by decide⟩
  · intro e he
    rw [inChain_root siblingVM 3 e rfl he]
    exact (find_sameSignature_eq_none siblingVM 3 _ _).1 (by decide)
  · exact ReachableInterface.direct (inChain_refl siblingVM 3) (by decide)
  · exact ⟨[mkMethod 2 "compare" "(II)I" 0x0401], [], rfl, by decide, rfl, rfl⟩
  · exact ReachableInterface.direct (inChain_refl siblingVM 3) (by decide)
  · exact ⟨[], [], rfl, by decide, rfl, rfl⟩
  · intro fuel hfuel
    exact getMethod_mono_le siblingVM _ _ demoEnv 3 _ 4 fuel hfuel (by decide)

/-- C29, amended: with no collaborator raising and no condition pending,
whenever the resolution order from `C` is defined within the fuel (which it is
on every well-founded class graph), `getMethod` ends and returns the match
found first along that order: the classes of the superclass chain of `C`, `C`
first; then, for each class of the chain in turn, its declared interfaces in
declaration order, the full resolution of an interface coming before the next
interface; and within the class or interface that decides, the first method
of its declared-method list with the signature. The full resolution of an
interface is the whole order from that interface: its own declared methods
(and those of its superclass chain), then its super-interfaces depth-first,
then the order from the root Object type, `java_lang_Object`. In particular,
when no class of the chain declares the signature, the match is the first one
of the interface part of the order, the Object step of each interface
included. -/
theorem getMethod_first_match_in_traversal (vm : VM) (hnf : NoFaults vm) (fuel : Nat)
    (env : Env) (C : ClassId) (name desc : String) (calls : List Lookup)
    (hpending : env.exception = none) (htraversal : traversal vm name fuel C = some calls) :
    getMethod vm fuel env C name desc =
        some (env, (calls.filterMap Lookup.searched).findSome?
          (fun k => (vm.classes k).methods.find? (sameSignature name desc))) ∧
      (∀ m, getMethod vm fuel env C name desc = some (env, some m) ↔
        ∃ before k after, calls.filterMap Lookup.searched = before ++ k :: after ∧
          (∀ x ∈ before, ¬ Declares vm x name desc) ∧ FirstDeclared vm k name desc m) ∧
      (name ≠ "<init>" → name ≠ "<clinit>" →
        ∃ f chain ifaces object, fuel = f + 1 ∧
          traversal_superclasses vm f (some C) = some chain ∧
          traversal_interfaces vm (fun i => traversal vm name f i) f (some C) =
            some ifaces ∧
          (if CLASS_IS_INTERFACE vm C then traversal vm name f vm.java_lang_Object
            else some []) = some object ∧
          calls = chain ++ ifaces ++ object) := by
  have hget := getMethod_eq_firstOutcome vm name desc fuel env C calls hpending htraversal
  have hscan := firstOutcome_noFaults vm hnf name desc env calls
  rw [hscan.1, hscan.2] at hget
  refine ⟨hget, ?_, ?_⟩
  · intro m
    rw [hget]
    simp only [Option.some.injEq, Prod.mk.injEq, true_and]
    rw [findSome?_eq_some_split]
    constructor
    · rintro ⟨before, k, after, hsplit, hbefore, hk⟩
      refine ⟨before, k, after, hsplit, ?_, (find_sameSignature_eq_some vm k name desc m).1 hk⟩
      intro x hx
      exact (find_sameSignature_eq_none vm x name desc).1 (hbefore x hx)
    · rintro ⟨before, k, after, hsplit, hbefore, hk⟩
      refine ⟨before, k, after, hsplit, ?_, (find_sameSignature_eq_some vm k name desc m).2 hk⟩
      intro x hx
      exact (find_sameSignature_eq_none vm x name desc).2 (hbefore x hx)
  · intro h1 h2
    cases fuel with
    | zero => simp [traversal] at htraversal
    | succ f =>
      simp only [traversal, special_name_false h1 h2] at htraversal
      simp only [Bool.false_eq_true, if_false] at htraversal
      cases ha : traversal_superclasses vm f (some C) with
      | none => simp [ha] at htraversal
      | some a =>
        cases hb : traversal_interfaces vm (fun i => traversal vm name f i) f (some C) with
        | none => simp [ha, hb] at htraversal
        | some b =>
          simp only [ha, hb] at htraversal
          by_cases hif : CLASS_IS_INTERFACE vm C = true
          · simp only [hif, if_true] at htraversal ⊢
            cases ho : traversal vm name f vm.java_lang_Object with
            | none => simp [ho] at htraversal
            | some o =>
              simp only [ho, Option.some.injEq] at htraversal
              exact ⟨f, a, b, o, rfl, ha, hb, ho, htraversal.symm⟩
          · simp only [hif] at htraversal ⊢
            simp only [Bool.false_eq_true, if_false, Option.some.injEq] at htraversal
            exact ⟨f, a, b, [], rfl, ha, hb, rfl, by simp [htraversal]⟩

/-- C29, amended, on two tables. Where the interfaces `1` and `2` both declare
`m()V` and `java.lang.Object` does not: from the class `5` (extending `4`,
which implements `2`, and implementing `3`, which extends `1`) the interfaces
of `5` come before those of `4`, so the method of `1`, reached through `3`, is
returned, and it is the second method of `1`, the first with the descriptor
`()V`. Where the interface `3` extends the empty interface `1` and then `2` and
`6`, which both redeclare `equals(Object)Z`: the Object step of `1` comes
before `2`, and the method of `java.lang.Object` is returned. -/
theorem getMethod_first_match_in_traversal_witness :
    (traversal orderVM "m" 6 5 =
        some [Lookup.methods 5, Lookup.methods 4, Lookup.methods 0,
          Lookup.interfaces 5, Lookup.methods 3, Lookup.interfaces 3,
          Lookup.methods 1, Lookup.interfaces 1, Lookup.methods 0, Lookup.interfaces 0,
          Lookup.methods 0, Lookup.interfaces 0,
          Lookup.interfaces 4, Lookup.methods 2, Lookup.interfaces 2,
          Lookup.methods 0, Lookup.interfaces 0, Lookup.interfaces 0] ∧
      getMethod orderVM 6 demoEnv 5 "m" "()V" =
        some (demoEnv, some (mkMethod 1 "m" "()V" 0x0401))) ∧
    (traversal siblingVM "equals" 5 3 =
        some [Lookup.methods 3, Lookup.interfaces 3,
          Lookup.methods 1, Lookup.interfaces 1, Lookup.methods 0, Lookup.interfaces 0,
          Lookup.methods 2, Lookup.interfaces 2, Lookup.methods 0, Lookup.interfaces 0,
          Lookup.methods 6, Lookup.interfaces 6, Lookup.methods 0, Lookup.interfaces 0,
          Lookup.methods 0, Lookup.interfaces 0] ∧
      getMethod siblingVM 5 demoEnv 3 "equals" "(Ljava/lang/Object;)Z" =
        some (demoEnv, some (mkMethod 0 "equals" "(Ljava/lang/Object;)Z" 0x0001))) := by
  have htraversal : traversal orderVM "m" 6 5 =
      some [Lookup.methods 5, Lookup.methods 4, Lookup.methods 0,
        Lookup.interfaces 5, Lookup.methods 3, Lookup.interfaces 3,
        Lookup.methods 1, Lookup.interfaces 1, Lookup.methods 0, Lookup.interfaces 0,
        Lookup.methods 0, Lookup.interfaces 0,
        Lookup.interfaces 4, Lookup.methods 2, Lookup.interfaces 2,
        Lookup.methods 0, Lookup.interfaces 0, Lookup.interfaces 0] := by decide
  have hsibling : traversal siblingVM "equals" 5 3 =
      some [Lookup.methods 3, Lookup.interfaces 3,
        Lookup.methods 1, Lookup.interfaces 1, Lookup.methods 0, Lookup.interfaces 0,
        Lookup.methods 2, Lookup.interfaces 2, Lookup.methods 0, Lookup.interfaces 0,
        Lookup.methods 6, Lookup.interfaces 6, Lookup.methods 0, Lookup.interfaces 0,
        Lookup.methods 0, Lookup.interfaces 0] := by decide
  refine ⟨⟨htraversal, ?_⟩, hsibling, ?_⟩
  · rw [(getMethod_first_match_in_traversal orderVM (fun _ => ⟨rfl, rfl⟩) 6 demoEnv 5 "m" "()V"
      _ rfl htraversal).1]
    decide
  · rw [(getMethod_first_match_in_traversal siblingVM (fun _ => ⟨rfl, rfl⟩) 5 demoEnv 3
      "equals" "(Ljava/lang/Object;)Z" _ rfl hsibling).1]
    decide

/-- The scan of a list of calls in which the first call that decides is one on
which the collaborator raises. -/
theorem firstOutcome_first_fault (vm : VM) (name desc : String) (env : Env)
    (call : Lookup) (after : List Lookup) (t : Throwable) (hfault : call.fault vm = some t) :
    ∀ before : List Lookup,
      (∀ x ∈ before, x.fault vm = none ∧
        ∀ k, x = Lookup.methods k → ¬ Declares vm k name desc) →
      firstOutcome vm name desc env (before ++ call :: after) =
        (rvmThrow env t, Search.returned none) := by
  intro before
  induction before with
  | nil =>
    intro _
    cases call with
    | methods k =>
      have hf : vm.loadMethodsFault k = some t := hfault
      simp [firstOutcome, hf]
    | interfaces k =>
      have hf : vm.loadInterfacesFault k = some t := hfault
      simp [firstOutcome, hf]
  | cons x rest ih =>
    intro hbefore
    have hx := hbefore x (by simp)
    have hrest := ih (fun y hy => hbefore y (by simp [hy]))
    cases x with
    | methods k =>
      have hf : vm.loadMethodsFault k = none := hx.1
      have hfind := (find_sameSignature_eq_none vm k name desc).2 (hx.2 k rfl)
      simpa [firstOutcome, hf, hfind] using hrest
    | interfaces k =>
      have hf : vm.loadInterfacesFault k = none := hx.1
      simpa [firstOutcome, hf] using hrest

/-- C26: let the resolution order from `clazz` be `before ++ call :: after`,
where the collaborator raises `t` on `call` (a "get declared methods" or a
"get declared interfaces", on a class of the chain, on an interface, or in the
fallback to the root Object type), and before it no collaborator raises and no
class searched declares the signature. Then, from a state with no condition
pending, `getMethod`, `rvmGetMethod`, `rvmGetClassMethod` and
`rvmGetInstanceMethod` return `NULL` and `rvmHasMethod` returns `FALSE`, and
the state they leave is the one the collaborator left: `t` is pending, no
NoSuchMethod or IncompatibleClassChange has replaced it. This is so whatever
the calls `after` are: a class that comes later is not searched, even if it
declares the signature or its collaborator would raise another condition. -/
theorem resolver_propagates_collaborator_condition (vm : VM) (fuel : Nat) (env : Env)
    (clazz : ClassId) (name desc : String) (before after : List Lookup) (call : Lookup)
    (t : Throwable) (hpending : env.exception = none)
    (htraversal : traversal vm name fuel clazz = some (before ++ call :: after))
    (hbefore : ∀ x ∈ before, x.fault vm = none ∧
      ∀ k, x = Lookup.methods k → ¬ Declares vm k name desc)
    (hfault : call.fault vm = some t) :
    getMethod vm fuel env clazz name desc = some (rvmThrow env t, none) ∧
      rvmGetMethod vm fuel env clazz name desc = some (rvmThrow env t, none) ∧
      rvmHasMethod vm fuel env clazz name desc = some (rvmThrow env t, false) ∧
      rvmGetClassMethod vm fuel env clazz name desc = some (rvmThrow env t, none) ∧
      rvmGetInstanceMethod vm fuel env clazz name desc = some (rvmThrow env t, none) := by
  have hget : getMethod vm fuel env clazz name desc = some (rvmThrow env t, none) := by
    rw [getMethod_eq_firstOutcome vm name desc fuel env clazz _ hpending htraversal,
      firstOutcome_first_fault vm name desc env call after t hfault before hbefore]
    rfl
  have hgetMethod : rvmGetMethod vm fuel env clazz name desc =
      some (rvmThrow env t, none) := by
    simp [rvmGetMethod, hget, rvmExceptionCheck_rvmThrow]
  refine ⟨hget, hgetMethod, ?_, ?_, ?_⟩
  · simp [rvmHasMethod, hget, rvmExceptionCheck_rvmThrow]
  · simp [rvmGetClassMethod, hgetMethod]
  · simp [rvmGetInstanceMethod, hgetMethod]

/-- C26 on the demo table with two collaborators that raise: resolving
`compare(II)I` from the class `5`, the interfaces of the class `4` do not load
(condition `9`); the interface `2`, which declares the signature and whose
methods would not load either (condition `10`), comes later in the order and
is not searched: condition `9` is the pending one. -/
theorem resolver_propagates_collaborator_condition_witness :
    traversal demoFaultVM "compare" 6 5 =
        some ([Lookup.methods 5, Lookup.methods 4, Lookup.methods 0, Lookup.interfaces 5,
            Lookup.methods 1, Lookup.interfaces 1, Lookup.methods 0, Lookup.interfaces 0] ++
          Lookup.interfaces 4 ::
          [Lookup.methods 2, Lookup.interfaces 2, Lookup.methods 0, Lookup.interfaces 0,
            Lookup.interfaces 0]) ∧
      rvmGetMethod demoFaultVM 6 demoEnv 5 "compare" "(II)I" =
        some ({ exception := some (Throwable.other 9), heapFree := 8, trace := [] }, none) ∧
      rvmHasMethod demoFaultVM 6 demoEnv 5 "compare" "(II)I" =
        some ({ exception := some (Throwable.other 9), heapFree := 8, trace := [] }, false) := by
  have htraversal : traversal demoFaultVM "compare" 6 5 =
      some ([Lookup.methods 5, Lookup.methods 4, Lookup.methods 0, Lookup.interfaces 5,
          Lookup.methods 1, Lookup.interfaces 1, Lookup.methods 0, Lookup.interfaces 0] ++
        Lookup.interfaces 4 ::
        [Lookup.methods 2, Lookup.interfaces 2, Lookup.methods 0, Lookup.interfaces 0,
          Lookup.interfaces 0]) := by decide
  have hbefore : ∀ x ∈ [Lookup.methods 5, Lookup.methods 4, Lookup.methods 0,
      Lookup.interfaces 5, Lookup.methods 1, Lookup.interfaces 1, Lookup.methods 0,
      Lookup.interfaces 0],
      x.fault demoFaultVM = none ∧
        ∀ k, x = Lookup.methods k → ¬ Declares demoFaultVM k "compare" "(II)I" := by
    intro x hx
    simp only [List.mem_cons, List.mem_singleton, List.not_mem_nil, or_false] at hx
    rcases hx with rfl | rfl | rfl | rfl | rfl | rfl | rfl | rfl <;>
      refine ⟨by decide, fun k hk => ?_⟩ <;> cases hk <;>
      exact (find_sameSignature_eq_none _ _ _ _).1 (by decide)
  have h := resolver_propagates_collaborator_condition demoFaultVM 6 demoEnv 5 "compare"
    "(II)I" _ _ (Lookup.interfaces 4) (Throwable.other 9) rfl htraversal hbefore (by decide)
  exact ⟨htraversal, h.2.1, h.2.2.1⟩

/-! ## The interface fallback -/

/-- Two resolutions of the same class from the same state, each ending within
its fuel, end alike. -/
theorem getMethod_agree (vm : VM) (name desc : String) (env : Env) (c : ClassId)
    (r1 r2 : Env × Option Method) (fuel1 fuel2 : Nat)
    (h1 : getMethod vm fuel1 env c name desc = some r1)
    (h2 : getMethod vm fuel2 env c name desc = some r2) : r1 = r2 := by
  rcases Nat.le_total fuel1 fuel2 with h | h
  · have := getMethod_mono_le vm name desc env c r1 fuel1 fuel2 h h1
    rw [h2] at this
    exact (Option.some.inj this).symm
  · have := getMethod_mono_le vm name desc env c r2 fuel2 fuel1 h h2
    rw [h1] at this
    exact Option.some.inj this

theorem inChain_trans {vm : VM} {a b c : ClassId} (hab : InChain vm a b)
    (hbc : InChain vm b c) : InChain vm a c := by
  obtain ⟨k, hk⟩ := hab
  induction k generalizing a with
  | zero =>
    have : a = b := by simpa [nthSuperclass] using hk
    subst this
    exact hbc
  | succ k ih =>
    cases hs : (vm.classes a).superclass with
    | none => simp [nthSuperclass, hs] at hk
    | some s =>
      rw [nthSuperclass_succ_of_superclass vm k a s hs] at hk
      exact inChain_step hs (ih hk)

theorem reachableInterface_trans {vm : VM} {c j i : ClassId}
    (hcj : ReachableInterface vm c j) (hji : ReachableInterface vm j i) :
    ReachableInterface vm c i := by
  induction hcj with
  | direct he hj => exact ReachableInterface.through he hj hji
  | through he hj _ ih => exact ReachableInterface.through he hj (ih hji)

/-- An interface of a class of the chain of `c`, or of a type reachable from
`c`, is reachable from `c`. -/
theorem reachableInterface_of_interface {vm : VM} {c j e i : ClassId}
    (hj : j = c ∨ ReachableInterface vm c j) (he : InChain vm j e)
    (hi : i ∈ (vm.classes e).interfaces) : ReachableInterface vm c i := by
  rcases hj with rfl | hj
  · exact ReachableInterface.direct he hi
  · exact reachableInterface_trans hj (ReachableInterface.direct he hi)

/-- When neither the class, nor a type reachable from it, nor a class of their
superclass chains declares the signature, a resolution gives nothing or what
the resolution from `java_lang_Object` gives, and the latter if the class is
an interface. -/
theorem getMethod_undeclared (vm : VM) (hnf : NoFaults vm) (name desc : String)
    (h1 : name ≠ "<init>") (h2 : name ≠ "<clinit>") (env : Env)
    (hpending : env.exception = none) (fuelObject : Nat) (ro : Option Method)
    (hobject : getMethod vm fuelObject env vm.java_lang_Object name desc = some (env, ro)) :
    ∀ (fuel : Nat) (c : ClassId) (env1 : Env) (r : Option Method),
      (∀ j, (j = c ∨ ReachableInterface vm c j) → ∀ e, InChain vm j e →
        ¬ Declares vm e name desc) →
      getMethod vm fuel env c name desc = some (env1, r) →
      (r = none ∨ r = ro) ∧ (CLASS_IS_INTERFACE vm c = true → r = ro) := by
  intro fuel
  induction fuel with
  | zero => intro c env1 r _ h; simp [getMethod] at h
  | succ f ih =>
    intro c env1 r hnone h
    simp only [getMethod, special_name_false h1 h2] at h
    simp only [Bool.false_eq_true, if_false] at h
    cases hloop1 : getMethod_superclasses vm name desc f env (some c) with
    | none => simp [hloop1] at h
    | some p1 =>
      obtain ⟨e1, s1⟩ := p1
      obtain ⟨he1, hres1⟩ := getMethod_superclasses_sound vm hnf name desc env hpending
        f c e1 s1 hloop1
      subst he1
      rw [hloop1] at h
      rcases hres1 with ⟨hft1, _⟩ | ⟨e, m, he, hm, _⟩
      · subst hft1
        simp only at h
        have hrec : ∀ e, InChain vm c e → ∀ i ∈ (vm.classes e).interfaces,
            ∀ env1 r, (fun e i => getMethod vm f e i name desc) e1 i = some (env1, r) →
              env1 = e1 :=
          fun e _ i _ env1 r hr =>
            (getMethod_sound vm hnf name desc h1 h2 f e1 i env1 r hpending hr).1
        cases hloop2 : getMethod_interfaces vm (fun e i => getMethod vm f e i name desc)
            f e1 (some c) with
        | none => simp [hloop2] at h
        | some p2 =>
          obtain ⟨e2, s2⟩ := p2
          obtain ⟨he2, hres2⟩ := getMethod_interfaces_sound vm hnf
            (fun e i => getMethod vm f e i name desc) e1 hpending f c hrec e2 s2 hloop2
          subst he2
          rw [hloop2] at h
          rcases hres2 with ⟨hft2, _⟩ | ⟨e, i, m, he, hi, hr, hret2⟩
          · subst hft2
            simp only at h
            by_cases hif : CLASS_IS_INTERFACE vm c = true
            · simp only [hif, if_true] at h
              have := getMethod_agree vm name desc e2 vm.java_lang_Object _ _ _ _ h hobject
              simp only [Prod.mk.injEq] at this
              exact ⟨Or.inr this.2, fun _ => this.2⟩
            · simp only [hif] at h
              simp only [Bool.false_eq_true, if_false, Option.some.injEq, Prod.mk.injEq] at h
              exact ⟨Or.inl h.2.symm, fun hc => absurd hc hif⟩
          · subst hret2
            simp only [Option.some.injEq, Prod.mk.injEq] at h
            have hi2 : ∀ j, (j = i ∨ ReachableInterface vm i j) → ∀ x, InChain vm j x →
                ¬ Declares vm x name desc := by
              intro j hj x hx
              have hci : ReachableInterface vm c i :=
                reachableInterface_of_interface (Or.inl rfl) he hi
              refine hnone j (Or.inr ?_) x hx
              rcases hj with rfl | hj
              · exact hci
              · exact reachableInterface_trans hci hj
            have hm := (ih i e2 (some m) hi2 hr).1
            rcases hm with hm | hm
            · cases hm
            · rw [← h.2, hm]
              exact ⟨Or.inr rfl, fun _ => rfl⟩
      · exact absurd (firstDeclared_declares hm) (hnone c (Or.inl rfl) e he)

/-- The types a resolution from `c` looks into are in the superclass chains of
`c` and of the types reachable from `c`, when `java_lang_Object` is in the
chain of `c`. -/
theorem searched_covered (vm : VM) (c : ClassId)
    (hobject : InChain vm c vm.java_lang_Object) :
    ∀ a x, Searched vm a x →
      (a = c ∨ ReachableInterface vm c a ∨ a = vm.java_lang_Object) →
      ∃ j, (j = c ∨ ReachableInterface vm c j) ∧ InChain vm j x := by
  intro a x hs
  induction hs with
  | chain hc =>
    intro ha
    rename_i a x
    rcases ha with rfl | ha | rfl
    · exact ⟨a, Or.inl rfl, hc⟩
    · exact ⟨a, Or.inr ha, hc⟩
    · exact ⟨c, Or.inl rfl, inChain_trans hobject hc⟩
  | iface hc hi _ ih =>
    intro ha
    apply ih
    right; left
    rcases ha with rfl | ha | rfl
    · exact ReachableInterface.direct hc hi
    · exact reachableInterface_of_interface (Or.inr ha) hc hi
    · exact ReachableInterface.direct (inChain_trans hobject hc) hi
  | object _ _ ih =>
    intro _
    exact ih (Or.inr (Or.inr rfl))

/-- C28: for an inherited name, on a well-founded class graph, with no
condition pending and no collaborator raising, when neither the type `c`, nor
a type reachable from it through the interface lists, nor a class of the
superclass chain of any of these declares the signature: if `c` is an
interface, the resolution from `c` gives exactly what the resolution from
`java_lang_Object` gives; if `c` is not an interface the fallback is not taken
and the resolution gives nothing, be it that `java_lang_Object` is in the
superclass chain of `c` (as it is of every class) or that no class of the chain
has an interface. -/
theorem getMethod_interface_fallback (vm : VM) (rank : ClassId → Nat)
    (hwf : WellFoundedClasses vm rank) (hnf : NoFaults vm) (env : Env)
    (hpending : env.exception = none) (c : ClassId) (name desc : String)
    (h1 : name ≠ "<init>") (h2 : name ≠ "<clinit>") (fuel : Nat) (hfuel : rank c + 2 < fuel)
    (hnone : ∀ j, (j = c ∨ ReachableInterface vm c j) → ∀ e, InChain vm j e →
      ¬ Declares vm e name desc) :
    (CLASS_IS_INTERFACE vm c = true →
        getMethod vm fuel env c name desc =
          getMethod vm fuel env vm.java_lang_Object name desc) ∧
      (CLASS_IS_INTERFACE vm c = false → InChain vm c vm.java_lang_Object →
        getMethod vm fuel env c name desc = some (env, none)) ∧
      (CLASS_IS_INTERFACE vm c = false →
        (∀ e, InChain vm c e → (vm.classes e).interfaces = []) →
        getMethod vm fuel env c name desc = some (env, none)) := by
  obtain ⟨r, hr⟩ := getMethod_total vm rank hwf hnf name desc fuel env c hpending hfuel
  have hsound := getMethod_sound vm hnf name desc h1 h2 fuel env c env r hpending hr
  have hnothing : (∀ x, Searched vm c x → ¬ Declares vm x name desc) →
      getMethod vm fuel env c name desc = some (env, none) := by
    intro hall
    cases r with
    | none => exact hr
    | some m =>
      obtain ⟨x, hx, hfd⟩ := hsound.2.2 m rfl
      exact absurd (firstDeclared_declares hfd) (hall x hx)
  refine ⟨?_, ?_, ?_⟩
  · intro hif
    have hrank := hwf.object c hif
    obtain ⟨ro, hro⟩ := getMethod_total vm rank hwf hnf name desc fuel env
      vm.java_lang_Object hpending (by omega)
    have h := (getMethod_undeclared vm hnf name desc h1 h2 env hpending fuel ro hro
      fuel c env r hnone hr).2 hif
    rw [hr, hro, h]
  · intro _ hobject
    apply hnothing
    intro x hx
    obtain ⟨j, hj, hjx⟩ := searched_covered vm c hobject c x hx (Or.inl rfl)
    exact hnone j hj x hjx
  · intro hif hnoifaces
    apply hnothing
    intro x hx
    cases hx with
    | chain hc => exact hnone c (Or.inl rfl) x hc
    | iface hc hi _ =>
      rw [hnoifaces _ hc] at hi
      cases hi
    | object hif2 _ =>
      rw [hif] at hif2
      cases hif2

/-- C28 on the demo table: the empty interface `1` resolves `toString` to the
method of `java.lang.Object`, as the resolution from `java.lang.Object` does;
the class `0`, which is not an interface, resolves `compare(II)I`, which it
does not declare, to nothing. -/
theorem getMethod_interface_fallback_witness :
    getMethod demoVM 4 demoEnv 1 "toString" "()Ljava/lang/String;" =
        getMethod demoVM 4 demoEnv 0 "toString" "()Ljava/lang/String;" ∧
      getMethod demoVM 4 demoEnv 1 "toString" "()Ljava/lang/String;" =
        some (demoEnv, some (mkMethod 0 "toString" "()Ljava/lang/String;" 0x0001)) ∧
      getMethod demoVM 4 demoEnv 0 "compare" "(II)I" = some (demoEnv, none) := by
  have hnone : ∀ j, (j = 1 ∨ ReachableInterface demoVM 1 j) → ∀ e, InChain demoVM j e →
      ¬ Declares demoVM e "toString" "()Ljava/lang/String;" := by
    intro j hj e he
    rcases hj with rfl | hj
    · rw [demoVM_inChain_root 1 e rfl he]
      exact (find_sameSignature_eq_none _ _ _ _).1 (by decide)
    · exact absurd hj (demoVM_reachable_leaf 1 j rfl rfl)
  have hnone0 : ∀ j, (j = 0 ∨ ReachableInterface demoVM 0 j) → ∀ e, InChain demoVM j e →
      ¬ Declares demoVM e "compare" "(II)I" := by
    intro j hj e he
    rcases hj with rfl | hj
    · rw [demoVM_inChain_root 0 e rfl he]
      exact (find_sameSignature_eq_none _ _ _ _).1 (by decide)
    · exact absurd hj (demoVM_reachable_leaf 0 j rfl rfl)
  exact ⟨(getMethod_interface_fallback demoVM demoRank demoVM_wellFounded demoVM_noFaults
    demoEnv rfl 1 "toString" "()Ljava/lang/String;" (by decide) (by decide) 4 (by decide)
    hnone).1 (by decide), by decide,
    (getMethod_interface_fallback demoVM demoRank demoVM_wellFounded demoVM_noFaults
      demoEnv rfl 0 "compare" "(II)I" (by decide) (by decide) 4 (by decide)
      hnone0).2.1 (by decide) (inChain_refl demoVM 0)⟩

/-! ## Library lists: order of the search, removal -/

theorem firstExport_cons (linker : Linker) (symbol : String) (x : DynamicLib)
    (rest : List DynamicLib) :
    firstExport linker (x :: rest) symbol =
      if linker.dlsym x.handle symbol = 0 then firstExport linker rest symbol
      else linker.dlsym x.handle symbol := by
  by_cases hx : linker.dlsym x.handle symbol = 0
  · simp [firstExport, List.find?, hx]
  · simp [firstExport, List.find?, hx]

/-- The export of the first library of a list that has one. -/
theorem firstExport_split (linker : Linker) (symbol : String) (lib : DynamicLib)
    (after : List DynamicLib) (hlib : linker.dlsym lib.handle symbol ≠ 0) :
    ∀ before : List DynamicLib, (∀ x ∈ before, linker.dlsym x.handle symbol = 0) →
      firstExport linker (before ++ lib :: after) symbol = linker.dlsym lib.handle symbol := by
  intro before
  induction before with
  | nil =>
    intro _
    rw [List.nil_append, firstExport_cons, if_neg hlib]
  | cons x rest ih =>
    intro h
    have hx := h x (by simp)
    rw [List.cons_append, firstExport_cons, if_pos hx]
    exact ih (fun y hy => h y (by simp [hy]))

/-- A library appended to a list that already exports the symbol changes
nothing to the search. -/
theorem firstExport_append (linker : Linker) (symbol : String) (more : List DynamicLib) :
    ∀ libs : List DynamicLib, firstExport linker libs symbol ≠ 0 →
      firstExport linker (libs ++ more) symbol = firstExport linker libs symbol := by
  intro libs
  induction libs with
  | nil => intro h; simp [firstExport] at h
  | cons x rest ih =>
    intro h
    rw [List.cons_append, firstExport_cons, firstExport_cons]
    by_cases hx : linker.dlsym x.handle symbol = 0
    · rw [firstExport_cons, if_pos hx] at h
      rw [if_pos hx, if_pos hx]
      exact ih h
    · rw [if_neg hx, if_neg hx]

/-- C31: for every library list and symbol, `rvmFindDynamicLibSymbol` with
`searchAll` true returns the address the first library of the list that exports
the symbol gives for it, and null when no library of the list exports it. The
list is in insertion order, a library loaded later being appended at the tail
by `rvmAddDynamicLib`, and such a library changes nothing to the result when a
library of the list already exports the symbol. Hence a resolution of a method
with an empty slot, from a class loader of a tier, returns and memoizes the
address given by the first library of the tier's list that exports the
(short) mangled name. -/
theorem rvmFindDynamicLibSymbol_first_exporting_library (linker : Linker)
    (st : NativeState) (libs : List DynamicLib) (symbol : String) :
    (∀ before lib after, libs = before ++ lib :: after →
        (∀ x ∈ before, linker.dlsym x.handle symbol = 0) →
        linker.dlsym lib.handle symbol ≠ 0 →
        (rvmFindDynamicLibSymbol linker st libs symbol true).2 =
          linker.dlsym lib.handle symbol) ∧
      ((∀ x ∈ libs, linker.dlsym x.handle symbol = 0) →
        (rvmFindDynamicLibSymbol linker st libs symbol true).2 = 0) ∧
      (∀ later, (rvmFindDynamicLibSymbol linker st libs symbol true).2 ≠ 0 →
        (rvmFindDynamicLibSymbol linker st (rvmAddDynamicLib later libs) symbol true).2 =
          (rvmFindDynamicLibSymbol linker st libs symbol true).2) ∧
      (∀ (vm : VM) (env : Env) (method : NativeMethod) (longMangledName : String)
          (classLoader : Option Nat) (tier : NativeLibsRef),
        method.nativeImpl = 0 → tierOf vm linker classLoader = some tier →
        tier.get st = libs →
        (rvmResolveNativeMethodImpl vm linker env st method symbol longMangledName
            classLoader).result =
          (rvmFindDynamicLibSymbol linker st libs symbol true).2 ∧
        (rvmResolveNativeMethodImpl vm linker env st method symbol longMangledName
            classLoader).method.nativeImpl =
          (rvmFindDynamicLibSymbol linker st libs symbol true).2) := by
  refine ⟨?_, ?_, ?_, ?_⟩
  · intro before lib after hsplit hbefore hlib
    rw [rvmFindDynamicLibSymbol_all_result, hsplit]
    exact firstExport_split linker symbol lib after hlib before hbefore
  · intro hnone
    rw [rvmFindDynamicLibSymbol_all_result]
    exact firstExport_eq_zero linker libs symbol hnone
  · intro later h
    rw [rvmFindDynamicLibSymbol_all_result] at h ⊢
    rw [rvmFindDynamicLibSymbol_all_result]
    exact firstExport_append linker symbol [later] libs h
  · intro vm env method longMangledName classLoader tier hslot htier hlibs
    rw [rvmResolveNativeMethodImpl_of_tier vm linker env st method symbol longMangledName
      classLoader hslot, htier, rvmFindDynamicLibSymbol_all_result]
    simp only [hlibs]
    have h := rvmResolveNativeMethodImpl_search_spec linker env st method symbol
      longMangledName libs
    refine ⟨h.1, ?_⟩
    rw [h.2.1]

/-- C31 on the demo libraries: `libcore.so` and `libapp.so`, loaded in this
order, both export `Java_Demo_work__I`; the search, and a resolution with this
name, give the address in `libcore.so`. -/
theorem rvmFindDynamicLibSymbol_first_exporting_library_witness :
    (rvmFindDynamicLibSymbol demoLinker demoBootLibs demoBootLibs.bootNativeLibs
        "Java_Demo_work__I" true).2 = 0xABC0 ∧
      demoLinker.dlsym 0x52 "Java_Demo_work__I" = 0xDEF0 ∧
      (rvmResolveNativeMethodImpl demoVM demoLinker demoEnv demoBootLibs demoNativeMethod
        "Java_Demo_work__I" "Java_Demo_work__I" none).result = 0xABC0 :=
  ⟨(rvmFindDynamicLibSymbol_first_exporting_library demoLinker demoBootLibs
      demoBootLibs.bootNativeLibs "Java_Demo_work__I").1 []
      { addr := 0x9000, handle := 0x51 } [{ addr := 0x9001, handle := 0x52 }] rfl
      (by simp) (by decide),
    by decide, by decide⟩

/-- Removing a library that is not the first node of the list: the caller's
list is the list without the first node at the address of the library, the
other nodes in their order. -/
theorem rvmRemoveDynamicLib_not_first (lib first : DynamicLib) (rest : List DynamicLib)
    (h : first.addr ≠ lib.addr) :
    rvmRemoveDynamicLib lib (first :: rest) =
      some (first :: rest.eraseP (fun dlib => dlib.addr = lib.addr)) := by
  simp [rvmRemoveDynamicLib, LL_DELETE, h]

/-- C36 does not hold of the code. The caller's list holds `libcore.so` (node
`0x9000`) and then `libapp.so` (node `0x9001`). Removing the second library
leaves the caller with the first alone; removing the first library leaves the
caller's list as it was, `rvmHasDynamicLib` still finding the library in it:
`rvmRemoveDynamicLib` takes the head of the list by value (`DynamicLib* libs`,
where `rvmAddDynamicLib` takes `DynamicLib** libs`), so the new head that
`LL_DELETE` assigns is lost when the function returns. -/
theorem rvmRemoveDynamicLib_first_element_stays :
    rvmRemoveDynamicLib { addr := 0x9001, handle := 0x52 } demoBootLibs.bootNativeLibs =
        some [{ addr := 0x9000, handle := 0x51 }] ∧
      LL_DELETE demoBootLibs.bootNativeLibs { addr := 0x9000, handle := 0x51 } =
        some ([{ addr := 0x9001, handle := 0x52 }],
          [{ addr := 0x9000, handle := 0x51 }, { addr := 0x9001, handle := 0x52 }]) ∧
      rvmRemoveDynamicLib { addr := 0x9000, handle := 0x51 } demoBootLibs.bootNativeLibs =
        some demoBootLibs.bootNativeLibs ∧
      rvmHasDynamicLib { addr := 0x9000, handle := 0x51 } demoBootLibs.bootNativeLibs =
        true := by
  refine ⟨by decide, by decide, by decide, by decide⟩

/-- C33: for every call `initCallInfo` returns, the entry point of the call is
the synchronized-wrapper entry point of the method dispatched to if that is
not null, and the implementation entry point of that method otherwise. The
method dispatched to is the one `rvmGetMethod` resolves from the class of the
receiver when the mode is virtual and the method given is not private, and the
method given otherwise. -/
theorem initCallInfo_entry_point (vm : VM) (fuel : Nat) (env : Env) (obj : Option Object)
    (method : Method) (virtual : Bool) (args : List jvalue) (env1 : Env)
    (callInfo : CallInfo)
    (h : initCallInfo vm fuel env obj method virtual args = some (env1, some callInfo)) :
    ∃ env0 dispatched,
      initCallInfo_dispatch vm fuel env obj method virtual = some (env0, some dispatched) ∧
      callInfo.function =
        (if dispatched.synchronizedImpl ≠ 0 then dispatched.synchronizedImpl
          else dispatched.impl) ∧
      (virtual = true → method.access &&& ACC_PRIVATE = 0 →
        ∃ o, obj = some o ∧
          rvmGetMethod vm fuel env o.clazz method.name method.desc =
            some (env0, some dispatched)) ∧
      ((virtual = false ∨ method.access &&& ACC_PRIVATE ≠ 0) →
        dispatched = method ∧ env0 = env) := by
  unfold initCallInfo at h
  cases hd : initCallInfo_dispatch vm fuel env obj method virtual with
  | none => simp [hd] at h
  | some p =>
    obtain ⟨env0, r⟩ := p
    cases r with
    | none => simp [hd] at h
    | some dispatched =>
      simp only [hd] at h
      refine ⟨env0, dispatched, rfl,
        initCallInfo_build_function env0 env1 obj dispatched args callInfo h, ?_, ?_⟩
      · intro hv hpriv
        subst hv
        simp only [initCallInfo_dispatch, hpriv] at hd
        cases obj with
        | none => simp at hd
        | some o => exact ⟨o, rfl, by simpa using hd⟩
      · intro hcase
        rcases hcase with hv | hpriv
        · subst hv
          simp only [initCallInfo_dispatch] at hd
          simp only [Bool.false_and, Bool.false_eq_true, if_false, Option.some.injEq,
            Prod.mk.injEq] at hd
          exact ⟨hd.2.symm, hd.1.symm⟩
        · simp [initCallInfo_dispatch, hpriv] at hd
          exact ⟨hd.2.symm, hd.1.symm⟩

/-- C33 on a table where the class `2` overrides `run()V` of the class `1` with
a method that has a synchronized wrapper: the virtual call on a receiver of
class `2` enters the wrapper of the override, `0x1280`; the nonvirtual call
enters the code of the method given, `0x1100`. -/
theorem initCallInfo_entry_point_witness :
    (∃ env1 callInfo,
      initCallInfo syncVM 4 demoEnv (some { addr := 0x7000, clazz := 2 }) syncBaseMethod true
          [] = some (env1, some callInfo) ∧
        callInfo.function = 0x1280) ∧
      (∃ env1 callInfo,
        initCallInfo syncVM 4 demoEnv (some { addr := 0x7000, clazz := 2 }) syncBaseMethod
            false [] = some (env1, some callInfo) ∧
          callInfo.function = 0x1100) := by
  have hvirtual : initCallInfo syncVM 4 demoEnv (some { addr := 0x7000, clazz := 2 })
      syncBaseMethod true [] =
      some ({ demoEnv with heapFree := 7 },
        some { function := 0x1280, ptrArgsCount := 2, intArgsCount := 0, longArgsCount := 0,
               floatArgsCount := 0, doubleArgsCount := 0,
               ptrArgs := [Ptr.env, Ptr.ref 0x7000], intArgs := [], longArgs := [],
               floatArgs := [], doubleArgs := [] }) := by decide
  have hnonvirtual : initCallInfo syncVM 4 demoEnv (some { addr := 0x7000, clazz := 2 })
      syncBaseMethod false [] =
      some ({ demoEnv with heapFree := 7 },
        some { function := 0x1100, ptrArgsCount := 2, intArgsCount := 0, longArgsCount := 0,
               floatArgsCount := 0, doubleArgsCount := 0,
               ptrArgs := [Ptr.env, Ptr.ref 0x7000], intArgs := [], longArgs := [],
               floatArgs := [], doubleArgs := [] }) := by decide
  obtain ⟨_, dispatched, _, hfunction, _, hgiven⟩ :=
    initCallInfo_entry_point syncVM 4 demoEnv (some { addr := 0x7000, clazz := 2 })
      syncBaseMethod false [] _ _ hnonvirtual
  refine ⟨⟨_, _, hvirtual, rfl⟩, ⟨_, _, hnonvirtual, ?_⟩⟩
  rw [hfunction, (hgiven (Or.inl rfl)).1]
  rfl

/-! ## The two passes of the marshaller agree -/

/-- The number of values a selection puts into its bin is the number of
parameters of the kind of the bin. -/
theorem zip_filterMap_length {α : Type} (sel : ParamType → jvalue → Option α)
    (pred : ParamType → Bool) (hsel : ∀ p a, (sel p a).isSome = pred p) :
    ∀ (params : List ParamType) (args : List jvalue), params.length ≤ args.length →
      ((params.zip args).filterMap (fun pa => sel pa.1 pa.2)).length =
        params.countP pred := by
  intro params
  induction params with
  | nil => intro args _; simp
  | cons p ps ih =>
    intro args hlen
    cases args with
    | nil => simp at hlen
    | cons a rest =>
      simp only [List.length_cons, Nat.add_le_add_iff_right] at hlen
      have hp := hsel p a
      cases hs : sel p a with
      | none =>
        rw [hs] at hp
        have hpred : pred p = false := by simpa using hp.symm
        simp [List.zip_cons_cons, List.filterMap_cons, hs, List.countP_cons, hpred, ih rest hlen]
      | some v =>
        rw [hs] at hp
        have hpred : pred p = true := by simpa using hp.symm
        simp [List.zip_cons_cons, List.filterMap_cons, hs, List.countP_cons, hpred, ih rest hlen]

/-- Pairing parameters with arguments looks at one argument per parameter. -/
theorem zip_take_length (params : List ParamType) :
    ∀ args : List jvalue, params.zip (args.take params.length) = params.zip args := by
  induction params with
  | nil => intro args; simp
  | cons p ps ih =>
    intro args
    cases args with
    | nil => simp
    | cons a rest => simp [List.zip_cons_cons, ih rest]

/-- The binding loop on a well-formed parameter list with too few arguments
reads beyond the argument array: no defined result. -/
theorem initCallInfo_bind_params_short (ret : List Char) :
    ∀ (params : List ParamType) (fuel : Nat) (before rest : List jvalue)
      (callInfo : CallInfo),
      params.all ParamType.wellFormed = true → params.length < fuel →
      rest.length < params.length →
      initCallInfo_bind (before ++ rest) fuel (some (encodeParams params ++ ')' :: ret))
          before.length callInfo = none := by
  intro params
  induction params with
  | nil => intro fuel before rest callInfo _ _ hlen; simp at hlen
  | cons p ps ih =>
    intro fuel before rest callInfo hwf hfuel hlen
    obtain ⟨f, rfl⟩ : ∃ f, fuel = f + 1 := ⟨fuel - 1, by simp at hfuel; omega⟩
    simp only [List.all_cons, Bool.and_eq_true] at hwf
    simp only [List.length_cons] at hfuel hlen
    cases rest with
    | nil =>
      have hget : (before ++ ([] : List jvalue))[before.length]? = none := by simp
      simp only [encodeParams, List.append_assoc, initCallInfo_bind,
        rvmGetNextParameterType_param p hwf.1, deref_encode, initCallInfo_bindReads_tag,
        if_true, hget]
    | cons a rest2 =>
      simp only [List.length_cons, Nat.add_lt_add_iff_right] at hlen
      have hget : (before ++ a :: rest2)[before.length]? = some a := by
        rw [List.getElem?_append_right (Nat.le_refl _)]
        simp
      simp only [encodeParams, List.append_assoc, initCallInfo_bind,
        rvmGetNextParameterType_param p hwf.1, deref_encode, initCallInfo_bindReads_tag,
        if_true, hget]
      have hargs : before ++ a :: rest2 = (before ++ [a]) ++ rest2 := by simp
      have hidx : before.length + 1 = (before ++ [a]).length := by simp
      rw [hargs, hidx]
      exact ih f (before ++ [a]) rest2 _ hwf.2 (by omega) hlen

/-- With fewer arguments than parameters, a call that could be allocated has
no defined result. -/
theorem initCallInfo_build_short (env : Env) (obj : Option Object) (method : Method)
    (args : List jvalue) (params : List ParamType) (ret : List Char)
    (hdesc : method.desc.toList = methodDescriptor params ret)
    (hwf : params.all ParamType.wellFormed = true)
    (hargs : args.length < params.length)
    (hheap : env.heapFree ≠ 0) :
    initCallInfo_build env obj method args = none := by
  have hlen : method.desc.length = (methodDescriptor params ret).length := by
    rw [← hdesc]; rfl
  have hfuel : params.length < method.desc.length := by
    have := methodDescriptor_length params ret
    omega
  have hcount := initCallInfo_count_params ret params (method.desc.length + 1)
    { ptrArgsCount := if method.access &&& ACC_STATIC = 0 then 2 else 1, intArgsCount := 0,
      longArgsCount := 0, floatArgsCount := 0, doubleArgsCount := 0 } hwf (by omega)
  have hbind := fun callInfo => initCallInfo_bind_params_short ret params
    (method.desc.length + 1) [] args callInfo hwf (by omega) hargs
  simp only [List.nil_append, List.length_nil] at hbind
  unfold initCallInfo_build
  simp only [hdesc, methodDescriptor, initCallInfo_count_open, initCallInfo_bind_open, hcount,
    hbind, call0AllocateCallInfo, rvmAllocateMemory, hheap, if_false]
  simp

/-- The parameter count of a method with a well-formed descriptor. -/
theorem rvmGetParameterCount_methodDescriptor (method : Method) (params : List ParamType)
    (ret : List Char) (hdesc : method.desc.toList = methodDescriptor params ret)
    (hwf : params.all ParamType.wellFormed = true) :
    rvmGetParameterCount method = some params.length := by
  have hlen : method.desc.length = (methodDescriptor params ret).length := by
    rw [← hdesc]
    rfl
  have hfuel := methodDescriptor_length params ret
  unfold rvmGetParameterCount
  rw [hdesc, methodDescriptor, rvmGetParameterCount_loop_open,
    rvmGetParameterCount_loop_params ret params _ 0 hwf (by omega)]
  simp

/-- C34: let `method` be the method `initCallInfo` builds the call for, with
the well-formed descriptor `(params)ret`, the allocation succeeding and the
argument array covering the parameters. Each of the five bins of the call
returned holds exactly as many values as the counting pass requested for it.
The values are those of the parameters paired in order with the entries of the
argument array, the `k`-th parameter with `args[k]`: the call is the same for
every argument array with the same first `n` entries, `n` being the parameter
count `rvmGetParameterCount` gives, so that no entry beyond is read; and with
an argument array shorter than `n` the binding pass reads beyond the array and
has no defined result, so that each of the `n` entries is read. -/
theorem initCallInfo_bins_filled_as_requested (vm : VM) (fuel : Nat) (env0 : Env)
    (obj : Option Object) (given : Method) (virtual : Bool) (args : List jvalue)
    (env : Env) (method : Method) (params : List ParamType) (ret : List Char)
    (hdispatch : initCallInfo_dispatch vm fuel env0 obj given virtual = some (env, some method))
    (hdesc : method.desc.toList = methodDescriptor params ret)
    (hwf : params.all ParamType.wellFormed = true)
    (hargs : params.length ≤ args.length)
    (hheap : env.heapFree ≠ 0) :
    ∃ callInfo env1,
      initCallInfo vm fuel env0 obj given virtual args = some (env1, some callInfo) ∧
      callInfo.ptrArgs.length = callInfo.ptrArgsCount ∧
      callInfo.intArgs.length = callInfo.intArgsCount ∧
      callInfo.longArgs.length = callInfo.longArgsCount ∧
      callInfo.floatArgs.length = callInfo.floatArgsCount ∧
      callInfo.doubleArgs.length = callInfo.doubleArgsCount ∧
      rvmGetParameterCount method = some params.length ∧
      callInfo = marshalledCall obj method params (args.take params.length) ∧
      (∀ args2 : List jvalue, args2.take params.length = args.take params.length →
        initCallInfo vm fuel env0 obj given virtual args2 = some (env1, some callInfo)) ∧
      (∀ args2 : List jvalue, args2.length < params.length →
        initCallInfo vm fuel env0 obj given virtual args2 = none) := by
  have hsame : ∀ args2 : List jvalue,
      marshalledCall obj method params (args2.take params.length) =
        marshalledCall obj method params args2 := by
    intro args2
    simp only [marshalledCall, zip_take_length]
  have hbuilt : ∀ args2 : List jvalue, params.length ≤ args2.length →
      initCallInfo vm fuel env0 obj given virtual args2 =
        some ({ env with heapFree := env.heapFree - 1 },
          some (marshalledCall obj method params args2)) := by
    intro args2 h2
    simp only [initCallInfo, hdispatch]
    exact initCallInfo_build_wellFormed env obj method args2 params ret hdesc hwf h2 hheap
  refine ⟨marshalledCall obj method params args, _, hbuilt args hargs, ?_, ?_, ?_, ?_, ?_,
    rvmGetParameterCount_methodDescriptor method params ret hdesc hwf, (hsame args).symm,
    ?_, ?_⟩
  · simp only [marshalledCall, List.length_append]
    rw [zip_filterMap_length ParamType.ptrArg ParamType.isRef
      (by intro p a; cases p <;> rfl) params args hargs]
  · simp only [marshalledCall]
    rw [zip_filterMap_length ParamType.intArg ParamType.isInt
      (by intro p a; cases p <;> rfl) params args hargs]
  · simp only [marshalledCall, List.count]
    rw [zip_filterMap_length ParamType.longArg (fun p => p == ParamType.long)
      (by intro p a; cases p <;> rfl) params args hargs]
  · simp only [marshalledCall, List.count]
    rw [zip_filterMap_length ParamType.floatArg (fun p => p == ParamType.float)
      (by intro p a; cases p <;> rfl) params args hargs]
  · simp only [marshalledCall, List.count]
    rw [zip_filterMap_length ParamType.doubleArg (fun p => p == ParamType.double)
      (by intro p a; cases p <;> rfl) params args hargs]
  · intro args2 htake
    have hlen2 : params.length ≤ args2.length := by
      have h := congrArg List.length htake
      simp only [List.length_take] at h
      omega
    rw [hbuilt args2 hlen2, ← hsame args2, htake, hsame args]
  · intro args2 hshort
    simp only [initCallInfo, hdispatch]
    exact initCallInfo_build_short env obj method args2 params ret hdesc hwf hshort hheap

/-- C34 on `(I[[Ljava/lang/String;Ljava/lang/Object;J[I)V`: the pointer bin,
requested for five values, holds five; an argument array with a sixth entry
gives the same call; with four entries there is no defined result. -/
theorem initCallInfo_bins_filled_as_requested_witness :
    ∃ callInfo env1,
      initCallInfo demoVM 3 demoEnv (some demoReceiver) demoMixedMethod false demoMixedArgs =
        some (env1, some callInfo) ∧
      callInfo.ptrArgs.length = 5 ∧ callInfo.ptrArgsCount = 5 ∧
      callInfo.intArgs.length = 1 ∧ callInfo.longArgs.length = 1 ∧
      rvmGetParameterCount demoMixedMethod = some 5 ∧
      initCallInfo demoVM 3 demoEnv (some demoReceiver) demoMixedMethod false
          (demoMixedArgs ++ [{ bits := 99 }]) = some (env1, some callInfo) ∧
      initCallInfo demoVM 3 demoEnv (some demoReceiver) demoMixedMethod false
          (demoMixedArgs.take 4) = none := by
  obtain ⟨callInfo, env1, h, hp, hi, hl, _, _, hn, hcall, hsame, hshort⟩ :=
    initCallInfo_bins_filled_as_requested demoVM 3 demoEnv (some demoReceiver)
      demoMixedMethod false demoMixedArgs demoEnv demoMixedMethod demoMixedParams ['V'] rfl
      (by decide) (by decide) (by decide) (by decide)
  refine ⟨callInfo, env1, h, ?_, ?_, ?_, ?_, hn, hsame _ (by decide), hshort _ (by decide)⟩
  · rw [hp, hcall]; decide
  · rw [hcall]; decide
  · rw [hi, hcall]; decide
  · rw [hl, hcall]; decide

/-! ## Termination of the resolver -/

/-- With a condition pending on entry, `getMethod` returns at its first check. -/
theorem getMethod_pending (vm : VM) (name desc : String) (env : Env) (c : ClassId)
    (fuel : Nat) (hpending : env.exception ≠ none) (hfuel : 2 ≤ fuel) :
    ∃ r, getMethod vm fuel env c name desc = some r := by
  obtain ⟨f, rfl⟩ : ∃ f, fuel = f + 2 := ⟨fuel - 2, by omega⟩
  have hcheck : rvmExceptionCheck (findMethod vm env c name desc).1 = true := by
    rw [findMethod_fst]
    unfold rvmGetMethods
    cases vm.loadMethodsFault c with
    | some t => rfl
    | none =>
      cases he : env.exception with
      | none => exact absurd he hpending
      | some t => simp [rvmExceptionCheck, he]
  by_cases hsp : (name == "<init>" || name == "<clinit>") = true
  · simp only [getMethod, hsp, if_true]
    exact ⟨_, rfl⟩
  · simp only [getMethod, hsp, getMethod_superclasses, hcheck, if_true]
    exact ⟨_, rfl⟩

/-- In the table of the round trip every superclass chain is the type alone. -/
theorem loopVM_inChain (c e : ClassId) (h : InChain loopVM c e) : e = c := by
  rcases inChain_cases h with rfl | ⟨s, hs, _⟩
  · rfl
  · rcases c with _ | _ | c <;> simp [loopVM, loopClasses] at hs

theorem loopVM_not_declared (c : ClassId) (name desc : String) :
    ¬ Declares loopVM c name desc := by
  rintro ⟨m, hm, _⟩
  rcases c with _ | _ | c <;> simp [loopVM, loopClasses] at hm

/-- On the table of the round trip no fuel is enough, neither from
`java.lang.Object` nor from its interface. -/
theorem loopVM_getMethod_none (name desc : String) (h1 : name ≠ "<init>")
    (h2 : name ≠ "<clinit>") (env : Env) (hpending : env.exception = none) :
    ∀ fuel : Nat, getMethod loopVM fuel env 0 name desc = none ∧
      getMethod loopVM fuel env 1 name desc = none := by
  have hnf : NoFaults loopVM := fun _ => ⟨rfl, rfl⟩
  intro fuel
  induction fuel with
  | zero => exact ⟨rfl, rfl⟩
  | succ f ih =>
    have hloop1 : ∀ c p, getMethod_superclasses loopVM name desc f env (some c) = some p →
        p = (env, Search.fellThrough) := by
      intro c p hp
      obtain ⟨e1, s1⟩ := p
      obtain ⟨he1, hres⟩ := getMethod_superclasses_sound loopVM hnf name desc env hpending
        f c e1 s1 hp
      rcases hres with ⟨hs, _⟩ | ⟨e, m, _, hm, _⟩
      · rw [he1, hs]
      · exact absurd (firstDeclared_declares hm) (loopVM_not_declared e name desc)
    refine ⟨?_, ?_⟩
    · simp only [getMethod, special_name_false h1 h2]
      simp only [Bool.false_eq_true, if_false]
      cases hl1 : getMethod_superclasses loopVM name desc f env (some 0) with
      | none => rfl
      | some p =>
        rw [hloop1 0 p hl1]
        simp only
        cases f with
        | zero => rfl
        | succ f2 =>
          have hget : rvmGetInterfaces loopVM env 0 = (env, [1]) := rfl
          simp only [getMethod_interfaces, hget, rvmExceptionCheck_eq_false hpending,
            getMethod_interfaceList, ih.2]
          simp
    · simp only [getMethod, special_name_false h1 h2]
      simp only [Bool.false_eq_true, if_false]
      cases hl1 : getMethod_superclasses loopVM name desc f env (some 1) with
      | none => rfl
      | some p =>
        rw [hloop1 1 p hl1]
        simp only
        cases hl2 : getMethod_interfaces loopVM (fun e i => getMethod loopVM f e i name desc)
            f env (some 1) with
        | none => rfl
        | some p2 =>
          obtain ⟨e2, s2⟩ := p2
          have hrec : ∀ e, InChain loopVM 1 e → ∀ i ∈ (loopVM.classes e).interfaces,
              ∀ env1 r, (fun e i => getMethod loopVM f e i name desc) env i = some (env1, r) →
                env1 = env := by
            intro e he i hi
            rw [loopVM_inChain 1 e he] at hi
            cases hi
          obtain ⟨he2, hres⟩ := getMethod_interfaces_sound loopVM hnf
            (fun e i => getMethod loopVM f e i name desc) env hpending f 1 hrec e2 s2 hl2
          rcases hres with ⟨hs, _⟩ | ⟨e, i, m, he, hi, _, _⟩
          · subst he2 hs
            have hif : CLASS_IS_INTERFACE loopVM 1 = true := by decide
            simp only [hif, if_true]
            exact ih.1
          · rw [loopVM_inChain 1 e he] at hi
            cases hi

/-- C35 as stated fails. In this table every superclass chain is finite (no
type has a superclass), the super-interface relation is acyclic (its only
link goes from `0` to `1`), and the root type `java.lang.Object`, `0`, is not
an interface and has no superclass. Yet the resolution of `run()V` from
`java.lang.Object` ends within no fuel: it resolves the interface `1` that
`java.lang.Object` declares, which falls back to `java.lang.Object`. -/
theorem getMethod_object_interface_round_trip :
    (∀ c, (loopVM.classes c).superclass = none) ∧
      (∀ c i, i ∈ (loopVM.classes c).interfaces → c = 0 ∧ i = 1) ∧
      CLASS_IS_INTERFACE loopVM loopVM.java_lang_Object = false ∧
      (loopVM.classes loopVM.java_lang_Object).superclass = none ∧
      ∀ fuel, getMethod loopVM fuel demoEnv loopVM.java_lang_Object "run" "()V" = none := by
  refine ⟨?_, ?_, by decide, rfl, ?_⟩
  · intro c
    rcases c with _ | _ | c <;> rfl
  · intro c i hi
    rcases c with _ | _ | c <;> simp [loopVM, loopClasses] at hi
    exact ⟨rfl, hi⟩
  · intro fuel
    exact (loopVM_getMethod_none "run" "()V" (by decide) (by decide) demoEnv rfl fuel).1

/-- C35, amended: when a rank on the types decreases along every superclass
link, along every declared-interface link, and from every interface to
`java_lang_Object` (so that, besides finite superclass chains and an acyclic
super-interface relation, `java_lang_Object` is not an interface and no
interface can be reached from it), `getMethod` ends for every class, name and
descriptor, from every state and whatever the collaborators raise: a fuel
above the rank of the class by three or more is enough, and the result does
not depend on the fuel. -/
theorem getMethod_terminates (vm : VM) (rank : ClassId → Nat)
    (hwf : WellFoundedClasses vm rank) (env : Env) (c : ClassId) (name desc : String) :
    ∃ r, ∀ fuel, rank c + 2 < fuel → getMethod vm fuel env c name desc = some r := by
  have hsome : ∃ r, getMethod vm (rank c + 3) env c name desc = some r := by
    cases he : env.exception with
    | none =>
      obtain ⟨calls, hcalls⟩ := traversal_total vm rank hwf name (rank c + 3) c (by omega)
      exact ⟨_, getMethod_eq_firstOutcome vm name desc (rank c + 3) env c calls he hcalls⟩
    | some t =>
      exact getMethod_pending vm name desc env c (rank c + 3) (by rw [he]; simp) (by omega)
  obtain ⟨r, hr⟩ := hsome
  exact ⟨r, fun fuel hfuel =>
    getMethod_mono_le vm name desc env c r (rank c + 3) fuel (by omega) hr⟩

/-- C35, amended, on the demo table, whose types have a rank: the resolution of
`compare(II)I` from the class `5` ends with the method of the interface `2`,
with a fuel of `6` as with any larger one. -/
theorem getMethod_terminates_witness :
    ∃ r, (∀ fuel, demoRank 5 + 2 < fuel →
        getMethod demoVM fuel demoEnv 5 "compare" "(II)I" = some r) ∧
      r = (demoEnv, some (mkMethod 2 "compare" "(II)I" 0x0401)) := by
  obtain ⟨r, hr⟩ := getMethod_terminates demoVM demoRank demoVM_wellFounded demoEnv 5
    "compare" "(II)I"
  refine ⟨r, hr, ?_⟩
  have h6 := hr 6 (by decide)
  have hval : getMethod demoVM 6 demoEnv 5 "compare" "(II)I" =
      some (demoEnv, some (mkMethod 2 "compare" "(II)I" 0x0401)) := by decide
  rw [hval] at h6
  exact (Option.some.inj h6).symm

/-! ## Variadic entry points -/

theorem va_list2jargs_case_tag (vm : VM) (p : ParamType) (v : Nat) :
    va_list2jargs_case vm p.tag v = p.narrow vm v := by
  cases p <;> simp [va_list2jargs_case, ParamType.tag, ParamType.narrow]

theorem set_append_length {α : Type} (done rest : List α) (z x : α) :
    (done ++ z :: rest).set done.length x = done ++ x :: rest := by
  induction done with
  | nil => rfl
  | cons d ds ih => simp [List.set, ih]

/-- The loop of `va_list2jargs` on a well-formed parameter list: the cells of
the parameters are written in order, the `k`-th with the `k`-th variadic value
narrowed. -/
theorem va_list2jargs_loop_params (vm : VM) (ret : List Char) :
    ∀ (params : List ParamType) (fuel : Nat) (vargs : List Nat) (done : List jvalue)
      (m : Nat),
      params.all ParamType.wellFormed = true → params.length < fuel →
      params.length ≤ vargs.length → params.length ≤ m →
      va_list2jargs_loop vm fuel (some (encodeParams params ++ ')' :: ret)) vargs
          done.length (done ++ List.replicate m { bits := 0 }) =
        some (done ++ List.zipWith (ParamType.narrow vm) params vargs ++
          List.replicate (m - params.length) { bits := 0 }) := by
  intro params
  induction params with
  | nil =>
    intro fuel vargs done m _ hfuel _ _
    obtain ⟨f, rfl⟩ : ∃ f, fuel = f + 1 := ⟨fuel - 1, by omega⟩
    simp [va_list2jargs_loop, encodeParams, rvmGetNextParameterType_close]
  | cons p ps ih =>
    intro fuel vargs done m hwf hfuel hlen hm
    obtain ⟨f, rfl⟩ : ∃ f, fuel = f + 1 := ⟨fuel - 1, by simp at hfuel; omega⟩
    simp only [List.all_cons, Bool.and_eq_true] at hwf
    simp only [List.length_cons] at hfuel hm
    cases vargs with
    | nil => simp at hlen
    | cons v rest =>
      simp only [List.length_cons, Nat.add_le_add_iff_right] at hlen
      obtain ⟨m2, rfl⟩ : ∃ m2, m = m2 + 1 := ⟨m - 1, by omega⟩
      simp only [encodeParams, List.append_assoc, va_list2jargs_loop,
        rvmGetNextParameterType_param p hwf.1, deref_encode, initCallInfo_bindReads_tag,
        if_true, va_list2jargs_case_tag, List.replicate_succ, set_append_length]
      have hcells : done ++ p.narrow vm v :: List.replicate m2 ({ bits := 0 } : jvalue) =
          (done ++ [p.narrow vm v]) ++ List.replicate m2 { bits := 0 } := by simp
      have hidx : done.length + 1 = (done ++ [p.narrow vm v]).length := by simp
      rw [hcells, hidx, ih f rest (done ++ [p.narrow vm v]) m2 hwf.2 (by omega) hlen
        (by omega)]
      simp

theorem va_list2jargs_loop_open (vm : VM) (fuel : Nat) (s : List Char) (vargs : List Nat)
    (i : Nat) (cells : List jvalue) :
    va_list2jargs_loop vm fuel (some ('(' :: s)) vargs i cells =
      va_list2jargs_loop vm fuel (some s) vargs i cells := by
  cases fuel with
  | zero => rfl
  | succ f => simp only [va_list2jargs_loop, rvmGetNextParameterType_open]

/-- What `va_list2jargs` gives for a method with a well-formed descriptor, at
least one parameter and enough variadic values, when the allocation succeeds. -/
theorem va_list2jargs_wellFormed (vm : VM) (env : Env) (method : Method)
    (params : List ParamType) (ret : List Char) (vargs : List Nat)
    (hdesc : method.desc.toList = methodDescriptor params ret)
    (hwf : params.all ParamType.wellFormed = true)
    (hlen : params.length ≤ vargs.length) (hne : params ≠ [])
    (hheap : env.heapFree ≠ 0) :
    va_list2jargs vm env method vargs =
      some ({ env with heapFree := env.heapFree - 1 },
        some (List.zipWith (ParamType.narrow vm) params vargs)) := by
  have hdlen : method.desc.length = (methodDescriptor params ret).length := by
    rw [← hdesc]
    rfl
  have hfuel := methodDescriptor_length params ret
  have hpos : params.length ≠ 0 := by
    intro h
    exact hne (List.length_eq_zero.1 h)
  have hloop := va_list2jargs_loop_params vm ret params (method.desc.length + 1) vargs []
    params.length hwf (by omega) hlen (Nat.le_refl _)
  simp only [List.length_nil, List.nil_append, Nat.sub_self, List.replicate_zero,
    List.append_nil] at hloop
  unfold va_list2jargs
  rw [rvmGetParameterCount_methodDescriptor method params ret hdesc hwf]
  simp only [hpos, if_false, rvmAllocateMemory, hheap, hdesc, methodDescriptor,
    va_list2jargs_loop_open, hloop]
  simp

theorem narrow_intArg (vm : VM) (p : ParamType) (v : Nat) :
    p.intArg (p.narrow vm v) = p.variadicInt v := by
  cases p <;>
    simp [ParamType.intArg, ParamType.narrow, ParamType.variadicInt, jvalue.z, jvalue.b,
      jvalue.s, jvalue.c, jvalue.i, signed, Nat.mod_mod]

theorem narrow_longArg (vm : VM) (p : ParamType) (v : Nat) :
    p.longArg (p.narrow vm v) = p.variadicLong v := by
  cases p <;>
    simp [ParamType.longArg, ParamType.narrow, ParamType.variadicLong, jvalue.j, signed,
      Nat.mod_mod]

/-- Selecting from the narrowed cells is selecting from the variadic values. -/
theorem zip_zipWith_filterMap {α : Type} (vm : VM) (sel : ParamType → jvalue → Option α)
    (selv : ParamType → Nat → Option α)
    (h : ∀ p v, sel p (p.narrow vm v) = selv p v) :
    ∀ (params : List ParamType) (vargs : List Nat),
      (params.zip (List.zipWith (ParamType.narrow vm) params vargs)).filterMap
          (fun pa => sel pa.1 pa.2) =
        (params.zip vargs).filterMap (fun pv => selv pv.1 pv.2) := by
  intro params
  induction params with
  | nil => intro vargs; simp
  | cons p ps ih =>
    intro vargs
    cases vargs with
    | nil => simp
    | cons v rest =>
      simp only [List.zipWith_cons_cons, List.zip_cons_cons, List.filterMap_cons, h, ih rest]

/-- The value of an in-range integer survives the narrowing and widening. -/
theorem variadicInt_in_range :
    (∀ x : Int, -128 ≤ x → x < 128 → ParamType.byte.variadicInt (jintBits x) = some x) ∧
      (∀ x : Int, 0 ≤ x → x < 256 → ParamType.boolean.variadicInt (jintBits x) = some x) ∧
      (∀ x : Int, -32768 ≤ x → x < 32768 →
        ParamType.short.variadicInt (jintBits x) = some x) ∧
      (∀ x : Int, 0 ≤ x → x < 65536 → ParamType.char.variadicInt (jintBits x) = some x) ∧
      (∀ x : Int, -2147483648 ≤ x → x < 2147483648 →
        ParamType.int.variadicInt (jintBits x) = some x) ∧
      (∀ x : Int, -9223372036854775808 ≤ x → x < 9223372036854775808 →
        ParamType.long.variadicLong (jlongBits x) = some x) := by
  refine ⟨?_, ?_, ?_, ?_, ?_, ?_⟩
  · intro x h1 h2
    simp only [ParamType.variadicInt, signed, jintBits, Option.some.injEq]
    norm_num
    split <;> omega
  · intro x h1 h2
    simp only [ParamType.variadicInt, jintBits, Option.some.injEq]
    norm_num
    omega
  · intro x h1 h2
    simp only [ParamType.variadicInt, signed, jintBits, Option.some.injEq]
    norm_num
    split <;> omega
  · intro x h1 h2
    simp only [ParamType.variadicInt, jintBits, Option.some.injEq]
    norm_num
    omega
  · intro x h1 h2
    simp only [ParamType.variadicInt, signed, jintBits, Option.some.injEq]
    norm_num
    split <;> omega
  · intro x h1 h2
    simp only [ParamType.variadicLong, signed, jlongBits, Option.some.injEq]
    norm_num
    split <;> omega

/-- C32: for a method with the well-formed descriptor `(params)ret`, at least
one parameter, enough variadic values and the two allocations succeeding:
`va_list2jargs` gives the positional list of the variadic values narrowed, each
to the type of its parameter; the call built from that list has, in its 32-bit
integer bin, for every boolean, byte, short, char and int parameter in order,
the variadic value `v` as `v mod 2^8` zero-extended (boolean) or sign-extended
(byte), `v mod 2^16` sign-extended (short) or zero-extended (char), or `v` as a
32-bit integer (int), and in its 64-bit bin every long value as it is; every
variadic operation is the positional operation on the narrowed list; and an
integer within the range of the parameter's type, passed as a variadic `jint`
(`jlong` for a long), reaches its bin unchanged. -/
theorem va_list2jargs_narrows_then_widens (vm : VM) (env : Env) (obj : Option Object)
    (method : Method) (params : List ParamType) (ret : List Char) (vargs : List Nat)
    (hdesc : method.desc.toList = methodDescriptor params ret)
    (hwf : params.all ParamType.wellFormed = true)
    (hlen : params.length ≤ vargs.length) (hne : params ≠ [])
    (hheap : 2 ≤ env.heapFree) :
    va_list2jargs vm env method vargs =
        some ({ env with heapFree := env.heapFree - 1 },
          some (List.zipWith (ParamType.narrow vm) params vargs)) ∧
      (∃ callInfo,
        initCallInfo_build { env with heapFree := env.heapFree - 1 } obj method
            (List.zipWith (ParamType.narrow vm) params vargs) =
          some ({ env with heapFree := env.heapFree - 1 - 1 }, some callInfo) ∧
        callInfo = marshalledCall obj method params
          (List.zipWith (ParamType.narrow vm) params vargs) ∧
        callInfo.intArgs = (params.zip vargs).filterMap (fun pv => pv.1.variadicInt pv.2) ∧
        callInfo.longArgs =
          (params.zip vargs).filterMap (fun pv => pv.1.variadicLong pv.2)) ∧
      (∀ kind fuel, rvmCallInstanceMethodV kind vm fuel env obj method vargs =
        rvmCallInstanceMethodA kind vm fuel { env with heapFree := env.heapFree - 1 } obj
          method (List.zipWith (ParamType.narrow vm) params vargs)) ∧
      (∀ kind fuel, rvmCallNonvirtualInstanceMethodV kind vm fuel env obj method vargs =
        rvmCallNonvirtualInstanceMethodA kind vm fuel
          { env with heapFree := env.heapFree - 1 } obj method
          (List.zipWith (ParamType.narrow vm) params vargs)) ∧
      (∀ kind fuel clazz, rvmCallClassMethodV kind vm fuel env clazz method vargs =
        rvmCallClassMethodA kind vm fuel { env with heapFree := env.heapFree - 1 } clazz
          method (List.zipWith (ParamType.narrow vm) params vargs)) ∧
      (∀ x : Int, -128 ≤ x → x < 128 → ParamType.byte.variadicInt (jintBits x) = some x) ∧
      (∀ x : Int, 0 ≤ x → x < 256 → ParamType.boolean.variadicInt (jintBits x) = some x) ∧
      (∀ x : Int, -32768 ≤ x → x < 32768 →
        ParamType.short.variadicInt (jintBits x) = some x) ∧
      (∀ x : Int, 0 ≤ x → x < 65536 → ParamType.char.variadicInt (jintBits x) = some x) ∧
      (∀ x : Int, -2147483648 ≤ x → x < 2147483648 →
        ParamType.int.variadicInt (jintBits x) = some x) ∧
      (∀ x : Int, -9223372036854775808 ≤ x → x < 9223372036854775808 →
        ParamType.long.variadicLong (jlongBits x) = some x) := by
  have hva := va_list2jargs_wellFormed vm env method params ret vargs hdesc hwf hlen hne
    (by omega)
  have hargs : params.length ≤ (List.zipWith (ParamType.narrow vm) params vargs).length := by
    simp only [List.length_zipWith]
    omega
  have hbuild := initCallInfo_build_wellFormed { env with heapFree := env.heapFree - 1 } obj
    method (List.zipWith (ParamType.narrow vm) params vargs) params ret hdesc hwf hargs
    (by show env.heapFree - 1 ≠ 0; omega)
  refine ⟨hva, ⟨_, hbuild, rfl, ?_, ?_⟩, ?_, ?_, ?_, variadicInt_in_range⟩
  · simp only [marshalledCall]
    exact zip_zipWith_filterMap vm ParamType.intArg ParamType.variadicInt
      (narrow_intArg vm) params vargs
  · simp only [marshalledCall]
    exact zip_zipWith_filterMap vm ParamType.longArg ParamType.variadicLong
      (narrow_longArg vm) params vargs
  · intro kind fuel
    simp only [rvmCallInstanceMethodV, hva]
  · intro kind fuel
    simp only [rvmCallNonvirtualInstanceMethodV, hva]
  · intro kind fuel clazz
    simp only [rvmCallClassMethodV, hva]

/-- C32 on `(ZBSCIJFD)V` with the variadic values `true`, `-128`, `-32768`,
`0xFFFF`, `-1` and `-2^63`: the integer bin of the call built holds `1`,
`-128`, `-32768`, `65535` and `-1`, the long bin `-2^63`. -/
theorem va_list2jargs_narrows_then_widens_witness :
    ∃ callInfo,
      initCallInfo_build { demoEnv with heapFree := demoEnv.heapFree - 1 } none
          demoStaticMethod (List.zipWith (ParamType.narrow demoVM) demoPrimitives
            demoVariadicArgs) =
        some ({ demoEnv with heapFree := demoEnv.heapFree - 1 - 1 }, some callInfo) ∧
      callInfo.intArgs = [1, -128, -32768, 65535, -1] ∧
      callInfo.longArgs = [-9223372036854775808] := by
  obtain ⟨_, ⟨callInfo, hbuild, _, hint, hlong⟩, _⟩ :=
    va_list2jargs_narrows_then_widens demoVM demoEnv none demoStaticMethod demoPrimitives
      ['V'] demoVariadicArgs rfl (by decide) (by decide) (by decide) (by decide)
  refine ⟨callInfo, hbuild, ?_, ?_⟩
  · rw [hint]
    decide
  · rw [hlong]
    decide

end RoboVM
